import Mathlib

/-!
# Refresh Vulkan driver: device-memory sub-allocator, barriers, buffers, caches

A shallow embedding of parts of `src/Refresh_Driver_Vulkan.c`.

Conventions of the embedding

* A C pointer to a heap object is a natural number, the index of the object in a
  heap list; `SDL_malloc` appends a slot, `SDL_free` empties it.  Dereferencing a
  pointer whose slot is empty or missing is undefined in C; the functions below
  return `none` there.
* A C array with an element count is the list of its live prefix
  (`arr[0 .. count)`); the count is the length of the list.  The capacities of
  the allocator and of the descriptor-set caches are kept as numbers because the
  code updates them; the arrays of the renderer are resized before each append,
  and their capacities are left out.
* `VkDeviceSize` is a 64-bit unsigned integer: sums, products and differences of
  device sizes are reduced modulo `2 ^ 64`.  The 32-bit element counts are plain
  naturals (a list of `2 ^ 32` pointers does not fit the address space).
* Calls into the Vulkan driver whose outcome the code branches on appear as
  explicit arguments (for instance the result of `vkAllocateMemory`).
-/

namespace Refresh

/-! ## Defines -/

def STARTING_ALLOCATION_SIZE : Nat := 64000000
def MAX_ALLOCATION_SIZE : Nat := 256000000
def SUB_BUFFER_COUNT : Nat := 2
def SAMPLER_POOL_STARTING_SIZE : Nat := 128
def DESCRIPTOR_SET_DEACTIVATE_FRAMES : Nat := 10
def NUM_DESCRIPTOR_SET_HASH_BUCKETS : Nat := 1031

/-- Number of values of a `VkDeviceSize` (`uint64_t`). -/
def DEVICE_SIZE_MOD : Nat := 18446744073709551616

/-! ## Heaps of malloc-ed objects -/

/-- Read the object a pointer refers to; `none` for a dangling pointer. -/
def heapGet {α : Type} (h : List (Option α)) (p : Nat) : Option α :=
  match h[p]? with
  | some (some x) => some x
  | _ => none

/-! ## Memory allocation structures -/

structure VulkanMemoryFreeRegion where
  allocation : Nat
  offset : Nat
  size : Nat
  allocationIndex : Nat
  sortedIndex : Nat
deriving DecidableEq, Repr

structure VulkanMemoryAllocation where
  size : Nat
  freeRegions : List Nat
  freeRegionCapacity : Nat
  dedicated : Bool
deriving DecidableEq, Repr

/-- One sub-allocator (one Vulkan memory type) together with the heap objects that
belong to it: the allocations whose `allocator` field points to it and their free
regions. -/
structure VulkanMemorySubAllocator where
  nextAllocationSize : Nat
  allocations : List Nat
  sortedFreeRegions : List Nat
  sortedFreeRegionCapacity : Nat
  allocationHeap : List (Option VulkanMemoryAllocation)
  regionHeap : List (Option VulkanMemoryFreeRegion)
deriving DecidableEq, Repr

/-- The sub-allocator as `VULKAN_CreateDevice` sets it up. -/
def initialSubAllocator : VulkanMemorySubAllocator :=
  { nextAllocationSize := STARTING_ALLOCATION_SIZE
    allocations := []
    sortedFreeRegions := []
    sortedFreeRegionCapacity := 4
    allocationHeap := []
    regionHeap := [] }

/-! ## Memory management -/

/-- `align * ((n + align - 1) / align)` in 64-bit arithmetic.  The C code divides
by `align`; a zero `align` is undefined there. -/
def VULKAN_INTERNAL_NextHighestAlignment (n align : Nat) : Nat :=
  (align * (((n + align + (DEVICE_SIZE_MOD - 1)) % DEVICE_SIZE_MOD) / align)) % DEVICE_SIZE_MOD

/-- `region->sortedIndex = i` for the region at `p`. -/
def setSortedIndex (h : List (Option VulkanMemoryFreeRegion)) (p i : Nat) :
    Option (List (Option VulkanMemoryFreeRegion)) :=
  match heapGet h p with
  | some r => some (h.set p (some { r with sortedIndex := i }))
  | none => none

/-- `region->allocationIndex = i` for the region at `p`. -/
def setAllocationIndex (h : List (Option VulkanMemoryFreeRegion)) (p i : Nat) :
    Option (List (Option VulkanMemoryFreeRegion)) :=
  match heapGet h p with
  | some r => some (h.set p (some { r with allocationIndex := i }))
  | none => none

/-- The search loop of `NewMemoryFreeRegion`: the number of leading entries of the
sorted list whose size is not below `size`. -/
def findInsertionIndex (h : List (Option VulkanMemoryFreeRegion)) (size : Nat) :
    List Nat → Option Nat
  | [] => some 0
  | p :: rest =>
    match heapGet h p with
    | none => none
    | some r =>
      if r.size < size then some 0
      else
        match findInsertionIndex h size rest with
        | some k => some (k + 1)
        | none => none

/-- The insertion-sort loop of `NewMemoryFreeRegion`, which runs from the end of the
list down to the insertion index: `ps` are the entries at the old slots
`j, j + 1, ...`; each moves one slot up and records its new slot. -/
def shiftUp (h : List (Option VulkanMemoryFreeRegion)) :
    List Nat → Nat → Option (List (Option VulkanMemoryFreeRegion))
  | [], _ => some h
  | p :: rest, j =>
    match shiftUp h rest (j + 1) with
    | some h1 => setSortedIndex h1 p (j + 1)
    | none => none

/-- The gap-closing loop of `RemoveMemoryFreeRegion`, which runs upwards: `ps` are
the entries at the old slots `j + 1, j + 2, ...`; each moves one slot down and
records its new slot. -/
def shiftDown (h : List (Option VulkanMemoryFreeRegion)) :
    List Nat → Nat → Option (List (Option VulkanMemoryFreeRegion))
  | [], _ => some h
  | p :: rest, j =>
    match setSortedIndex h p j with
    | some h1 => shiftDown h1 rest (j + 1)
    | none => none

def VULKAN_INTERNAL_NewMemoryFreeRegion (s : VulkanMemorySubAllocator)
    (allocation offset size : Nat) : Option (VulkanMemorySubAllocator × Nat) :=
  match heapGet s.allocationHeap allocation with
  | none => none
  | some a =>
    let freeRegionCount := a.freeRegions.length + 1
    let freeRegionCapacity :=
      if freeRegionCount > a.freeRegionCapacity then a.freeRegionCapacity * 2
      else a.freeRegionCapacity
    let newFreeRegion := s.regionHeap.length
    let h0 := s.regionHeap ++
      [some { allocation := allocation, offset := offset, size := size,
              allocationIndex := freeRegionCount - 1, sortedIndex := 0 }]
    let a1 : VulkanMemoryAllocation :=
      { a with freeRegions := a.freeRegions ++ [newFreeRegion],
               freeRegionCapacity := freeRegionCapacity }
    match findInsertionIndex h0 size s.sortedFreeRegions with
    | none => none
    | some insertionIndex =>
      let sortedFreeRegionCapacity :=
        if s.sortedFreeRegions.length + 1 > s.sortedFreeRegionCapacity
        then s.sortedFreeRegionCapacity * 2 else s.sortedFreeRegionCapacity
      let shifted :=
        if s.sortedFreeRegions.length > 0 ∧ insertionIndex ≠ s.sortedFreeRegions.length
        then shiftUp h0 (s.sortedFreeRegions.drop insertionIndex) insertionIndex
        else some h0
      match shifted with
      | none => none
      | some h1 =>
        match setSortedIndex h1 newFreeRegion insertionIndex with
        | none => none
        | some h2 =>
          some ({ s with
                    allocationHeap := s.allocationHeap.set allocation (some a1)
                    regionHeap := h2
                    sortedFreeRegions :=
                      s.sortedFreeRegions.take insertionIndex ++
                        newFreeRegion :: s.sortedFreeRegions.drop insertionIndex
                    sortedFreeRegionCapacity := sortedFreeRegionCapacity },
                newFreeRegion)

/-- The second half of `RemoveMemoryFreeRegion`, "close the gap in the buffer list":
unless the region is the last entry of its allocation's list, the last entry moves
into its slot and records that slot.  The entry count is decremented by the caller. -/
def closeAllocationGap (h : List (Option VulkanMemoryFreeRegion)) (freeRegions : List Nat)
    (allocationIndex : Nat) : Option (List Nat × List (Option VulkanMemoryFreeRegion)) :=
  let n := freeRegions.length
  if n > 1 ∧ allocationIndex ≠ n - 1 then
    match freeRegions[n - 1]? with
    | none => none
    | some last =>
      if allocationIndex < n then
        match setAllocationIndex h last allocationIndex with
        | some h2 => some (freeRegions.set allocationIndex last, h2)
        | none => none
      else none
  else some (freeRegions, h)

def VULKAN_INTERNAL_RemoveMemoryFreeRegion (s : VulkanMemorySubAllocator)
    (freeRegion : Nat) : Option VulkanMemorySubAllocator :=
  match heapGet s.regionHeap freeRegion with
  | none => none
  | some r =>
    let count := s.sortedFreeRegions.length
    if count = 0 then none
    else
      /- close the gap in the sorted list -/
      let shifted :=
        if count > 1
        then shiftDown s.regionHeap (s.sortedFreeRegions.drop (r.sortedIndex + 1)) r.sortedIndex
        else some s.regionHeap
      let sorted1 :=
        if r.sortedIndex < count then s.sortedFreeRegions.eraseIdx r.sortedIndex
        else s.sortedFreeRegions.dropLast
      match shifted with
      | none => none
      | some h1 =>
        match heapGet h1 freeRegion, heapGet s.allocationHeap r.allocation with
        | some r1, some a =>
          if a.freeRegions.length = 0 then none
          else
            /- close the gap in the buffer list -/
            match closeAllocationGap h1 a.freeRegions r1.allocationIndex with
            | none => none
            | some (regions1, h2) =>
              some { s with
                       allocationHeap :=
                         s.allocationHeap.set r.allocation
                           (some { a with freeRegions := regions1.dropLast })
                       regionHeap := h2.set freeRegion none
                       sortedFreeRegions := sorted1 }
        | _, _ => none

/-- `VULKAN_INTERNAL_AllocateMemory` on the sub-allocator of `memoryTypeIndex`.
`vkAllocateMemoryOk` is whether `vkAllocateMemory` returned `VK_SUCCESS`.  The
result is the state, the return code and the address of the new allocation object
(stored to `*pMemoryAllocation` only when the code is 1). -/
def VULKAN_INTERNAL_AllocateMemory (s : VulkanMemorySubAllocator)
    (allocationSize : Nat) (dedicated : Bool) (vkAllocateMemoryOk : Bool) :
    Option (VulkanMemorySubAllocator × Nat × Nat) :=
  let allocation := s.allocationHeap.length
  let a : VulkanMemoryAllocation :=
    { size := allocationSize, freeRegions := [], freeRegionCapacity := 1,
      dedicated := dedicated }
  let s1 : VulkanMemorySubAllocator :=
    { s with
        allocations := if dedicated then s.allocations else s.allocations ++ [allocation]
        allocationHeap := s.allocationHeap ++ [some a] }
  if vkAllocateMemoryOk then
    match VULKAN_INTERNAL_NewMemoryFreeRegion s1 allocation 0 allocationSize with
    | some (s2, _) => some (s2, 1, allocation)
    | none => none
  else some (s1, 0, allocation)

/-- What `vkGet{Buffer,Image}MemoryRequirements2KHR` reports for the resource. -/
structure MemoryRequirements where
  size : Nat
  alignment : Nat
  prefersDedicatedAllocation : Bool
  requiresDedicatedAllocation : Bool
deriving DecidableEq, Repr

/-- A span of device memory handed to a resource: the three output parameters
`*pMemoryAllocation`, `*pOffset`, `*pSize` of `FindAvailableMemory`. -/
structure MemorySpan where
  allocation : Nat
  offset : Nat
  size : Nat
deriving DecidableEq, Repr

/-- The second half of `VULKAN_INTERNAL_FindAvailableMemory`, reached when the
largest free region is absent or too small ("No suitable free regions exist,
allocate a new memory region"): choose the size of a new block, allocate it and
carve the request from its start. -/
def findAvailableMemoryNewBlock (s : VulkanMemorySubAllocator) (req : MemoryRequirements)
    (vkAllocateMemoryOk : Bool) :
    Option (VulkanMemorySubAllocator × Nat × Option MemorySpan) :=
  let requiredSize := req.size
  let dedicated := req.prefersDedicatedAllocation || req.requiresDedicatedAllocation
  let sizing : VulkanMemorySubAllocator × Nat :=
    if dedicated then (s, requiredSize)
    else if requiredSize > s.nextAllocationSize then
      /- allocate a page of required size aligned to STARTING_ALLOCATION_SIZE increments -/
      (s, VULKAN_INTERNAL_NextHighestAlignment requiredSize STARTING_ALLOCATION_SIZE)
    else
      ({ s with nextAllocationSize :=
                  min ((s.nextAllocationSize * 2) % DEVICE_SIZE_MOD) MAX_ALLOCATION_SIZE },
       s.nextAllocationSize)
  match VULKAN_INTERNAL_AllocateMemory sizing.1 sizing.2 dedicated vkAllocateMemoryOk with
  | none => none
  | some (s1, allocationResult, allocation) =>
    /- Uh oh, we're out of memory -/
    if allocationResult = 0 then some (s1, 2, none)
    else
      match heapGet s1.allocationHeap allocation with
      | none => none
      | some a =>
        match a.freeRegions[0]? with
        | none => none
        | some region =>
          match heapGet s1.regionHeap region with
          | none => none
          | some r =>
            let newRegionOffset := (r.offset + requiredSize) % DEVICE_SIZE_MOD
            let newRegionSize := (r.size + DEVICE_SIZE_MOD - requiredSize) % DEVICE_SIZE_MOD
            match VULKAN_INTERNAL_RemoveMemoryFreeRegion s1 region with
            | none => none
            | some s2 =>
              let inserted :=
                if newRegionSize ≠ 0 then
                  (VULKAN_INTERNAL_NewMemoryFreeRegion s2 allocation
                    newRegionOffset newRegionSize).map Prod.fst
                else some s2
              match inserted with
              | none => none
              | some s3 =>
                some (s3, 1, some { allocation := allocation, offset := 0,
                                    size := requiredSize })

/-- `VULKAN_INTERNAL_FindAvailableMemory` on the sub-allocator selected by the
memory type of the resource.  `buffer` and `image` are the two handles (0 is
`VK_NULL_HANDLE`); `requirements` is `none` when
`Find{Buffer,Image}MemoryRequirements` fails.  The result is the new state, the
return code (0 failure, 1 success, 2 out of memory) and the outputs, written only
on success. -/
def VULKAN_INTERNAL_FindAvailableMemory (s : VulkanMemorySubAllocator)
    (buffer image : Nat) (requirements : Option MemoryRequirements)
    (vkAllocateMemoryOk : Bool) :
    Option (VulkanMemorySubAllocator × Nat × Option MemorySpan) :=
  if buffer ≠ 0 ∧ image ≠ 0 then some (s, 0, none)
  else if buffer = 0 ∧ image = 0 then some (s, 0, none)
  else
    match requirements with
    | none => some (s, 0, none)
    | some req =>
      let requiredSize := req.size
      /- find the largest free region and use it -/
      match s.sortedFreeRegions with
      | [] => findAvailableMemoryNewBlock s req vkAllocateMemoryOk
      | region :: _ =>
        match heapGet s.regionHeap region with
        | none => none
        | some r =>
          let allocation := r.allocation
          let alignedOffset := VULKAN_INTERNAL_NextHighestAlignment r.offset req.alignment
          if (alignedOffset + requiredSize) % DEVICE_SIZE_MOD ≤
              (r.offset + r.size) % DEVICE_SIZE_MOD then
            /- not aligned - create a new free region -/
            let gap :=
              if r.offset ≠ alignedOffset then
                (VULKAN_INTERNAL_NewMemoryFreeRegion s allocation r.offset
                  ((alignedOffset + DEVICE_SIZE_MOD - r.offset) % DEVICE_SIZE_MOD)).map Prod.fst
              else some s
            match gap with
            | none => none
            | some s1 =>
              let newRegionSize :=
                (r.size + DEVICE_SIZE_MOD -
                  (((alignedOffset + DEVICE_SIZE_MOD - r.offset) % DEVICE_SIZE_MOD
                      + requiredSize) % DEVICE_SIZE_MOD)) % DEVICE_SIZE_MOD
              let newRegionOffset := (alignedOffset + requiredSize) % DEVICE_SIZE_MOD
              /- remove and add modified region to re-sort -/
              match VULKAN_INTERNAL_RemoveMemoryFreeRegion s1 region with
              | none => none
              | some s2 =>
                /- if size is 0, no need to re-insert -/
                let inserted :=
                  if newRegionSize ≠ 0 then
                    (VULKAN_INTERNAL_NewMemoryFreeRegion s2 allocation
                      newRegionOffset newRegionSize).map Prod.fst
                  else some s2
                match inserted with
                | none => none
                | some s3 =>
                  some (s3, 1, some { allocation := allocation, offset := alignedOffset,
                                      size := requiredSize })
          else findAvailableMemoryNewBlock s req vkAllocateMemoryOk

/-! ## Returning the memory of a destroyed resource -/

/-- The memory branch that `VULKAN_INTERNAL_DestroyTexture` and the loop body of
`VULKAN_INTERNAL_DestroyBuffer` share, for a resource that holds `span`: a
dedicated allocation is freed (`vkFreeMemory`, `SDL_free (allocation)`), any other
gets the span back as a new free region. -/
def destroyResourceMemory (s : VulkanMemorySubAllocator) (span : MemorySpan) :
    Option VulkanMemorySubAllocator :=
  match heapGet s.allocationHeap span.allocation with
  | none => none
  | some a =>
    if a.dedicated then
      some { s with allocationHeap := s.allocationHeap.set span.allocation none }
    else
      (VULKAN_INTERNAL_NewMemoryFreeRegion s span.allocation span.offset span.size).map
        Prod.fst

/-! ## The invariant of the two free-region indexes -/

/-- Consistency of the per-allocation free-region lists and of the sorted list of a
sub-allocator: every slot of either list holds a live region whose stored index
is that slot, every live region sits in the slot its stored indexes name, and the
sizes along the sorted list do not increase. -/
structure IndexInv (s : VulkanMemorySubAllocator) : Prop where
  sorted_slot : ∀ i p, s.sortedFreeRegions[i]? = some p →
    ∃ r, heapGet s.regionHeap p = some r ∧ r.sortedIndex = i
  region_sorted : ∀ p r, heapGet s.regionHeap p = some r →
    s.sortedFreeRegions[r.sortedIndex]? = some p
  alloc_slot : ∀ a A j p, heapGet s.allocationHeap a = some A → A.freeRegions[j]? = some p →
    ∃ r, heapGet s.regionHeap p = some r ∧ r.allocation = a ∧ r.allocationIndex = j
  region_alloc : ∀ p r, heapGet s.regionHeap p = some r →
    ∃ A, heapGet s.allocationHeap r.allocation = some A ∧
      A.freeRegions[r.allocationIndex]? = some p
  sorted_desc : ∀ (i j p q : Nat) (rp rq : VulkanMemoryFreeRegion), i < j →
    s.sortedFreeRegions[i]? = some p → s.sortedFreeRegions[j]? = some q →
    heapGet s.regionHeap p = some rp → heapGet s.regionHeap q = some rq →
    rq.size ≤ rp.size

/-- What `NewMemoryFreeRegion (allocation, offset, size)` does to a consistent
state, besides keeping it consistent. -/
structure NewRegionEffect (s s1 : VulkanMemorySubAllocator) (a off sz : Nat) : Prop where
  heap_len : s1.regionHeap.length = s.regionHeap.length + 1
  new_region : ∃ r, heapGet s1.regionHeap s.regionHeap.length = some r ∧
    r.allocation = a ∧ r.offset = off ∧ r.size = sz
  old_live : ∀ q r, q ≠ s.regionHeap.length → heapGet s.regionHeap q = some r →
    ∃ r1, heapGet s1.regionHeap q = some r1 ∧ r1.allocation = r.allocation ∧
      r1.offset = r.offset ∧ r1.size = r.size
  old_dead : ∀ q, q ≠ s.regionHeap.length → heapGet s.regionHeap q = none →
    heapGet s1.regionHeap q = none
  sorted_eq : ∃ idx, idx ≤ s.sortedFreeRegions.length ∧
    s1.sortedFreeRegions =
      s.sortedFreeRegions.take idx ++ s.regionHeap.length :: s.sortedFreeRegions.drop idx ∧
    (∀ k p r, k < idx → s.sortedFreeRegions[k]? = some p →
      heapGet s.regionHeap p = some r → sz ≤ r.size) ∧
    (∀ p r, s.sortedFreeRegions[idx]? = some p → heapGet s.regionHeap p = some r → r.size < sz)
  alloc_len : s1.allocationHeap.length = s.allocationHeap.length
  alloc_self : ∃ A A1, heapGet s.allocationHeap a = some A ∧
    heapGet s1.allocationHeap a = some A1 ∧ A1.size = A.size ∧ A1.dedicated = A.dedicated ∧
    A1.freeRegions = A.freeRegions ++ [s.regionHeap.length]
  alloc_other : ∀ b, b ≠ a → heapGet s1.allocationHeap b = heapGet s.allocationHeap b
  allocations_eq : s1.allocations = s.allocations
  next_eq : s1.nextAllocationSize = s.nextAllocationSize

/-- What `RemoveMemoryFreeRegion (freeRegion)` does to a consistent state, besides
keeping it consistent. -/
structure RemoveRegionEffect (s s1 : VulkanMemorySubAllocator) (p : Nat)
    (r : VulkanMemoryFreeRegion) : Prop where
  heap_len : s1.regionHeap.length = s.regionHeap.length
  removed : heapGet s1.regionHeap p = none
  old_live : ∀ q rq, q ≠ p → heapGet s.regionHeap q = some rq →
    ∃ r1, heapGet s1.regionHeap q = some r1 ∧ r1.allocation = rq.allocation ∧
      r1.offset = rq.offset ∧ r1.size = rq.size
  old_dead : ∀ q, heapGet s.regionHeap q = none → heapGet s1.regionHeap q = none
  sorted_eq : s1.sortedFreeRegions = s.sortedFreeRegions.eraseIdx r.sortedIndex
  alloc_len : s1.allocationHeap.length = s.allocationHeap.length
  alloc_self : ∃ A A1, heapGet s.allocationHeap r.allocation = some A ∧
    heapGet s1.allocationHeap r.allocation = some A1 ∧ A1.size = A.size ∧
    A1.dedicated = A.dedicated ∧ ∀ x, x ∈ A1.freeRegions ↔ (x ∈ A.freeRegions ∧ x ≠ p)
  alloc_other : ∀ b, b ≠ r.allocation → heapGet s1.allocationHeap b = heapGet s.allocationHeap b
  allocations_eq : s1.allocations = s.allocations
  next_eq : s1.nextAllocationSize = s.nextAllocationSize

/-! ## Sequences of calls on the free-region lists -/

/-- The free-region invariant in the words of the data model: every live free region
occupies exactly one slot of the sorted list and exactly one slot of the list of
its allocation, namely the slots its two stored indexes name; the slots of both
lists hold live regions (of that allocation); sizes along the sorted list do not
increase. -/
structure FreeRegionInvariant (s : VulkanMemorySubAllocator) : Prop where
  sorted_once : ∀ p r, heapGet s.regionHeap p = some r →
    ∀ i : Nat, s.sortedFreeRegions[i]? = some p ↔ i = r.sortedIndex
  alloc_once : ∀ p r, heapGet s.regionHeap p = some r →
    ∃ A, heapGet s.allocationHeap r.allocation = some A ∧
      ∀ j : Nat, A.freeRegions[j]? = some p ↔ j = r.allocationIndex
  sorted_live : ∀ (i p : Nat), s.sortedFreeRegions[i]? = some p →
    ∃ r, heapGet s.regionHeap p = some r
  alloc_live : ∀ (a : Nat) (A : VulkanMemoryAllocation) (j p : Nat), heapGet s.allocationHeap a = some A → A.freeRegions[j]? = some p →
    ∃ r, heapGet s.regionHeap p = some r ∧ r.allocation = a
  sorted_desc : ∀ (i j p q : Nat) (rp rq : VulkanMemoryFreeRegion), i < j →
    s.sortedFreeRegions[i]? = some p → s.sortedFreeRegions[j]? = some q →
    heapGet s.regionHeap p = some rp → heapGet s.regionHeap q = some rq →
    rq.size ≤ rp.size

/-- A call of one of the two list-maintenance functions. -/
inductive FreeListCall where
  | newRegion (allocation offset size : Nat)
  | removeRegion (freeRegion : Nat)
deriving DecidableEq, Repr

def applyFreeListCall (s : VulkanMemorySubAllocator) :
    FreeListCall → Option VulkanMemorySubAllocator
  | .newRegion a off sz =>
    match VULKAN_INTERNAL_NewMemoryFreeRegion s a off sz with
    | some (s1, _) => some s1
    | none => none
  | .removeRegion p => VULKAN_INTERNAL_RemoveMemoryFreeRegion s p

def applyFreeListCalls :
    VulkanMemorySubAllocator → List FreeListCall → Option VulkanMemorySubAllocator
  | s, [] => some s
  | s, c :: cs =>
    match applyFreeListCall s c with
    | some s1 => applyFreeListCalls s1 cs
    | none => none

/-- The pointer a call is given refers to a live object. -/
def callValid (s : VulkanMemorySubAllocator) : FreeListCall → Bool
  | .newRegion a _ _ => (heapGet s.allocationHeap a).isSome
  | .removeRegion p => (heapGet s.regionHeap p).isSome

/-- Every call of the sequence is given a pointer that is live when the call is made. -/
def callsValid : VulkanMemorySubAllocator → List FreeListCall → Bool
  | _, [] => true
  | s, c :: cs =>
    callValid s c &&
      match applyFreeListCall s c with
      | some s1 => callsValid s1 cs
      | none => true

/-! ## The free spans of a sub-allocator -/

/-- The span `(allocation, offset, size)` a free region covers. -/
def regionSpan (r : VulkanMemoryFreeRegion) : MemorySpan :=
  { allocation := r.allocation, offset := r.offset, size := r.size }

/-- The spans of the regions a list of region pointers refers to. -/
def spansOf (h : List (Option VulkanMemoryFreeRegion)) (l : List Nat) : List MemorySpan :=
  l.filterMap (fun p => (heapGet h p).map regionSpan)

/-- The free spans of the sub-allocator, in the order of the sorted list. -/
def freeSpans (s : VulkanMemorySubAllocator) : List MemorySpan :=
  spansOf s.regionHeap s.sortedFreeRegions

/-- The free spans of one allocation, in the order of its own list. -/
def allocationFreeSpans (s : VulkanMemorySubAllocator) (a : Nat) : List MemorySpan :=
  match heapGet s.allocationHeap a with
  | some A => spansOf s.regionHeap A.freeRegions
  | none => []

/-- The non-empty ones of the two remainders `[offset, aligned)` and
`[aligned + required, offset + size)` of a region from which the span
`[aligned, aligned + required)` is carved. -/
def carveRemainders (r : VulkanMemoryFreeRegion) (aligned required : Nat) : List MemorySpan :=
  (if r.offset ≠ aligned
   then [{ allocation := r.allocation, offset := r.offset, size := aligned - r.offset }]
   else []) ++
  (if aligned + required ≠ r.offset + r.size
   then [{ allocation := r.allocation, offset := aligned + required,
           size := r.offset + r.size - (aligned + required) }]
   else [])

/-- The allocation objects are the same in both states, up to their free-region
lists: same addresses, sizes and dedicated flags, same allocation list, same
next allocation size. -/
structure AllocationsUnchanged (s s1 : VulkanMemorySubAllocator) : Prop where
  heap_len : s1.allocationHeap.length = s.allocationHeap.length
  same : ∀ b, (heapGet s1.allocationHeap b).map (fun A => (A.size, A.dedicated)) =
    (heapGet s.allocationHeap b).map (fun A => (A.size, A.dedicated))
  allocations_eq : s1.allocations = s.allocations
  next_eq : s1.nextAllocationSize = s.nextAllocationSize

/-- The dedicated flag of the memory block `a`. -/
def blockDedicated (s : VulkanMemorySubAllocator) (a : Nat) : Bool :=
  match heapGet s.allocationHeap a with
  | some A => A.dedicated
  | none => false

/-- From `s` to `s1` one free region was added for each span of `added`, covering
exactly that span, and nothing else happened to the free regions: every region
of `s` is still there with the span it had, no region was removed or merged, and
the free spans of the sorted list are the old ones and the added ones. -/
structure RegionsAdded (s s1 : VulkanMemorySubAllocator) (added : List MemorySpan) : Prop where
  heap_len : s1.regionHeap.length = s.regionHeap.length + added.length
  old : ∀ q, q < s.regionHeap.length →
    (heapGet s1.regionHeap q).map regionSpan = (heapGet s.regionHeap q).map regionSpan
  new : ∀ k, k < added.length →
    (heapGet s1.regionHeap (s.regionHeap.length + k)).map regionSpan = added[k]?
  free : (freeSpans s1).Perm (freeSpans s ++ added)

/-! ## Sequences of allocations and frees on one memory type -/

/-- Largest size and alignment of a request considered: `2 ^ 62` bytes.  Below it no
sum of the allocator wraps around `2 ^ 64`. -/
def REQUEST_LIMIT : Nat := 4611686018427387904

/-- Bound on the size of a memory block that follows from `REQUEST_LIMIT`. -/
def BLOCK_LIMIT : Nat := REQUEST_LIMIT + STARTING_ALLOCATION_SIZE

/-- A call of the allocator on behalf of a resource: `FindAvailableMemory` when the
resource is created, the memory branch of `DestroyBuffer` / `DestroyTexture` when
the `i`-th resource still alive is destroyed. -/
inductive AllocatorCall where
  | allocate (buffer image : Nat) (requirements : Option MemoryRequirements)
      (vkAllocateMemoryOk : Bool)
  | free (i : Nat)
deriving DecidableEq, Repr

/-- One call: the sub-allocator and the spans held by live resources, before and
after.  A `free` of a resource that does not exist makes no call. -/
def applyAllocatorCall (st : VulkanMemorySubAllocator × List MemorySpan) :
    AllocatorCall → Option (VulkanMemorySubAllocator × List MemorySpan)
  | .allocate buffer image requirements ok =>
    match VULKAN_INTERNAL_FindAvailableMemory st.1 buffer image requirements ok with
    | none => none
    | some (s1, _, some span) => some (s1, st.2 ++ [span])
    | some (s1, _, none) => some (s1, st.2)
  | .free i =>
    match st.2[i]? with
    | none => some st
    | some span =>
      match destroyResourceMemory st.1 span with
      | some s1 => some (s1, st.2.eraseIdx i)
      | none => none

def runAllocatorCalls :
    VulkanMemorySubAllocator × List MemorySpan → List AllocatorCall →
      Option (VulkanMemorySubAllocator × List MemorySpan)
  | st, [] => some st
  | st, c :: cs =>
    match applyAllocatorCall st c with
    | some st1 => runAllocatorCalls st1 cs
    | none => none

/-- The driver reports a non-zero alignment, and sizes and alignments below
`REQUEST_LIMIT`. -/
def requestInRange (req : MemoryRequirements) : Bool :=
  decide (0 < req.alignment) && decide (req.alignment ≤ REQUEST_LIMIT) &&
    decide (req.size ≤ REQUEST_LIMIT)

def callInRange : AllocatorCall → Bool
  | .allocate _ _ (some req) _ => requestInRange req
  | _ => true

/-- Two spans do not overlap: they lie in different blocks or one ends before the
other starts. -/
def spanSeparate (x y : MemorySpan) : Prop :=
  x.allocation = y.allocation →
    x.offset + x.size ≤ y.offset ∨ y.offset + y.size ≤ x.offset

/-- Every live span lies within its block, and no two of them overlap. -/
def SpansSafe (s : VulkanMemorySubAllocator) (live : List MemorySpan) : Prop :=
  (∀ x, x ∈ live →
    ∃ A, heapGet s.allocationHeap x.allocation = some A ∧ x.offset + x.size ≤ A.size) ∧
  live.Pairwise spanSeparate

/-- The invariant behind `SpansSafe`: the indexes are consistent; live spans and free
spans together lie within their blocks and are pairwise separate; blocks and the
next allocation size are bounded; free regions lie in shared blocks only, and so
do two live spans of one block. -/
structure AllocatorInv (s : VulkanMemorySubAllocator) (live : List MemorySpan) : Prop where
  index : IndexInv s
  bounds : ∀ x, x ∈ live ++ freeSpans s →
    ∃ A, heapGet s.allocationHeap x.allocation = some A ∧ x.offset + x.size ≤ A.size
  separate : (live ++ freeSpans s).Pairwise spanSeparate
  block_size : ∀ b A, heapGet s.allocationHeap b = some A → A.size ≤ BLOCK_LIMIT
  next_le : s.nextAllocationSize ≤ MAX_ALLOCATION_SIZE
  free_shared : ∀ x, x ∈ freeSpans s →
    ∀ A, heapGet s.allocationHeap x.allocation = some A → A.dedicated = false
  live_shared : live.Pairwise (fun x y => x.allocation = y.allocation →
    ∀ A, heapGet s.allocationHeap x.allocation = some A → A.dedicated = false)

/-- The blocks of `s` are still there in `s1`, with the same size and dedicated flag
(and freed slots stay freed). -/
def BlocksKept (s s1 : VulkanMemorySubAllocator) : Prop :=
  ∀ b, b < s.allocationHeap.length →
    (heapGet s1.allocationHeap b).map (fun A => (A.size, A.dedicated)) =
      (heapGet s.allocationHeap b).map (fun A => (A.size, A.dedicated))

/-! ## Sampler descriptor-set cache -/

/-- Number of values of a `uint8_t`. -/
def UINT8_MOD : Nat := 256

/-- Number of values of a `uint32_t`. -/
def UINT32_MOD : Nat := 4294967296

structure VkDescriptorImageInfo where
  sampler : Nat
  imageView : Nat
  imageLayout : Nat
deriving DecidableEq, Repr

/-- The array `descriptorImageInfo`; the list holds the entries that were written. -/
structure SamplerDescriptorSetData where
  descriptorImageInfo : List VkDescriptorImageInfo
deriving DecidableEq, Repr

structure SamplerDescriptorSetHashMap where
  key : Nat
  descriptorSetData : SamplerDescriptorSetData
  descriptorSet : Nat
  inactiveFrameCount : Nat
deriving DecidableEq, Repr

/-- A bucket: indices into the element array of the cache. -/
structure SamplerDescriptorSetHashArray where
  elements : List Nat
  capacity : Nat
deriving DecidableEq, Repr

structure SamplerDescriptorSetCache where
  descriptorSetLayout : Nat
  samplerBindingCount : Nat
  buckets : List SamplerDescriptorSetHashArray
  elements : List SamplerDescriptorSetHashMap
  capacity : Nat
  samplerDescriptorPools : List Nat
  nextPoolSize : Nat
  inactiveDescriptorSets : List Nat
  inactiveDescriptorSetCapacity : Nat
deriving DecidableEq, Repr

/-- One entry of the array handed to `vkUpdateDescriptorSets`. -/
structure VkWriteDescriptorSet where
  dstSet : Nat
  dstBinding : Nat
  imageInfo : VkDescriptorImageInfo
deriving DecidableEq, Repr

/-- Loop of `SamplerDescriptorSetHashTable_GetHashCode` from index `i`, `n` rounds
left. -/
def hashCodeFrom (descriptorSetData : SamplerDescriptorSetData) :
    Nat → Nat → Nat → Option Nat
  | 0, _, result => some result
  | n + 1, i, result =>
    match descriptorSetData.descriptorImageInfo[i]? with
    | none => none
    | some info =>
      hashCodeFrom descriptorSetData n (i + 1)
        ((((result * 97 + info.imageView) % DEVICE_SIZE_MOD) * 97 + info.sampler)
          % DEVICE_SIZE_MOD)

def SamplerDescriptorSetHashTable_GetHashCode (descriptorSetData : SamplerDescriptorSetData)
    (samplerCount : Nat) : Option Nat :=
  hashCodeFrom descriptorSetData samplerCount 0 1

/-- Loop of `SamplerDescriptorSetDataEqual` from index `i`, `n` rounds left. -/
def dataEqualFrom (a b : SamplerDescriptorSetData) : Nat → Nat → Option Bool
  | 0, _ => some true
  | n + 1, i =>
    match a.descriptorImageInfo[i]?, b.descriptorImageInfo[i]? with
    | some x, some y =>
      if x.imageLayout ≠ y.imageLayout ∨ x.imageView ≠ y.imageView ∨ x.sampler ≠ y.sampler then
        some false
      else dataEqualFrom a b n (i + 1)
    | _, _ => none

/-- The parameter `samplerCount` is a `uint8_t`. -/
def SamplerDescriptorSetDataEqual (a b : SamplerDescriptorSetData) (samplerCount : Nat) :
    Option Bool :=
  dataEqualFrom a b (samplerCount % UINT8_MOD) 0

/-- The search loop of `FetchSamplerDescriptorSet` over the indices of a bucket: the
first element whose data equals the requested data, if any. -/
def findDescriptorSet (cache : SamplerDescriptorSetCache)
    (samplerDescriptorSetData : SamplerDescriptorSetData) : List Nat → Option (Option Nat)
  | [] => some none
  | j :: rest =>
    match cache.elements[j]? with
    | none => none
    | some e =>
      match SamplerDescriptorSetDataEqual samplerDescriptorSetData e.descriptorSetData
          cache.samplerBindingCount with
      | none => none
      | some true => some (some j)
      | some false => findDescriptorSet cache samplerDescriptorSetData rest

/-- `EXPAND_ELEMENTS_IF_NEEDED(arr, initialValue, type)` followed by the append
`arr->elements[arr->count] = value; arr->count += 1`. -/
def hashArrayAppend (arr : SamplerDescriptorSetHashArray) (initialValue value : Nat) :
    SamplerDescriptorSetHashArray :=
  { elements := arr.elements ++ [value],
    capacity :=
      if arr.elements.length = arr.capacity then
        (if arr.capacity = 0 then initialValue else arr.capacity * 2)
      else arr.capacity }

/-- The block of `FetchSamplerDescriptorSet` that runs when no inactive descriptor
set remains: a new pool is created and `nextPoolSize` sets are allocated from it.
`newPool` is the handle written by `vkCreateDescriptorPool`, `newSets` the sets
written by `vkAllocateDescriptorSets` (`none` when it fails: the array is then
left unwritten and the read that follows is undefined). -/
def growInactiveDescriptorSets (cache : SamplerDescriptorSetCache) (newPool : Nat)
    (newSets : Option (List Nat)) : Option SamplerDescriptorSetCache :=
  match newSets with
  | none => none
  | some sets =>
    if sets.length = cache.nextPoolSize then
      some { cache with
        samplerDescriptorPools := cache.samplerDescriptorPools ++ [newPool]
        inactiveDescriptorSetCapacity :=
          (cache.inactiveDescriptorSetCapacity + cache.nextPoolSize) % UINT32_MOD
        inactiveDescriptorSets := sets
        nextPoolSize := (cache.nextPoolSize * 2) % UINT32_MOD }
    else none

/-- The descriptor writes of a miss: one per sampler binding. -/
def samplerDescriptorWrites (samplerDescriptorSetData : SamplerDescriptorSetData)
    (samplerBindingCount newDescriptorSet : Nat) : List VkWriteDescriptorSet :=
  (List.range samplerBindingCount).filterMap (fun i =>
    (samplerDescriptorSetData.descriptorImageInfo[i]?).map (fun info =>
      { dstSet := newDescriptorSet, dstBinding := i, imageInfo := info }))

/-- The miss path of `FetchSamplerDescriptorSet`, from "If no match exists" on. -/
def fetchSamplerDescriptorSetMiss (cache : SamplerDescriptorSetCache)
    (samplerDescriptorSetData : SamplerDescriptorSetData) (hashcode : Nat)
    (newPool : Nat) (newSets : Option (List Nat)) :
    Option (SamplerDescriptorSetCache × Nat × List VkWriteDescriptorSet) :=
  match (if cache.inactiveDescriptorSets.length = 0 then
      growInactiveDescriptorSets cache newPool newSets else some cache) with
  | none => none
  | some c1 =>
    match c1.inactiveDescriptorSets.getLast?,
        c1.buckets[hashcode % NUM_DESCRIPTOR_SET_HASH_BUCKETS]? with
    | some newDescriptorSet, some arr =>
      some
        ({ c1 with
            inactiveDescriptorSets := c1.inactiveDescriptorSets.dropLast
            buckets := c1.buckets.set (hashcode % NUM_DESCRIPTOR_SET_HASH_BUCKETS)
              (hashArrayAppend arr 2 c1.elements.length)
            capacity := if c1.elements.length = c1.capacity then c1.capacity * 2
              else c1.capacity
            elements := c1.elements ++
              [{ key := hashcode,
                 descriptorSetData :=
                  { descriptorImageInfo :=
                      samplerDescriptorSetData.descriptorImageInfo.take c1.samplerBindingCount },
                 descriptorSet := newDescriptorSet,
                 inactiveFrameCount := 0 }] },
          newDescriptorSet,
          samplerDescriptorWrites samplerDescriptorSetData c1.samplerBindingCount
            newDescriptorSet)
    | _, _ => none

/-- The hit path: reset the idle counter of element `j` and return its set. -/
def fetchSamplerDescriptorSetHit (cache : SamplerDescriptorSetCache) (j : Nat) :
    Option (SamplerDescriptorSetCache × Nat × List VkWriteDescriptorSet) :=
  match cache.elements[j]? with
  | none => none
  | some e =>
    some ({ cache with elements := cache.elements.set j { e with inactiveFrameCount := 0 } },
      e.descriptorSet, [])

/-- `VULKAN_INTERNAL_FetchSamplerDescriptorSet`: the cache afterwards, the descriptor
set returned, and the writes passed to `vkUpdateDescriptorSets` (none on a hit). -/
def VULKAN_INTERNAL_FetchSamplerDescriptorSet (cache : SamplerDescriptorSetCache)
    (samplerDescriptorSetData : SamplerDescriptorSetData)
    (newPool : Nat) (newSets : Option (List Nat)) :
    Option (SamplerDescriptorSetCache × Nat × List VkWriteDescriptorSet) :=
  match SamplerDescriptorSetHashTable_GetHashCode samplerDescriptorSetData
      cache.samplerBindingCount with
  | none => none
  | some hashcode =>
    match cache.buckets[hashcode % NUM_DESCRIPTOR_SET_HASH_BUCKETS]? with
    | none => none
    | some arr =>
      match findDescriptorSet cache samplerDescriptorSetData arr.elements with
      | none => none
      | some (some j) => fetchSamplerDescriptorSetHit cache j
      | some none =>
        fetchSamplerDescriptorSetMiss cache samplerDescriptorSetData hashcode newPool newSets

/-- `VULKAN_INTERNAL_CreateSamplerDescriptorSetCache`; `newPool` and `newSets` are
what `vkCreateDescriptorPool` and `vkAllocateDescriptorSets` write. -/
def VULKAN_INTERNAL_CreateSamplerDescriptorSetCache (descriptorSetLayout samplerBindingCount : Nat)
    (newPool : Nat) (newSets : List Nat) : SamplerDescriptorSetCache :=
  { descriptorSetLayout := descriptorSetLayout,
    samplerBindingCount := samplerBindingCount,
    buckets := List.replicate NUM_DESCRIPTOR_SET_HASH_BUCKETS { elements := [], capacity := 0 },
    elements := [],
    capacity := 16,
    samplerDescriptorPools := [newPool],
    nextPoolSize := SAMPLER_POOL_STARTING_SIZE * 2,
    inactiveDescriptorSets := newSets,
    inactiveDescriptorSetCapacity := SAMPLER_POOL_STARTING_SIZE }

/-- "remove index from bucket": the first slot holding `i` takes the last entry, and
the bucket shrinks by one. -/
def removeIndexFromBucket (arr : SamplerDescriptorSetHashArray) (i : Nat) :
    SamplerDescriptorSetHashArray :=
  let j := arr.elements.indexOf i
  if j < arr.elements.length then
    { arr with
      elements :=
        (if j < arr.elements.length - 1 then
          arr.elements.set j (arr.elements.getLastD 0)
        else arr.elements).dropLast }
  else arr

/-- "update index in bucket": the first slot holding `old` now holds `new`. -/
def replaceIndexInBucket (arr : SamplerDescriptorSetHashArray) (old new : Nat) :
    SamplerDescriptorSetHashArray :=
  let j := arr.elements.indexOf old
  if j < arr.elements.length then { arr with elements := arr.elements.set j new } else arr

/-- Apply `f` to the bucket of `key`. -/
def updateBucket (cache : SamplerDescriptorSetCache) (key : Nat)
    (f : SamplerDescriptorSetHashArray → SamplerDescriptorSetHashArray) :
    Option SamplerDescriptorSetCache :=
  match cache.buckets[key % NUM_DESCRIPTOR_SET_HASH_BUCKETS]? with
  | none => none
  | some arr =>
    some { cache with
      buckets := cache.buckets.set (key % NUM_DESCRIPTOR_SET_HASH_BUCKETS) (f arr) }

/-- "move another descriptor set to fill the hole", when `i` is not the last
element. -/
def fillHole (cache : SamplerDescriptorSetCache) (i : Nat) : Option SamplerDescriptorSetCache :=
  if i < cache.elements.length - 1 then
    match cache.elements.getLast? with
    | none => none
    | some last =>
      updateBucket { cache with elements := cache.elements.set i last } last.key
        (fun arr => replaceIndexInBucket arr (cache.elements.length - 1) i)
  else some cache

/-- The body of the `if` in the loop of `DeactivateUnusedDescriptorSets`: element `i`
leaves the table and its set goes on top of the inactive sets. -/
def deactivateElement (cache : SamplerDescriptorSetCache) (i : Nat)
    (e : SamplerDescriptorSetHashMap) : Option SamplerDescriptorSetCache :=
  match updateBucket cache e.key (fun arr => removeIndexFromBucket arr i) with
  | none => none
  | some c1 =>
    if c1.inactiveDescriptorSets.length < c1.inactiveDescriptorSetCapacity then
      match fillHole { c1 with
          inactiveDescriptorSets := c1.inactiveDescriptorSets ++ [e.descriptorSet] } i with
      | none => none
      | some c2 => some { c2 with elements := c2.elements.dropLast }
    else none

/-- One round of the loop of `DeactivateUnusedDescriptorSets`, at index `i`. -/
def deactivateStep (cache : SamplerDescriptorSetCache) (i : Nat) :
    Option SamplerDescriptorSetCache :=
  match cache.elements[i]? with
  | none => none
  | some e0 =>
    let e := { e0 with inactiveFrameCount := (e0.inactiveFrameCount + 1) % UINT8_MOD }
    let c1 := { cache with elements := cache.elements.set i e }
    if e.inactiveFrameCount + 1 > DESCRIPTOR_SET_DEACTIVATE_FRAMES then
      deactivateElement c1 i e
    else some c1

/-- The loop of `DeactivateUnusedDescriptorSets` for `i = n - 1` down to `0`. -/
def deactivateFrom (cache : SamplerDescriptorSetCache) : Nat → Option SamplerDescriptorSetCache
  | 0 => some cache
  | i + 1 =>
    match deactivateStep cache i with
    | none => none
    | some c1 => deactivateFrom c1 i

def VULKAN_INTERNAL_DeactivateUnusedDescriptorSets (cache : SamplerDescriptorSetCache) :
    Option SamplerDescriptorSetCache :=
  deactivateFrom cache cache.elements.length

/-- Repeated eviction sweeps of one cache. -/
def deactivateTimes (cache : SamplerDescriptorSetCache) : Nat → Option SamplerDescriptorSetCache
  | 0 => some cache
  | n + 1 =>
    match VULKAN_INTERNAL_DeactivateUnusedDescriptorSets cache with
    | none => none
    | some c1 => deactivateTimes c1 n

/-! ## Well-formed and reachable cache states -/

/-- Index `x` of the key list holds a key of bucket `b`. -/
def KeyAt (ks : List Nat) (x b : Nat) : Prop :=
  ∃ k, ks[x]? = some k ∧ k % NUM_DESCRIPTOR_SET_HASH_BUCKETS = b

/-- The buckets index the keys `ks` of the element array: there are 1031 buckets, no
bucket holds an index twice, and bucket `b` holds exactly the indices whose key
selects `b`. -/
def BucketsOk (buckets : List SamplerDescriptorSetHashArray) (ks : List Nat) : Prop :=
  buckets.length = NUM_DESCRIPTOR_SET_HASH_BUCKETS ∧
  ∀ b arr, buckets[b]? = some arr →
    arr.elements.Nodup ∧ ∀ x, x ∈ arr.elements ↔ KeyAt ks x b

/-- Largest value of an `int32_t`. -/
def INT32_MAX : Nat := 2147483647

/-- Well-formedness of a cache that owns the descriptor sets `owned`. -/
structure CacheInv (c : SamplerDescriptorSetCache) (owned : List Nat) : Prop where
  table : BucketsOk c.buckets (c.elements.map (fun e => e.key))
  sets : (c.elements.map (fun e => e.descriptorSet) ++ c.inactiveDescriptorSets).Perm owned
  owned_nodup : owned.Nodup
  total : c.elements.length + c.inactiveDescriptorSets.length = c.inactiveDescriptorSetCapacity
  pool : c.nextPoolSize = c.inactiveDescriptorSetCapacity + SAMPLER_POOL_STARTING_SIZE
  bound : c.inactiveDescriptorSetCapacity ≤ INT32_MAX
  counters : ∀ e, e ∈ c.elements → e.inactiveFrameCount < DESCRIPTOR_SET_DEACTIVATE_FRAMES
  data : ∀ e, e ∈ c.elements →
    c.samplerBindingCount ≤ e.descriptorSetData.descriptorImageInfo.length

/-- The sets owned by the cache after a fetch: when the fetch created a pool, the
sets allocated from it are owned as well. -/
def ownedAfterFetch (c c1 : SamplerDescriptorSetCache) (owned : List Nat)
    (newSets : Option (List Nat)) : List Nat :=
  if c1.samplerDescriptorPools.length = c.samplerDescriptorPools.length then owned
  else owned ++ newSets.getD []

/-- The states of a sampler descriptor-set cache reachable from
`VULKAN_INTERNAL_CreateSamplerDescriptorSetCache` through
`VULKAN_INTERNAL_FetchSamplerDescriptorSet` and
`VULKAN_INTERNAL_DeactivateUnusedDescriptorSets`, each with the list of the
descriptor sets allocated from its pools.  The driver hands out sets that are new,
and the total number of sets stays within the range of the `int32_t` loop index of
the sweep. -/
inductive CacheReachable : SamplerDescriptorSetCache → List Nat → Prop
  | created (descriptorSetLayout samplerBindingCount newPool : Nat) (newSets : List Nat)
      (hlen : newSets.length = SAMPLER_POOL_STARTING_SIZE) (hnd : newSets.Nodup) :
      CacheReachable
        (VULKAN_INTERNAL_CreateSamplerDescriptorSetCache descriptorSetLayout samplerBindingCount
          newPool newSets) newSets
  | fetched (c c1 : SamplerDescriptorSetCache) (owned : List Nat)
      (data : SamplerDescriptorSetData) (newPool : Nat) (newSets : Option (List Nat))
      (set : Nat) (writes : List VkWriteDescriptorSet)
      (hc : CacheReachable c owned)
      (hbound : c.inactiveDescriptorSetCapacity + c.nextPoolSize ≤ INT32_MAX)
      (hfresh : ∀ sets, newSets = some sets → sets.Nodup ∧ ∀ x, x ∈ sets → x ∉ owned)
      (h : VULKAN_INTERNAL_FetchSamplerDescriptorSet c data newPool newSets =
        some (c1, set, writes)) :
      CacheReachable c1 (ownedAfterFetch c c1 owned newSets)
  | swept (c c1 : SamplerDescriptorSetCache) (owned : List Nat)
      (hc : CacheReachable c owned)
      (h : VULKAN_INTERNAL_DeactivateUnusedDescriptorSets c = some c1) :
      CacheReachable c1 owned

/-- The descriptor set `d` is resident: it is the set of exactly one slot of the
element array, and exactly one bucket entry, in the bucket selected by the key of
that slot, holds the index of the slot. -/
def SetResident (c : SamplerDescriptorSetCache) (d : Nat) : Prop :=
  ∃ i e, c.elements[i]? = some e ∧ e.descriptorSet = d ∧
    (∀ j e2, c.elements[j]? = some e2 → e2.descriptorSet = d → j = i) ∧
    (∃ arr, c.buckets[e.key % NUM_DESCRIPTOR_SET_HASH_BUCKETS]? = some arr ∧
      arr.elements.count i = 1) ∧
    (∀ b arr, c.buckets[b]? = some arr → i ∈ arr.elements →
      b = e.key % NUM_DESCRIPTOR_SET_HASH_BUCKETS)

/-! ## Resource access types -/

inductive VulkanResourceAccessType where
  | RESOURCE_ACCESS_NONE
  | RESOURCE_ACCESS_INDEX_BUFFER
  | RESOURCE_ACCESS_VERTEX_BUFFER
  | RESOURCE_ACCESS_VERTEX_SHADER_READ_UNIFORM_BUFFER
  | RESOURCE_ACCESS_VERTEX_SHADER_READ_SAMPLED_IMAGE
  | RESOURCE_ACCESS_FRAGMENT_SHADER_READ_UNIFORM_BUFFER
  | RESOURCE_ACCESS_FRAGMENT_SHADER_READ_SAMPLED_IMAGE
  | RESOURCE_ACCESS_FRAGMENT_SHADER_READ_COLOR_ATTACHMENT
  | RESOURCE_ACCESS_FRAGMENT_SHADER_READ_DEPTH_STENCIL_ATTACHMENT
  | RESOURCE_ACCESS_ANY_SHADER_READ_SAMPLED_IMAGE
  | RESOURCE_ACCESS_COLOR_ATTACHMENT_READ
  | RESOURCE_ACCESS_DEPTH_STENCIL_ATTACHMENT_READ
  | RESOURCE_ACCESS_TRANSFER_READ
  | RESOURCE_ACCESS_HOST_READ
  | RESOURCE_ACCESS_PRESENT
  | RESOURCE_ACCESS_END_OF_READ
  | RESOURCE_ACCESS_VERTEX_SHADER_WRITE
  | RESOURCE_ACCESS_FRAGMENT_SHADER_WRITE
  | RESOURCE_ACCESS_COLOR_ATTACHMENT_WRITE
  | RESOURCE_ACCESS_DEPTH_STENCIL_ATTACHMENT_WRITE
  | RESOURCE_ACCESS_TRANSFER_WRITE
  | RESOURCE_ACCESS_HOST_WRITE
  | RESOURCE_ACCESS_COLOR_ATTACHMENT_READ_WRITE
  | RESOURCE_ACCESS_DEPTH_STENCIL_ATTACHMENT_READ_WRITE
  | RESOURCE_ACCESS_MEMORY_TRANSFER_READ_WRITE
  | RESOURCE_ACCESS_GENERAL
deriving DecidableEq, Repr

/-- The value of the enumerator in C. -/
def VulkanResourceAccessType.toNat : VulkanResourceAccessType → Nat
  | .RESOURCE_ACCESS_NONE => 0
  | .RESOURCE_ACCESS_INDEX_BUFFER => 1
  | .RESOURCE_ACCESS_VERTEX_BUFFER => 2
  | .RESOURCE_ACCESS_VERTEX_SHADER_READ_UNIFORM_BUFFER => 3
  | .RESOURCE_ACCESS_VERTEX_SHADER_READ_SAMPLED_IMAGE => 4
  | .RESOURCE_ACCESS_FRAGMENT_SHADER_READ_UNIFORM_BUFFER => 5
  | .RESOURCE_ACCESS_FRAGMENT_SHADER_READ_SAMPLED_IMAGE => 6
  | .RESOURCE_ACCESS_FRAGMENT_SHADER_READ_COLOR_ATTACHMENT => 7
  | .RESOURCE_ACCESS_FRAGMENT_SHADER_READ_DEPTH_STENCIL_ATTACHMENT => 8
  | .RESOURCE_ACCESS_ANY_SHADER_READ_SAMPLED_IMAGE => 9
  | .RESOURCE_ACCESS_COLOR_ATTACHMENT_READ => 10
  | .RESOURCE_ACCESS_DEPTH_STENCIL_ATTACHMENT_READ => 11
  | .RESOURCE_ACCESS_TRANSFER_READ => 12
  | .RESOURCE_ACCESS_HOST_READ => 13
  | .RESOURCE_ACCESS_PRESENT => 14
  | .RESOURCE_ACCESS_END_OF_READ => 15
  | .RESOURCE_ACCESS_VERTEX_SHADER_WRITE => 16
  | .RESOURCE_ACCESS_FRAGMENT_SHADER_WRITE => 17
  | .RESOURCE_ACCESS_COLOR_ATTACHMENT_WRITE => 18
  | .RESOURCE_ACCESS_DEPTH_STENCIL_ATTACHMENT_WRITE => 19
  | .RESOURCE_ACCESS_TRANSFER_WRITE => 20
  | .RESOURCE_ACCESS_HOST_WRITE => 21
  | .RESOURCE_ACCESS_COLOR_ATTACHMENT_READ_WRITE => 22
  | .RESOURCE_ACCESS_DEPTH_STENCIL_ATTACHMENT_READ_WRITE => 23
  | .RESOURCE_ACCESS_MEMORY_TRANSFER_READ_WRITE => 24
  | .RESOURCE_ACCESS_GENERAL => 25

/-! Values of the Vulkan API (`vulkan_core.h`) that `AccessMap` and the barriers
use. -/

def VK_PIPELINE_STAGE_TOP_OF_PIPE_BIT : Nat := 0x00000001
def VK_PIPELINE_STAGE_VERTEX_INPUT_BIT : Nat := 0x00000004
def VK_PIPELINE_STAGE_VERTEX_SHADER_BIT : Nat := 0x00000008
def VK_PIPELINE_STAGE_FRAGMENT_SHADER_BIT : Nat := 0x00000080
def VK_PIPELINE_STAGE_EARLY_FRAGMENT_TESTS_BIT : Nat := 0x00000100
def VK_PIPELINE_STAGE_LATE_FRAGMENT_TESTS_BIT : Nat := 0x00000200
def VK_PIPELINE_STAGE_COLOR_ATTACHMENT_OUTPUT_BIT : Nat := 0x00000400
def VK_PIPELINE_STAGE_TRANSFER_BIT : Nat := 0x00001000
def VK_PIPELINE_STAGE_BOTTOM_OF_PIPE_BIT : Nat := 0x00002000
def VK_PIPELINE_STAGE_HOST_BIT : Nat := 0x00004000
def VK_PIPELINE_STAGE_ALL_COMMANDS_BIT : Nat := 0x00010000

def VK_ACCESS_INDEX_READ_BIT : Nat := 0x00000002
def VK_ACCESS_UNIFORM_READ_BIT : Nat := 0x00000008
def VK_ACCESS_INPUT_ATTACHMENT_READ_BIT : Nat := 0x00000010
def VK_ACCESS_SHADER_READ_BIT : Nat := 0x00000020
def VK_ACCESS_SHADER_WRITE_BIT : Nat := 0x00000040
def VK_ACCESS_COLOR_ATTACHMENT_READ_BIT : Nat := 0x00000080
def VK_ACCESS_COLOR_ATTACHMENT_WRITE_BIT : Nat := 0x00000100
def VK_ACCESS_DEPTH_STENCIL_ATTACHMENT_READ_BIT : Nat := 0x00000200
def VK_ACCESS_DEPTH_STENCIL_ATTACHMENT_WRITE_BIT : Nat := 0x00000400
def VK_ACCESS_TRANSFER_READ_BIT : Nat := 0x00000800
def VK_ACCESS_TRANSFER_WRITE_BIT : Nat := 0x00001000
def VK_ACCESS_HOST_READ_BIT : Nat := 0x00002000
def VK_ACCESS_HOST_WRITE_BIT : Nat := 0x00004000
def VK_ACCESS_MEMORY_READ_BIT : Nat := 0x00008000
def VK_ACCESS_MEMORY_WRITE_BIT : Nat := 0x00010000

def VK_IMAGE_LAYOUT_UNDEFINED : Nat := 0
def VK_IMAGE_LAYOUT_GENERAL : Nat := 1
def VK_IMAGE_LAYOUT_COLOR_ATTACHMENT_OPTIMAL : Nat := 2
def VK_IMAGE_LAYOUT_DEPTH_STENCIL_ATTACHMENT_OPTIMAL : Nat := 3
def VK_IMAGE_LAYOUT_DEPTH_STENCIL_READ_ONLY_OPTIMAL : Nat := 4
def VK_IMAGE_LAYOUT_SHADER_READ_ONLY_OPTIMAL : Nat := 5
def VK_IMAGE_LAYOUT_TRANSFER_SRC_OPTIMAL : Nat := 6
def VK_IMAGE_LAYOUT_TRANSFER_DST_OPTIMAL : Nat := 7
def VK_IMAGE_LAYOUT_PRESENT_SRC_KHR : Nat := 1000001002

structure VulkanResourceAccessInfo where
  stageMask : Nat
  accessMask : Nat
  imageLayout : Nat
deriving DecidableEq, Repr

/-- The table `AccessMap`, indexed by the access type. -/
def AccessMap : VulkanResourceAccessType → VulkanResourceAccessInfo
  | .RESOURCE_ACCESS_NONE => ⟨0, 0, VK_IMAGE_LAYOUT_UNDEFINED⟩
  | .RESOURCE_ACCESS_INDEX_BUFFER =>
    ⟨VK_PIPELINE_STAGE_VERTEX_INPUT_BIT, VK_ACCESS_INDEX_READ_BIT, VK_IMAGE_LAYOUT_UNDEFINED⟩
  | .RESOURCE_ACCESS_VERTEX_BUFFER =>
    ⟨VK_PIPELINE_STAGE_VERTEX_INPUT_BIT, VK_ACCESS_INDEX_READ_BIT, VK_IMAGE_LAYOUT_UNDEFINED⟩
  | .RESOURCE_ACCESS_VERTEX_SHADER_READ_UNIFORM_BUFFER =>
    ⟨VK_PIPELINE_STAGE_VERTEX_SHADER_BIT, VK_ACCESS_SHADER_READ_BIT, VK_IMAGE_LAYOUT_UNDEFINED⟩
  | .RESOURCE_ACCESS_VERTEX_SHADER_READ_SAMPLED_IMAGE =>
    ⟨VK_PIPELINE_STAGE_VERTEX_SHADER_BIT, VK_ACCESS_SHADER_READ_BIT,
      VK_IMAGE_LAYOUT_SHADER_READ_ONLY_OPTIMAL⟩
  | .RESOURCE_ACCESS_FRAGMENT_SHADER_READ_UNIFORM_BUFFER =>
    ⟨VK_PIPELINE_STAGE_FRAGMENT_SHADER_BIT, VK_ACCESS_UNIFORM_READ_BIT,
      VK_IMAGE_LAYOUT_UNDEFINED⟩
  | .RESOURCE_ACCESS_FRAGMENT_SHADER_READ_SAMPLED_IMAGE =>
    ⟨VK_PIPELINE_STAGE_FRAGMENT_SHADER_BIT, VK_ACCESS_SHADER_READ_BIT,
      VK_IMAGE_LAYOUT_SHADER_READ_ONLY_OPTIMAL⟩
  | .RESOURCE_ACCESS_FRAGMENT_SHADER_READ_COLOR_ATTACHMENT =>
    ⟨VK_PIPELINE_STAGE_FRAGMENT_SHADER_BIT, VK_ACCESS_INPUT_ATTACHMENT_READ_BIT,
      VK_IMAGE_LAYOUT_SHADER_READ_ONLY_OPTIMAL⟩
  | .RESOURCE_ACCESS_FRAGMENT_SHADER_READ_DEPTH_STENCIL_ATTACHMENT =>
    ⟨VK_PIPELINE_STAGE_FRAGMENT_SHADER_BIT, VK_ACCESS_INPUT_ATTACHMENT_READ_BIT,
      VK_IMAGE_LAYOUT_DEPTH_STENCIL_READ_ONLY_OPTIMAL⟩
  | .RESOURCE_ACCESS_ANY_SHADER_READ_SAMPLED_IMAGE =>
    ⟨VK_PIPELINE_STAGE_ALL_COMMANDS_BIT, VK_ACCESS_SHADER_READ_BIT,
      VK_IMAGE_LAYOUT_SHADER_READ_ONLY_OPTIMAL⟩
  | .RESOURCE_ACCESS_COLOR_ATTACHMENT_READ =>
    ⟨VK_PIPELINE_STAGE_COLOR_ATTACHMENT_OUTPUT_BIT, VK_ACCESS_COLOR_ATTACHMENT_READ_BIT,
      VK_IMAGE_LAYOUT_COLOR_ATTACHMENT_OPTIMAL⟩
  | .RESOURCE_ACCESS_DEPTH_STENCIL_ATTACHMENT_READ =>
    ⟨VK_PIPELINE_STAGE_EARLY_FRAGMENT_TESTS_BIT ||| VK_PIPELINE_STAGE_LATE_FRAGMENT_TESTS_BIT,
      VK_ACCESS_DEPTH_STENCIL_ATTACHMENT_READ_BIT,
      VK_IMAGE_LAYOUT_DEPTH_STENCIL_READ_ONLY_OPTIMAL⟩
  | .RESOURCE_ACCESS_TRANSFER_READ =>
    ⟨VK_PIPELINE_STAGE_TRANSFER_BIT, VK_ACCESS_TRANSFER_READ_BIT,
      VK_IMAGE_LAYOUT_TRANSFER_SRC_OPTIMAL⟩
  | .RESOURCE_ACCESS_HOST_READ =>
    ⟨VK_PIPELINE_STAGE_HOST_BIT, VK_ACCESS_HOST_READ_BIT, VK_IMAGE_LAYOUT_GENERAL⟩
  | .RESOURCE_ACCESS_PRESENT => ⟨0, 0, VK_IMAGE_LAYOUT_PRESENT_SRC_KHR⟩
  | .RESOURCE_ACCESS_END_OF_READ => ⟨0, 0, VK_IMAGE_LAYOUT_UNDEFINED⟩
  | .RESOURCE_ACCESS_VERTEX_SHADER_WRITE =>
    ⟨VK_PIPELINE_STAGE_VERTEX_SHADER_BIT, VK_ACCESS_SHADER_WRITE_BIT, VK_IMAGE_LAYOUT_GENERAL⟩
  | .RESOURCE_ACCESS_FRAGMENT_SHADER_WRITE =>
    ⟨VK_PIPELINE_STAGE_FRAGMENT_SHADER_BIT, VK_ACCESS_SHADER_WRITE_BIT,
      VK_IMAGE_LAYOUT_GENERAL⟩
  | .RESOURCE_ACCESS_COLOR_ATTACHMENT_WRITE =>
    ⟨VK_PIPELINE_STAGE_COLOR_ATTACHMENT_OUTPUT_BIT, VK_ACCESS_COLOR_ATTACHMENT_WRITE_BIT,
      VK_IMAGE_LAYOUT_COLOR_ATTACHMENT_OPTIMAL⟩
  | .RESOURCE_ACCESS_DEPTH_STENCIL_ATTACHMENT_WRITE =>
    ⟨VK_PIPELINE_STAGE_EARLY_FRAGMENT_TESTS_BIT ||| VK_PIPELINE_STAGE_LATE_FRAGMENT_TESTS_BIT,
      VK_ACCESS_DEPTH_STENCIL_ATTACHMENT_WRITE_BIT,
      VK_IMAGE_LAYOUT_DEPTH_STENCIL_ATTACHMENT_OPTIMAL⟩
  | .RESOURCE_ACCESS_TRANSFER_WRITE =>
    ⟨VK_PIPELINE_STAGE_TRANSFER_BIT, VK_ACCESS_TRANSFER_WRITE_BIT,
      VK_IMAGE_LAYOUT_TRANSFER_DST_OPTIMAL⟩
  | .RESOURCE_ACCESS_HOST_WRITE =>
    ⟨VK_PIPELINE_STAGE_HOST_BIT, VK_ACCESS_HOST_WRITE_BIT, VK_IMAGE_LAYOUT_GENERAL⟩
  | .RESOURCE_ACCESS_COLOR_ATTACHMENT_READ_WRITE =>
    ⟨VK_PIPELINE_STAGE_COLOR_ATTACHMENT_OUTPUT_BIT,
      VK_ACCESS_COLOR_ATTACHMENT_READ_BIT ||| VK_ACCESS_COLOR_ATTACHMENT_WRITE_BIT,
      VK_IMAGE_LAYOUT_COLOR_ATTACHMENT_OPTIMAL⟩
  | .RESOURCE_ACCESS_DEPTH_STENCIL_ATTACHMENT_READ_WRITE =>
    ⟨VK_PIPELINE_STAGE_EARLY_FRAGMENT_TESTS_BIT ||| VK_PIPELINE_STAGE_LATE_FRAGMENT_TESTS_BIT,
      VK_ACCESS_DEPTH_STENCIL_ATTACHMENT_READ_BIT |||
        VK_ACCESS_DEPTH_STENCIL_ATTACHMENT_WRITE_BIT,
      VK_IMAGE_LAYOUT_DEPTH_STENCIL_ATTACHMENT_OPTIMAL⟩
  | .RESOURCE_ACCESS_MEMORY_TRANSFER_READ_WRITE =>
    ⟨VK_PIPELINE_STAGE_TRANSFER_BIT,
      VK_ACCESS_TRANSFER_READ_BIT ||| VK_ACCESS_TRANSFER_WRITE_BIT,
      VK_IMAGE_LAYOUT_UNDEFINED⟩
  | .RESOURCE_ACCESS_GENERAL =>
    ⟨VK_PIPELINE_STAGE_ALL_COMMANDS_BIT,
      VK_ACCESS_MEMORY_READ_BIT ||| VK_ACCESS_MEMORY_WRITE_BIT,
      VK_IMAGE_LAYOUT_GENERAL⟩

/-! ## Resources and the renderer -/

structure VulkanSubBuffer where
  allocation : Nat
  buffer : Nat
  offset : Nat
  size : Nat
  resourceAccessType : VulkanResourceAccessType
  /-- An `int8_t`: `-1`, or the frame index at the time of the last binding. -/
  bound : Int
deriving DecidableEq, Repr

structure VulkanBuffer where
  size : Nat
  subBuffers : List Nat
  currentSubBufferIndex : Nat
  resourceAccessType : VulkanResourceAccessType
  usage : Nat
  bound : Nat
  boundSubmitted : Nat
deriving DecidableEq, Repr

structure VulkanTexture where
  allocation : Nat
  offset : Nat
  memorySize : Nat
  image : Nat
  view : Nat
  layerCount : Nat
  levelCount : Nat
  resourceAccessType : VulkanResourceAccessType
deriving DecidableEq, Repr

structure VulkanColorTarget where
  texture : Nat
  layer : Nat
  view : Nat
  multisampleTexture : Option Nat
  multisampleCount : Nat
deriving DecidableEq, Repr

structure VulkanDepthStencilTarget where
  texture : Nat
  view : Nat
deriving DecidableEq, Repr

structure VulkanFramebuffer where
  framebuffer : Nat
  colorTargets : List Nat
  depthStencilTarget : Option Nat
  width : Nat
  height : Nat
deriving DecidableEq, Repr

structure VulkanGraphicsPipelineLayout where
  pipelineLayout : Nat
  vertexSamplerDescriptorSetCache : Option Nat
  fragmentSamplerDescriptorSetCache : Option Nat
deriving DecidableEq, Repr

structure VulkanGraphicsPipeline where
  pipeline : Nat
  pipelineLayout : Nat
  vertexUBODescriptorSet : Nat
  fragmentUBODescriptorSet : Nat
  vertexUBOBlockSize : Nat
  fragmentUBOBlockSize : Nat
deriving DecidableEq, Repr

structure VkBufferMemoryBarrier where
  srcAccessMask : Nat
  dstAccessMask : Nat
  buffer : Nat
  offset : Nat
  size : Nat
deriving DecidableEq, Repr

structure VkImageMemoryBarrier where
  srcAccessMask : Nat
  dstAccessMask : Nat
  oldLayout : Nat
  newLayout : Nat
  image : Nat
  aspectMask : Nat
  baseArrayLayer : Nat
  layerCount : Nat
  baseMipLevel : Nat
  levelCount : Nat
deriving DecidableEq, Repr

/-- Calls that leave the driver code and that the embedding keeps track of: Vulkan
commands recorded into a command buffer, Vulkan calls that destroy or submit, and
the copy into mapped memory. -/
inductive VulkanCall where
  | vkCmdPipelineBarrier (commandBuffer : Option Nat) (srcStages dstStages : Nat)
      (bufferMemoryBarriers : List VkBufferMemoryBarrier)
      (imageMemoryBarriers : List VkImageMemoryBarrier)
  | vkCmdBindVertexBuffers (commandBuffer : Option Nat) (firstBinding : Nat)
      (buffers : List Nat) (offsets : List Nat)
  | vkCmdBindIndexBuffer (commandBuffer : Option Nat) (buffer offset indexType : Nat)
  | memcpyMapped (allocation offset offsetInBytes : Nat) (data : List Nat)
  | vkQueueSubmit (commandBuffers : List Nat)
  | vkQueuePresentKHR
  | vkFreeMemory (allocation : Nat)
  | vkDestroyImageView (view : Nat)
  | vkDestroyImage (image : Nat)
  | vkDestroyBuffer (buffer : Nat)
  | vkFreeDescriptorSets (descriptorSets : List Nat)
  | vkDestroyPipeline (pipeline : Nat)
  | vkDestroyShaderModule (shaderModule : Nat)
  | vkDestroySampler (sampler : Nat)
  | vkDestroyFramebuffer (framebuffer : Nat)
  | vkDestroyRenderPass (renderPass : Nat)
deriving DecidableEq, Repr

/-- The kinds of resource with a pair of deferred-destroy lists. -/
inductive DisposeKind where
  | colorTarget
  | depthStencilTarget
  | texture
  | buffer
  | graphicsPipeline
  | shaderModule
  | sampler
  | framebuffer
  | renderPass
deriving DecidableEq, Repr

/-- The "Deferred destroy storage" fields of `VulkanRenderer`. -/
structure DeferredDestroyStorage where
  colorTargetsToDestroy : List Nat
  submittedColorTargetsToDestroy : List Nat
  depthStencilTargetsToDestroy : List Nat
  submittedDepthStencilTargetsToDestroy : List Nat
  texturesToDestroy : List Nat
  submittedTexturesToDestroy : List Nat
  buffersToDestroy : List Nat
  submittedBuffersToDestroy : List Nat
  graphicsPipelinesToDestroy : List Nat
  submittedGraphicsPipelinesToDestroy : List Nat
  shaderModulesToDestroy : List Nat
  submittedShaderModulesToDestroy : List Nat
  samplersToDestroy : List Nat
  submittedSamplersToDestroy : List Nat
  framebuffersToDestroy : List Nat
  submittedFramebuffersToDestroy : List Nat
  renderPassesToDestroy : List Nat
  submittedRenderPassesToDestroy : List Nat
deriving DecidableEq, Repr

/-- The part of `VulkanRenderer` that the embedded functions read or write, the
heaps of the objects they reach through pointers, and two records kept for the
statements: `calls`, the calls listed in `VulkanCall` in the order they are made,
and `destroyCalls`, the resources on which `PostWorkCleanup` has called a destroy
function.  The arrays of the renderer are grown before every append; their
capacities are left out.  One memory type is modelled. -/
structure VulkanRenderer where
  headless : Bool
  memoryAllocator : VulkanMemorySubAllocator
  needNewSwapChain : Bool
  shouldPresent : Bool
  swapChainImageAcquired : Bool
  inactiveCommandBuffers : List Nat
  activeCommandBuffers : List Nat
  submittedCommandBuffers : List Nat
  allocatedCommandBufferCount : Nat
  currentCommandBuffer : Option Nat
  numActiveCommands : Nat
  pipelineLayouts : List VulkanGraphicsPipelineLayout
  buffersInUse : List Nat
  submittedBuffers : List Nat
  vertexUBOOffset : Nat
  vertexUBOBlockIncrement : Nat
  fragmentUBOOffset : Nat
  fragmentUBOBlockIncrement : Nat
  frameIndex : Nat
  deferred : DeferredDestroyStorage
  bufferHeap : List (Option VulkanBuffer)
  subBufferHeap : List (Option VulkanSubBuffer)
  textureHeap : List (Option VulkanTexture)
  colorTargetHeap : List (Option VulkanColorTarget)
  depthStencilTargetHeap : List (Option VulkanDepthStencilTarget)
  framebufferHeap : List (Option VulkanFramebuffer)
  graphicsPipelineHeap : List (Option VulkanGraphicsPipeline)
  samplerDescriptorSetCacheHeap : List (Option SamplerDescriptorSetCache)
  /-- The next command buffer handle the driver hands out. -/
  nextCommandBufferHandle : Nat
  calls : List VulkanCall
  destroyCalls : List (DisposeKind × Nat)
deriving DecidableEq, Repr

/-- What the driver answers to the calls whose result the code checks. -/
structure DriverResults where
  vkAllocateCommandBuffers : Bool
  vkMapMemory : Bool
  vkWaitForFences : Bool
  vkQueueSubmit : Bool
deriving DecidableEq, Repr

/-- The access types of the section "Reads" of `VulkanResourceAccessType`,
`RESOURCE_ACCESS_NONE` to `RESOURCE_ACCESS_END_OF_READ`. -/
def readAccessTypes : List VulkanResourceAccessType :=
  [ .RESOURCE_ACCESS_NONE, .RESOURCE_ACCESS_INDEX_BUFFER, .RESOURCE_ACCESS_VERTEX_BUFFER,
    .RESOURCE_ACCESS_VERTEX_SHADER_READ_UNIFORM_BUFFER,
    .RESOURCE_ACCESS_VERTEX_SHADER_READ_SAMPLED_IMAGE,
    .RESOURCE_ACCESS_FRAGMENT_SHADER_READ_UNIFORM_BUFFER,
    .RESOURCE_ACCESS_FRAGMENT_SHADER_READ_SAMPLED_IMAGE,
    .RESOURCE_ACCESS_FRAGMENT_SHADER_READ_COLOR_ATTACHMENT,
    .RESOURCE_ACCESS_FRAGMENT_SHADER_READ_DEPTH_STENCIL_ATTACHMENT,
    .RESOURCE_ACCESS_ANY_SHADER_READ_SAMPLED_IMAGE,
    .RESOURCE_ACCESS_COLOR_ATTACHMENT_READ,
    .RESOURCE_ACCESS_DEPTH_STENCIL_ATTACHMENT_READ,
    .RESOURCE_ACCESS_TRANSFER_READ, .RESOURCE_ACCESS_HOST_READ, .RESOURCE_ACCESS_PRESENT,
    .RESOURCE_ACCESS_END_OF_READ ]

/-! ## Command buffers and memory barriers -/

/-- `VULKAN_INTERNAL_BeginCommandBuffer`.  When no inactive command buffer is left,
`allocatedCommandBufferCount` new ones are requested; if that fails the function
returns with nothing else changed.  The result of `vkBeginCommandBuffer` is only
logged. -/
def VULKAN_INTERNAL_BeginCommandBuffer (renderer : VulkanRenderer) (driver : DriverResults) :
    Option VulkanRenderer :=
  if renderer.inactiveCommandBuffers.length = 0 ∧ driver.vkAllocateCommandBuffers = false then
    some renderer
  else
    let r1 : VulkanRenderer :=
      if renderer.inactiveCommandBuffers.length = 0 then
        { renderer with
          inactiveCommandBuffers :=
            List.range' renderer.nextCommandBufferHandle renderer.allocatedCommandBufferCount
          nextCommandBufferHandle :=
            renderer.nextCommandBufferHandle + renderer.allocatedCommandBufferCount
          allocatedCommandBufferCount := (renderer.allocatedCommandBufferCount * 2) % UINT32_MOD }
      else renderer
    match r1.inactiveCommandBuffers.getLast? with
    | none => none
    | some commandBuffer =>
      some { r1 with
        currentCommandBuffer := some commandBuffer
        activeCommandBuffers := r1.activeCommandBuffers ++ [commandBuffer]
        inactiveCommandBuffers := r1.inactiveCommandBuffers.dropLast }

/-- `VULKAN_INTERNAL_EndCommandBuffer`. -/
def VULKAN_INTERNAL_EndCommandBuffer (renderer : VulkanRenderer) : VulkanRenderer :=
  { renderer with currentCommandBuffer := none, numActiveCommands := 0 }

/-- The macro `RECORD_CMD(cmdCall)`: begin a command buffer if none is current,
make the call with the current command buffer, count it. -/
def RECORD_CMD (renderer : VulkanRenderer) (driver : DriverResults)
    (cmdCall : Option Nat → VulkanCall) : Option VulkanRenderer :=
  match (if renderer.currentCommandBuffer = none then
      VULKAN_INTERNAL_BeginCommandBuffer renderer driver else some renderer) with
  | none => none
  | some r1 =>
    some { r1 with
      calls := r1.calls ++ [cmdCall r1.currentCommandBuffer]
      numActiveCommands := (r1.numActiveCommands + 1) % UINT32_MOD }

/-- The barrier that `VULKAN_INTERNAL_BufferMemoryBarrier` records when the access
type changes. -/
def bufferBarrierCall (prevAccess nextAccess : VulkanResourceAccessType)
    (vkBuffer size : Nat) (commandBuffer : Option Nat) : VulkanCall :=
  let prevAccessInfo := AccessMap prevAccess
  let srcStages := 0 ||| prevAccessInfo.stageMask
  let srcAccessMask :=
    if prevAccess.toNat > VulkanResourceAccessType.RESOURCE_ACCESS_END_OF_READ.toNat then
      0 ||| prevAccessInfo.accessMask
    else 0
  let nextAccessInfo := AccessMap nextAccess
  let dstStages := 0 ||| nextAccessInfo.stageMask
  let dstAccessMask := if srcAccessMask ≠ 0 then 0 ||| nextAccessInfo.accessMask else 0
  .vkCmdPipelineBarrier commandBuffer
    (if srcStages = 0 then VK_PIPELINE_STAGE_TOP_OF_PIPE_BIT else srcStages)
    (if dstStages = 0 then VK_PIPELINE_STAGE_BOTTOM_OF_PIPE_BIT else dstStages)
    [{ srcAccessMask := srcAccessMask, dstAccessMask := dstAccessMask, buffer := vkBuffer,
       offset := 0, size := size }]
    []

/-- `VULKAN_INTERNAL_BufferMemoryBarrier`; `buffer` and `subBuffer` are pointers. -/
def VULKAN_INTERNAL_BufferMemoryBarrier (renderer : VulkanRenderer) (driver : DriverResults)
    (nextResourceAccessType : VulkanResourceAccessType) (buffer subBuffer : Nat) :
    Option VulkanRenderer :=
  match heapGet renderer.bufferHeap buffer with
  | none => none
  | some b =>
    if b.resourceAccessType = nextResourceAccessType then some renderer
    else
      match heapGet renderer.subBufferHeap subBuffer with
      | none => none
      | some sb =>
        match RECORD_CMD renderer driver
            (bufferBarrierCall b.resourceAccessType nextResourceAccessType sb.buffer b.size) with
        | none => none
        | some r1 =>
          some { r1 with
            bufferHeap := r1.bufferHeap.set buffer
              (some { b with resourceAccessType := nextResourceAccessType }) }

/-- The barrier that `VULKAN_INTERNAL_ImageMemoryBarrier` records when the access
type changes. -/
def imageBarrierCall (prevAccess nextAccess : VulkanResourceAccessType)
    (aspectMask baseLayer layerCount baseLevel levelCount : Nat) (discardContents : Bool)
    (image : Nat) (commandBuffer : Option Nat) : VulkanCall :=
  let pPrevAccessInfo := AccessMap prevAccess
  let srcStages := 0 ||| pPrevAccessInfo.stageMask
  let srcAccessMask :=
    if prevAccess.toNat > VulkanResourceAccessType.RESOURCE_ACCESS_END_OF_READ.toNat then
      0 ||| pPrevAccessInfo.accessMask
    else 0
  let oldLayout := if discardContents then VK_IMAGE_LAYOUT_UNDEFINED
    else pPrevAccessInfo.imageLayout
  let pNextAccessInfo := AccessMap nextAccess
  let dstStages := 0 ||| pNextAccessInfo.stageMask
  .vkCmdPipelineBarrier commandBuffer
    (if srcStages = 0 then VK_PIPELINE_STAGE_TOP_OF_PIPE_BIT else srcStages)
    (if dstStages = 0 then VK_PIPELINE_STAGE_BOTTOM_OF_PIPE_BIT else dstStages)
    []
    [{ srcAccessMask := srcAccessMask, dstAccessMask := 0 ||| pNextAccessInfo.accessMask,
       oldLayout := oldLayout, newLayout := pNextAccessInfo.imageLayout, image := image,
       aspectMask := aspectMask, baseArrayLayer := baseLayer, layerCount := layerCount,
       baseMipLevel := baseLevel, levelCount := levelCount }]

/-- `VULKAN_INTERNAL_ImageMemoryBarrier`.  The last parameter of the C function is a
pointer to the tracked access type of the image (a field of a texture, or an entry
of `swapChainResourceAccessTypes`); here the value it points to is passed in and
the value it points to afterwards is returned with the renderer. -/
def VULKAN_INTERNAL_ImageMemoryBarrier (renderer : VulkanRenderer) (driver : DriverResults)
    (nextAccess : VulkanResourceAccessType)
    (aspectMask baseLayer layerCount baseLevel levelCount : Nat) (discardContents : Bool)
    (image : Nat) (resourceAccessType : VulkanResourceAccessType) :
    Option (VulkanRenderer × VulkanResourceAccessType) :=
  if resourceAccessType = nextAccess then some (renderer, resourceAccessType)
  else
    match RECORD_CMD renderer driver
        (imageBarrierCall resourceAccessType nextAccess aspectMask baseLayer layerCount
          baseLevel levelCount discardContents image) with
    | none => none
    | some r1 => some (r1, nextAccess)

/-! ## Destroying resources -/

/-- The memory branch of `VULKAN_INTERNAL_DestroyTexture` and of the loop body of
`VULKAN_INTERNAL_DestroyBuffer` on the renderer: a dedicated allocation is given
back to the driver and freed, any other gets the span back as a free region. -/
def releaseResourceMemory (renderer : VulkanRenderer) (span : MemorySpan) :
    Option VulkanRenderer :=
  match heapGet renderer.memoryAllocator.allocationHeap span.allocation with
  | none => none
  | some a =>
    match destroyResourceMemory renderer.memoryAllocator span with
    | none => none
    | some allocator =>
      some { renderer with
        memoryAllocator := allocator
        calls := if a.dedicated then renderer.calls ++ [.vkFreeMemory span.allocation]
          else renderer.calls }

/-- `VULKAN_INTERNAL_DestroyTexture`; `texture` is a pointer. -/
def VULKAN_INTERNAL_DestroyTexture (renderer : VulkanRenderer) (texture : Nat) :
    Option VulkanRenderer :=
  match heapGet renderer.textureHeap texture with
  | none => none
  | some t =>
    match releaseResourceMemory renderer
        { allocation := t.allocation, offset := t.offset, size := t.memorySize } with
    | none => none
    | some r1 =>
      some { r1 with
        calls := r1.calls ++ [.vkDestroyImageView t.view, .vkDestroyImage t.image]
        textureHeap := r1.textureHeap.set texture none }

/-- `VULKAN_INTERNAL_DestroyColorTarget`: the texture is not owned by the target,
the multisample texture is. -/
def VULKAN_INTERNAL_DestroyColorTarget (renderer : VulkanRenderer) (colorTarget : Nat) :
    Option VulkanRenderer :=
  match heapGet renderer.colorTargetHeap colorTarget with
  | none => none
  | some target =>
    let r0 : VulkanRenderer :=
      { renderer with calls := renderer.calls ++ [VulkanCall.vkDestroyImageView target.view] }
    match (match target.multisampleTexture with
        | none => some r0
        | some texture => VULKAN_INTERNAL_DestroyTexture r0 texture) with
    | none => none
    | some r1 => some { r1 with colorTargetHeap := r1.colorTargetHeap.set colorTarget none }

/-- `VULKAN_INTERNAL_DestroyDepthStencilTarget`. -/
def VULKAN_INTERNAL_DestroyDepthStencilTarget (renderer : VulkanRenderer)
    (depthStencilTarget : Nat) : Option VulkanRenderer :=
  match heapGet renderer.depthStencilTargetHeap depthStencilTarget with
  | none => none
  | some target =>
    match VULKAN_INTERNAL_DestroyTexture renderer target.texture with
    | none => none
    | some r1 =>
      some { r1 with
        depthStencilTargetHeap := r1.depthStencilTargetHeap.set depthStencilTarget none }

/-- The loop of `VULKAN_INTERNAL_DestroyBuffer` over the sub-buffers. -/
def destroySubBuffers : VulkanRenderer → List Nat → Option VulkanRenderer
  | renderer, [] => some renderer
  | renderer, subBuffer :: rest =>
    match heapGet renderer.subBufferHeap subBuffer with
    | none => none
    | some sb =>
      match releaseResourceMemory renderer
          { allocation := sb.allocation, offset := sb.offset, size := sb.size } with
      | none => none
      | some r1 =>
        destroySubBuffers
          { r1 with
            calls := r1.calls ++ [.vkDestroyBuffer sb.buffer]
            subBufferHeap := r1.subBufferHeap.set subBuffer none }
          rest

/-- `VULKAN_INTERNAL_DestroyBuffer`; `buffer` is a pointer.  A buffer marked `bound`
or `boundSubmitted` is left alone ("Cannot destroy a bound buffer!"). -/
def VULKAN_INTERNAL_DestroyBuffer (renderer : VulkanRenderer) (buffer : Nat) :
    Option VulkanRenderer :=
  match heapGet renderer.bufferHeap buffer with
  | none => none
  | some b =>
    if b.bound ≠ 0 ∨ b.boundSubmitted ≠ 0 then some renderer
    else
      match destroySubBuffers renderer b.subBuffers with
      | none => none
      | some r1 => some { r1 with bufferHeap := r1.bufferHeap.set buffer none }

/-- `VULKAN_INTERNAL_DestroyGraphicsPipeline`. -/
def VULKAN_INTERNAL_DestroyGraphicsPipeline (renderer : VulkanRenderer)
    (graphicsPipeline : Nat) : Option VulkanRenderer :=
  match heapGet renderer.graphicsPipelineHeap graphicsPipeline with
  | none => none
  | some p =>
    some { renderer with
      calls := renderer.calls ++
        [.vkFreeDescriptorSets [p.vertexUBODescriptorSet, p.fragmentUBODescriptorSet],
         .vkDestroyPipeline p.pipeline]
      graphicsPipelineHeap := renderer.graphicsPipelineHeap.set graphicsPipeline none }

/-- `VULKAN_INTERNAL_DestroyShaderModule`; `shaderModule` is a Vulkan handle. -/
def VULKAN_INTERNAL_DestroyShaderModule (renderer : VulkanRenderer) (shaderModule : Nat) :
    Option VulkanRenderer :=
  some { renderer with calls := renderer.calls ++ [.vkDestroyShaderModule shaderModule] }

/-- `VULKAN_INTERNAL_DestroySampler`; `sampler` is a Vulkan handle. -/
def VULKAN_INTERNAL_DestroySampler (renderer : VulkanRenderer) (sampler : Nat) :
    Option VulkanRenderer :=
  some { renderer with calls := renderer.calls ++ [.vkDestroySampler sampler] }

/-- `VULKAN_INTERNAL_DestroyFramebuffer`: the object itself is not freed. -/
def VULKAN_INTERNAL_DestroyFramebuffer (renderer : VulkanRenderer) (framebuffer : Nat) :
    Option VulkanRenderer :=
  match heapGet renderer.framebufferHeap framebuffer with
  | none => none
  | some fb =>
    some { renderer with calls := renderer.calls ++ [.vkDestroyFramebuffer fb.framebuffer] }

/-- `VULKAN_INTERNAL_DestroyRenderPass`; `renderPass` is a Vulkan handle. -/
def VULKAN_INTERNAL_DestroyRenderPass (renderer : VulkanRenderer) (renderPass : Nat) :
    Option VulkanRenderer :=
  some { renderer with calls := renderer.calls ++ [.vkDestroyRenderPass renderPass] }

/-! ## Buffers: writing and binding -/

/-- Conversion of a `uint32_t` to `int8_t` (`subbuf->bound = renderer->frameIndex`). -/
def uint32ToInt8 (n : Nat) : Int :=
  if n % 256 < 128 then ((n % 256 : Nat) : Int) else ((n % 256 : Nat) : Int) - 256

/-- The value an `int8_t` takes in a comparison with a `uint32_t`
(`subBuffers[j]->bound == renderer->frameIndex`). -/
def int8ToUInt32 (i : Int) : Nat :=
  (i % 4294967296).toNat

/-- The loop of `SetBufferData` that looks for the first sub-buffer with
`bound == -1`, from index `i`; the index it stops at is returned (the number of
sub-buffers if there is none). -/
def firstUnboundSubBuffer (subBufferHeap : List (Option VulkanSubBuffer)) :
    List Nat → Nat → Option Nat
  | [], i => some i
  | subBuffer :: rest, i =>
    match heapGet subBufferHeap subBuffer with
    | none => none
    | some sb => if sb.bound = -1 then some i else firstUnboundSubBuffer subBufferHeap rest (i + 1)

/-- `VULKAN_INTERNAL_SetBufferData`; `data` holds the `dataLength` bytes to copy.  A
buffer that is bound is left alone (an error is logged).  Otherwise
`currentSubBufferIndex` becomes the first unbound index and the data is copied
into the memory of that sub-buffer, unless `vkMapMemory` fails. -/
def VULKAN_INTERNAL_SetBufferData (renderer : VulkanRenderer) (driver : DriverResults)
    (buffer offsetInBytes : Nat) (data : List Nat) : Option VulkanRenderer :=
  match heapGet renderer.bufferHeap buffer with
  | none => none
  | some b =>
    if b.bound ≠ 0 then some renderer
    else
      match firstUnboundSubBuffer renderer.subBufferHeap b.subBuffers 0 with
      | none => none
      | some i =>
        match (b.subBuffers[i]?).bind (heapGet renderer.subBufferHeap) with
        | none => none
        | some sb =>
          match heapGet renderer.memoryAllocator.allocationHeap sb.allocation with
          | none => none
          | some _ =>
            if driver.vkMapMemory = false then
              some { renderer with
                bufferHeap := renderer.bufferHeap.set buffer
                  (some { b with currentSubBufferIndex := i }) }
            else if offsetInBytes + data.length ≤ sb.size then
              some { renderer with
                bufferHeap := renderer.bufferHeap.set buffer
                  (some { b with currentSubBufferIndex := i })
                calls := renderer.calls ++
                  [.memcpyMapped sb.allocation sb.offset offsetInBytes data] }
            else none

/-- `VULKAN_INTERNAL_MarkAsBound`. -/
def VULKAN_INTERNAL_MarkAsBound (renderer : VulkanRenderer) (buf : Nat) :
    Option VulkanRenderer :=
  match heapGet renderer.bufferHeap buf with
  | none => none
  | some b =>
    match b.subBuffers[b.currentSubBufferIndex]? with
    | none => none
    | some subbuf =>
      match heapGet renderer.subBufferHeap subbuf with
      | none => none
      | some sb =>
        if b.bound ≠ 0 then
          some { renderer with
            subBufferHeap := renderer.subBufferHeap.set subbuf
              (some { sb with bound := uint32ToInt8 renderer.frameIndex }) }
        else
          some { renderer with
            subBufferHeap := renderer.subBufferHeap.set subbuf
              (some { sb with bound := uint32ToInt8 renderer.frameIndex })
            bufferHeap := renderer.bufferHeap.set buf (some { b with bound := 1 })
            buffersInUse := renderer.buffersInUse ++ [buf] }

/-- The loop of `VULKAN_BindVertexBuffers`: collect the `VkBuffer` of the current
sub-buffer of every buffer and mark the buffer as bound. -/
def bindVertexBuffersLoop : VulkanRenderer → List Nat → List Nat →
    Option (VulkanRenderer × List Nat)
  | renderer, [], buffers => some (renderer, buffers)
  | renderer, currentBuffer :: rest, buffers =>
    match heapGet renderer.bufferHeap currentBuffer with
    | none => none
    | some b =>
      match (b.subBuffers[b.currentSubBufferIndex]?).bind (heapGet renderer.subBufferHeap) with
      | none => none
      | some sb =>
        match VULKAN_INTERNAL_MarkAsBound renderer currentBuffer with
        | none => none
        | some r1 => bindVertexBuffersLoop r1 rest (buffers ++ [sb.buffer])

/-- `VULKAN_BindVertexBuffers`. -/
def VULKAN_BindVertexBuffers (renderer : VulkanRenderer) (driver : DriverResults)
    (firstBinding : Nat) (pBuffers pOffsets : List Nat) : Option VulkanRenderer :=
  match bindVertexBuffersLoop renderer pBuffers [] with
  | none => none
  | some (r1, buffers) =>
    RECORD_CMD r1 driver
      (fun commandBuffer => .vkCmdBindVertexBuffers commandBuffer firstBinding buffers pOffsets)

/-- `VULKAN_BindIndexBuffer`; the sub-buffer passed to the driver is the one at
index `frameIndex`. -/
def VULKAN_BindIndexBuffer (renderer : VulkanRenderer) (driver : DriverResults)
    (buffer offset indexType : Nat) : Option VulkanRenderer :=
  match VULKAN_INTERNAL_MarkAsBound renderer buffer with
  | none => none
  | some r1 =>
    match heapGet r1.bufferHeap buffer with
    | none => none
    | some b =>
      match (b.subBuffers[r1.frameIndex]?).bind (heapGet r1.subBufferHeap) with
      | none => none
      | some sb =>
        RECORD_CMD r1 driver
          (fun commandBuffer => .vkCmdBindIndexBuffer commandBuffer sb.buffer offset indexType)

/-! ## Creating buffers and textures -/

def VK_BUFFER_USAGE_INDEX_BUFFER_BIT : Nat := 0x00000040
def VK_BUFFER_USAGE_VERTEX_BUFFER_BIT : Nat := 0x00000080

/-- What the driver answers while one sub-buffer is created: the handle written by
`vkCreateBuffer` (`none` when the result is not `VK_SUCCESS`), the memory
requirements of that handle (`none` when `FindBufferMemoryRequirements` fails),
and whether `vkAllocateMemory` and `vkBindBufferMemory` return `VK_SUCCESS`. -/
structure SubBufferDriverResults where
  vkCreateBuffer : Option Nat
  requirements : Option MemoryRequirements
  vkAllocateMemory : Bool
  vkBindBufferMemory : Bool
deriving DecidableEq, Repr

/-- What the driver answers while a texture is created. -/
structure TextureDriverResults where
  vkCreateImage : Option Nat
  requirements : Option MemoryRequirements
  vkAllocateMemory : Bool
  vkBindImageMemory : Bool
  vkCreateImageView : Option Nat
deriving DecidableEq, Repr

/-- The loop of `VULKAN_INTERNAL_CreateBuffer` from index `i`, with `count`
iterations left; the result is the state and the return code (0 failure,
1 success, 2 out of memory).  A sub-buffer object is allocated at the start of
its iteration and holds a value (`some`) once all its fields are written, which
is after `vkBindBufferMemory`; at an early return it stays `none` and the buffer
keeps the pointer. -/
def createSubBuffers (driver : DriverResults) (answers : Nat → SubBufferDriverResults)
    (resourceAccessType : VulkanResourceAccessType) (buffer : Nat) :
    Nat → Nat → VulkanRenderer → Option (VulkanRenderer × Nat)
  | 0, _, renderer => some (renderer, 1)
  | count + 1, i, renderer =>
    match heapGet renderer.bufferHeap buffer with
    | none => none
    | some b =>
      let subBuffer := renderer.subBufferHeap.length
      let r0 : VulkanRenderer :=
        { renderer with
          subBufferHeap := renderer.subBufferHeap ++ [none]
          bufferHeap := renderer.bufferHeap.set buffer
            (some { b with subBuffers := b.subBuffers ++ [subBuffer] }) }
      match (answers i).vkCreateBuffer with
      | none => some (r0, 0)
      | some vkBuffer =>
        match VULKAN_INTERNAL_FindAvailableMemory r0.memoryAllocator vkBuffer 0
            (answers i).requirements (answers i).vkAllocateMemory with
        | none => none
        | some (allocator, findMemoryResult, span) =>
          let r1 : VulkanRenderer := { r0 with memoryAllocator := allocator }
          /- We're out of available memory -/
          if findMemoryResult = 2 then some (r1, 2)
          else if findMemoryResult = 0 then some (r1, 0)
          else
            match span with
            | none => none
            | some x =>
              if (answers i).vkBindBufferMemory = false then some (r1, 0)
              else
                let r2 : VulkanRenderer :=
                  { r1 with
                    subBufferHeap := r1.subBufferHeap.set subBuffer
                      (some { allocation := x.allocation, buffer := vkBuffer,
                              offset := x.offset, size := x.size,
                              resourceAccessType := resourceAccessType, bound := -1 }) }
                match heapGet r2.bufferHeap buffer with
                | none => none
                | some b2 =>
                  match VULKAN_INTERNAL_BufferMemoryBarrier r2 driver b2.resourceAccessType
                      buffer subBuffer with
                  | none => none
                  | some r3 =>
                    createSubBuffers driver answers resourceAccessType buffer count (i + 1) r3

/-- `VULKAN_INTERNAL_CreateBuffer`; `buffer` points to an allocated, uninitialised
object.  The result is the state and the return code. -/
def VULKAN_INTERNAL_CreateBuffer (renderer : VulkanRenderer) (driver : DriverResults)
    (answers : Nat → SubBufferDriverResults) (size : Nat)
    (resourceAccessType : VulkanResourceAccessType) (usage subBufferCount buffer : Nat) :
    Option (VulkanRenderer × Nat) :=
  if buffer < renderer.bufferHeap.length then
    createSubBuffers driver answers resourceAccessType buffer subBufferCount 0
      { renderer with
        bufferHeap := renderer.bufferHeap.set buffer
          (some { size := size, subBuffers := [], currentSubBufferIndex := 0,
                  resourceAccessType := resourceAccessType, usage := usage,
                  bound := 0, boundSubmitted := 0 }) }
  else none

/-- `VULKAN_CreateVertexBuffer`: the state and the returned handle, `none` for
`NULL`.  `!result` holds for the code 0 only. -/
def VULKAN_CreateVertexBuffer (renderer : VulkanRenderer) (driver : DriverResults)
    (answers : Nat → SubBufferDriverResults) (sizeInBytes : Nat) :
    Option (VulkanRenderer × Option Nat) :=
  let buffer := renderer.bufferHeap.length
  match VULKAN_INTERNAL_CreateBuffer
      { renderer with bufferHeap := renderer.bufferHeap ++ [none] } driver answers
      sizeInBytes .RESOURCE_ACCESS_VERTEX_BUFFER VK_BUFFER_USAGE_VERTEX_BUFFER_BIT
      SUB_BUFFER_COUNT buffer with
  | none => none
  | some (r1, result) =>
    if result = 0 then some (r1, none)
    else some (r1, some buffer)

/-- `VULKAN_CreateIndexBuffer`. -/
def VULKAN_CreateIndexBuffer (renderer : VulkanRenderer) (driver : DriverResults)
    (answers : Nat → SubBufferDriverResults) (sizeInBytes : Nat) :
    Option (VulkanRenderer × Option Nat) :=
  let buffer := renderer.bufferHeap.length
  match VULKAN_INTERNAL_CreateBuffer
      { renderer with bufferHeap := renderer.bufferHeap ++ [none] } driver answers
      sizeInBytes .RESOURCE_ACCESS_INDEX_BUFFER VK_BUFFER_USAGE_INDEX_BUFFER_BIT
      SUB_BUFFER_COUNT buffer with
  | none => none
  | some (r1, result) =>
    if result = 0 then some (r1, none)
    else some (r1, some buffer)

/-- `VULKAN_INTERNAL_CreateTexture`; `texture` points to an allocated,
uninitialised object.  Of the parameters only `isCube` and `levelCount` reach the
fields of the model; the others fill the create-infos handed to the driver, whose
answers are `answers`.  A failing `vkCreateImage` is only logged, and the code goes
on to read `texture->image`, which nothing has written: that is `none`.  The
texture holds a value once the last field is written; at an early return it stays
`none`. -/
def VULKAN_INTERNAL_CreateTexture (renderer : VulkanRenderer)
    (answers : TextureDriverResults) (isCube levelCount texture : Nat) :
    Option (VulkanRenderer × Nat) :=
  let layerCount := if isCube ≠ 0 then 6 else 1
  if texture < renderer.textureHeap.length then
    match answers.vkCreateImage with
    | none => none
    | some image =>
      match VULKAN_INTERNAL_FindAvailableMemory renderer.memoryAllocator 0 image
          answers.requirements answers.vkAllocateMemory with
      | none => none
      | some (allocator, findMemoryResult, span) =>
        let r1 : VulkanRenderer := { renderer with memoryAllocator := allocator }
        /- No device memory available, time to die -/
        if findMemoryResult = 0 ∨ findMemoryResult = 2 then some (r1, 0)
        else
          match span with
          | none => none
          | some x =>
            if answers.vkBindImageMemory = false then some (r1, 0)
            else
              match answers.vkCreateImageView with
              | none => some (r1, 0)
              | some view =>
                some ({ r1 with
                  textureHeap := r1.textureHeap.set texture
                    (some { allocation := x.allocation, offset := x.offset,
                            memorySize := x.size, image := image, view := view,
                            layerCount := layerCount, levelCount := levelCount,
                            resourceAccessType := .RESOURCE_ACCESS_NONE }) }, 1)
  else none

/-- The common body of `VULKAN_CreateTexture2D`, `VULKAN_CreateTexture3D` and
`VULKAN_CreateTextureCube`: allocate the object, call
`VULKAN_INTERNAL_CreateTexture` without looking at what it returns, store
`colorFormat` and return the pointer. -/
def createTextureObject (renderer : VulkanRenderer) (answers : TextureDriverResults)
    (isCube levelCount : Nat) : Option (VulkanRenderer × Option Nat) :=
  let result := renderer.textureHeap.length
  match VULKAN_INTERNAL_CreateTexture
      { renderer with textureHeap := renderer.textureHeap ++ [none] } answers isCube
      levelCount result with
  | none => none
  | some (r1, _) => some (r1, some result)

/-- `VULKAN_CreateTexture2D`: the state and the returned handle. -/
def VULKAN_CreateTexture2D (renderer : VulkanRenderer) (answers : TextureDriverResults)
    (levelCount : Nat) : Option (VulkanRenderer × Option Nat) :=
  createTextureObject renderer answers 0 levelCount

/-- `VULKAN_CreateTexture3D`. -/
def VULKAN_CreateTexture3D (renderer : VulkanRenderer) (answers : TextureDriverResults)
    (levelCount : Nat) : Option (VulkanRenderer × Option Nat) :=
  createTextureObject renderer answers 0 levelCount

/-- `VULKAN_CreateTextureCube`. -/
def VULKAN_CreateTextureCube (renderer : VulkanRenderer) (answers : TextureDriverResults)
    (levelCount : Nat) : Option (VulkanRenderer × Option Nat) :=
  createTextureObject renderer answers 1 levelCount

/-! ## Deferred destruction and frame submission -/

def UBO_BUFFER_SIZE : Nat := 8000000

/-- `VULKAN_INTERNAL_RemoveBuffer`. -/
def VULKAN_INTERNAL_RemoveBuffer (renderer : VulkanRenderer) (buffer : Nat) : VulkanRenderer :=
  { renderer with
    deferred := { renderer.deferred with
      buffersToDestroy := renderer.deferred.buffersToDestroy ++ [buffer] } }

def VULKAN_AddDisposeTexture (renderer : VulkanRenderer) (texture : Nat) : VulkanRenderer :=
  { renderer with
    deferred := { renderer.deferred with
      texturesToDestroy := renderer.deferred.texturesToDestroy ++ [texture] } }

def VULKAN_AddDisposeSampler (renderer : VulkanRenderer) (sampler : Nat) : VulkanRenderer :=
  { renderer with
    deferred := { renderer.deferred with
      samplersToDestroy := renderer.deferred.samplersToDestroy ++ [sampler] } }

def VULKAN_AddDisposeVertexBuffer (renderer : VulkanRenderer) (buffer : Nat) : VulkanRenderer :=
  VULKAN_INTERNAL_RemoveBuffer renderer buffer

def VULKAN_AddDisposeIndexBuffer (renderer : VulkanRenderer) (buffer : Nat) : VulkanRenderer :=
  VULKAN_INTERNAL_RemoveBuffer renderer buffer

def VULKAN_AddDisposeColorTarget (renderer : VulkanRenderer) (colorTarget : Nat) :
    VulkanRenderer :=
  { renderer with
    deferred := { renderer.deferred with
      colorTargetsToDestroy := renderer.deferred.colorTargetsToDestroy ++ [colorTarget] } }

def VULKAN_AddDisposeDepthStencilTarget (renderer : VulkanRenderer)
    (depthStencilTarget : Nat) : VulkanRenderer :=
  { renderer with
    deferred := { renderer.deferred with
      depthStencilTargetsToDestroy :=
        renderer.deferred.depthStencilTargetsToDestroy ++ [depthStencilTarget] } }

def VULKAN_AddDisposeFramebuffer (renderer : VulkanRenderer) (framebuffer : Nat) :
    VulkanRenderer :=
  { renderer with
    deferred := { renderer.deferred with
      framebuffersToDestroy := renderer.deferred.framebuffersToDestroy ++ [framebuffer] } }

def VULKAN_AddDisposeShaderModule (renderer : VulkanRenderer) (shaderModule : Nat) :
    VulkanRenderer :=
  { renderer with
    deferred := { renderer.deferred with
      shaderModulesToDestroy := renderer.deferred.shaderModulesToDestroy ++ [shaderModule] } }

def VULKAN_AddDisposeRenderPass (renderer : VulkanRenderer) (renderPass : Nat) :
    VulkanRenderer :=
  { renderer with
    deferred := { renderer.deferred with
      renderPassesToDestroy := renderer.deferred.renderPassesToDestroy ++ [renderPass] } }

def VULKAN_AddDisposeGraphicsPipeline (renderer : VulkanRenderer) (graphicsPipeline : Nat) :
    VulkanRenderer :=
  { renderer with
    deferred := { renderer.deferred with
      graphicsPipelinesToDestroy :=
        renderer.deferred.graphicsPipelinesToDestroy ++ [graphicsPipeline] } }

/-- One of the loops "Destroy submitted resources" of `PostWorkCleanup`: the destroy
function of the kind is called on every element of the list, in order.  Each call
is noted in `destroyCalls`. -/
def destroyEach (kind : DisposeKind)
    (destroy : VulkanRenderer → Nat → Option VulkanRenderer) :
    VulkanRenderer → List Nat → Option VulkanRenderer
  | renderer, [] => some renderer
  | renderer, resource :: rest =>
    match destroy
        { renderer with destroyCalls := renderer.destroyCalls ++ [(kind, resource)] }
        resource with
    | none => none
    | some r1 => destroyEach kind destroy r1 rest

/-- The first part of `PostWorkCleanup`, "Destroy submitted resources": nine loops
over the submitted lists. -/
def destroySubmittedResources (renderer : VulkanRenderer) : Option VulkanRenderer :=
  (destroyEach .colorTarget VULKAN_INTERNAL_DestroyColorTarget renderer
    renderer.deferred.submittedColorTargetsToDestroy).bind fun r1 =>
  (destroyEach .depthStencilTarget VULKAN_INTERNAL_DestroyDepthStencilTarget r1
    r1.deferred.submittedDepthStencilTargetsToDestroy).bind fun r2 =>
  (destroyEach .texture VULKAN_INTERNAL_DestroyTexture r2
    r2.deferred.submittedTexturesToDestroy).bind fun r3 =>
  (destroyEach .buffer VULKAN_INTERNAL_DestroyBuffer r3
    r3.deferred.submittedBuffersToDestroy).bind fun r4 =>
  (destroyEach .graphicsPipeline VULKAN_INTERNAL_DestroyGraphicsPipeline r4
    r4.deferred.submittedGraphicsPipelinesToDestroy).bind fun r5 =>
  (destroyEach .shaderModule VULKAN_INTERNAL_DestroyShaderModule r5
    r5.deferred.submittedShaderModulesToDestroy).bind fun r6 =>
  (destroyEach .sampler VULKAN_INTERNAL_DestroySampler r6
    r6.deferred.submittedSamplersToDestroy).bind fun r7 =>
  (destroyEach .framebuffer VULKAN_INTERNAL_DestroyFramebuffer r7
    r7.deferred.submittedFramebuffersToDestroy).bind fun r8 =>
  destroyEach .renderPass VULKAN_INTERNAL_DestroyRenderPass r8
    r8.deferred.submittedRenderPassesToDestroy

/-- "Rotate destroy lists" (`MOVE_ARRAY_CONTENTS_AND_RESET`, nine times): every
submitted list takes the contents of its to-destroy list, which becomes empty. -/
def rotateDestroyLists (d : DeferredDestroyStorage) : DeferredDestroyStorage :=
  { colorTargetsToDestroy := [],
    submittedColorTargetsToDestroy := d.colorTargetsToDestroy,
    depthStencilTargetsToDestroy := [],
    submittedDepthStencilTargetsToDestroy := d.depthStencilTargetsToDestroy,
    texturesToDestroy := [],
    submittedTexturesToDestroy := d.texturesToDestroy,
    buffersToDestroy := [],
    submittedBuffersToDestroy := d.buffersToDestroy,
    graphicsPipelinesToDestroy := [],
    submittedGraphicsPipelinesToDestroy := d.graphicsPipelinesToDestroy,
    shaderModulesToDestroy := [],
    submittedShaderModulesToDestroy := d.shaderModulesToDestroy,
    samplersToDestroy := [],
    submittedSamplersToDestroy := d.samplersToDestroy,
    framebuffersToDestroy := [],
    submittedFramebuffersToDestroy := d.framebuffersToDestroy,
    renderPassesToDestroy := [],
    submittedRenderPassesToDestroy := d.renderPassesToDestroy }

/-- The inner loop of "Mark sub buffers of previously submitted buffers as unbound":
a sub-buffer whose `bound` equals the frame index gets `bound = -1`. -/
def unmarkSubBuffers (frameIndex : Nat) :
    List (Option VulkanSubBuffer) → List Nat → Option (List (Option VulkanSubBuffer))
  | heap, [] => some heap
  | heap, subBuffer :: rest =>
    match heapGet heap subBuffer with
    | none => none
    | some sb =>
      unmarkSubBuffers frameIndex
        (if int8ToUInt32 sb.bound = frameIndex then
          heap.set subBuffer (some { sb with bound := -1 })
        else heap)
        rest

/-- The loop over `submittedBuffers`. -/
def unmarkSubmittedBuffers : VulkanRenderer → List Nat → Option VulkanRenderer
  | renderer, [] => some renderer
  | renderer, buffer :: rest =>
    match heapGet renderer.bufferHeap buffer with
    | none => none
    | some b =>
      match unmarkSubBuffers renderer.frameIndex renderer.subBufferHeap b.subBuffers with
      | none => none
      | some heap =>
        unmarkSubmittedBuffers
          { renderer with
            bufferHeap := renderer.bufferHeap.set buffer (some { b with boundSubmitted := 0 })
            subBufferHeap := heap }
          rest

/-- The loop over `buffersInUse`, "Mark currently bound buffers as submitted
buffers". -/
def markBuffersSubmitted : VulkanRenderer → List Nat → Option VulkanRenderer
  | renderer, [] => some renderer
  | renderer, buffer :: rest =>
    match heapGet renderer.bufferHeap buffer with
    | none => none
    | some b =>
      markBuffersSubmitted
        { renderer with
          bufferHeap := renderer.bufferHeap.set buffer
            (some { b with bound := 0, boundSubmitted := 1 }) }
        rest

/-- `VULKAN_INTERNAL_PostWorkCleanup`. -/
def VULKAN_INTERNAL_PostWorkCleanup (renderer : VulkanRenderer) : Option VulkanRenderer :=
  match destroySubmittedResources renderer with
  | none => none
  | some r1 =>
    match unmarkSubmittedBuffers
        { r1 with
          deferred := rotateDestroyLists r1.deferred
          frameIndex := (r1.frameIndex + 1) % 2 }
        r1.submittedBuffers with
    | none => none
    | some r3 =>
      match markBuffersSubmitted r3 r3.buffersInUse with
      | none => none
      | some r4 => some { r4 with submittedBuffers := r4.buffersInUse, buffersInUse := [] }

/-- The sweep of one cache of a pipeline layout, if the layout has it. -/
def deactivateCacheOf (renderer : VulkanRenderer) : Option Nat → Option VulkanRenderer
  | none => some renderer
  | some cache =>
    match heapGet renderer.samplerDescriptorSetCacheHeap cache with
    | none => none
    | some c =>
      match VULKAN_INTERNAL_DeactivateUnusedDescriptorSets c with
      | none => none
      | some c1 =>
        some { renderer with
          samplerDescriptorSetCacheHeap :=
            renderer.samplerDescriptorSetCacheHeap.set cache (some c1) }

/-- The loops of `ResetDescriptorSetData` over the pipeline layouts of the hash
table. -/
def resetDescriptorSetDataOf :
    VulkanRenderer → List VulkanGraphicsPipelineLayout → Option VulkanRenderer
  | renderer, [] => some renderer
  | renderer, pipelineLayout :: rest =>
    match deactivateCacheOf renderer pipelineLayout.vertexSamplerDescriptorSetCache with
    | none => none
    | some r1 =>
      match deactivateCacheOf r1 pipelineLayout.fragmentSamplerDescriptorSetCache with
      | none => none
      | some r2 => resetDescriptorSetDataOf r2 rest

def VULKAN_INTERNAL_ResetDescriptorSetData (renderer : VulkanRenderer) : Option VulkanRenderer :=
  resetDescriptorSetDataOf renderer renderer.pipelineLayouts

/-- `VULKAN_Submit` from "Mark the previously submitted command buffers as
inactive" on, after the cleanup.  `present` is the flag computed on entry.
`VULKAN_INTERNAL_RecreateSwapchain` touches swapchain fields only, which the
renderer of the embedding does not have. -/
def submitAfterCleanup (renderer : VulkanRenderer) (driver : DriverResults) (present : Bool) :
    Option VulkanRenderer :=
  if driver.vkQueueSubmit = false then
    some { renderer with
      inactiveCommandBuffers :=
        renderer.inactiveCommandBuffers ++ renderer.submittedCommandBuffers
      submittedCommandBuffers := [] }
  else
    match VULKAN_INTERNAL_ResetDescriptorSetData
        { renderer with
          inactiveCommandBuffers :=
            renderer.inactiveCommandBuffers ++ renderer.submittedCommandBuffers
          calls := renderer.calls ++ [.vkQueueSubmit renderer.activeCommandBuffers]
          submittedCommandBuffers := renderer.activeCommandBuffers
          activeCommandBuffers := []
          vertexUBOOffset := (UBO_BUFFER_SIZE * renderer.frameIndex) % UINT32_MOD
          vertexUBOBlockIncrement := 0
          fragmentUBOOffset := (UBO_BUFFER_SIZE * renderer.frameIndex) % UINT32_MOD
          fragmentUBOBlockIncrement := 0 } with
    | none => none
    | some r1 =>
      VULKAN_INTERNAL_BeginCommandBuffer
        { r1 with
          calls := if present then r1.calls ++ [.vkQueuePresentKHR] else r1.calls
          swapChainImageAcquired := false
          shouldPresent := false }
        driver

/-- `VULKAN_Submit`. -/
def VULKAN_Submit (renderer : VulkanRenderer) (driver : DriverResults) : Option VulkanRenderer :=
  if renderer.activeCommandBuffers.length ≤ 1 ∧ renderer.numActiveCommands = 0 then
    some renderer
  else if driver.vkWaitForFences = false then
    some (if renderer.currentCommandBuffer ≠ none then
      VULKAN_INTERNAL_EndCommandBuffer renderer else renderer)
  else
    match VULKAN_INTERNAL_PostWorkCleanup
        (if renderer.currentCommandBuffer ≠ none then
          VULKAN_INTERNAL_EndCommandBuffer renderer else renderer) with
    | none => none
    | some r1 =>
      submitAfterCleanup r1 driver (!renderer.headless && renderer.shouldPresent)

/-! ## Helpers for statements about the renderer -/

/-- Only the command-buffer bookkeeping and the record of calls differ. -/
def CommandFrame (r r1 : VulkanRenderer) : Prop :=
  r1 = { r with
    inactiveCommandBuffers := r1.inactiveCommandBuffers
    activeCommandBuffers := r1.activeCommandBuffers
    allocatedCommandBufferCount := r1.allocatedCommandBufferCount
    currentCommandBuffer := r1.currentCommandBuffer
    numActiveCommands := r1.numActiveCommands
    nextCommandBufferHandle := r1.nextCommandBufferHandle
    calls := r1.calls }

/-- A command buffer can be made current: one is inactive, or new ones can be
requested (at least one, or the request fails). -/
def CommandBufferAvailable (r : VulkanRenderer) (driver : DriverResults) : Prop :=
  r.inactiveCommandBuffers ≠ [] ∨ 0 < r.allocatedCommandBufferCount ∨
    driver.vkAllocateCommandBuffers = false

/-- The `AddDispose*` entry point of a kind of resource. -/
def addDispose : DisposeKind → VulkanRenderer → Nat → VulkanRenderer
  | .colorTarget => VULKAN_AddDisposeColorTarget
  | .depthStencilTarget => VULKAN_AddDisposeDepthStencilTarget
  | .texture => VULKAN_AddDisposeTexture
  | .buffer => VULKAN_AddDisposeVertexBuffer
  | .graphicsPipeline => VULKAN_AddDisposeGraphicsPipeline
  | .shaderModule => VULKAN_AddDisposeShaderModule
  | .sampler => VULKAN_AddDisposeSampler
  | .framebuffer => VULKAN_AddDisposeFramebuffer
  | .renderPass => VULKAN_AddDisposeRenderPass

/-- The to-destroy list of a kind. -/
def toDestroyOf : DisposeKind → DeferredDestroyStorage → List Nat
  | .colorTarget, d => d.colorTargetsToDestroy
  | .depthStencilTarget, d => d.depthStencilTargetsToDestroy
  | .texture, d => d.texturesToDestroy
  | .buffer, d => d.buffersToDestroy
  | .graphicsPipeline, d => d.graphicsPipelinesToDestroy
  | .shaderModule, d => d.shaderModulesToDestroy
  | .sampler, d => d.samplersToDestroy
  | .framebuffer, d => d.framebuffersToDestroy
  | .renderPass, d => d.renderPassesToDestroy

/-- The submitted-to-destroy list of a kind. -/
def submittedToDestroyOf : DisposeKind → DeferredDestroyStorage → List Nat
  | .colorTarget, d => d.submittedColorTargetsToDestroy
  | .depthStencilTarget, d => d.submittedDepthStencilTargetsToDestroy
  | .texture, d => d.submittedTexturesToDestroy
  | .buffer, d => d.submittedBuffersToDestroy
  | .graphicsPipeline, d => d.submittedGraphicsPipelinesToDestroy
  | .shaderModule, d => d.submittedShaderModulesToDestroy
  | .sampler, d => d.submittedSamplersToDestroy
  | .framebuffer, d => d.submittedFramebuffersToDestroy
  | .renderPass, d => d.submittedRenderPassesToDestroy

/-- The cleanup step of `VULKAN_Submit` runs: commands were recorded and the wait
for the fence of the previous submission succeeds. -/
def submitRunsCleanup (renderer : VulkanRenderer) (driver : DriverResults) : Bool :=
  !(decide (renderer.activeCommandBuffers.length ≤ 1) && decide (renderer.numActiveCommands = 0))
    && driver.vkWaitForFences

/-- Fields that no destroy function and no part of the cleanup after the destroy
loops writes, except where stated. -/
structure Untouched (r r1 : VulkanRenderer) : Prop where
  deferred : r1.deferred = r.deferred
  frameIndex : r1.frameIndex = r.frameIndex
  buffersInUse : r1.buffersInUse = r.buffersInUse
  submittedBuffers : r1.submittedBuffers = r.submittedBuffers
  numActiveCommands : r1.numActiveCommands = r.numActiveCommands
  destroyCalls : r1.destroyCalls = r.destroyCalls

/-- The buffers and sub-buffers are the same objects with the same contents. -/
structure SameBuffers (r r1 : VulkanRenderer) : Prop where
  bufferHeap : r1.bufferHeap = r.bufferHeap
  subBufferHeap : r1.subBufferHeap = r.subBufferHeap

/-- The memory span of a sub-buffer. -/
def subBufferSpan (sb : VulkanSubBuffer) : MemorySpan :=
  { allocation := sb.allocation, offset := sb.offset, size := sb.size }

/-- The destroy calls that the loops of `PostWorkCleanup` make for the submitted
lists `d`, in order. -/
def submittedDestroyCalls (d : DeferredDestroyStorage) : List (DisposeKind × Nat) :=
  d.submittedColorTargetsToDestroy.map (fun p => (DisposeKind.colorTarget, p)) ++
  d.submittedDepthStencilTargetsToDestroy.map (fun p => (DisposeKind.depthStencilTarget, p)) ++
  d.submittedTexturesToDestroy.map (fun p => (DisposeKind.texture, p)) ++
  d.submittedBuffersToDestroy.map (fun p => (DisposeKind.buffer, p)) ++
  d.submittedGraphicsPipelinesToDestroy.map (fun p => (DisposeKind.graphicsPipeline, p)) ++
  d.submittedShaderModulesToDestroy.map (fun p => (DisposeKind.shaderModule, p)) ++
  d.submittedSamplersToDestroy.map (fun p => (DisposeKind.sampler, p)) ++
  d.submittedFramebuffersToDestroy.map (fun p => (DisposeKind.framebuffer, p)) ++
  d.submittedRenderPassesToDestroy.map (fun p => (DisposeKind.renderPass, p))

/-! ## Uniform buffer cursors -/

def UBO_ACTUAL_SIZE : Nat := UBO_BUFFER_SIZE * 2

def VK_BUFFER_USAGE_UNIFORM_BUFFER_BIT : Nat := 0x00000010

/-- `VULKAN_PushVertexShaderParams`.  `vertexUBO` stands for `renderer->vertexUBO`
and `vertexUBOBlockSize` for `renderer->currentGraphicsPipeline->vertexUBOBlockSize`
(a `VkDeviceSize`); `data` holds the bytes behind the pointer `data`, of which
`elementCount * vertexUBOBlockSize`, passed as the `uint32_t dataLength`, are
copied.  The result is the renderer and the returned offset, 0 when the overflow is
reported. -/
def VULKAN_PushVertexShaderParams (renderer : VulkanRenderer) (driver : DriverResults)
    (vertexUBO vertexUBOBlockSize : Nat) (data : List Nat) (elementCount : Nat) :
    Option (VulkanRenderer × Nat) :=
  let r1 : VulkanRenderer :=
    { renderer with
      vertexUBOOffset :=
        (renderer.vertexUBOOffset + renderer.vertexUBOBlockIncrement) % UINT32_MOD
      vertexUBOBlockIncrement := vertexUBOBlockSize }
  if (r1.vertexUBOOffset + vertexUBOBlockSize) % DEVICE_SIZE_MOD ≥
      (UBO_BUFFER_SIZE * ((r1.frameIndex + 1) % UINT32_MOD)) % UINT32_MOD then
    some (r1, 0)
  else
    let dataLength := (elementCount * vertexUBOBlockSize) % UINT32_MOD
    if data.length < dataLength then none
    else
      match VULKAN_INTERNAL_SetBufferData r1 driver vertexUBO r1.vertexUBOOffset
          (data.take dataLength) with
      | none => none
      | some r2 => some (r2, r1.vertexUBOOffset)

/-- `VULKAN_PushFragmentShaderParams`, with `fragmentUBO` and
`fragmentUBOBlockSize` as in `VULKAN_PushVertexShaderParams`. -/
def VULKAN_PushFragmentShaderParams (renderer : VulkanRenderer) (driver : DriverResults)
    (fragmentUBO fragmentUBOBlockSize : Nat) (data : List Nat) (elementCount : Nat) :
    Option (VulkanRenderer × Nat) :=
  let r1 : VulkanRenderer :=
    { renderer with
      fragmentUBOOffset :=
        (renderer.fragmentUBOOffset + renderer.fragmentUBOBlockIncrement) % UINT32_MOD
      fragmentUBOBlockIncrement := fragmentUBOBlockSize }
  if (r1.fragmentUBOOffset + fragmentUBOBlockSize) % DEVICE_SIZE_MOD ≥
      (UBO_BUFFER_SIZE * ((r1.frameIndex + 1) % UINT32_MOD)) % UINT32_MOD then
    some (r1, 0)
  else
    let dataLength := (elementCount * fragmentUBOBlockSize) % UINT32_MOD
    if data.length < dataLength then none
    else
      match VULKAN_INTERNAL_SetBufferData r1 driver fragmentUBO r1.fragmentUBOOffset
          (data.take dataLength) with
      | none => none
      | some r2 => some (r2, r1.fragmentUBOOffset)

/-! ## Layout hash tables -/

def NUM_DESCRIPTOR_SET_LAYOUT_BUCKETS : Nat := 1031
def NUM_PIPELINE_LAYOUT_BUCKETS : Nat := 1031

def VK_DESCRIPTOR_TYPE_COMBINED_IMAGE_SAMPLER : Nat := 1
def VK_SHADER_STAGE_VERTEX_BIT : Nat := 0x00000001
def VK_SHADER_STAGE_FRAGMENT_BIT : Nat := 0x00000010

/-- `NULL_DESC_LAYOUT` and `VK_NULL_HANDLE`. -/
def NULL_DESC_LAYOUT : Nat := 0

structure SamplerDescriptorSetLayoutHash where
  descriptorType : Nat
  stageFlag : Nat
  samplerBindingCount : Nat
deriving DecidableEq, Repr

structure SamplerDescriptorSetLayoutHashMap where
  key : SamplerDescriptorSetLayoutHash
  value : Nat
deriving DecidableEq, Repr

structure SamplerDescriptorSetLayoutHashArray where
  elements : List SamplerDescriptorSetLayoutHashMap
  capacity : Nat
deriving DecidableEq, Repr

/-- The array `buckets` of `SamplerDescriptorSetLayoutHashTable`. -/
structure SamplerDescriptorSetLayoutHashTable where
  buckets : List SamplerDescriptorSetLayoutHashArray
deriving DecidableEq, Repr

def SamplerDescriptorSetLayoutHashTable_GetHashCode (key : SamplerDescriptorSetLayoutHash) :
    Nat :=
  let HASH_FACTOR := 97
  let result := 1
  let result := (result * HASH_FACTOR + key.descriptorType) % DEVICE_SIZE_MOD
  let result := (result * HASH_FACTOR + key.samplerBindingCount) % DEVICE_SIZE_MOD
  let result := (result * HASH_FACTOR + key.stageFlag) % DEVICE_SIZE_MOD
  result

/-- The comparison in the loop of `SamplerDescriptorSetLayoutHashTable_Fetch`. -/
def samplerLayoutHashMatches (key : SamplerDescriptorSetLayoutHash)
    (e : SamplerDescriptorSetLayoutHashMap) : Bool :=
  decide (key.descriptorType = e.key.descriptorType) &&
  decide (key.samplerBindingCount = e.key.samplerBindingCount) &&
  decide (key.stageFlag = e.key.stageFlag)

/-- `SamplerDescriptorSetLayoutHashTable_Fetch`: the value of the first element of
the bucket with an equal key, `VK_NULL_HANDLE` if there is none. -/
def SamplerDescriptorSetLayoutHashTable_Fetch (table : SamplerDescriptorSetLayoutHashTable)
    (key : SamplerDescriptorSetLayoutHash) : Option Nat :=
  let hashcode := SamplerDescriptorSetLayoutHashTable_GetHashCode key
  match table.buckets[hashcode % NUM_DESCRIPTOR_SET_LAYOUT_BUCKETS]? with
  | none => none
  | some arr =>
    match arr.elements.find? (samplerLayoutHashMatches key) with
    | some e => some e.value
    | none => some NULL_DESC_LAYOUT

/-- `SamplerDescriptorSetLayoutHashTable_Insert`: the pair goes to the end of its
bucket (`EXPAND_ELEMENTS_IF_NEEDED(arr, 4, ...)`). -/
def SamplerDescriptorSetLayoutHashTable_Insert (table : SamplerDescriptorSetLayoutHashTable)
    (key : SamplerDescriptorSetLayoutHash) (value : Nat) :
    Option SamplerDescriptorSetLayoutHashTable :=
  let hashcode := SamplerDescriptorSetLayoutHashTable_GetHashCode key
  match table.buckets[hashcode % NUM_DESCRIPTOR_SET_LAYOUT_BUCKETS]? with
  | none => none
  | some arr =>
    let arr1 : SamplerDescriptorSetLayoutHashArray :=
      { elements := arr.elements ++ [{ key := key, value := value }],
        capacity :=
          if arr.elements.length = arr.capacity then
            (if arr.capacity = 0 then 4 else arr.capacity * 2)
          else arr.capacity }
    some { buckets := table.buckets.set (hashcode % NUM_DESCRIPTOR_SET_LAYOUT_BUCKETS) arr1 }

structure PipelineLayoutHash where
  vertexSamplerLayout : Nat
  fragmentSamplerLayout : Nat
  vertexUniformLayout : Nat
  fragmentUniformLayout : Nat
deriving DecidableEq, Repr

/-- The value is a pointer to a `VulkanGraphicsPipelineLayout`. -/
structure PipelineLayoutHashMap where
  key : PipelineLayoutHash
  value : Nat
deriving DecidableEq, Repr

structure PipelineLayoutHashArray where
  elements : List PipelineLayoutHashMap
  capacity : Nat
deriving DecidableEq, Repr

/-- The array `buckets` of `PipelineLayoutHashTable`. -/
structure PipelineLayoutHashTable where
  buckets : List PipelineLayoutHashArray
deriving DecidableEq, Repr

def PipelineLayoutHashTable_GetHashCode (key : PipelineLayoutHash) : Nat :=
  let HASH_FACTOR := 97
  let result := 1
  let result := (result * HASH_FACTOR + key.vertexSamplerLayout) % DEVICE_SIZE_MOD
  let result := (result * HASH_FACTOR + key.fragmentSamplerLayout) % DEVICE_SIZE_MOD
  let result := (result * HASH_FACTOR + key.vertexUniformLayout) % DEVICE_SIZE_MOD
  let result := (result * HASH_FACTOR + key.fragmentUniformLayout) % DEVICE_SIZE_MOD
  result

/-- The comparison in the loop of `PipelineLayoutHashArray_Fetch`. -/
def pipelineLayoutHashMatches (key : PipelineLayoutHash) (e : PipelineLayoutHashMap) : Bool :=
  decide (key.vertexSamplerLayout = e.key.vertexSamplerLayout) &&
  decide (key.fragmentSamplerLayout = e.key.fragmentSamplerLayout) &&
  decide (key.vertexUniformLayout = e.key.vertexUniformLayout) &&
  decide (key.fragmentUniformLayout = e.key.fragmentUniformLayout)

/-- `PipelineLayoutHashArray_Fetch`: the value of the first element of the bucket
with an equal key; the inner `none` is `NULL`. -/
def PipelineLayoutHashArray_Fetch (table : PipelineLayoutHashTable)
    (key : PipelineLayoutHash) : Option (Option Nat) :=
  let hashcode := PipelineLayoutHashTable_GetHashCode key
  match table.buckets[hashcode % NUM_PIPELINE_LAYOUT_BUCKETS]? with
  | none => none
  | some arr =>
    some ((arr.elements.find? (pipelineLayoutHashMatches key)).map (fun e => e.value))

/-- `PipelineLayoutHashArray_Insert`: the pair goes to the end of its bucket. -/
def PipelineLayoutHashArray_Insert (table : PipelineLayoutHashTable)
    (key : PipelineLayoutHash) (value : Nat) : Option PipelineLayoutHashTable :=
  let hashcode := PipelineLayoutHashTable_GetHashCode key
  match table.buckets[hashcode % NUM_PIPELINE_LAYOUT_BUCKETS]? with
  | none => none
  | some arr =>
    let arr1 : PipelineLayoutHashArray :=
      { elements := arr.elements ++ [{ key := key, value := value }],
        capacity :=
          if arr.elements.length = arr.capacity then
            (if arr.capacity = 0 then 4 else arr.capacity * 2)
          else arr.capacity }
    some { buckets := table.buckets.set (hashcode % NUM_PIPELINE_LAYOUT_BUCKETS) arr1 }

/-- A driver call or object creation made by the layout functions. -/
inductive LayoutCall where
  | vkCreateDescriptorSetLayout (stageFlags bindingCount : Nat)
  | vkCreatePipelineLayout (setLayouts : List Nat)
  | createSamplerDescriptorSetCache (descriptorSetLayout samplerBindingCount : Nat)
deriving DecidableEq, Repr

/-- The fields of the renderer that the layout functions read and write, the heaps
of the objects they allocate, and the calls they make. -/
structure PipelineLayoutState where
  samplerDescriptorSetLayoutHashTable : SamplerDescriptorSetLayoutHashTable
  pipelineLayoutHashTable : PipelineLayoutHashTable
  emptyVertexSamplerLayout : Nat
  emptyFragmentSamplerLayout : Nat
  vertexParamLayout : Nat
  fragmentParamLayout : Nat
  pipelineLayoutHeap : List (Option VulkanGraphicsPipelineLayout)
  cacheHeap : List (Option SamplerDescriptorSetCache)
  layoutCalls : List LayoutCall
deriving DecidableEq, Repr

/-- What the driver answers during one `FetchGraphicsPipelineLayout`: the handles
written by `vkCreateDescriptorSetLayout` for the two stages and by
`vkCreatePipelineLayout` (`none` when the result is not `VK_SUCCESS`), and the pool
and the descriptor sets of each new cache. -/
structure LayoutDriverResults where
  vertexSamplerLayout : Option Nat
  fragmentSamplerLayout : Option Nat
  vkCreatePipelineLayout : Option Nat
  vertexCachePool : Nat
  vertexCacheSets : List Nat
  fragmentCachePool : Nat
  fragmentCacheSets : List Nat
deriving DecidableEq, Repr

/-- `VULKAN_INTERNAL_FetchSamplerDescriptorSetLayout`; `created` is what
`vkCreateDescriptorSetLayout` writes if it is called. -/
def VULKAN_INTERNAL_FetchSamplerDescriptorSetLayout (s : PipelineLayoutState)
    (created : Option Nat) (shaderStageFlagBit samplerBindingCount : Nat) :
    Option (PipelineLayoutState × Nat) :=
  if samplerBindingCount = 0 then
    if shaderStageFlagBit = VK_SHADER_STAGE_VERTEX_BIT then
      some (s, s.emptyVertexSamplerLayout)
    else if shaderStageFlagBit = VK_SHADER_STAGE_FRAGMENT_BIT then
      some (s, s.emptyFragmentSamplerLayout)
    else some (s, NULL_DESC_LAYOUT)
  else
    let descriptorSetLayoutHash : SamplerDescriptorSetLayoutHash :=
      { descriptorType := VK_DESCRIPTOR_TYPE_COMBINED_IMAGE_SAMPLER,
        stageFlag := shaderStageFlagBit,
        samplerBindingCount := samplerBindingCount }
    match SamplerDescriptorSetLayoutHashTable_Fetch s.samplerDescriptorSetLayoutHashTable
        descriptorSetLayoutHash with
    | none => none
    | some descriptorSetLayout =>
      if descriptorSetLayout ≠ NULL_DESC_LAYOUT then some (s, descriptorSetLayout)
      else
        let s1 : PipelineLayoutState :=
          { s with layoutCalls := s.layoutCalls ++
              [.vkCreateDescriptorSetLayout shaderStageFlagBit samplerBindingCount] }
        match created with
        | none => some (s1, NULL_DESC_LAYOUT)
        | some newLayout =>
          match SamplerDescriptorSetLayoutHashTable_Insert
              s1.samplerDescriptorSetLayoutHashTable descriptorSetLayoutHash newLayout with
          | none => none
          | some table =>
            some ({ s1 with samplerDescriptorSetLayoutHashTable := table }, newLayout)

/-- The end of `FetchGraphicsPipelineLayout`: a cache is created for a stage with
sampler bindings, and the field is `NULL` for a stage without. -/
def makeStageCache (s : PipelineLayoutState) (descriptorSetLayout samplerBindingCount : Nat)
    (newPool : Nat) (newSets : List Nat) : PipelineLayoutState × Option Nat :=
  if samplerBindingCount = 0 then (s, none)
  else
    ({ s with
        cacheHeap := s.cacheHeap ++
          [some (VULKAN_INTERNAL_CreateSamplerDescriptorSetCache descriptorSetLayout
            samplerBindingCount newPool newSets)]
        layoutCalls := s.layoutCalls ++
          [.createSamplerDescriptorSetCache descriptorSetLayout samplerBindingCount] },
      some s.cacheHeap.length)

/-- `VULKAN_INTERNAL_FetchGraphicsPipelineLayout`: the state and the pointer
returned, `none` for `NULL`.  The layout object is allocated before
`vkCreatePipelineLayout` is called and holds a value once its fields are
written. -/
def VULKAN_INTERNAL_FetchGraphicsPipelineLayout (s : PipelineLayoutState)
    (driver : LayoutDriverResults) (vertexSamplerBindingCount fragmentSamplerBindingCount : Nat) :
    Option (PipelineLayoutState × Option Nat) :=
  match VULKAN_INTERNAL_FetchSamplerDescriptorSetLayout s driver.vertexSamplerLayout
      VK_SHADER_STAGE_VERTEX_BIT vertexSamplerBindingCount with
  | none => none
  | some (s1, vertexSamplerLayout) =>
    match VULKAN_INTERNAL_FetchSamplerDescriptorSetLayout s1 driver.fragmentSamplerLayout
        VK_SHADER_STAGE_FRAGMENT_BIT fragmentSamplerBindingCount with
    | none => none
    | some (s2, fragmentSamplerLayout) =>
      let pipelineLayoutHash : PipelineLayoutHash :=
        { vertexSamplerLayout := vertexSamplerLayout,
          fragmentSamplerLayout := fragmentSamplerLayout,
          vertexUniformLayout := s2.vertexParamLayout,
          fragmentUniformLayout := s2.fragmentParamLayout }
      match PipelineLayoutHashArray_Fetch s2.pipelineLayoutHashTable pipelineLayoutHash with
      | none => none
      | some (some vulkanGraphicsPipelineLayout) => some (s2, some vulkanGraphicsPipelineLayout)
      | some none =>
        let vulkanGraphicsPipelineLayout := s2.pipelineLayoutHeap.length
        let s3 : PipelineLayoutState :=
          { s2 with
            pipelineLayoutHeap := s2.pipelineLayoutHeap ++ [none]
            layoutCalls := s2.layoutCalls ++
              [.vkCreatePipelineLayout
                [vertexSamplerLayout, fragmentSamplerLayout, s2.vertexParamLayout,
                 s2.fragmentParamLayout]] }
        match driver.vkCreatePipelineLayout with
        | none => some (s3, none)
        | some pipelineLayout =>
          match PipelineLayoutHashArray_Insert s3.pipelineLayoutHashTable pipelineLayoutHash
              vulkanGraphicsPipelineLayout with
          | none => none
          | some table =>
            let s4 : PipelineLayoutState := { s3 with pipelineLayoutHashTable := table }
            let v := makeStageCache s4 vertexSamplerLayout vertexSamplerBindingCount
              driver.vertexCachePool driver.vertexCacheSets
            let f := makeStageCache v.1 fragmentSamplerLayout fragmentSamplerBindingCount
              driver.fragmentCachePool driver.fragmentCacheSets
            some ({ f.1 with
                pipelineLayoutHeap := f.1.pipelineLayoutHeap.set vulkanGraphicsPipelineLayout
                  (some { pipelineLayout := pipelineLayout,
                          vertexSamplerDescriptorSetCache := v.2,
                          fragmentSamplerDescriptorSetCache := f.2 }) },
              some vulkanGraphicsPipelineLayout)

/-- The tables as `VULKAN_CreateDevice` leaves them: every bucket is empty. -/
def initialPipelineLayoutState : PipelineLayoutState :=
  { samplerDescriptorSetLayoutHashTable :=
      { buckets := List.replicate NUM_DESCRIPTOR_SET_LAYOUT_BUCKETS
          { elements := [], capacity := 0 } },
    pipelineLayoutHashTable :=
      { buckets := List.replicate NUM_PIPELINE_LAYOUT_BUCKETS { elements := [], capacity := 0 } },
    emptyVertexSamplerLayout := 10,
    emptyFragmentSamplerLayout := 11,
    vertexParamLayout := 12,
    fragmentParamLayout := 13,
    pipelineLayoutHeap := [],
    cacheHeap := [],
    layoutCalls := [] }

/-- A driver whose calls succeed. -/
def okLayoutDriver : LayoutDriverResults :=
  { vertexSamplerLayout := some 20,
    fragmentSamplerLayout := some 21,
    vkCreatePipelineLayout := some 30,
    vertexCachePool := 40,
    vertexCacheSets := List.range' 2000 128,
    fragmentCachePool := 41,
    fragmentCacheSets := List.range' 3000 128 }

def sampleLayoutKey : PipelineLayoutHash :=
  { vertexSamplerLayout := 20, fragmentSamplerLayout := 21, vertexUniformLayout := 12,
    fragmentUniformLayout := 13 }

/-- The key `sampleLayoutKey` inserted twice, with the values 1 and 2. -/
def sampleInsertedTwice : PipelineLayoutHashTable :=
  ((PipelineLayoutHashArray_Insert initialPipelineLayoutState.pipelineLayoutHashTable
      sampleLayoutKey 1).bind
    (fun t => PipelineLayoutHashArray_Insert t sampleLayoutKey 2)).getD
    initialPipelineLayoutState.pipelineLayoutHashTable

/-- Both tables have their 1031 buckets. -/
structure LayoutTablesOk (s : PipelineLayoutState) : Prop where
  sampler : s.samplerDescriptorSetLayoutHashTable.buckets.length =
    NUM_DESCRIPTOR_SET_LAYOUT_BUCKETS
  pipeline : s.pipelineLayoutHashTable.buckets.length = NUM_PIPELINE_LAYOUT_BUCKETS

/-- No element of the table holds `VK_NULL_HANDLE`. -/
def SamplerLayoutsNonNull (table : SamplerDescriptorSetLayoutHashTable) : Prop :=
  ∀ arr, arr ∈ table.buckets → ∀ e, e ∈ arr.elements → e.value ≠ NULL_DESC_LAYOUT

/-- From `s` to `s1` the tables only grew: the four fixed layouts are the same and
every successful fetch of `s` is a fetch of `s1` with the same result. -/
structure LayoutsKept (s s1 : PipelineLayoutState) : Prop where
  emptyVertex : s1.emptyVertexSamplerLayout = s.emptyVertexSamplerLayout
  emptyFragment : s1.emptyFragmentSamplerLayout = s.emptyFragmentSamplerLayout
  vertexParam : s1.vertexParamLayout = s.vertexParamLayout
  fragmentParam : s1.fragmentParamLayout = s.fragmentParamLayout
  sampler : ∀ key h, h ≠ NULL_DESC_LAYOUT →
    SamplerDescriptorSetLayoutHashTable_Fetch s.samplerDescriptorSetLayoutHashTable key =
      some h →
    SamplerDescriptorSetLayoutHashTable_Fetch s1.samplerDescriptorSetLayoutHashTable key =
      some h
  pipeline : ∀ key p,
    PipelineLayoutHashArray_Fetch s.pipelineLayoutHashTable key = some (some p) →
    PipelineLayoutHashArray_Fetch s1.pipelineLayoutHashTable key = some (some p)

/-- The layout that `FetchSamplerDescriptorSetLayout` returns for a stage without
sampler bindings. -/
def emptySamplerLayoutOf (s : PipelineLayoutState) (shaderStageFlagBit : Nat) : Nat :=
  if shaderStageFlagBit = VK_SHADER_STAGE_VERTEX_BIT then s.emptyVertexSamplerLayout
  else if shaderStageFlagBit = VK_SHADER_STAGE_FRAGMENT_BIT then s.emptyFragmentSamplerLayout
  else NULL_DESC_LAYOUT

/-- The layout `h` of the stage is at hand in `s`: it is the empty layout of the
stage, or the table holds it for the binding count. -/
def StageLayoutReady (s : PipelineLayoutState) (shaderStageFlagBit samplerBindingCount h : Nat) :
    Prop :=
  (samplerBindingCount = 0 ∧ h = emptySamplerLayoutOf s shaderStageFlagBit) ∨
  (samplerBindingCount ≠ 0 ∧ h ≠ NULL_DESC_LAYOUT ∧
    SamplerDescriptorSetLayoutHashTable_Fetch s.samplerDescriptorSetLayoutHashTable
      { descriptorType := VK_DESCRIPTOR_TYPE_COMBINED_IMAGE_SAMPLER,
        stageFlag := shaderStageFlagBit,
        samplerBindingCount := samplerBindingCount } = some h)

/-- The pipeline layout `p` for the two binding counts is in the table of `s`. -/
def PipelineLayoutReady (s : PipelineLayoutState)
    (vertexSamplerBindingCount fragmentSamplerBindingCount p : Nat) : Prop :=
  ∃ hv hf, StageLayoutReady s VK_SHADER_STAGE_VERTEX_BIT vertexSamplerBindingCount hv ∧
    StageLayoutReady s VK_SHADER_STAGE_FRAGMENT_BIT fragmentSamplerBindingCount hf ∧
    PipelineLayoutHashArray_Fetch s.pipelineLayoutHashTable
      { vertexSamplerLayout := hv, fragmentSamplerLayout := hf,
        vertexUniformLayout := s.vertexParamLayout,
        fragmentUniformLayout := s.fragmentParamLayout } = some (some p)

/-- The two `vkCreateDescriptorSetLayout` answers are successes with a handle that
is not `VK_NULL_HANDLE`. -/
def LayoutDriverOk (driver : LayoutDriverResults) : Prop :=
  (∃ h, driver.vertexSamplerLayout = some h ∧ h ≠ NULL_DESC_LAYOUT) ∧
  (∃ h, driver.fragmentSamplerLayout = some h ∧ h ≠ NULL_DESC_LAYOUT)

/-- Consecutive calls of `FetchGraphicsPipelineLayout`, one per entry (driver
answers and the two binding counts). -/
def runLayoutFetches :
    PipelineLayoutState → List (LayoutDriverResults × Nat × Nat) → Option PipelineLayoutState
  | s, [] => some s
  | s, c :: rest =>
    match VULKAN_INTERNAL_FetchGraphicsPipelineLayout s c.1 c.2.1 c.2.2 with
    | none => none
    | some (s1, _) => runLayoutFetches s1 rest

/-- The result of the first fetch of the sample. -/
def sampleLayoutFetched : PipelineLayoutState × Option Nat :=
  (VULKAN_INTERNAL_FetchGraphicsPipelineLayout initialPipelineLayoutState okLayoutDriver
    2 0).getD (initialPipelineLayoutState, none)

/-- Two fetches with other binding counts. -/
def sampleOtherFetches : List (LayoutDriverResults × Nat × Nat) :=
  [({ okLayoutDriver with vertexSamplerLayout := some 22, vkCreatePipelineLayout := some 31 },
     3, 0),
   ({ okLayoutDriver with vkCreatePipelineLayout := some 32 }, 2, 1)]

def sampleLayoutLater : PipelineLayoutState :=
  (runLayoutFetches sampleLayoutFetched.1 sampleOtherFetches).getD sampleLayoutFetched.1

/-! ## Frames of the sub-buffer rotation -/

/-- One frame of the rotation scenario: the buffer is written with `SetBufferData`,
bound as the vertex buffer, and the frame is submitted.  The index that
`SetBufferData` selected is returned with the renderer. -/
def writeBindSubmit (r : VulkanRenderer) (driver : DriverResults) (buffer offsetInBytes : Nat)
    (data : List Nat) : Option (VulkanRenderer × Nat) :=
  match VULKAN_INTERNAL_SetBufferData r driver buffer offsetInBytes data with
  | none => none
  | some r1 =>
    match heapGet r1.bufferHeap buffer with
    | none => none
    | some b =>
      match VULKAN_BindVertexBuffers r1 driver 0 [buffer] [0] with
      | none => none
      | some r2 =>
        match VULKAN_Submit r2 driver with
        | none => none
        | some r3 => some (r3, b.currentSubBufferIndex)

/-- The value of a sub-buffer after the pass that unmarks what was bound in frame
`f`. -/
def unmarked (f : Nat) (s : VulkanSubBuffer) : VulkanSubBuffer :=
  if int8ToUInt32 s.bound = f then { s with bound := -1 } else s

/-- A deferred-destroy storage with nothing queued. -/
def emptyDeferredDestroyStorage : DeferredDestroyStorage :=
  { colorTargetsToDestroy := [], submittedColorTargetsToDestroy := [],
    depthStencilTargetsToDestroy := [], submittedDepthStencilTargetsToDestroy := [],
    texturesToDestroy := [], submittedTexturesToDestroy := [],
    buffersToDestroy := [], submittedBuffersToDestroy := [],
    graphicsPipelinesToDestroy := [], submittedGraphicsPipelinesToDestroy := [],
    shaderModulesToDestroy := [], submittedShaderModulesToDestroy := [],
    samplersToDestroy := [], submittedSamplersToDestroy := [],
    framebuffersToDestroy := [], submittedFramebuffersToDestroy := [],
    renderPassesToDestroy := [], submittedRenderPassesToDestroy := [] }

/-- The sub-buffers listed by the live buffers of `l`, in order. -/
def subBuffersOf (bufferHeap : List (Option VulkanBuffer)) : List Nat → List Nat
  | [] => []
  | buffer :: rest =>
    (match heapGet bufferHeap buffer with
     | some b => b.subBuffers
     | none => []) ++ subBuffersOf bufferHeap rest

/-- No other buffer that awaits destruction in the submitted list shares a
sub-buffer with `buf`. -/
def SubBuffersOwned (r : VulkanRenderer) (buf : Nat) : Prop :=
  ∀ q, q ∈ r.deferred.submittedBuffersToDestroy → q ≠ buf →
    ∀ p, p ∈ subBuffersOf r.bufferHeap [q] → p ∉ subBuffersOf r.bufferHeap [buf]

/-- From `r` to `r1` the buffer `buf` was not bound: the frame is the same, the
buffer is still in the submitted list if it was, it is not in use, its flags and
its sub-buffer list are what they were, and so are the markers of its
sub-buffers. -/
structure NotBoundSince (buf : Nat) (r r1 : VulkanRenderer) : Prop where
  frameIndex : r1.frameIndex = r.frameIndex
  submitted : buf ∈ r.submittedBuffers → buf ∈ r1.submittedBuffers
  notInUse : buf ∉ r1.buffersInUse
  flags : (heapGet r1.bufferHeap buf).map (fun b => (b.subBuffers, b.bound, b.boundSubmitted)) =
    (heapGet r.bufferHeap buf).map (fun b => (b.subBuffers, b.bound, b.boundSubmitted))
  markers : ∀ p, p ∈ subBuffersOf r.bufferHeap [buf] →
    (heapGet r1.subBufferHeap p).map (fun s => s.bound) =
      (heapGet r.subBufferHeap p).map (fun s => s.bound)

/-! ## The life cycle of the command buffers -/

/-- The command-buffer bookkeeping of the renderer: the three lists, the allocated
count, and the next handle the driver hands out. -/
def commandBufferState (r : VulkanRenderer) : List Nat × List Nat × List Nat × Nat × Nat :=
  (r.inactiveCommandBuffers, r.activeCommandBuffers, r.submittedCommandBuffers,
    r.allocatedCommandBufferCount, r.nextCommandBufferHandle)

/-- The command buffers of the three lists. -/
def allCommandBuffers (r : VulkanRenderer) : List Nat :=
  r.inactiveCommandBuffers ++ r.activeCommandBuffers ++ r.submittedCommandBuffers

/-- Every allocated command buffer is in exactly one of the three lists: no buffer
occurs twice in them, and their lengths sum to `allocatedCommandBufferCount`, which
is not zero; the driver has not yet handed out the handles from
`nextCommandBufferHandle` on. -/
structure CommandBuffersInv (r : VulkanRenderer) : Prop where
  nodup : (allCommandBuffers r).Nodup
  total : r.inactiveCommandBuffers.length + r.activeCommandBuffers.length +
    r.submittedCommandBuffers.length = r.allocatedCommandBufferCount
  fresh : ∀ x, x ∈ allCommandBuffers r → x < r.nextCommandBufferHandle
  positive : 0 < r.allocatedCommandBufferCount

/-- A step of the life cycle of the command buffers. -/
inductive CommandBufferStep where
  | beginCommandBuffer (driver : DriverResults)
  | submit (driver : DriverResults)
deriving DecidableEq, Repr

def applyCommandBufferStep (r : VulkanRenderer) : CommandBufferStep → Option VulkanRenderer
  | .beginCommandBuffer driver => VULKAN_INTERNAL_BeginCommandBuffer r driver
  | .submit driver => VULKAN_Submit r driver

/-- The renderers reached from `r0` by steps that return, while doubling
`allocatedCommandBufferCount` does not leave the range of a `uint32_t`. -/
inductive CommandBuffersReachable (r0 : VulkanRenderer) : VulkanRenderer → Prop
  | start : CommandBuffersReachable r0 r0
  | step (r r1 : VulkanRenderer) (s : CommandBufferStep)
      (hr : CommandBuffersReachable r0 r)
      (hbound : r.allocatedCommandBufferCount * 2 < UINT32_MOD)
      (h : applyCommandBufferStep r s = some r1) : CommandBuffersReachable r0 r1

/-- A `Submit` that proceeds: commands were recorded, the wait for the fence and the
queue submission succeed, and a command buffer can be opened afterwards (one is
inactive or submitted, or the driver allocates new ones). -/
def submitProceeds (r : VulkanRenderer) (driver : DriverResults) : Bool :=
  submitRunsCleanup r driver && driver.vkQueueSubmit &&
    (decide (r.inactiveCommandBuffers ≠ []) || decide (r.submittedCommandBuffers ≠ []) ||
      driver.vkAllocateCommandBuffers)

/-- Frame K+1 for a buffer queued for disposal in frame K, from the end of the
`Submit` of frame K (`r1`) to the `Submit` of frame K+1 (`r1'`): the submitted
destroy list and the list of submitted buffers are as the `Submit` left them, the
buffer was not queued again, it is the same object with the same `boundSubmitted`,
and it is marked `bound` exactly when it was bound in the frame (it is in
`buffersInUse`). -/
structure FrameAfterDispose (buf : Nat) (r1 r1' : VulkanRenderer) : Prop where
  submittedToDestroy : r1'.deferred.submittedBuffersToDestroy =
    r1.deferred.submittedBuffersToDestroy
  notRequeued : buf ∉ r1'.deferred.buffersToDestroy
  submitted : r1'.submittedBuffers = r1.submittedBuffers
  buffer : ∀ b1, heapGet r1.bufferHeap buf = some b1 →
    ∃ b1', heapGet r1'.bufferHeap buf = some b1' ∧ b1'.subBuffers = b1.subBuffers ∧
      b1'.boundSubmitted = b1.boundSubmitted ∧ (b1'.bound ≠ 0 ↔ buf ∈ r1'.buffersInUse)

/-! ## Sub-buffer markers across frames -/

/-- The markers `m0`, `m1` of the two sub-buffers of a buffer are tracked in frame
`f`: each is -1, `f` or the other frame index; a marker `f` is on the current
sub-buffer of a buffer that is bound; a marker of the other frame belongs to a
buffer in `submittedBuffers`, and the two sub-buffers do not both carry it. -/
def MarkersOk (f : Nat) (bound submitted : Prop) (currentSubBufferIndex : Nat) (m0 m1 : Int) :
    Prop :=
  (m0 = -1 ∨ m0 = (f : Int) ∨ m0 = ((1 - f : Nat) : Int)) ∧
  (m1 = -1 ∨ m1 = (f : Int) ∨ m1 = ((1 - f : Nat) : Int)) ∧
  (m0 = (f : Int) → bound ∧ currentSubBufferIndex = 0) ∧
  (m1 = (f : Int) → bound ∧ currentSubBufferIndex = 1) ∧
  (m0 = ((1 - f : Nat) : Int) → submitted) ∧
  (m1 = ((1 - f : Nat) : Int) → submitted) ∧
  ¬ (m0 = ((1 - f : Nat) : Int) ∧ m1 = ((1 - f : Nat) : Int))

/-- The buffer `buf` with the two sub-buffers `p0`, `p1` is tracked in `r`: the
frame index is 0 or 1, no buffer awaits destruction, no other buffer lists `p0` or
`p1`, the current index is in range, a bound buffer is in `buffersInUse`, and the
markers are tracked. -/
structure MarkersInv (r : VulkanRenderer) (buf p0 p1 : Nat) : Prop where
  distinct : p0 ≠ p1
  frameIndex : r.frameIndex < 2
  toDestroy : r.deferred.buffersToDestroy = []
  submittedToDestroy : r.deferred.submittedBuffersToDestroy = []
  isolated : ∀ q bq, q ≠ buf → heapGet r.bufferHeap q = some bq →
    p0 ∉ bq.subBuffers ∧ p1 ∉ bq.subBuffers
  state : ∃ b s0 s1, heapGet r.bufferHeap buf = some b ∧ b.subBuffers = [p0, p1] ∧
    heapGet r.subBufferHeap p0 = some s0 ∧ heapGet r.subBufferHeap p1 = some s1 ∧
    b.currentSubBufferIndex < 2 ∧ (b.bound ≠ 0 → buf ∈ r.buffersInUse) ∧
    MarkersOk r.frameIndex (b.bound ≠ 0) (buf ∈ r.submittedBuffers) b.currentSubBufferIndex
      s0.bound s1.bound

/-- The operations on buffers between which the markers are tracked. -/
inductive BufferStep where
  | setBufferData (driver : DriverResults) (buffer offsetInBytes : Nat) (data : List Nat)
  | bindVertexBuffers (driver : DriverResults) (firstBinding : Nat)
      (pBuffers pOffsets : List Nat)
  | bindIndexBuffer (driver : DriverResults) (buffer offset indexType : Nat)
  | cleanup
deriving DecidableEq, Repr

def applyBufferStep (r : VulkanRenderer) : BufferStep → Option VulkanRenderer
  | .setBufferData driver buffer offsetInBytes data =>
    VULKAN_INTERNAL_SetBufferData r driver buffer offsetInBytes data
  | .bindVertexBuffers driver firstBinding pBuffers pOffsets =>
    VULKAN_BindVertexBuffers r driver firstBinding pBuffers pOffsets
  | .bindIndexBuffer driver buffer offset indexType =>
    VULKAN_BindIndexBuffer r driver buffer offset indexType
  | .cleanup => VULKAN_INTERNAL_PostWorkCleanup r

def runBufferSteps : VulkanRenderer → List BufferStep → Option VulkanRenderer
  | r, [] => some r
  | r, s :: rest =>
    match applyBufferStep r s with
    | none => none
    | some r1 => runBufferSteps r1 rest



/-! ## Concrete states used as inputs -/

/-- A sub-allocator that owns one empty block of 100 bytes and no free region. -/
def oneBlock : VulkanMemorySubAllocator :=
  { initialSubAllocator with
      allocations := [0]
      allocationHeap := [some { size := 100, freeRegions := [], freeRegionCapacity := 1,
                                dedicated := false }] }

/-- The block of `oneBlock` with all of its 100 bytes free. -/
def oneBlockFree : VulkanMemorySubAllocator :=
  { oneBlock with
      sortedFreeRegions := [0]
      allocationHeap := [some { size := 100, freeRegions := [0], freeRegionCapacity := 1,
                                dedicated := false }]
      regionHeap := [some { allocation := 0, offset := 0, size := 100,
                            allocationIndex := 0, sortedIndex := 0 }] }

/-- Scenario for the reuse of freed memory, step 1: a buffer of 64000000 bytes took
the whole first block. -/
def reuseStep1 : VulkanMemorySubAllocator :=
  { nextAllocationSize := 128000000, allocations := [0], sortedFreeRegions := [],
    sortedFreeRegionCapacity := 4,
    allocationHeap := [some { size := 64000000, freeRegions := [], freeRegionCapacity := 1,
                              dedicated := false }],
    regionHeap := [none] }

/-- Step 2: a buffer of 128000000 bytes took the whole second block. -/
def reuseStep2 : VulkanMemorySubAllocator :=
  { nextAllocationSize := 256000000, allocations := [0, 1], sortedFreeRegions := [],
    sortedFreeRegionCapacity := 4,
    allocationHeap := [some { size := 64000000, freeRegions := [], freeRegionCapacity := 1,
                              dedicated := false },
                       some { size := 128000000, freeRegions := [], freeRegionCapacity := 1,
                              dedicated := false }],
    regionHeap := [none, none] }

/-- Step 3: the second buffer was destroyed. -/
def reuseStep3 : VulkanMemorySubAllocator :=
  { reuseStep2 with
      sortedFreeRegions := [2]
      allocationHeap := [some { size := 64000000, freeRegions := [], freeRegionCapacity := 1,
                                dedicated := false },
                         some { size := 128000000, freeRegions := [2], freeRegionCapacity := 1,
                                dedicated := false }]
      regionHeap := [none, none,
                     some { allocation := 1, offset := 0, size := 128000000,
                            allocationIndex := 0, sortedIndex := 0 }] }

/-- Step 4: the first buffer was destroyed too. -/
def reuseStep4 : VulkanMemorySubAllocator :=
  { reuseStep2 with
      sortedFreeRegions := [2, 3]
      allocationHeap := [some { size := 64000000, freeRegions := [3], freeRegionCapacity := 1,
                                dedicated := false },
                         some { size := 128000000, freeRegions := [2], freeRegionCapacity := 1,
                                dedicated := false }]
      regionHeap := [none, none,
                     some { allocation := 1, offset := 0, size := 128000000,
                            allocationIndex := 0, sortedIndex := 0 },
                     some { allocation := 0, offset := 0, size := 64000000,
                            allocationIndex := 0, sortedIndex := 1 }] }

/-- Two buffers and a texture are created, the first buffer is destroyed, and a
dedicated texture and a small buffer follow. -/
def sampleCalls : List AllocatorCall :=
  [ .allocate 1 0 (some { size := 1000, alignment := 16, prefersDedicatedAllocation := false,
                          requiresDedicatedAllocation := false }) true,
    .allocate 2 0 (some { size := 500, alignment := 256, prefersDedicatedAllocation := false,
                          requiresDedicatedAllocation := false }) true,
    .allocate 0 3 (some { size := 4096, alignment := 64, prefersDedicatedAllocation := false,
                          requiresDedicatedAllocation := false }) true,
    .free 0,
    .allocate 0 4 (some { size := 70000000, alignment := 64, prefersDedicatedAllocation := true,
                          requiresDedicatedAllocation := false }) true,
    .allocate 5 0 (some { size := 100, alignment := 8, prefersDedicatedAllocation := false,
                          requiresDedicatedAllocation := false }) true ]

/-- The 128 descriptor sets the driver hands to a new cache. -/
def sampleSets : List Nat := List.range' 1000 128

/-- A cache as `VULKAN_INTERNAL_CreateSamplerDescriptorSetCache` returns it, for a
layout with one sampler binding. -/
def sampleCache : SamplerDescriptorSetCache :=
  VULKAN_INTERNAL_CreateSamplerDescriptorSetCache 50 1 60 sampleSets

/-- One `(imageView, sampler)` tuple. -/
def sampleData : SamplerDescriptorSetData :=
  { descriptorImageInfo := [{ sampler := 5, imageView := 3, imageLayout := 5 }] }

/-- The result of fetching `sampleData` from `sampleCache`. -/
def sampleFetched : SamplerDescriptorSetCache × Nat × List VkWriteDescriptorSet :=
  (VULKAN_INTERNAL_FetchSamplerDescriptorSet sampleCache sampleData 61 none).getD
    (sampleCache, 0, [])

/-- A driver whose calls all succeed. -/
def okDriver : DriverResults :=
  { vkAllocateCommandBuffers := true, vkMapMemory := true, vkWaitForFences := true,
    vkQueueSubmit := true }

/-- The memory of two sub-buffers of 256 bytes and of a texture of 4096 bytes is
allocated. -/
def sampleAllocationCalls : List AllocatorCall :=
  [ .allocate 500 0 (some { size := 256, alignment := 256, prefersDedicatedAllocation := false,
                            requiresDedicatedAllocation := false }) true,
    .allocate 501 0 (some { size := 256, alignment := 256, prefersDedicatedAllocation := false,
                            requiresDedicatedAllocation := false }) true,
    .allocate 0 600 (some { size := 4096, alignment := 64, prefersDedicatedAllocation := false,
                            requiresDedicatedAllocation := false }) true ]

/-- The sub-allocator after `sampleAllocationCalls`, with the three spans. -/
def sampleAllocation : VulkanMemorySubAllocator × List MemorySpan :=
  (runAllocatorCalls (initialSubAllocator, []) sampleAllocationCalls).getD
    (initialSubAllocator, [])

/-- A renderer after device creation that owns one vertex buffer with two
sub-buffers and one texture; nothing is bound or queued for destruction, and a
command buffer is current. -/
def sampleRenderer : VulkanRenderer :=
  { headless := true,
    memoryAllocator := sampleAllocation.1,
    needNewSwapChain := false,
    shouldPresent := false,
    swapChainImageAcquired := false,
    inactiveCommandBuffers := [1, 2, 3],
    activeCommandBuffers := [4],
    submittedCommandBuffers := [],
    allocatedCommandBufferCount := 4,
    currentCommandBuffer := some 4,
    numActiveCommands := 0,
    pipelineLayouts := [],
    buffersInUse := [],
    submittedBuffers := [],
    vertexUBOOffset := 0,
    vertexUBOBlockIncrement := 0,
    fragmentUBOOffset := 0,
    fragmentUBOBlockIncrement := 0,
    frameIndex := 0,
    deferred :=
      { colorTargetsToDestroy := [], submittedColorTargetsToDestroy := [],
        depthStencilTargetsToDestroy := [], submittedDepthStencilTargetsToDestroy := [],
        texturesToDestroy := [], submittedTexturesToDestroy := [],
        buffersToDestroy := [], submittedBuffersToDestroy := [],
        graphicsPipelinesToDestroy := [], submittedGraphicsPipelinesToDestroy := [],
        shaderModulesToDestroy := [], submittedShaderModulesToDestroy := [],
        samplersToDestroy := [], submittedSamplersToDestroy := [],
        framebuffersToDestroy := [], submittedFramebuffersToDestroy := [],
        renderPassesToDestroy := [], submittedRenderPassesToDestroy := [] },
    bufferHeap :=
      [some { size := 256, subBuffers := [0, 1], currentSubBufferIndex := 0,
              resourceAccessType := .RESOURCE_ACCESS_VERTEX_BUFFER, usage := 128,
              bound := 0, boundSubmitted := 0 }],
    subBufferHeap :=
      [some { allocation := 0, buffer := 500, offset := 0, size := 256,
              resourceAccessType := .RESOURCE_ACCESS_VERTEX_BUFFER, bound := -1 },
       some { allocation := 0, buffer := 501, offset := 256, size := 256,
              resourceAccessType := .RESOURCE_ACCESS_VERTEX_BUFFER, bound := -1 }],
    textureHeap :=
      [some { allocation := 0, offset := 512, memorySize := 4096, image := 600, view := 601,
              layerCount := 1, levelCount := 1,
              resourceAccessType := .RESOURCE_ACCESS_NONE }],
    colorTargetHeap := [],
    depthStencilTargetHeap := [],
    framebufferHeap := [],
    graphicsPipelineHeap := [],
    samplerDescriptorSetCacheHeap := [],
    nextCommandBufferHandle := 5,
    calls := [],
    destroyCalls := [] }


/-- The buffer of `sampleRenderer` marked bound, as `VULKAN_INTERNAL_MarkAsBound`
leaves it. -/
def sampleBoundRenderer : VulkanRenderer :=
  (VULKAN_INTERNAL_MarkAsBound sampleRenderer 0).getD sampleRenderer

/-- Frame K: a barrier is recorded for the buffer of `sampleRenderer`. -/
def sampleFrameK : VulkanRenderer :=
  (VULKAN_INTERNAL_BufferMemoryBarrier sampleRenderer okDriver .RESOURCE_ACCESS_TRANSFER_READ
    0 0).getD sampleRenderer

/-- The renderer after the texture was queued in frame K and the frame submitted. -/
def sampleSubmitK : VulkanRenderer :=
  (VULKAN_Submit (addDispose .texture sampleFrameK 0) okDriver).getD sampleRenderer

/-- The sub-allocator of a new device after a buffer of 1000 bytes was created: one
shared block of 64000000 bytes whose rest is free. -/
def sharedBlockAllocator : VulkanMemorySubAllocator :=
  ((VULKAN_INTERNAL_FindAvailableMemory initialSubAllocator 1 0
    (some { size := 1000, alignment := 16, prefersDedicatedAllocation := false,
            requiresDedicatedAllocation := false }) true).getD (initialSubAllocator, 0, none)).1

/-- The sub-allocator after a request for 500 bytes for which the driver prefers and
requires dedicated memory. -/
def sharedBlockAfterDedicated : VulkanMemorySubAllocator :=
  ((VULKAN_INTERNAL_FindAvailableMemory sharedBlockAllocator 2 0
    (some { size := 500, alignment := 256, prefersDedicatedAllocation := true,
            requiresDedicatedAllocation := true }) true).getD (initialSubAllocator, 0, none)).1

/-- The renderer after one frame that wrote, bound and submitted the buffer of
`sampleRenderer`: the first sub-buffer is still marked. -/
def sampleAfterOneFrame : VulkanRenderer :=
  ((writeBindSubmit sampleRenderer okDriver 0 0 [1, 2]).getD (sampleRenderer, 0)).1

/-- A buffer is queued while the texture of `sampleRenderer` waits in the submitted
list. -/
def sampleTeardown : VulkanRenderer :=
  VULKAN_AddDisposeVertexBuffer sampleSubmitK 0

/-- The renderer after one run of the cleanup on `sampleTeardown`. -/
def sampleTeardown1 : VulkanRenderer :=
  (VULKAN_INTERNAL_PostWorkCleanup sampleTeardown).getD sampleRenderer

/-- The renderer after the second run of the cleanup. -/
def sampleTeardown2 : VulkanRenderer :=
  (VULKAN_INTERNAL_PostWorkCleanup sampleTeardown1).getD sampleRenderer

/-- The driver runs out of device memory at the first sub-buffer: the buffer
handle is created, its requirements do not fit the free region of the shared
block, and `vkAllocateMemory` fails. -/
def outOfMemoryBufferAnswers : Nat → SubBufferDriverResults := fun i =>
  { vkCreateBuffer := some (700 + i),
    requirements := some { size := 64000000, alignment := 256,
                           prefersDedicatedAllocation := false,
                           requiresDedicatedAllocation := false },
    vkAllocateMemory := false,
    vkBindBufferMemory := true }

/-- The image is created and `vkAllocateMemory` fails for it. -/
def outOfMemoryTextureAnswers : TextureDriverResults :=
  { vkCreateImage := some 800,
    requirements := some { size := 64000000, alignment := 256,
                           prefersDedicatedAllocation := false,
                           requiresDedicatedAllocation := false },
    vkAllocateMemory := false,
    vkBindImageMemory := true,
    vkCreateImageView := some 801 }

/-- The driver refuses to create the first `VkBuffer`. -/
def hardFailureBufferAnswers : Nat → SubBufferDriverResults := fun i =>
  { vkCreateBuffer := none,
    requirements := some { size := 256 + i, alignment := 256,
                           prefersDedicatedAllocation := false,
                           requiresDedicatedAllocation := false },
    vkAllocateMemory := true,
    vkBindBufferMemory := true }

/-- Frame K: the buffer of `sampleRenderer` is bound as the vertex buffer. -/
def sampleBoundFrame : VulkanRenderer :=
  (VULKAN_BindVertexBuffers sampleRenderer okDriver 0 [0] [0]).getD sampleRenderer

/-- Frame K is submitted. -/
def sampleBoundSubmit : VulkanRenderer :=
  (VULKAN_Submit sampleBoundFrame okDriver).getD sampleRenderer

/-- Frame K+1: a barrier is recorded for the buffer, which is not bound. -/
def sampleIdleFrame : VulkanRenderer :=
  (VULKAN_INTERNAL_BufferMemoryBarrier sampleBoundSubmit okDriver .RESOURCE_ACCESS_TRANSFER_READ
    0 0).getD sampleRenderer

/-- Frame K+1 is submitted. -/
def sampleIdleSubmit : VulkanRenderer :=
  (VULKAN_Submit sampleIdleFrame okDriver).getD sampleRenderer

/-- Frame K+1 of the scenario of `sampleSubmitK`: the buffer is written again. -/
def sampleWrittenK1 : VulkanRenderer :=
  (VULKAN_INTERNAL_SetBufferData sampleSubmitK okDriver 0 0 [1, 2]).getD sampleRenderer

/-- The driver answers for a uniform buffer of `UBO_ACTUAL_SIZE` bytes. -/
def uboAnswers : Nat → SubBufferDriverResults := fun i =>
  { vkCreateBuffer := some (900 + i),
    requirements := some { size := 16000000, alignment := 256,
                           prefersDedicatedAllocation := false,
                           requiresDedicatedAllocation := false },
    vkAllocateMemory := true,
    vkBindBufferMemory := true }

/-- `sampleRenderer` with a uniform buffer (buffer 1) created as `VULKAN_CreateDevice`
creates `vertexUBO`. -/
def sampleUBORenderer : VulkanRenderer :=
  ((VULKAN_INTERNAL_CreateBuffer
      { sampleRenderer with bufferHeap := sampleRenderer.bufferHeap ++ [none] } okDriver
      uboAnswers UBO_ACTUAL_SIZE .RESOURCE_ACCESS_VERTEX_SHADER_READ_UNIFORM_BUFFER
      VK_BUFFER_USAGE_UNIFORM_BUFFER_BIT 1 1).getD (sampleRenderer, 0)).1

/-- The cursors in frame 0 after 31248 pushes of one 256-byte block. -/
def sampleUBONearEnd : VulkanRenderer :=
  { sampleUBORenderer with
    vertexUBOOffset := 7999232, vertexUBOBlockIncrement := 256,
    fragmentUBOOffset := 7999232, fragmentUBOBlockIncrement := 256 }

/-- The sample renderer after one more `BeginCommandBuffer`: two command buffers are
active. -/
def sampleTwoActive : VulkanRenderer :=
  (VULKAN_INTERNAL_BeginCommandBuffer sampleRenderer okDriver).getD sampleRenderer

/-- The renderer `sampleTwoActive` after `Submit`. -/
def sampleTwoActiveSubmitted : VulkanRenderer :=
  (VULKAN_Submit sampleTwoActive okDriver).getD sampleTwoActive

/-- Frame K: a barrier was recorded and the buffer of `sampleRenderer` is queued for
disposal. -/
def sampleDisposeK : VulkanRenderer := VULKAN_AddDisposeVertexBuffer sampleFrameK 0

/-- Frame K is submitted. -/
def sampleDisposeSubmitK : VulkanRenderer :=
  (VULKAN_Submit sampleDisposeK okDriver).getD sampleRenderer

/-- Frame K+1: the queued buffer is bound as the vertex buffer. -/
def sampleDisposeBoundK1 : VulkanRenderer :=
  (VULKAN_BindVertexBuffers sampleDisposeSubmitK okDriver 0 [0] [0]).getD sampleRenderer

/-- Frame K+1 is submitted. -/
def sampleDisposeSubmitK1 : VulkanRenderer :=
  (VULKAN_Submit sampleDisposeBoundK1 okDriver).getD sampleRenderer

/-- Frame K+1 without a binding: only a barrier is recorded. -/
def sampleDisposeIdleK1 : VulkanRenderer :=
  (VULKAN_INTERNAL_BufferMemoryBarrier sampleDisposeSubmitK okDriver
    .RESOURCE_ACCESS_VERTEX_BUFFER 0 0).getD sampleRenderer

/-! ## Sample inputs: sub-buffer markers -/

/-- One frame on the buffer of `sampleRenderer`: it is written, bound as the vertex
buffer, and the cleanup runs. -/
def sampleMarkerSteps : List BufferStep :=
  [.setBufferData okDriver 0 0 [1, 2], .bindVertexBuffers okDriver 0 [0] [0], .cleanup]

/-- The renderer after the steps `sampleMarkerSteps`. -/
def sampleMarkersAfter : VulkanRenderer :=
  (runBufferSteps sampleRenderer sampleMarkerSteps).getD sampleRenderer



/-! ## Sample inputs: a frame index that was never assigned -/

/-- The renderer `sampleRenderer` with the value 5 in `frameIndex`: the field is
assigned nowhere before the first cleanup reads it, so it holds what `SDL_malloc`
returned. -/
def sampleUnassigned : VulkanRenderer :=
  { sampleRenderer with frameIndex := 5 }

/-- Frame K on `sampleUnassigned`: the buffer is bound as the vertex buffer. -/
def sampleUnassignedBound : VulkanRenderer :=
  (VULKAN_BindVertexBuffers sampleUnassigned okDriver 0 [0] [0]).getD sampleRenderer

/-- Frame K is submitted. -/
def sampleUnassignedSubmit : VulkanRenderer :=
  (VULKAN_Submit sampleUnassignedBound okDriver).getD sampleRenderer

/-- Frame K+1: a barrier is recorded for the buffer, which is not bound. -/
def sampleUnassignedIdle : VulkanRenderer :=
  (VULKAN_INTERNAL_BufferMemoryBarrier sampleUnassignedSubmit okDriver
    .RESOURCE_ACCESS_TRANSFER_READ 0 0).getD sampleRenderer

/-- Frame K+1 is submitted. -/
def sampleUnassignedIdleSubmit : VulkanRenderer :=
  (VULKAN_Submit sampleUnassignedIdle okDriver).getD sampleRenderer

/-- Two frames on `sampleUnassigned`, each writing the buffer, binding it and
running the cleanup. -/
def sampleUnassignedTwoFrames : VulkanRenderer :=
  (runBufferSteps sampleUnassigned (sampleMarkerSteps ++ sampleMarkerSteps)).getD sampleRenderer


/-! # Theorems -/

/-! ## Lemmas on heaps and on the loops of the free-region lists -/
theorem heapGet_eq_some_iff {α : Type} (h : List (Option α)) (p : Nat) (x : α) :
    heapGet h p = some x ↔ h[p]? = some (some x) := by
  unfold heapGet
  split
  · rename_i y hy; rw [hy]; simp
  · rename_i hne
    constructor
    · intro h1; cases h1
    · intro h1; exact absurd h1 (hne x)

theorem heapGet_lt {α : Type} {h : List (Option α)} {p : Nat} {x : α}
    (hx : heapGet h p = some x) : p < h.length := by
  rw [heapGet_eq_some_iff] at hx
  exact (List.getElem?_eq_some.mp hx).1

theorem heapGet_set_eq {α : Type} (h : List (Option α)) (p : Nat) (v : Option α)
    (hp : p < h.length) : heapGet (h.set p v) p = v := by
  unfold heapGet
  rw [List.getElem?_set_self hp]
  cases v <;> rfl

theorem heapGet_set_ne {α : Type} (h : List (Option α)) (p q : Nat) (v : Option α)
    (hpq : p ≠ q) : heapGet (h.set p v) q = heapGet h q := by
  unfold heapGet
  rw [List.getElem?_set_ne hpq]

theorem heapGet_append_lt {α : Type} (h l : List (Option α)) (p : Nat)
    (hp : p < h.length) : heapGet (h ++ l) p = heapGet h p := by
  unfold heapGet
  rw [List.getElem?_append_left hp]

theorem heapGet_append_new {α : Type} (h : List (Option α)) (x : α) :
    heapGet (h ++ [some x]) h.length = some x := by
  unfold heapGet
  simp

theorem heapGet_ge {α : Type} (h : List (Option α)) (p : Nat) (hp : h.length ≤ p) :
    heapGet h p = none := by
  unfold heapGet
  rw [List.getElem?_eq_none hp]

theorem setSortedIndex_some {h : List (Option VulkanMemoryFreeRegion)} {p : Nat}
    {r : VulkanMemoryFreeRegion} (i : Nat) (hr : heapGet h p = some r) :
    setSortedIndex h p i = some (h.set p (some { r with sortedIndex := i })) := by
  unfold setSortedIndex
  rw [hr]

theorem setAllocationIndex_some {h : List (Option VulkanMemoryFreeRegion)} {p : Nat}
    {r : VulkanMemoryFreeRegion} (i : Nat) (hr : heapGet h p = some r) :
    setAllocationIndex h p i = some (h.set p (some { r with allocationIndex := i })) := by
  unfold setAllocationIndex
  rw [hr]

/-- Effect of the upward shift loop on the region heap. -/
theorem shiftUp_spec (h : List (Option VulkanMemoryFreeRegion)) :
    ∀ (ps : List Nat) (j : Nat), ps.Nodup →
      (∀ p, p ∈ ps → ∃ r, heapGet h p = some r) →
      ∃ h1, shiftUp h ps j = some h1 ∧ h1.length = h.length ∧
        (∀ q, q ∉ ps → heapGet h1 q = heapGet h q) ∧
        (∀ k p, ps[k]? = some p → ∃ r, heapGet h p = some r ∧
          heapGet h1 p = some { r with sortedIndex := j + k + 1 }) := by
  intro ps
  induction ps with
  | nil =>
    intro j _ _
    exact ⟨h, rfl, rfl, fun _ _ => rfl, fun k p hk => by simp at hk⟩
  | cons p rest ih =>
    intro j hnd hlive
    have hnd1 := List.nodup_cons.mp hnd
    obtain ⟨h1, e1, len1, frame1, upd1⟩ :=
      ih (j + 1) hnd1.2 (fun q hq => hlive q (List.mem_cons_of_mem _ hq))
    obtain ⟨r, hr⟩ := hlive p (List.mem_cons_self _ _)
    have hr1 : heapGet h1 p = some r := by rw [frame1 p hnd1.1]; exact hr
    refine ⟨h1.set p (some { r with sortedIndex := j + 1 }), ?_, ?_, ?_, ?_⟩
    · simp only [shiftUp, e1]
      exact setSortedIndex_some _ hr1
    · simp [len1]
    · intro q hq
      have hqp : p ≠ q := fun e => hq (e ▸ List.mem_cons_self _ _)
      rw [heapGet_set_ne _ _ _ _ hqp]
      exact frame1 q (fun hm => hq (List.mem_cons_of_mem _ hm))
    · intro k q hk
      cases k with
      | zero =>
        simp at hk
        subst hk
        refine ⟨r, hr, ?_⟩
        rw [heapGet_set_eq _ _ _ (heapGet_lt hr1)]
      | succ k =>
        simp at hk
        obtain ⟨r2, hr2, hu⟩ := upd1 k q hk
        have hq : q ∈ rest := List.getElem?_mem hk
        have hqp : p ≠ q := fun e => hnd1.1 (e ▸ hq)
        refine ⟨r2, hr2, ?_⟩
        rw [heapGet_set_ne _ _ _ _ hqp, hu]
        congr 2
        omega

/-- Effect of the downward shift loop on the region heap. -/
theorem shiftDown_spec :
    ∀ (ps : List Nat) (h : List (Option VulkanMemoryFreeRegion)) (j : Nat), ps.Nodup →
      (∀ p, p ∈ ps → ∃ r, heapGet h p = some r) →
      ∃ h1, shiftDown h ps j = some h1 ∧ h1.length = h.length ∧
        (∀ q, q ∉ ps → heapGet h1 q = heapGet h q) ∧
        (∀ k p, ps[k]? = some p → ∃ r, heapGet h p = some r ∧
          heapGet h1 p = some { r with sortedIndex := j + k }) := by
  intro ps
  induction ps with
  | nil =>
    intro h j _ _
    exact ⟨h, rfl, rfl, fun _ _ => rfl, fun k p hk => by simp at hk⟩
  | cons p rest ih =>
    intro h j hnd hlive
    have hnd1 := List.nodup_cons.mp hnd
    obtain ⟨r, hr⟩ := hlive p (List.mem_cons_self _ _)
    have hlive1 : ∀ q, q ∈ rest →
        ∃ r1, heapGet (h.set p (some { r with sortedIndex := j })) q = some r1 := by
      intro q hq
      have hqp : p ≠ q := fun e => hnd1.1 (e ▸ hq)
      rw [heapGet_set_ne _ _ _ _ hqp]
      exact hlive q (List.mem_cons_of_mem _ hq)
    obtain ⟨h1, e1, len1, frame1, upd1⟩ := ih _ (j + 1) hnd1.2 hlive1
    refine ⟨h1, ?_, ?_, ?_, ?_⟩
    · simp only [shiftDown, setSortedIndex_some j hr]
      exact e1
    · simp [len1]
    · intro q hq
      have hqp : p ≠ q := fun e => hq (e ▸ List.mem_cons_self _ _)
      rw [frame1 q (fun hm => hq (List.mem_cons_of_mem _ hm)), heapGet_set_ne _ _ _ _ hqp]
    · intro k q hk
      cases k with
      | zero =>
        simp at hk
        subst hk
        refine ⟨r, hr, ?_⟩
        rw [frame1 p hnd1.1, heapGet_set_eq _ _ _ (heapGet_lt hr)]
        rfl
      | succ k =>
        simp at hk
        obtain ⟨r2, hr2, hu⟩ := upd1 k q hk
        have hq : q ∈ rest := List.getElem?_mem hk
        have hqp : p ≠ q := fun e => hnd1.1 (e ▸ hq)
        rw [heapGet_set_ne _ _ _ _ hqp] at hr2
        refine ⟨r2, hr2, ?_⟩
        rw [hu]
        congr 2
        omega

/-- Result of the search loop: every entry before the index is at least `size`, the
entry at the index (if any) is smaller. -/
theorem findInsertionIndex_spec (h : List (Option VulkanMemoryFreeRegion)) (size : Nat) :
    ∀ (ps : List Nat), (∀ p, p ∈ ps → ∃ r, heapGet h p = some r) →
      ∃ idx, findInsertionIndex h size ps = some idx ∧ idx ≤ ps.length ∧
        (∀ k p r, k < idx → ps[k]? = some p → heapGet h p = some r → size ≤ r.size) ∧
        (∀ p r, ps[idx]? = some p → heapGet h p = some r → r.size < size) := by
  intro ps
  induction ps with
  | nil =>
    intro _
    exact ⟨0, rfl, Nat.le_refl _, fun k p r hk => absurd hk (Nat.not_lt_zero _),
      fun p r hp => by simp at hp⟩
  | cons p rest ih =>
    intro hlive
    obtain ⟨r, hr⟩ := hlive p (List.mem_cons_self _ _)
    obtain ⟨idx, e, hle, hbefore, hat⟩ := ih (fun q hq => hlive q (List.mem_cons_of_mem _ hq))
    by_cases hlt : r.size < size
    · refine ⟨0, ?_, Nat.zero_le _, fun k p r hk => absurd hk (Nat.not_lt_zero _), ?_⟩
      · simp [findInsertionIndex, hr, hlt]
      · intro q r2 hq hr2
        simp at hq
        subst hq
        rw [hr] at hr2
        cases hr2
        exact hlt
    · refine ⟨idx + 1, ?_, ?_, ?_, ?_⟩
      · simp [findInsertionIndex, hr, hlt, e]
      · simp; exact hle
      · intro k q r2 hk hq hr2
        cases k with
        | zero =>
          simp at hq
          subst hq
          rw [hr] at hr2
          cases hr2
          omega
        | succ k =>
          simp at hq
          exact hbefore k q r2 (by omega) hq hr2
      · intro q r2 hq hr2
        simp at hq
        exact hat q r2 hq hr2

/-! ## `NewMemoryFreeRegion` keeps the indexes consistent -/
theorem getElem?_insertAt {α : Type} (l : List α) (idx : Nat) (x : α)
    (hidx : idx ≤ l.length) (i : Nat) :
    (l.take idx ++ x :: l.drop idx)[i]? =
      if i < idx then l[i]? else if i = idx then some x else l[i - 1]? := by
  have hlen : (l.take idx).length = idx := by simp [hidx]
  by_cases h1 : i < idx
  · rw [if_pos h1, List.getElem?_append_left (by omega), List.getElem?_take_of_lt h1]
  · rw [if_neg h1, List.getElem?_append_right (by omega), hlen]
    by_cases h2 : i = idx
    · subst h2; simp
    · rw [if_neg h2]
      obtain ⟨k, hk⟩ : ∃ k, i - idx = k + 1 := ⟨i - idx - 1, by omega⟩
      rw [hk, List.getElem?_cons_succ, List.getElem?_drop]
      congr 1; omega

theorem IndexInv.sorted_nodup {s : VulkanMemorySubAllocator} (h : IndexInv s) :
    s.sortedFreeRegions.Nodup := by
  rw [List.nodup_iff_getElem?_ne_getElem?]
  intro i j hij hj heq
  obtain ⟨p, hp⟩ : ∃ p, s.sortedFreeRegions[j]? = some p := ⟨_, List.getElem?_eq_getElem hj⟩
  obtain ⟨r1, h1, e1⟩ := h.sorted_slot j p hp
  obtain ⟨r2, h2, e2⟩ := h.sorted_slot i p (heq ▸ hp)
  rw [h1] at h2; cases h2; omega

theorem IndexInv.free_nodup {s : VulkanMemorySubAllocator} (h : IndexInv s) {a : Nat}
    {A : VulkanMemoryAllocation} (hA : heapGet s.allocationHeap a = some A) :
    A.freeRegions.Nodup := by
  rw [List.nodup_iff_getElem?_ne_getElem?]
  intro i j hij hj heq
  obtain ⟨p, hp⟩ : ∃ p, A.freeRegions[j]? = some p := ⟨_, List.getElem?_eq_getElem hj⟩
  obtain ⟨r1, h1, _, e1⟩ := h.alloc_slot a A j p hA hp
  obtain ⟨r2, h2, _, e2⟩ := h.alloc_slot a A i p hA (heq ▸ hp)
  rw [h1] at h2; cases h2; omega

theorem IndexInv.sorted_live {s : VulkanMemorySubAllocator} (h : IndexInv s) {p : Nat}
    (hp : p ∈ s.sortedFreeRegions) : ∃ r, heapGet s.regionHeap p = some r := by
  obtain ⟨i, hi⟩ := List.getElem?_of_mem hp
  obtain ⟨r, hr, _⟩ := h.sorted_slot i p hi
  exact ⟨r, hr⟩

theorem region_eta_sorted (r : VulkanMemoryFreeRegion) :
    ({ r with sortedIndex := r.sortedIndex } : VulkanMemoryFreeRegion) = r := by
  cases r; rfl

theorem NewMemoryFreeRegion_spec (s : VulkanMemorySubAllocator) (a off sz : Nat)
    (A : VulkanMemoryAllocation) (hinv : IndexInv s)
    (hA : heapGet s.allocationHeap a = some A) :
    ∃ s1, VULKAN_INTERNAL_NewMemoryFreeRegion s a off sz = some (s1, s.regionHeap.length) ∧
      IndexInv s1 ∧ NewRegionEffect s s1 a off sz := by
  obtain ⟨newr, hnewr⟩ : ∃ newr : VulkanMemoryFreeRegion, newr =
      { allocation := a, offset := off, size := sz,
        allocationIndex := A.freeRegions.length + 1 - 1, sortedIndex := 0 } := ⟨_, rfl⟩
  obtain ⟨h0, hh0⟩ : ∃ h0, h0 = s.regionHeap ++ [some newr] := ⟨_, rfl⟩
  have hold0 : ∀ q r, heapGet s.regionHeap q = some r → heapGet h0 q = some r := by
    intro q r hq
    rw [hh0, heapGet_append_lt _ _ _ (heapGet_lt hq)]; exact hq
  have hlive0 : ∀ p, p ∈ s.sortedFreeRegions → ∃ r, heapGet h0 p = some r := by
    intro p hp
    obtain ⟨r, hr⟩ := hinv.sorted_live hp
    exact ⟨r, hold0 p r hr⟩
  obtain ⟨idx, hfind, hidx, hbefore, hat⟩ :=
    findInsertionIndex_spec h0 sz s.sortedFreeRegions hlive0
  have hshift : (if s.sortedFreeRegions.length > 0 ∧ idx ≠ s.sortedFreeRegions.length
        then shiftUp h0 (s.sortedFreeRegions.drop idx) idx else some h0)
      = shiftUp h0 (s.sortedFreeRegions.drop idx) idx := by
    split
    · rfl
    · rename_i hc
      have : s.sortedFreeRegions.drop idx = [] := by
        apply List.drop_eq_nil_of_le
        by_cases h0len : s.sortedFreeRegions.length = 0
        · omega
        · have : idx = s.sortedFreeRegions.length := by
            by_contra hne
            exact hc ⟨Nat.pos_of_ne_zero h0len, hne⟩
          omega
      rw [this]; rfl
  have hdropmem : ∀ q, q ∈ s.sortedFreeRegions.drop idx → q ∈ s.sortedFreeRegions :=
    fun q hq => List.mem_of_mem_drop hq
  obtain ⟨h1, hs1, hlen1, hframe1, hupd1⟩ :=
    shiftUp_spec h0 (s.sortedFreeRegions.drop idx) idx
      (List.Nodup.sublist (List.drop_sublist _ _) hinv.sorted_nodup)
      (fun p hp => hlive0 p (hdropmem p hp))
  have hNnot : ∀ q, q ∈ s.sortedFreeRegions → q ≠ s.regionHeap.length := by
    intro q hq
    obtain ⟨r, hr⟩ := hinv.sorted_live hq
    exact Nat.ne_of_lt (heapGet_lt hr)
  have hN0 : heapGet h0 s.regionHeap.length = some newr := by
    rw [hh0]; exact heapGet_append_new _ _
  have hN1 : heapGet h1 s.regionHeap.length = some newr := by
    rw [hframe1 _ (fun hm => hNnot _ (hdropmem _ hm) rfl)]; exact hN0
  have hset := setSortedIndex_some idx hN1
  -- description of the final heap
  obtain ⟨h2, hh2⟩ : ∃ h2, h2 = h1.set s.regionHeap.length
      (some { newr with sortedIndex := idx }) := ⟨_, rfl⟩
  have Hnew : heapGet h2 s.regionHeap.length = some { newr with sortedIndex := idx } := by
    rw [hh2]; exact heapGet_set_eq _ _ _ (heapGet_lt hN1)
  have Hold : ∀ q r, heapGet s.regionHeap q = some r →
      heapGet h2 q = some { r with sortedIndex :=
        if r.sortedIndex < idx then r.sortedIndex else r.sortedIndex + 1 } := by
    intro q r hq
    have hqN : s.regionHeap.length ≠ q := Nat.ne_of_gt (heapGet_lt hq)
    rw [hh2, heapGet_set_ne _ _ _ _ hqN]
    have hsq := hinv.region_sorted q r hq
    by_cases hlt : r.sortedIndex < idx
    · rw [if_pos hlt, region_eta_sorted]
      have hnot : q ∉ s.sortedFreeRegions.drop idx := by
        intro hm
        obtain ⟨k, hk⟩ := List.getElem?_of_mem hm
        rw [List.getElem?_drop] at hk
        obtain ⟨r2, hr2, e2⟩ := hinv.sorted_slot _ _ hk
        rw [hq] at hr2; cases hr2; omega
      rw [hframe1 q hnot]; exact hold0 q r hq
    · rw [if_neg hlt]
      have hk : (s.sortedFreeRegions.drop idx)[r.sortedIndex - idx]? = some q := by
        rw [List.getElem?_drop]
        have : idx + (r.sortedIndex - idx) = r.sortedIndex := by omega
        rw [this]; exact hsq
      obtain ⟨r0, hr0, hu⟩ := hupd1 _ _ hk
      rw [hold0 q r hq] at hr0; cases hr0
      rw [hu]
      congr 2
      omega
  have Hdead : ∀ q, q ≠ s.regionHeap.length → heapGet s.regionHeap q = none →
      heapGet h2 q = none := by
    intro q hqN hq
    rw [hh2, heapGet_set_ne _ _ _ _ (Ne.symm hqN)]
    have hnot : q ∉ s.sortedFreeRegions.drop idx := by
      intro hm
      obtain ⟨r, hr⟩ := hinv.sorted_live (hdropmem q hm)
      rw [hq] at hr; cases hr
    rw [hframe1 q hnot]
    by_cases hlt : q < s.regionHeap.length
    · rw [hh0, heapGet_append_lt _ _ _ hlt]; exact hq
    · apply heapGet_ge
      rw [hh0]; simp; omega
  have Hinv : ∀ q r1, heapGet h2 q = some r1 →
      (q = s.regionHeap.length ∧ r1 = { newr with sortedIndex := idx }) ∨
      (∃ r, heapGet s.regionHeap q = some r ∧ r1 = { r with sortedIndex :=
        if r.sortedIndex < idx then r.sortedIndex else r.sortedIndex + 1 }) := by
    intro q r1 hq
    by_cases hqN : q = s.regionHeap.length
    · left
      subst hqN
      rw [Hnew] at hq; cases hq
      exact ⟨rfl, rfl⟩
    · right
      cases hsq : heapGet s.regionHeap q with
      | none => rw [Hdead q hqN hsq] at hq; cases hq
      | some r =>
        rw [Hold q r hsq] at hq; cases hq
        exact ⟨r, rfl, rfl⟩
  obtain ⟨a1, ha1⟩ : ∃ a1 : VulkanMemoryAllocation, a1 =
      { A with freeRegions := A.freeRegions ++ [s.regionHeap.length],
               freeRegionCapacity :=
                 if A.freeRegions.length + 1 > A.freeRegionCapacity
                 then A.freeRegionCapacity * 2 else A.freeRegionCapacity } := ⟨_, rfl⟩
  obtain ⟨s1, hs1def⟩ : ∃ s1 : VulkanMemorySubAllocator, s1 =
      { s with
          allocationHeap := s.allocationHeap.set a (some a1)
          regionHeap := h2
          sortedFreeRegions :=
            s.sortedFreeRegions.take idx ++
              s.regionHeap.length :: s.sortedFreeRegions.drop idx
          sortedFreeRegionCapacity :=
            if s.sortedFreeRegions.length + 1 > s.sortedFreeRegionCapacity
            then s.sortedFreeRegionCapacity * 2 else s.sortedFreeRegionCapacity } := ⟨_, rfl⟩
  have hsorted1 : ∀ i, s1.sortedFreeRegions[i]? =
      if i < idx then s.sortedFreeRegions[i]?
      else if i = idx then some s.regionHeap.length else s.sortedFreeRegions[i - 1]? := by
    intro i
    rw [hs1def]
    exact getElem?_insertAt _ _ _ hidx i
  have hheap1 : s1.regionHeap = h2 := by rw [hs1def]
  have halloc1 : s1.allocationHeap = s.allocationHeap.set a (some a1) := by rw [hs1def]
  have hAself : heapGet s1.allocationHeap a = some a1 := by
    rw [halloc1]; exact heapGet_set_eq _ _ _ (heapGet_lt hA)
  have hAother : ∀ b, b ≠ a → heapGet s1.allocationHeap b = heapGet s.allocationHeap b := by
    intro b hb
    rw [halloc1]; exact heapGet_set_ne _ _ _ _ (Ne.symm hb)
  refine ⟨s1, ?_, ?_, ?_⟩
  · unfold VULKAN_INTERNAL_NewMemoryFreeRegion
    simp only [hA]
    rw [← hnewr, ← hh0]
    have hshift2 := hshift.trans hs1
    simp only [hfind, hshift2, hset]
    rw [hs1def, ha1, hh2]
  · constructor
    · -- sorted_slot
      intro i p hp
      rw [hsorted1] at hp
      rw [hheap1]
      by_cases h1 : i < idx
      · rw [if_pos h1] at hp
        obtain ⟨r, hr, e⟩ := hinv.sorted_slot i p hp
        refine ⟨_, Hold p r hr, ?_⟩
        simp only
        rw [if_pos (by omega)]; exact e
      · rw [if_neg h1] at hp
        by_cases h2 : i = idx
        · rw [if_pos h2] at hp
          cases hp
          exact ⟨_, Hnew, h2.symm⟩
        · rw [if_neg h2] at hp
          obtain ⟨r, hr, e⟩ := hinv.sorted_slot (i - 1) p hp
          refine ⟨_, Hold p r hr, ?_⟩
          simp only
          rw [if_neg (by omega)]; omega
    · -- region_sorted
      intro p r1 hp
      rw [hheap1] at hp
      rw [hsorted1]
      rcases Hinv p r1 hp with ⟨e1, e2⟩ | ⟨r, hr, e2⟩
      · subst e2
        simp [e1]
      · subst e2
        have hsq := hinv.region_sorted p r hr
        simp only
        by_cases hlt : r.sortedIndex < idx
        · rw [if_pos hlt, if_pos hlt]; exact hsq
        · rw [if_neg hlt, if_neg (by omega), if_neg (by omega)]
          simpa using hsq
    · -- alloc_slot
      intro b B j p hB hp
      rw [hheap1]
      by_cases hb : b = a
      · subst hb
        rw [hAself] at hB; cases hB
        rw [ha1] at hp
        simp only at hp
        by_cases hj : j < A.freeRegions.length
        · rw [List.getElem?_append_left hj] at hp
          obtain ⟨r, hr, e1, e2⟩ := hinv.alloc_slot b A j p hA hp
          exact ⟨_, Hold p r hr, e1, e2⟩
        · rw [List.getElem?_append_right (by omega)] at hp
          have hj0 : j - A.freeRegions.length = 0 := by
            by_contra hne
            obtain ⟨k, hk⟩ : ∃ k, j - A.freeRegions.length = k + 1 :=
              ⟨j - A.freeRegions.length - 1, by omega⟩
            rw [hk] at hp; simp at hp
          rw [hj0] at hp
          simp at hp
          subst hp
          refine ⟨_, Hnew, ?_, ?_⟩
          · rw [hnewr]
          · rw [hnewr]; simp only; omega
      · rw [hAother b hb] at hB
        obtain ⟨r, hr, e1, e2⟩ := hinv.alloc_slot b B j p hB hp
        exact ⟨_, Hold p r hr, e1, e2⟩
    · -- region_alloc
      intro p r1 hp
      rw [hheap1] at hp
      rcases Hinv p r1 hp with ⟨e1, e2⟩ | ⟨r, hr, e2⟩
      · subst e2
        refine ⟨a1, ?_, ?_⟩
        · rw [hnewr]; exact hAself
        · rw [hnewr, ha1]
          simp only
          rw [List.getElem?_append_right (by omega)]
          simp [e1]
      · subst e2
        obtain ⟨B, hB, hBp⟩ := hinv.region_alloc p r hr
        by_cases hb : r.allocation = a
        · refine ⟨a1, ?_, ?_⟩
          · simp only; rw [hb]; exact hAself
          · rw [hb, hA] at hB; cases hB
            rw [ha1]
            simp only
            rw [List.getElem?_append_left (List.getElem?_eq_some.mp hBp).1]
            exact hBp
        · exact ⟨B, by simp only; rw [hAother _ hb]; exact hB, hBp⟩
    · -- sorted_desc
      intro i j p q rp rq hij hp hq hrp hrq
      rw [hsorted1] at hp hq
      rw [hheap1] at hrp hrq
      -- sizes in terms of the old state
      have size_of : ∀ (x : Nat) (rx : VulkanMemoryFreeRegion), heapGet h2 x = some rx →
          (x = s.regionHeap.length ∧ rx.size = sz) ∨
          (∃ r, heapGet s.regionHeap x = some r ∧ rx.size = r.size) := by
        intro x rx hx
        rcases Hinv x rx hx with ⟨e1, e2⟩ | ⟨r, hr, e2⟩
        · left; subst e2; exact ⟨e1, by rw [hnewr]⟩
        · right; subst e2; exact ⟨r, hr, rfl⟩
      have old_of : ∀ (k x : Nat) (rx : VulkanMemoryFreeRegion),
          s.sortedFreeRegions[k]? = some x → heapGet h2 x = some rx →
          ∃ r, heapGet s.regionHeap x = some r ∧ rx.size = r.size := by
        intro k x rx hk hx
        rcases size_of x rx hx with ⟨e1, _⟩ | h
        · exact absurd e1 (hNnot x (List.getElem?_mem hk))
        · exact h
      have hb0 : ∀ k p r, k < idx → s.sortedFreeRegions[k]? = some p →
          heapGet s.regionHeap p = some r → sz ≤ r.size :=
        fun k p r hk hp hr => hbefore k p r hk hp (hold0 p r hr)
      have ha0 : ∀ p r, s.sortedFreeRegions[idx]? = some p →
          heapGet s.regionHeap p = some r → r.size < sz :=
        fun p r hp hr => hat p r hp (hold0 p r hr)
      by_cases hi : i < idx
      · rw [if_pos hi] at hp
        obtain ⟨r, hr, er⟩ := old_of i p rp hp hrp
        by_cases hj : j < idx
        · rw [if_pos hj] at hq
          obtain ⟨r2, hr2, er2⟩ := old_of j q rq hq hrq
          rw [er, er2]
          exact hinv.sorted_desc i j p q r r2 hij hp hq hr hr2
        · rw [if_neg hj] at hq
          by_cases hj2 : j = idx
          · rw [if_pos hj2] at hq
            cases hq
            rw [Hnew] at hrq; cases hrq
            rw [er, hnewr]
            exact hb0 i p r hi hp hr
          · rw [if_neg hj2] at hq
            obtain ⟨r2, hr2, er2⟩ := old_of (j - 1) q rq hq hrq
            rw [er, er2]
            exact hinv.sorted_desc i (j - 1) p q r r2 (by omega) hp hq hr hr2
      · rw [if_neg hi] at hp
        have hj : ¬ j < idx := by omega
        have hj2 : ¬ j = idx := by omega
        rw [if_neg hj, if_neg hj2] at hq
        obtain ⟨r2, hr2, er2⟩ := old_of (j - 1) q rq hq hrq
        by_cases hi2 : i = idx
        · rw [if_pos hi2] at hp
          cases hp
          rw [Hnew] at hrp; cases hrp
          rw [er2, hnewr]
          simp only
          by_cases hj3 : j - 1 = idx
          · rw [hj3] at hq
            exact Nat.le_of_lt (ha0 q r2 hq hr2)
          · have hlt : idx < s.sortedFreeRegions.length := by
              have := (List.getElem?_eq_some.mp hq).1
              omega
            obtain ⟨p0, hp0⟩ : ∃ p0, s.sortedFreeRegions[idx]? = some p0 :=
              ⟨_, List.getElem?_eq_getElem hlt⟩
            obtain ⟨r0, hr0, _⟩ := hinv.sorted_slot idx p0 hp0
            have h1 := hinv.sorted_desc idx (j - 1) p0 q r0 r2 (by omega) hp0 hq hr0 hr2
            have h2 := ha0 p0 r0 hp0 hr0
            omega
        · rw [if_neg hi2] at hp
          obtain ⟨r, hr, er⟩ := old_of (i - 1) p rp hp hrp
          rw [er, er2]
          exact hinv.sorted_desc (i - 1) (j - 1) p q r r2 (by omega) hp hq hr hr2
  · constructor
    · rw [hheap1, hh2]; simp [hlen1, hh0]
    · exact ⟨_, by rw [hheap1]; exact Hnew, by rw [hnewr], by rw [hnewr], by rw [hnewr]⟩
    · intro q r _ hq
      have hq2 := Hold q r hq
      rw [← hheap1] at hq2
      exact ⟨_, hq2, rfl, rfl, rfl⟩
    · intro q hqN hq
      rw [hheap1]; exact Hdead q hqN hq
    · exact ⟨idx, hidx, by rw [hs1def],
        fun k p r hk hp hr => hbefore k p r hk hp (hold0 p r hr),
        fun p r hp hr => hat p r hp (hold0 p r hr)⟩
    · rw [halloc1]; simp
    · exact ⟨A, a1, hA, hAself, by rw [ha1], by rw [ha1], by rw [ha1]⟩
    · exact hAother
    · rw [hs1def]
    · rw [hs1def]

/-! ## `RemoveMemoryFreeRegion` keeps the indexes consistent -/
theorem region_eta_alloc (r : VulkanMemoryFreeRegion) :
    ({ r with allocationIndex := r.allocationIndex } : VulkanMemoryFreeRegion) = r := by
  cases r; rfl

theorem RemoveMemoryFreeRegion_spec (s : VulkanMemorySubAllocator) (p : Nat)
    (r : VulkanMemoryFreeRegion) (hinv : IndexInv s)
    (hp : heapGet s.regionHeap p = some r) :
    ∃ s1, VULKAN_INTERNAL_RemoveMemoryFreeRegion s p = some s1 ∧
      IndexInv s1 ∧ RemoveRegionEffect s s1 p r := by
  have hsp := hinv.region_sorted p r hp
  have hsi : r.sortedIndex < s.sortedFreeRegions.length := (List.getElem?_eq_some.mp hsp).1
  obtain ⟨A, hA, hAp⟩ := hinv.region_alloc p r hp
  have hai : r.allocationIndex < A.freeRegions.length := (List.getElem?_eq_some.mp hAp).1
  have hndA := hinv.free_nodup hA
  -- the sorted list
  have hshift : (if s.sortedFreeRegions.length > 1
        then shiftDown s.regionHeap (s.sortedFreeRegions.drop (r.sortedIndex + 1)) r.sortedIndex
        else some s.regionHeap)
      = shiftDown s.regionHeap (s.sortedFreeRegions.drop (r.sortedIndex + 1)) r.sortedIndex := by
    split
    · rfl
    · have : s.sortedFreeRegions.drop (r.sortedIndex + 1) = [] := by
        apply List.drop_eq_nil_of_le; omega
      rw [this]; rfl
  obtain ⟨h1, hs1, hlen1, hframe1, hupd1⟩ :=
    shiftDown_spec (s.sortedFreeRegions.drop (r.sortedIndex + 1)) s.regionHeap r.sortedIndex
      (List.Nodup.sublist (List.drop_sublist _ _) hinv.sorted_nodup)
      (fun q hq => hinv.sorted_live (List.mem_of_mem_drop hq))
  have H1 : ∀ q rq, heapGet s.regionHeap q = some rq →
      heapGet h1 q = some { rq with sortedIndex :=
        if rq.sortedIndex ≤ r.sortedIndex then rq.sortedIndex else rq.sortedIndex - 1 } := by
    intro q rq hq
    have hsq := hinv.region_sorted q rq hq
    by_cases hle : rq.sortedIndex ≤ r.sortedIndex
    · rw [if_pos hle, region_eta_sorted]
      have hnot : q ∉ s.sortedFreeRegions.drop (r.sortedIndex + 1) := by
        intro hm
        obtain ⟨k, hk⟩ := List.getElem?_of_mem hm
        rw [List.getElem?_drop] at hk
        obtain ⟨r2, hr2, e2⟩ := hinv.sorted_slot _ _ hk
        rw [hq] at hr2; cases hr2; omega
      rw [hframe1 q hnot]; exact hq
    · rw [if_neg hle]
      have hk : (s.sortedFreeRegions.drop (r.sortedIndex + 1))[rq.sortedIndex -
          (r.sortedIndex + 1)]? = some q := by
        rw [List.getElem?_drop]
        have : r.sortedIndex + 1 + (rq.sortedIndex - (r.sortedIndex + 1)) = rq.sortedIndex := by
          omega
        rw [this]; exact hsq
      obtain ⟨r0, hr0, hu⟩ := hupd1 _ _ hk
      rw [hq] at hr0; cases hr0
      rw [hu]
      congr 2
      omega
  have H1dead : ∀ q, heapGet s.regionHeap q = none → heapGet h1 q = none := by
    intro q hq
    have hnot : q ∉ s.sortedFreeRegions.drop (r.sortedIndex + 1) := by
      intro hm
      obtain ⟨r2, hr2⟩ := hinv.sorted_live (List.mem_of_mem_drop hm)
      rw [hq] at hr2; cases hr2
    rw [hframe1 q hnot]; exact hq
  have hp1 : heapGet h1 p = some r := by
    have := H1 p r hp
    rw [if_pos (Nat.le_refl _), region_eta_sorted] at this
    exact this
  -- the list of the allocation
  obtain ⟨last, hlast⟩ : ∃ last, A.freeRegions[A.freeRegions.length - 1]? = some last :=
    ⟨_, List.getElem?_eq_getElem (by omega)⟩
  obtain ⟨rl, hrl, hrl_alloc, hrl_idx⟩ :=
    hinv.alloc_slot r.allocation A _ last hA hlast
  have hlast_p : last = p ↔ r.allocationIndex = A.freeRegions.length - 1 := by
    constructor
    · intro e
      rw [e, hp] at hrl; cases hrl; exact hrl_idx
    · intro e
      rw [e, hlast] at hAp; cases hAp; rfl
  obtain ⟨regions1, h2, hmoved, hregions1, hlen2, H2, H2dead⟩ :
      ∃ regions1 h2,
        closeAllocationGap h1 A.freeRegions r.allocationIndex = some (regions1, h2) ∧
        (∀ j, regions1.dropLast[j]? =
          if j < A.freeRegions.length - 1 then
            (if j = r.allocationIndex then some last else A.freeRegions[j]?)
          else none) ∧
        h2.length = h1.length ∧
        (∀ q rq, heapGet h1 q = some rq → heapGet h2 q = some { rq with allocationIndex :=
          if q = last then r.allocationIndex else rq.allocationIndex }) ∧
        (∀ q, heapGet h1 q = none → heapGet h2 q = none) := by
    by_cases hc : A.freeRegions.length > 1 ∧ r.allocationIndex ≠ A.freeRegions.length - 1
    · have hlp : last ≠ p := fun e => hc.2 (hlast_p.mp e)
      obtain ⟨rl1, hrl1⟩ : ∃ rl1, heapGet h1 last = some rl1 := ⟨_, H1 last rl hrl⟩
      refine ⟨A.freeRegions.set r.allocationIndex last,
        h1.set last (some { rl1 with allocationIndex := r.allocationIndex }), ?_, ?_, ?_, ?_, ?_⟩
      · unfold closeAllocationGap
        simp only [if_pos hc, hlast, if_pos hai, setAllocationIndex_some _ hrl1]
      · intro j
        rw [List.getElem?_dropLast, List.length_set]
        by_cases hj : j < A.freeRegions.length - 1
        · rw [if_pos hj, if_pos hj, List.getElem?_set]
          by_cases hja : j = r.allocationIndex
          · rw [if_pos hja, if_pos hja.symm, if_pos hai]
          · rw [if_neg hja, if_neg (Ne.symm hja)]
        · rw [if_neg hj, if_neg hj]
      · simp
      · intro q rq hq
        by_cases hql : q = last
        · subst hql
          rw [hrl1] at hq; cases hq
          rw [if_pos rfl]
          exact heapGet_set_eq _ _ _ (heapGet_lt hrl1)
        · rw [if_neg hql, region_eta_alloc, heapGet_set_ne _ _ _ _ (Ne.symm hql)]
          exact hq
      · intro q hq
        have hql : last ≠ q := by
          intro e; subst e
          rw [hrl1] at hq; cases hq
        rw [heapGet_set_ne _ _ _ _ hql]; exact hq
    · have hail : r.allocationIndex = A.freeRegions.length - 1 := by
        by_contra hne
        exact hc ⟨by omega, hne⟩
      have hlp : last = p := hlast_p.mpr hail
      refine ⟨A.freeRegions, h1, ?_, ?_, rfl, ?_, fun q hq => hq⟩
      · unfold closeAllocationGap
        simp only [if_neg hc]
      · intro j
        rw [List.getElem?_dropLast]
        by_cases hj : j < A.freeRegions.length - 1
        · rw [if_pos hj, if_pos hj, if_neg (by omega)]
        · rw [if_neg hj, if_neg hj]
      · intro q rq hq
        by_cases hql : q = last
        · rw [if_pos hql]
          rw [hql, hlp, hp1] at hq; cases hq
          rw [region_eta_alloc, hql, hlp]; exact hp1
        · rw [if_neg hql, region_eta_alloc]; exact hq
  -- the final heap
  have H3 : ∀ q rq, q ≠ p → heapGet s.regionHeap q = some rq →
      heapGet (h2.set p none) q = some
        { rq with
            sortedIndex :=
              if rq.sortedIndex ≤ r.sortedIndex then rq.sortedIndex else rq.sortedIndex - 1
            allocationIndex := if q = last then r.allocationIndex else rq.allocationIndex } := by
    intro q rq hqp hq
    rw [heapGet_set_ne _ _ _ _ (Ne.symm hqp), H2 q _ (H1 q rq hq)]
  have H3dead : ∀ q, heapGet s.regionHeap q = none → heapGet (h2.set p none) q = none := by
    intro q hq
    by_cases hqp : q = p
    · subst hqp
      by_cases hlt : q < h2.length
      · exact heapGet_set_eq _ _ _ hlt
      · apply heapGet_ge; simp; omega
    · rw [heapGet_set_ne _ _ _ _ (Ne.symm hqp)]
      exact H2dead q (H1dead q hq)
  have H3p : heapGet (h2.set p none) p = none := by
    apply heapGet_set_eq
    rw [hlen2, hlen1]; exact heapGet_lt hp
  have H3inv : ∀ q r1, heapGet (h2.set p none) q = some r1 →
      q ≠ p ∧ ∃ rq, heapGet s.regionHeap q = some rq ∧ r1 =
        { rq with
            sortedIndex :=
              if rq.sortedIndex ≤ r.sortedIndex then rq.sortedIndex else rq.sortedIndex - 1
            allocationIndex := if q = last then r.allocationIndex else rq.allocationIndex } := by
    intro q r1 hq
    have hqp : q ≠ p := by
      intro e; subst e
      rw [H3p] at hq; cases hq
    refine ⟨hqp, ?_⟩
    cases hsq : heapGet s.regionHeap q with
    | none => rw [H3dead q hsq] at hq; cases hq
    | some rq =>
      rw [H3 q rq hqp hsq] at hq; cases hq
      exact ⟨rq, rfl, rfl⟩
  obtain ⟨s1, hs1def⟩ : ∃ s1 : VulkanMemorySubAllocator, s1 =
      { s with
          allocationHeap :=
            s.allocationHeap.set r.allocation (some { A with freeRegions := regions1.dropLast })
          regionHeap := h2.set p none
          sortedFreeRegions := s.sortedFreeRegions.eraseIdx r.sortedIndex } := ⟨_, rfl⟩
  have hsorted1 : ∀ i, s1.sortedFreeRegions[i]? =
      if i < r.sortedIndex then s.sortedFreeRegions[i]? else s.sortedFreeRegions[i + 1]? := by
    intro i
    rw [hs1def]
    exact List.getElem?_eraseIdx _ _ _
  have hheap1 : s1.regionHeap = h2.set p none := by rw [hs1def]
  have halloc1 : s1.allocationHeap =
      s.allocationHeap.set r.allocation (some { A with freeRegions := regions1.dropLast }) := by
    rw [hs1def]
  have hAself : heapGet s1.allocationHeap r.allocation =
      some { A with freeRegions := regions1.dropLast } := by
    rw [halloc1]; exact heapGet_set_eq _ _ _ (heapGet_lt hA)
  have hAother : ∀ b, b ≠ r.allocation →
      heapGet s1.allocationHeap b = heapGet s.allocationHeap b := by
    intro b hb
    rw [halloc1]; exact heapGet_set_ne _ _ _ _ (Ne.symm hb)
  -- two slots of one list holding the same region are the same slot
  have sorted_inj : ∀ i q rq, s.sortedFreeRegions[i]? = some q →
      heapGet s.regionHeap q = some rq → rq.sortedIndex = i := by
    intro i q rq hi hq
    obtain ⟨r2, hr2, e⟩ := hinv.sorted_slot i q hi
    rw [hq] at hr2; cases hr2; exact e
  have alloc_inj : ∀ b B j q rq, heapGet s.allocationHeap b = some B →
      B.freeRegions[j]? = some q → heapGet s.regionHeap q = some rq →
      rq.allocation = b ∧ rq.allocationIndex = j := by
    intro b B j q rq hB hj hq
    obtain ⟨r2, hr2, e1, e2⟩ := hinv.alloc_slot b B j q hB hj
    rw [hq] at hr2; cases hr2; exact ⟨e1, e2⟩
  refine ⟨s1, ?_, ?_, ?_⟩
  · unfold VULKAN_INTERNAL_RemoveMemoryFreeRegion
    have hshift2 := hshift.trans hs1
    simp only [hp]
    rw [if_neg (by omega), hshift2]
    simp only [hp1, hA]
    rw [if_neg (by omega), hmoved]
    simp only [if_pos hsi]
    rw [hs1def]
  · constructor
    · -- sorted_slot
      intro i x hx
      rw [hsorted1] at hx
      rw [hheap1]
      by_cases h1 : i < r.sortedIndex
      · rw [if_pos h1] at hx
        obtain ⟨rx, hrx, e⟩ := hinv.sorted_slot i x hx
        have hxp : x ≠ p := by
          intro e2; subst e2
          rw [hp] at hrx; cases hrx; omega
        refine ⟨_, H3 x rx hxp hrx, ?_⟩
        simp only
        rw [if_pos (by omega)]; exact e
      · rw [if_neg h1] at hx
        obtain ⟨rx, hrx, e⟩ := hinv.sorted_slot (i + 1) x hx
        have hxp : x ≠ p := by
          intro e2; subst e2
          rw [hp] at hrx; cases hrx; omega
        refine ⟨_, H3 x rx hxp hrx, ?_⟩
        simp only
        rw [if_neg (by omega)]; omega
    · -- region_sorted
      intro x r1 hx
      rw [hheap1] at hx
      rw [hsorted1]
      obtain ⟨hxp, rx, hrx, e⟩ := H3inv x r1 hx
      subst e
      have hsx := hinv.region_sorted x rx hrx
      have hne : rx.sortedIndex ≠ r.sortedIndex := by
        intro e2
        rw [e2, hsp] at hsx; cases hsx; exact hxp rfl
      simp only
      by_cases hle : rx.sortedIndex ≤ r.sortedIndex
      · rw [if_pos hle, if_pos (by omega)]; exact hsx
      · rw [if_neg hle, if_neg (by omega)]
        have : rx.sortedIndex - 1 + 1 = rx.sortedIndex := by omega
        rw [this]; exact hsx
    · -- alloc_slot
      intro b B j x hB hx
      rw [hheap1]
      by_cases hb : b = r.allocation
      · subst hb
        rw [hAself] at hB; cases hB
        simp only at hx
        rw [hregions1] at hx
        by_cases hj : j < A.freeRegions.length - 1
        · rw [if_pos hj] at hx
          by_cases hja : j = r.allocationIndex
          · rw [if_pos hja] at hx
            cases hx
            have hlp : last ≠ p := by
              intro e; have := hlast_p.mp e; omega
            refine ⟨_, H3 last rl hlp hrl, hrl_alloc, ?_⟩
            simp only [↓reduceIte]
            exact hja.symm
          · rw [if_neg hja] at hx
            obtain ⟨rx, hrx, e1, e2⟩ := hinv.alloc_slot _ A j x hA hx
            have hxp : x ≠ p := by
              intro e; subst e
              rw [hp] at hrx; cases hrx; exact hja e2.symm
            have hxl : x ≠ last := by
              intro e; subst e
              rw [hrl] at hrx; cases hrx; omega
            refine ⟨_, H3 x rx hxp hrx, e1, ?_⟩
            simp only
            rw [if_neg hxl]; exact e2
        · rw [if_neg hj] at hx; cases hx
      · rw [hAother b hb] at hB
        obtain ⟨rx, hrx, e1, e2⟩ := hinv.alloc_slot b B j x hB hx
        have hxp : x ≠ p := by
          intro e; subst e
          rw [hp] at hrx; cases hrx; exact hb e1.symm
        have hxl : x ≠ last := by
          intro e; subst e
          rw [hrl] at hrx; cases hrx; exact hb (e1.symm.trans hrl_alloc)
        refine ⟨_, H3 x rx hxp hrx, e1, ?_⟩
        simp only
        rw [if_neg hxl]; exact e2
    · -- region_alloc
      intro x r1 hx
      rw [hheap1] at hx
      obtain ⟨hxp, rx, hrx, e⟩ := H3inv x r1 hx
      subst e
      obtain ⟨B, hB, hBx⟩ := hinv.region_alloc x rx hrx
      simp only
      by_cases hb : rx.allocation = r.allocation
      · rw [hb] at hB ⊢
        rw [hA] at hB; cases hB
        refine ⟨_, hAself, ?_⟩
        simp only
        rw [hregions1]
        by_cases hxl : x = last
        · rw [if_pos hxl]
          have hail : r.allocationIndex ≠ A.freeRegions.length - 1 := by
            intro e; exact hxp (hxl.trans (hlast_p.mpr e))
          rw [if_pos (by omega), if_pos rfl, hxl]
        · rw [if_neg hxl]
          have h1 : rx.allocationIndex ≠ A.freeRegions.length - 1 := by
            intro e
            rw [e, hlast] at hBx; cases hBx; exact hxl rfl
          have h2 : rx.allocationIndex ≠ r.allocationIndex := by
            intro e
            rw [e, hAp] at hBx; cases hBx; exact hxp rfl
          have h3 := (List.getElem?_eq_some.mp hBx).1
          rw [if_pos (by omega), if_neg h2]; exact hBx
      · have hxl : x ≠ last := by
          intro e; subst e
          rw [hrl] at hrx; cases hrx; exact hb hrl_alloc
        rw [if_neg hxl]
        exact ⟨B, by rw [hAother _ hb]; exact hB, hBx⟩
    · -- sorted_desc
      intro i j x y rx ry hij hx hy hrx hry
      rw [hsorted1] at hx hy
      rw [hheap1] at hrx hry
      obtain ⟨_, ox, hox, ex⟩ := H3inv x rx hrx
      obtain ⟨_, oy, hoy, ey⟩ := H3inv y ry hry
      subst ex; subst ey
      simp only
      by_cases hi : i < r.sortedIndex
      · rw [if_pos hi] at hx
        by_cases hj : j < r.sortedIndex
        · rw [if_pos hj] at hy
          exact hinv.sorted_desc i j x y ox oy hij hx hy hox hoy
        · rw [if_neg hj] at hy
          exact hinv.sorted_desc i (j + 1) x y ox oy (by omega) hx hy hox hoy
      · rw [if_neg hi] at hx
        rw [if_neg (by omega)] at hy
        exact hinv.sorted_desc (i + 1) (j + 1) x y ox oy (by omega) hx hy hox hoy
  · constructor
    · rw [hheap1]; simp [hlen2, hlen1]
    · rw [hheap1]; exact H3p
    · intro q rq hqp hq
      have hq2 := H3 q rq hqp hq
      rw [← hheap1] at hq2
      exact ⟨_, hq2, rfl, rfl, rfl⟩
    · intro q hq
      rw [hheap1]; exact H3dead q hq
    · rw [hs1def]
    · rw [halloc1]; simp
    · refine ⟨A, _, hA, hAself, rfl, rfl, ?_⟩
      intro x
      simp only
      rw [List.mem_iff_getElem?, List.mem_iff_getElem?]
      constructor
      · rintro ⟨j, hj⟩
        rw [hregions1] at hj
        by_cases hj1 : j < A.freeRegions.length - 1
        · rw [if_pos hj1] at hj
          by_cases hja : j = r.allocationIndex
          · rw [if_pos hja] at hj
            cases hj
            refine ⟨⟨_, hlast⟩, ?_⟩
            intro e; have := hlast_p.mp e; omega
          · rw [if_neg hja] at hj
            refine ⟨⟨j, hj⟩, ?_⟩
            intro e; subst e
            exact hja (alloc_inj _ A j x r hA hj hp).2.symm
        · rw [if_neg hj1] at hj; cases hj
      · rintro ⟨⟨j, hj⟩, hxp⟩
        have hjlt := (List.getElem?_eq_some.mp hj).1
        have hja : j ≠ r.allocationIndex := by
          intro e
          rw [e, hAp] at hj; cases hj; exact hxp rfl
        by_cases hjl : j = A.freeRegions.length - 1
        · refine ⟨r.allocationIndex, ?_⟩
          rw [hregions1, if_pos (by omega), if_pos rfl]
          rw [hjl, hlast] at hj; exact hj
        · refine ⟨j, ?_⟩
          rw [hregions1, if_pos (by omega), if_neg hja]; exact hj
    · exact hAother
    · rw [hs1def]
    · rw [hs1def]

/-! ## C9: the free-region invariant -/
theorem IndexInv.toFreeRegionInvariant {s : VulkanMemorySubAllocator} (h : IndexInv s) :
    FreeRegionInvariant s := by
  constructor
  · intro p r hp i
    constructor
    · intro hi
      obtain ⟨r2, hr2, e⟩ := h.sorted_slot i p hi
      rw [hp] at hr2; cases hr2; exact e.symm
    · intro e; subst e; exact h.region_sorted p r hp
  · intro p r hp
    obtain ⟨A, hA, hAp⟩ := h.region_alloc p r hp
    refine ⟨A, hA, fun j => ⟨?_, ?_⟩⟩
    · intro hj
      obtain ⟨r2, hr2, _, e⟩ := h.alloc_slot _ A j p hA hj
      rw [hp] at hr2; cases hr2; exact e.symm
    · intro e; subst e; exact hAp
  · intro i p hi
    obtain ⟨r, hr, _⟩ := h.sorted_slot i p hi
    exact ⟨r, hr⟩
  · intro a A j p hA hj
    obtain ⟨r, hr, e, _⟩ := h.alloc_slot a A j p hA hj
    exact ⟨r, hr, e⟩
  · exact h.sorted_desc

theorem FreeRegionInvariant.toIndexInv {s : VulkanMemorySubAllocator}
    (h : FreeRegionInvariant s) : IndexInv s := by
  constructor
  · intro i p hi
    obtain ⟨r, hr⟩ := h.sorted_live i p hi
    exact ⟨r, hr, ((h.sorted_once p r hr i).mp hi).symm⟩
  · intro p r hp
    exact (h.sorted_once p r hp _).mpr rfl
  · intro a A j p hA hj
    obtain ⟨r, hr, e⟩ := h.alloc_live a A j p hA hj
    obtain ⟨A2, hA2, hiff⟩ := h.alloc_once p r hr
    rw [e, hA] at hA2; cases hA2
    exact ⟨r, hr, e, ((hiff j).mp hj).symm⟩
  · intro p r hp
    obtain ⟨A, hA, hiff⟩ := h.alloc_once p r hp
    exact ⟨A, hA, (hiff _).mpr rfl⟩
  · exact h.sorted_desc

theorem applyFreeListCall_inv (s : VulkanMemorySubAllocator) (c : FreeListCall)
    (hinv : IndexInv s) (hv : callValid s c = true) :
    ∃ s1, applyFreeListCall s c = some s1 ∧ IndexInv s1 := by
  cases c with
  | newRegion a off sz =>
    simp only [callValid, Option.isSome_iff_exists] at hv
    obtain ⟨A, hA⟩ := hv
    obtain ⟨s1, e, hinv1, _⟩ := NewMemoryFreeRegion_spec s a off sz A hinv hA
    exact ⟨s1, by simp only [applyFreeListCall, e], hinv1⟩
  | removeRegion p =>
    simp only [callValid, Option.isSome_iff_exists] at hv
    obtain ⟨r, hr⟩ := hv
    obtain ⟨s1, e, hinv1, _⟩ := RemoveMemoryFreeRegion_spec s p r hinv hr
    exact ⟨s1, by simp only [applyFreeListCall, e], hinv1⟩

/-- C9. Every sequence of `NewMemoryFreeRegion` and `RemoveMemoryFreeRegion` calls, each
given a live allocation or a live free region, runs to completion and preserves
the free-region invariant: each free region occupies exactly one slot of its
allocation's list and exactly one slot of the sorted list, its stored indexes are
those slots, and the sizes along the sorted list are non-increasing. -/
theorem free_region_indexes_preserved (s : VulkanMemorySubAllocator)
    (calls : List FreeListCall) (hinv : FreeRegionInvariant s)
    (hvalid : callsValid s calls = true) :
    ∃ s1, applyFreeListCalls s calls = some s1 ∧ FreeRegionInvariant s1 := by
  have key : ∀ (calls : List FreeListCall) (s : VulkanMemorySubAllocator), IndexInv s →
      callsValid s calls = true → ∃ s1, applyFreeListCalls s calls = some s1 ∧ IndexInv s1 := by
    intro calls
    induction calls with
    | nil => intro s hs _; exact ⟨s, rfl, hs⟩
    | cons c cs ih =>
      intro s hs hv
      simp only [callsValid, Bool.and_eq_true] at hv
      obtain ⟨s1, e1, hs1⟩ := applyFreeListCall_inv s c hs hv.1
      have hv2 := hv.2
      rw [e1] at hv2
      obtain ⟨s2, e2, hs2⟩ := ih s1 hs1 hv2
      exact ⟨s2, by simp only [applyFreeListCalls, e1, e2], hs2⟩
  obtain ⟨s1, e, h1⟩ := key calls s hinv.toIndexInv hvalid
  exact ⟨s1, e, h1.toFreeRegionInvariant⟩

theorem oneBlock_invariant : FreeRegionInvariant oneBlock := by
  constructor
  · intro p r hp; simp [oneBlock, initialSubAllocator, heapGet] at hp
  · intro p r hp; simp [oneBlock, initialSubAllocator, heapGet] at hp
  · intro i p hp; simp [oneBlock, initialSubAllocator] at hp
  · intro a A j p hA hj
    have : A.freeRegions = [] := by
      unfold heapGet at hA
      simp only [oneBlock] at hA
      cases a with
      | zero => simp at hA; subst hA; rfl
      | succ n => simp at hA
    rw [this] at hj; simp at hj
  · intro i j p q rp rq _ hp; simp [oneBlock, initialSubAllocator] at hp

theorem free_region_indexes_preserved_witness :
    FreeRegionInvariant oneBlock ∧
    callsValid oneBlock
      [.newRegion 0 0 40, .newRegion 0 40 60, .removeRegion 0, .newRegion 0 0 8] = true ∧
    ∃ s1, applyFreeListCalls oneBlock
        [.newRegion 0 0 40, .newRegion 0 40 60, .removeRegion 0, .newRegion 0 0 8] = some s1 ∧
      FreeRegionInvariant s1 :=
  ⟨oneBlock_invariant, by decide,
    free_region_indexes_preserved oneBlock _ oneBlock_invariant (by decide)⟩

/-! ## Free spans under insertion and removal -/
theorem spansOf_congr (h h1 : List (Option VulkanMemoryFreeRegion)) (l : List Nat)
    (hc : ∀ q, q ∈ l → (heapGet h1 q).map regionSpan = (heapGet h q).map regionSpan) :
    spansOf h1 l = spansOf h l := by
  unfold spansOf
  induction l with
  | nil => rfl
  | cons x xs ih =>
    simp only [List.filterMap_cons]
    rw [hc x (List.mem_cons_self _ _), ih (fun q hq => hc q (List.mem_cons_of_mem _ hq))]

theorem spansOf_perm (h : List (Option VulkanMemoryFreeRegion)) {l1 l2 : List Nat}
    (hp : l1.Perm l2) : (spansOf h l1).Perm (spansOf h l2) :=
  List.Perm.filterMap _ hp

theorem spansOf_cons_live (h : List (Option VulkanMemoryFreeRegion)) (p : Nat) (l : List Nat)
    (r : VulkanMemoryFreeRegion) (hr : heapGet h p = some r) :
    spansOf h (p :: l) = regionSpan r :: spansOf h l := by
  simp [spansOf, List.filterMap_cons, hr]

/-- The span map of the regions other than the new one is unchanged by an insertion. -/
theorem NewRegionEffect.span_frame {s s1 : VulkanMemorySubAllocator} {a off sz : Nat}
    (e : NewRegionEffect s s1 a off sz) (q : Nat) (hq : q ≠ s.regionHeap.length) :
    (heapGet s1.regionHeap q).map regionSpan = (heapGet s.regionHeap q).map regionSpan := by
  cases hsq : heapGet s.regionHeap q with
  | none => rw [e.old_dead q hq hsq]
  | some r =>
    obtain ⟨r1, hr1, e1, e2, e3⟩ := e.old_live q r hq hsq
    rw [hr1]
    simp [regionSpan, e1, e2, e3]

theorem NewRegionEffect.freeSpans_perm {s s1 : VulkanMemorySubAllocator} {a off sz : Nat}
    (hinv : IndexInv s) (e : NewRegionEffect s s1 a off sz) :
    (freeSpans s1).Perm ({ allocation := a, offset := off, size := sz } :: freeSpans s) := by
  obtain ⟨idx, hidx, hsorted, _, _⟩ := e.sorted_eq
  obtain ⟨r, hr, e1, e2, e3⟩ := e.new_region
  have hperm : s1.sortedFreeRegions.Perm (s.regionHeap.length :: s.sortedFreeRegions) := by
    rw [hsorted]
    refine List.Perm.trans List.perm_middle ?_
    rw [List.take_append_drop]
  have h1 := spansOf_perm s1.regionHeap hperm
  rw [spansOf_cons_live _ _ _ r hr] at h1
  have h2 : spansOf s1.regionHeap s.sortedFreeRegions = spansOf s.regionHeap s.sortedFreeRegions := by
    apply spansOf_congr
    intro q hq
    apply e.span_frame
    obtain ⟨rq, hrq⟩ := hinv.sorted_live hq
    exact Nat.ne_of_lt (heapGet_lt hrq)
  rw [h2] at h1
  have h3 : regionSpan r = { allocation := a, offset := off, size := sz } := by
    simp [regionSpan, e1, e2, e3]
  rw [h3] at h1
  exact h1

theorem NewRegionEffect.allocationFreeSpans_self {s s1 : VulkanMemorySubAllocator}
    {a off sz : Nat} (hinv : IndexInv s) (e : NewRegionEffect s s1 a off sz) :
    (allocationFreeSpans s1 a).Perm
      ({ allocation := a, offset := off, size := sz } :: allocationFreeSpans s a) := by
  obtain ⟨A, A1, hA, hA1, _, _, hfree⟩ := e.alloc_self
  obtain ⟨r, hr, e1, e2, e3⟩ := e.new_region
  unfold allocationFreeSpans
  rw [hA, hA1]
  simp only
  rw [hfree]
  have hperm : (A.freeRegions ++ [s.regionHeap.length]).Perm
      (s.regionHeap.length :: A.freeRegions) := by
    exact List.perm_append_singleton _ _
  have h1 := spansOf_perm s1.regionHeap hperm
  rw [spansOf_cons_live _ _ _ r hr] at h1
  have h2 : spansOf s1.regionHeap A.freeRegions = spansOf s.regionHeap A.freeRegions := by
    apply spansOf_congr
    intro q hq
    apply e.span_frame
    obtain ⟨j, hj⟩ := List.getElem?_of_mem hq
    obtain ⟨rq, hrq, _⟩ := hinv.alloc_slot a A j q hA hj
    exact Nat.ne_of_lt (heapGet_lt hrq)
  rw [h2] at h1
  have h3 : regionSpan r = { allocation := a, offset := off, size := sz } := by
    simp [regionSpan, e1, e2, e3]
  rw [h3] at h1
  exact h1

theorem NewRegionEffect.allocationFreeSpans_other {s s1 : VulkanMemorySubAllocator}
    {a off sz : Nat} (hinv : IndexInv s) (e : NewRegionEffect s s1 a off sz) (b : Nat)
    (hb : b ≠ a) : allocationFreeSpans s1 b = allocationFreeSpans s b := by
  unfold allocationFreeSpans
  rw [e.alloc_other b hb]
  cases hB : heapGet s.allocationHeap b with
  | none => rfl
  | some B =>
    simp only
    apply spansOf_congr
    intro q hq
    apply e.span_frame
    obtain ⟨j, hj⟩ := List.getElem?_of_mem hq
    obtain ⟨rq, hrq, _⟩ := hinv.alloc_slot b B j q hB hj
    exact Nat.ne_of_lt (heapGet_lt hrq)

/-- The span map of the regions other than the removed one is unchanged by a removal. -/
theorem RemoveRegionEffect.removed_span_frame {s s1 : VulkanMemorySubAllocator} {p : Nat}
    {r : VulkanMemoryFreeRegion} (e : RemoveRegionEffect s s1 p r) (q : Nat) (hq : q ≠ p) :
    (heapGet s1.regionHeap q).map regionSpan = (heapGet s.regionHeap q).map regionSpan := by
  cases hsq : heapGet s.regionHeap q with
  | none => rw [e.old_dead q hsq]
  | some rq =>
    obtain ⟨r1, hr1, e1, e2, e3⟩ := e.old_live q rq hq hsq
    rw [hr1]
    simp [regionSpan, e1, e2, e3]

theorem RemoveRegionEffect.sorted_perm {s s1 : VulkanMemorySubAllocator} {p : Nat}
    {r : VulkanMemoryFreeRegion} (hinv : IndexInv s) (hp : heapGet s.regionHeap p = some r)
    (e : RemoveRegionEffect s s1 p r) :
    s.sortedFreeRegions.Perm (p :: s1.sortedFreeRegions) := by
  have hsp := hinv.region_sorted p r hp
  have hlt := (List.getElem?_eq_some.mp hsp).1
  have hget : s.sortedFreeRegions[r.sortedIndex] = p := (List.getElem?_eq_some.mp hsp).2
  rw [e.sorted_eq, List.eraseIdx_eq_take_drop_succ]
  have h1 : s.sortedFreeRegions =
      s.sortedFreeRegions.take r.sortedIndex ++
        p :: s.sortedFreeRegions.drop (r.sortedIndex + 1) := by
    conv_lhs => rw [← List.take_append_drop r.sortedIndex s.sortedFreeRegions]
    rw [List.drop_eq_getElem_cons hlt, hget]
  conv_lhs => rw [h1]
  exact List.perm_middle

theorem RemoveRegionEffect.not_mem_sorted {s s1 : VulkanMemorySubAllocator} {p : Nat}
    {r : VulkanMemoryFreeRegion} (hinv : IndexInv s) (hp : heapGet s.regionHeap p = some r)
    (e : RemoveRegionEffect s s1 p r) : p ∉ s1.sortedFreeRegions := by
  have h1 := e.sorted_perm hinv hp
  have h2 := (List.Perm.nodup_iff h1).mp hinv.sorted_nodup
  exact (List.nodup_cons.mp h2).1

theorem RemoveRegionEffect.removed_freeSpans_perm {s s1 : VulkanMemorySubAllocator} {p : Nat}
    {r : VulkanMemoryFreeRegion} (hinv : IndexInv s) (hp : heapGet s.regionHeap p = some r)
    (e : RemoveRegionEffect s s1 p r) :
    (freeSpans s).Perm (regionSpan r :: freeSpans s1) := by
  have h1 := spansOf_perm s.regionHeap (e.sorted_perm hinv hp)
  rw [spansOf_cons_live _ _ _ r hp] at h1
  have h2 : spansOf s1.regionHeap s1.sortedFreeRegions =
      spansOf s.regionHeap s1.sortedFreeRegions := by
    apply spansOf_congr
    intro q hq
    apply e.removed_span_frame
    intro e2
    exact e.not_mem_sorted hinv hp (e2 ▸ hq)
  unfold freeSpans
  rw [h2]
  exact h1

theorem RemoveRegionEffect.removed_allocationFreeSpans_self {s s1 : VulkanMemorySubAllocator}
    {p : Nat} {r : VulkanMemoryFreeRegion} (hinv : IndexInv s) (hinv1 : IndexInv s1)
    (hp : heapGet s.regionHeap p = some r) (e : RemoveRegionEffect s s1 p r) :
    (allocationFreeSpans s r.allocation).Perm
      (regionSpan r :: allocationFreeSpans s1 r.allocation) := by
  obtain ⟨A, A1, hA, hA1, _, _, hmem⟩ := e.alloc_self
  have hnd := hinv.free_nodup hA
  have hnd1 := hinv1.free_nodup hA1
  have hpnot : p ∉ A1.freeRegions := fun hm => ((hmem p).mp hm).2 rfl
  obtain ⟨A2, hA2, hA2p⟩ := hinv.region_alloc p r hp
  rw [hA] at hA2; cases hA2
  have hpin : p ∈ A.freeRegions := List.getElem?_mem hA2p
  have hperm : A.freeRegions.Perm (p :: A1.freeRegions) := by
    rw [List.perm_ext_iff_of_nodup hnd (List.nodup_cons.mpr ⟨hpnot, hnd1⟩)]
    intro x
    rw [List.mem_cons, hmem x]
    constructor
    · intro hx
      by_cases hxp : x = p
      · exact Or.inl hxp
      · exact Or.inr ⟨hx, hxp⟩
    · rintro (hx | hx)
      · rw [hx]; exact hpin
      · exact hx.1
  unfold allocationFreeSpans
  rw [hA, hA1]
  simp only
  have h1 := spansOf_perm s.regionHeap hperm
  rw [spansOf_cons_live _ _ _ r hp] at h1
  have h2 : spansOf s1.regionHeap A1.freeRegions = spansOf s.regionHeap A1.freeRegions := by
    apply spansOf_congr
    intro q hq
    apply e.removed_span_frame
    intro e2
    exact hpnot (e2 ▸ hq)
  rw [h2]
  exact h1

theorem RemoveRegionEffect.removed_allocationFreeSpans_other {s s1 : VulkanMemorySubAllocator}
    {p : Nat} {r : VulkanMemoryFreeRegion} (hinv : IndexInv s)
    (hp : heapGet s.regionHeap p = some r) (e : RemoveRegionEffect s s1 p r) (b : Nat)
    (hb : b ≠ r.allocation) : allocationFreeSpans s1 b = allocationFreeSpans s b := by
  unfold allocationFreeSpans
  rw [e.alloc_other b hb]
  cases hB : heapGet s.allocationHeap b with
  | none => rfl
  | some B =>
    simp only
    apply spansOf_congr
    intro q hq
    apply e.removed_span_frame
    intro e2
    subst e2
    obtain ⟨j, hj⟩ := List.getElem?_of_mem hq
    obtain ⟨rq, hrq, e3, _⟩ := hinv.alloc_slot b B j q hB hj
    rw [hp] at hrq; cases hrq
    exact hb e3.symm

/-! ## `FindAvailableMemory`: the largest free region fits -/
theorem AllocationsUnchanged.refl (s : VulkanMemorySubAllocator) : AllocationsUnchanged s s :=
  ⟨rfl, fun _ => rfl, rfl, rfl⟩

theorem AllocationsUnchanged.trans {s s1 s2 : VulkanMemorySubAllocator}
    (h1 : AllocationsUnchanged s s1) (h2 : AllocationsUnchanged s1 s2) :
    AllocationsUnchanged s s2 :=
  ⟨h2.heap_len.trans h1.heap_len, fun b => (h2.same b).trans (h1.same b),
    h2.allocations_eq.trans h1.allocations_eq, h2.next_eq.trans h1.next_eq⟩

theorem NewRegionEffect.allocations_unchanged {s s1 : VulkanMemorySubAllocator}
    {a off sz : Nat} (e : NewRegionEffect s s1 a off sz) : AllocationsUnchanged s s1 := by
  refine ⟨e.alloc_len, ?_, e.allocations_eq, e.next_eq⟩
  intro b
  by_cases hb : b = a
  · obtain ⟨A, A1, hA, hA1, e1, e2, _⟩ := e.alloc_self
    rw [hb, hA, hA1]
    simp [e1, e2]
  · rw [e.alloc_other b hb]

theorem RemoveRegionEffect.removed_allocations_unchanged {s s1 : VulkanMemorySubAllocator}
    {p : Nat} {r : VulkanMemoryFreeRegion} (e : RemoveRegionEffect s s1 p r) :
    AllocationsUnchanged s s1 := by
  refine ⟨e.alloc_len, ?_, e.allocations_eq, e.next_eq⟩
  intro b
  by_cases hb : b = r.allocation
  · obtain ⟨A, A1, hA, hA1, e1, e2, _⟩ := e.alloc_self
    rw [hb, hA, hA1]
    simp [e1, e2]
  · rw [e.alloc_other b hb]

theorem AllocationsUnchanged.live {s s1 : VulkanMemorySubAllocator}
    (h : AllocationsUnchanged s s1) {b : Nat} {A : VulkanMemoryAllocation}
    (hA : heapGet s.allocationHeap b = some A) :
    ∃ A1, heapGet s1.allocationHeap b = some A1 ∧ A1.size = A.size ∧
      A1.dedicated = A.dedicated := by
  have := h.same b
  rw [hA] at this
  cases h1 : heapGet s1.allocationHeap b with
  | none => rw [h1] at this; simp at this
  | some A1 =>
    rw [h1] at this
    simp at this
    exact ⟨A1, rfl, this.1, this.2⟩

/-! ### 64-bit arithmetic without wrap-around -/

theorem roundUp_ge (n align : Nat) (ha : 0 < align) :
    n ≤ align * ((n + align - 1) / align) := by
  have h1 := Nat.lt_mul_div_succ (n + align - 1) ha
  have h2 : align * ((n + align - 1) / align + 1) =
      align * ((n + align - 1) / align) + align := by ring
  omega

theorem roundUp_lt (n align : Nat) (ha : 0 < align) :
    align * ((n + align - 1) / align) < n + align := by
  have h1 := Nat.mul_div_le (n + align - 1) align
  omega

theorem NextHighestAlignment_eq (n align : Nat) (ha : 0 < align)
    (hb : n + align ≤ DEVICE_SIZE_MOD) :
    VULKAN_INTERNAL_NextHighestAlignment n align = align * ((n + align - 1) / align) := by
  unfold VULKAN_INTERNAL_NextHighestAlignment
  have h1 : (n + align + (DEVICE_SIZE_MOD - 1)) % DEVICE_SIZE_MOD = n + align - 1 := by
    have h2 : n + align + (DEVICE_SIZE_MOD - 1) = (n + align - 1) + DEVICE_SIZE_MOD := by
      unfold DEVICE_SIZE_MOD at *; omega
    rw [h2, Nat.add_mod_right, Nat.mod_eq_of_lt (by omega)]
  rw [h1, Nat.mod_eq_of_lt]
  have h3 := Nat.mul_div_le (n + align - 1) align
  omega

theorem sub_mod_eq (x y : Nat) (hyx : y ≤ x) (hx : x < DEVICE_SIZE_MOD) :
    (x + DEVICE_SIZE_MOD - y) % DEVICE_SIZE_MOD = x - y := by
  have h2 : x + DEVICE_SIZE_MOD - y = (x - y) + DEVICE_SIZE_MOD := by omega
  rw [h2, Nat.add_mod_right, Nat.mod_eq_of_lt (by omega)]

/-! ### An insertion that happens only under a condition -/

theorem newRegionIf_spec (c : Prop) [Decidable c] (s : VulkanMemorySubAllocator)
    (a off sz : Nat) (A : VulkanMemoryAllocation) (hinv : IndexInv s)
    (hA : heapGet s.allocationHeap a = some A) :
    ∃ s1, (if c then (VULKAN_INTERNAL_NewMemoryFreeRegion s a off sz).map Prod.fst
            else some s) = some s1 ∧
      IndexInv s1 ∧ AllocationsUnchanged s s1 ∧
      s.regionHeap.length ≤ s1.regionHeap.length ∧
      (∀ q, q < s.regionHeap.length →
        (heapGet s1.regionHeap q).map regionSpan = (heapGet s.regionHeap q).map regionSpan) ∧
      (freeSpans s1).Perm
        ((if c then [{ allocation := a, offset := off, size := sz }] else []) ++ freeSpans s) ∧
      (allocationFreeSpans s1 a).Perm
        ((if c then [{ allocation := a, offset := off, size := sz }] else []) ++
          allocationFreeSpans s a) ∧
      (∀ b, b ≠ a → allocationFreeSpans s1 b = allocationFreeSpans s b) := by
  by_cases hc : c
  · obtain ⟨s1, e, hinv1, eff⟩ := NewMemoryFreeRegion_spec s a off sz A hinv hA
    refine ⟨s1, ?_, hinv1, eff.allocations_unchanged, ?_, ?_, ?_, ?_, ?_⟩
    · rw [if_pos hc, e]; rfl
    · rw [eff.heap_len]; omega
    · intro q hq
      exact eff.span_frame q (Nat.ne_of_lt hq)
    · rw [if_pos hc]; exact eff.freeSpans_perm hinv
    · rw [if_pos hc]; exact eff.allocationFreeSpans_self hinv
    · exact eff.allocationFreeSpans_other hinv
  · refine ⟨s, ?_, hinv, AllocationsUnchanged.refl s, Nat.le_refl _, fun _ _ => rfl, ?_, ?_,
      fun _ _ => rfl⟩
    · rw [if_neg hc]
    · rw [if_neg hc]; exact List.Perm.refl _
    · rw [if_neg hc]; exact List.Perm.refl _

/-- The first half of `FindAvailableMemory`: the largest free region fits. -/
theorem FindAvailableMemory_fit (s : VulkanMemorySubAllocator) (buffer image : Nat)
    (req : MemoryRequirements) (ok : Bool) (p : Nat) (R : VulkanMemoryFreeRegion)
    (hinv : IndexInv s)
    (hhandle : (buffer ≠ 0 ∧ image = 0) ∨ (buffer = 0 ∧ image ≠ 0))
    (hhead : s.sortedFreeRegions[0]? = some p) (hR : heapGet s.regionHeap p = some R)
    (halign : 0 < req.alignment)
    (hbound : R.offset + R.size + req.alignment + req.size < DEVICE_SIZE_MOD)
    (hfit : req.alignment * ((R.offset + req.alignment - 1) / req.alignment) + req.size ≤
      R.offset + R.size) :
    ∃ s1, VULKAN_INTERNAL_FindAvailableMemory s buffer image (some req) ok =
        some (s1, 1, some { allocation := R.allocation,
                            offset := req.alignment * ((R.offset + req.alignment - 1) / req.alignment),
                            size := req.size }) ∧
      IndexInv s1 ∧ AllocationsUnchanged s s1 ∧
      heapGet s1.regionHeap p = none ∧
      (regionSpan R :: freeSpans s1).Perm
        (carveRemainders R
          (req.alignment * ((R.offset + req.alignment - 1) / req.alignment)) req.size ++
          freeSpans s) ∧
      (regionSpan R :: allocationFreeSpans s1 R.allocation).Perm
        (carveRemainders R
          (req.alignment * ((R.offset + req.alignment - 1) / req.alignment)) req.size ++
          allocationFreeSpans s R.allocation) ∧
      (∀ b, b ≠ R.allocation → allocationFreeSpans s1 b = allocationFreeSpans s b) := by
  obtain ⟨al, hal⟩ : ∃ al, al = req.alignment * ((R.offset + req.alignment - 1) / req.alignment) :=
    ⟨_, rfl⟩
  rw [← hal] at hfit ⊢
  have hge : R.offset ≤ al := hal ▸ roundUp_ge R.offset req.alignment halign
  have hlt : al < R.offset + req.alignment := hal ▸ roundUp_lt R.offset req.alignment halign
  have hNHA : VULKAN_INTERNAL_NextHighestAlignment R.offset req.alignment = al := by
    rw [hal]; exact NextHighestAlignment_eq _ _ halign (by omega)
  have hm1 : (al + req.size) % DEVICE_SIZE_MOD = al + req.size := Nat.mod_eq_of_lt (by omega)
  have hm2 : (R.offset + R.size) % DEVICE_SIZE_MOD = R.offset + R.size :=
    Nat.mod_eq_of_lt (by omega)
  have hm3 : (al + DEVICE_SIZE_MOD - R.offset) % DEVICE_SIZE_MOD = al - R.offset :=
    sub_mod_eq _ _ hge (by omega)
  have hm4 : (al - R.offset + req.size) % DEVICE_SIZE_MOD = al - R.offset + req.size :=
    Nat.mod_eq_of_lt (by omega)
  have hm5 : (R.size + DEVICE_SIZE_MOD - (al - R.offset + req.size)) % DEVICE_SIZE_MOD =
      R.size - (al - R.offset + req.size) := sub_mod_eq _ _ (by omega) (by omega)
  obtain ⟨rest, hlist⟩ : ∃ rest, s.sortedFreeRegions = p :: rest := by
    cases hl : s.sortedFreeRegions with
    | nil => rw [hl] at hhead; simp at hhead
    | cons x xs => rw [hl] at hhead; simp at hhead; exact ⟨xs, by rw [hhead]⟩
  obtain ⟨A, hA, _⟩ := hinv.region_alloc p R hR
  -- the alignment gap
  obtain ⟨s1, e1, hinv1, au1, hlen1, hframe1, hperm1, hpermA1, hother1⟩ :=
    newRegionIf_spec (R.offset ≠ al) s R.allocation R.offset (al - R.offset) A hinv hA
  have hp_lt : p < s.regionHeap.length := heapGet_lt hR
  obtain ⟨R1, hR1, hspan1⟩ : ∃ R1, heapGet s1.regionHeap p = some R1 ∧
      regionSpan R1 = regionSpan R := by
    have := hframe1 p hp_lt
    rw [hR] at this
    cases h : heapGet s1.regionHeap p with
    | none => rw [h] at this; simp at this
    | some R1 => rw [h] at this; simp at this; exact ⟨R1, rfl, this⟩
  have hR1a : R1.allocation = R.allocation := congrArg MemorySpan.allocation hspan1
  -- the removal of the region
  obtain ⟨s2, e2, hinv2, eff2⟩ := RemoveMemoryFreeRegion_spec s1 p R1 hinv1 hR1
  have hperm2 := eff2.removed_freeSpans_perm hinv1 hR1
  have hpermA2 := eff2.removed_allocationFreeSpans_self hinv1 hinv2 hR1
  have hother2 := eff2.removed_allocationFreeSpans_other hinv1 hR1
  rw [hspan1] at hperm2 hpermA2
  rw [hR1a] at hpermA2 hother2
  have au2 := au1.trans eff2.removed_allocations_unchanged
  obtain ⟨A2, hA2, _, _⟩ := au2.live hA
  -- the rest of the region
  obtain ⟨s3, e3, hinv3, au3, hlen3, hframe3, hperm3, hpermA3, hother3⟩ :=
    newRegionIf_spec (R.size - (al - R.offset + req.size) ≠ 0) s2 R.allocation
      (al + req.size) (R.size - (al - R.offset + req.size)) A2 hinv2 hA2
  have hp_lt2 : p < s2.regionHeap.length := by rw [eff2.heap_len]; omega
  have hdead3 : heapGet s3.regionHeap p = none := by
    have := hframe3 p hp_lt2
    rw [eff2.removed] at this
    cases h : heapGet s3.regionHeap p with
    | none => rfl
    | some x => rw [h] at this; simp at this
  refine ⟨s3, ?_, hinv3, au2.trans au3, hdead3, ?_, ?_, ?_⟩
  · unfold VULKAN_INTERNAL_FindAvailableMemory
    have hn1 : ¬ (buffer ≠ 0 ∧ image ≠ 0) := by
      rcases hhandle with h | h
      · exact fun hc => hc.2 h.2
      · exact fun hc => hc.1 h.1
    have hn2 : ¬ (buffer = 0 ∧ image = 0) := by
      rcases hhandle with h | h
      · exact fun hc => h.1 hc.1
      · exact fun hc => h.2 hc.2
    rw [if_neg hn1, if_neg hn2]
    simp only [hlist, hR, hNHA, hm1, hm2, hm3, hm4, hm5, if_pos hfit, e1, e2, e3]
  · -- the sorted list
    have hrem : carveRemainders R al req.size =
        (if R.offset ≠ al
          then [{ allocation := R.allocation, offset := R.offset, size := al - R.offset }]
          else []) ++
        (if R.size - (al - R.offset + req.size) ≠ 0
          then [{ allocation := R.allocation, offset := al + req.size,
                  size := R.size - (al - R.offset + req.size) }]
          else []) := by
      unfold carveRemainders
      congr 1
      by_cases h : al + req.size = R.offset + R.size
      · rw [if_neg (by omega), if_neg (by omega)]
      · rw [if_pos h, if_pos (by omega)]
        congr 2
        omega
    rw [hrem]
    -- freeSpans s3 ~ tail ++ freeSpans s2 ; freeSpans s1 ~ R :: freeSpans s2 ;
    -- freeSpans s1 ~ gap ++ freeSpans s
    have h1 : (regionSpan R :: freeSpans s3).Perm
        ((if R.size - (al - R.offset + req.size) ≠ 0
          then [{ allocation := R.allocation, offset := al + req.size,
                  size := R.size - (al - R.offset + req.size) }]
          else []) ++ (regionSpan R :: freeSpans s2)) :=
      (List.Perm.cons _ hperm3).trans List.perm_middle.symm
    have h2 := h1.trans (List.Perm.append_left _ (hperm2.symm.trans hperm1))
    refine h2.trans ?_
    rw [← List.append_assoc]
    exact List.Perm.append_right _ List.perm_append_comm
  · have hrem : carveRemainders R al req.size =
        (if R.offset ≠ al
          then [{ allocation := R.allocation, offset := R.offset, size := al - R.offset }]
          else []) ++
        (if R.size - (al - R.offset + req.size) ≠ 0
          then [{ allocation := R.allocation, offset := al + req.size,
                  size := R.size - (al - R.offset + req.size) }]
          else []) := by
      unfold carveRemainders
      congr 1
      by_cases h : al + req.size = R.offset + R.size
      · rw [if_neg (by omega), if_neg (by omega)]
      · rw [if_pos h, if_pos (by omega)]
        congr 2
        omega
    rw [hrem]
    have h1 : (regionSpan R :: allocationFreeSpans s3 R.allocation).Perm
        ((if R.size - (al - R.offset + req.size) ≠ 0
          then [{ allocation := R.allocation, offset := al + req.size,
                  size := R.size - (al - R.offset + req.size) }]
          else []) ++ (regionSpan R :: allocationFreeSpans s2 R.allocation)) :=
      (List.Perm.cons _ hpermA3).trans List.perm_middle.symm
    have h2 := h1.trans (List.Perm.append_left _ (hpermA2.symm.trans hpermA1))
    refine h2.trans ?_
    rw [← List.append_assoc]
    exact List.Perm.append_right _ List.perm_append_comm
  · intro b hb
    rw [hother3 b hb, hother2 b hb, hother1 b hb]

/-! ## C10: carving the largest free region -/
theorem oneBlockFree_invariant : FreeRegionInvariant oneBlockFree := by
  obtain ⟨s1, e, hinv, _⟩ := NewMemoryFreeRegion_spec oneBlock 0 0 100
    { size := 100, freeRegions := [], freeRegionCapacity := 1, dedicated := false }
    oneBlock_invariant.toIndexInv rfl
  have h : VULKAN_INTERNAL_NewMemoryFreeRegion oneBlock 0 0 100 = some (oneBlockFree, 0) := by
    decide
  rw [h] at e
  cases e
  exact hinv.toFreeRegionInvariant

/-- C10. When the sorted free list is non-empty and the aligned span fits its first
(largest) region `R`, `FindAvailableMemory` succeeds with `R`'s allocation, the
offset `a` = `R.offset` rounded up to the alignment (a multiple of the alignment,
not below `R.offset`) and the required size; it creates no memory block,
removes `R` from the sorted list and from every allocation's list, and the free
spans afterwards are the old ones without `R` plus the non-empty ones of the
remainders `[R.offset, a)` and `[a + required, R.offset + R.size)`, in the sorted
list as well as in the list of `R`'s allocation. -/
theorem find_memory_carves_largest_region (s : VulkanMemorySubAllocator)
    (buffer image : Nat) (req : MemoryRequirements) (ok : Bool) (p : Nat)
    (R : VulkanMemoryFreeRegion)
    (hinv : FreeRegionInvariant s)
    (hhandle : (buffer ≠ 0 ∧ image = 0) ∨ (buffer = 0 ∧ image ≠ 0))
    (hhead : s.sortedFreeRegions[0]? = some p) (hR : heapGet s.regionHeap p = some R)
    (halign : 0 < req.alignment)
    (hbound : R.offset + R.size + req.alignment + req.size < DEVICE_SIZE_MOD)
    (hfit : req.alignment * ((R.offset + req.alignment - 1) / req.alignment) + req.size ≤
      R.offset + R.size) :
    ∃ s1, VULKAN_INTERNAL_FindAvailableMemory s buffer image (some req) ok =
        some (s1, 1, some { allocation := R.allocation,
                            offset := req.alignment * ((R.offset + req.alignment - 1) / req.alignment),
                            size := req.size }) ∧
      req.alignment ∣ req.alignment * ((R.offset + req.alignment - 1) / req.alignment) ∧
      R.offset ≤ req.alignment * ((R.offset + req.alignment - 1) / req.alignment) ∧
      req.alignment * ((R.offset + req.alignment - 1) / req.alignment) <
        R.offset + req.alignment ∧
      FreeRegionInvariant s1 ∧
      s1.allocations = s.allocations ∧
      s1.allocationHeap.length = s.allocationHeap.length ∧
      heapGet s1.regionHeap p = none ∧
      p ∉ s1.sortedFreeRegions ∧
      (∀ b B, heapGet s1.allocationHeap b = some B → p ∉ B.freeRegions) ∧
      (regionSpan R :: freeSpans s1).Perm
        (carveRemainders R
          (req.alignment * ((R.offset + req.alignment - 1) / req.alignment)) req.size ++
          freeSpans s) ∧
      (regionSpan R :: allocationFreeSpans s1 R.allocation).Perm
        (carveRemainders R
          (req.alignment * ((R.offset + req.alignment - 1) / req.alignment)) req.size ++
          allocationFreeSpans s R.allocation) := by
  obtain ⟨s1, e, hinv1, au, hdead, hperm, hpermA, _⟩ :=
    FindAvailableMemory_fit s buffer image req ok p R hinv.toIndexInv hhandle hhead hR halign
      hbound hfit
  refine ⟨s1, e, Nat.dvd_mul_right _ _, roundUp_ge _ _ halign, roundUp_lt _ _ halign,
    hinv1.toFreeRegionInvariant, au.allocations_eq, au.heap_len, hdead, ?_, ?_, hperm, hpermA⟩
  · intro hm
    obtain ⟨r, hr⟩ := hinv1.sorted_live hm
    rw [hdead] at hr; cases hr
  · intro b B hB hm
    obtain ⟨j, hj⟩ := List.getElem?_of_mem hm
    obtain ⟨r, hr, _⟩ := hinv1.alloc_slot b B j p hB hj
    rw [hdead] at hr; cases hr

theorem find_memory_carves_largest_region_witness :
    FreeRegionInvariant oneBlockFree ∧
    ((1 ≠ 0 ∧ 0 = 0) ∨ (1 = 0 ∧ 0 ≠ 0)) ∧
    oneBlockFree.sortedFreeRegions[0]? = some 0 ∧
    (∃ s1, VULKAN_INTERNAL_FindAvailableMemory oneBlockFree 1 0
        (some { size := 24, alignment := 16, prefersDedicatedAllocation := false,
                requiresDedicatedAllocation := false }) true =
        some (s1, 1, some { allocation := 0, offset := 0, size := 24 }) ∧
      freeSpans s1 = [{ allocation := 0, offset := 24, size := 76 }]) := by
  refine ⟨oneBlockFree_invariant, by decide, by decide, ?_⟩
  obtain ⟨s1, e, _, _, _, _, _, _, _, _, _, hperm, _⟩ :=
    find_memory_carves_largest_region oneBlockFree 1 0
      { size := 24, alignment := 16, prefersDedicatedAllocation := false,
        requiresDedicatedAllocation := false } true 0
      { allocation := 0, offset := 0, size := 100, allocationIndex := 0, sortedIndex := 0 }
      oneBlockFree_invariant (by decide) (by decide) (by decide) (by decide) (by decide)
      (by decide)
  refine ⟨s1, e, ?_⟩
  have h : VULKAN_INTERNAL_FindAvailableMemory oneBlockFree 1 0
        (some { size := 24, alignment := 16, prefersDedicatedAllocation := false,
                requiresDedicatedAllocation := false }) true =
      some ({ oneBlockFree with
                sortedFreeRegions := [1]
                allocationHeap := [some { size := 100, freeRegions := [1],
                                          freeRegionCapacity := 1, dedicated := false }]
                regionHeap := [none, some { allocation := 0, offset := 24, size := 76,
                                            allocationIndex := 0, sortedIndex := 0 }] },
            1, some { allocation := 0, offset := 0, size := 24 }) := by decide
  rw [h] at e
  cases e
  decide

/-! ## C8: reuse of a freed span -/
theorem roundUp_of_dvd (n align : Nat) (ha : 0 < align) (hd : align ∣ n) :
    align * ((n + align - 1) / align) = n := by
  obtain ⟨k, rfl⟩ := hd
  have : (align * k + align - 1) / align = k := by
    apply Nat.div_eq_of_lt_le
    · rw [Nat.mul_comm]; omega
    · have : (k + 1) * align = align * k + align := by ring
      omega
  rw [this]

/-- C8 as stated fails: two blocks are allocated and both buffers are destroyed, the
one of 64000000 bytes at offset 0 of block 0 last; the request for exactly
64000000 bytes that follows is served from block 1, whose free region is the
larger one. -/
theorem reuse_served_from_other_block :
    VULKAN_INTERNAL_FindAvailableMemory initialSubAllocator 1 0
        (some { size := 64000000, alignment := 1, prefersDedicatedAllocation := false,
                requiresDedicatedAllocation := false }) true =
      some (reuseStep1, 1, some { allocation := 0, offset := 0, size := 64000000 }) ∧
    VULKAN_INTERNAL_FindAvailableMemory reuseStep1 1 0
        (some { size := 128000000, alignment := 1, prefersDedicatedAllocation := false,
                requiresDedicatedAllocation := false }) true =
      some (reuseStep2, 1, some { allocation := 1, offset := 0, size := 128000000 }) ∧
    destroyResourceMemory reuseStep2 { allocation := 1, offset := 0, size := 128000000 } =
      some reuseStep3 ∧
    destroyResourceMemory reuseStep3 { allocation := 0, offset := 0, size := 64000000 } =
      some reuseStep4 ∧
    ∃ s5, VULKAN_INTERNAL_FindAvailableMemory reuseStep4 1 0
        (some { size := 64000000, alignment := 1, prefersDedicatedAllocation := false,
                requiresDedicatedAllocation := false }) true =
      some (s5, 1, some { allocation := 1, offset := 0, size := 64000000 }) := by
  refine ⟨by decide, by decide, by decide, by decide, ?_⟩
  exact ⟨{ reuseStep4 with
            sortedFreeRegions := [3, 4]
            allocationHeap := [some { size := 64000000, freeRegions := [3],
                                      freeRegionCapacity := 1, dedicated := false },
                               some { size := 128000000, freeRegions := [4],
                                      freeRegionCapacity := 1, dedicated := false }]
            regionHeap := [none, none, none,
                           some { allocation := 0, offset := 0, size := 64000000,
                                  allocationIndex := 0, sortedIndex := 0 },
                           some { allocation := 1, offset := 64000000, size := 64000000,
                                  allocationIndex := 0, sortedIndex := 1 }] }, by decide⟩

/-- C8, amended. After a span of size `sz` at offset `o` of a non-dedicated block has
been freed, a request for exactly `sz` bytes with an alignment that divides `o`
is served from that same block at offset `o` and creates no memory block,
provided every other free region of the sub-allocator is smaller than `sz`. -/
theorem freed_span_reused_when_largest (s : VulkanMemorySubAllocator) (a o sz : Nat)
    (A : VulkanMemoryAllocation) (buffer image : Nat) (req : MemoryRequirements) (ok : Bool)
    (hinv : FreeRegionInvariant s)
    (hA : heapGet s.allocationHeap a = some A) (hded : A.dedicated = false)
    (hsmall : ∀ p r, heapGet s.regionHeap p = some r → r.size < sz)
    (hhandle : (buffer ≠ 0 ∧ image = 0) ∨ (buffer = 0 ∧ image ≠ 0))
    (hsize : req.size = sz) (halign : 0 < req.alignment) (hdvd : req.alignment ∣ o)
    (hbound : o + sz + req.alignment + sz < DEVICE_SIZE_MOD) :
    ∃ s1 s2,
      destroyResourceMemory s { allocation := a, offset := o, size := sz } = some s1 ∧
      VULKAN_INTERNAL_FindAvailableMemory s1 buffer image (some req) ok =
        some (s2, 1, some { allocation := a, offset := o, size := sz }) ∧
      s2.allocations = s.allocations ∧
      s2.allocationHeap.length = s.allocationHeap.length := by
  have hinv0 := hinv.toIndexInv
  obtain ⟨s1, e1, hinv1, eff⟩ := NewMemoryFreeRegion_spec s a o sz A hinv0 hA
  obtain ⟨idx, hidx, hsorted, hbefore, _⟩ := eff.sorted_eq
  have hidx0 : idx = 0 := by
    by_contra hne
    obtain ⟨q, hq⟩ : ∃ q, s.sortedFreeRegions[0]? = some q :=
      ⟨_, List.getElem?_eq_getElem (by omega)⟩
    obtain ⟨r, hr, _⟩ := hinv0.sorted_slot 0 q hq
    have h1 := hbefore 0 q r (by omega) hq hr
    have h2 := hsmall q r hr
    omega
  subst hidx0
  have hhead : s1.sortedFreeRegions[0]? = some s.regionHeap.length := by
    rw [hsorted]; simp
  obtain ⟨R, hR, eRa, eRo, eRs⟩ := eff.new_region
  have hround : req.alignment * ((R.offset + req.alignment - 1) / req.alignment) = o := by
    rw [eRo]; exact roundUp_of_dvd o req.alignment halign hdvd
  obtain ⟨s2, e2, _, au, _⟩ :=
    FindAvailableMemory_fit s1 buffer image req ok s.regionHeap.length R hinv1 hhandle hhead hR
      halign (by rw [eRo, eRs, hsize]; exact hbound) (by rw [hround, eRo, eRs, hsize])
  rw [hround, eRa, hsize] at e2
  refine ⟨s1, s2, ?_, e2, ?_, ?_⟩
  · unfold destroyResourceMemory
    simp only [hA, hded, e1]
    rfl
  · rw [au.allocations_eq, eff.allocations_eq]
  · rw [au.heap_len, eff.alloc_len]

theorem freed_span_reused_when_largest_witness :
    FreeRegionInvariant oneBlock ∧
    ((1 ≠ 0 ∧ 0 = 0) ∨ (1 = 0 ∧ 0 ≠ 0)) ∧
    ∃ s1 s2,
      destroyResourceMemory oneBlock { allocation := 0, offset := 32, size := 48 } = some s1 ∧
      VULKAN_INTERNAL_FindAvailableMemory s1 1 0
        (some { size := 48, alignment := 16, prefersDedicatedAllocation := false,
                requiresDedicatedAllocation := false }) true =
        some (s2, 1, some { allocation := 0, offset := 32, size := 48 }) ∧
      s2.allocations = oneBlock.allocations ∧
      s2.allocationHeap.length = oneBlock.allocationHeap.length :=
  ⟨oneBlock_invariant, by decide,
    freed_span_reused_when_largest oneBlock 0 32 48
      { size := 100, freeRegions := [], freeRegionCapacity := 1, dedicated := false } 1 0
      { size := 48, alignment := 16, prefersDedicatedAllocation := false,
        requiresDedicatedAllocation := false } true
      oneBlock_invariant rfl rfl
      (by intro p r hp; simp [oneBlock, initialSubAllocator, heapGet] at hp)
      (by decide) rfl (by decide) (by decide) (by decide)⟩

/-! ## `FindAvailableMemory`: a new block -/
/-- Appending a block without free regions keeps the indexes consistent. -/
theorem IndexInv.append_allocation {s : VulkanMemorySubAllocator} (hinv : IndexInv s)
    (a : VulkanMemoryAllocation) (ha : a.freeRegions = []) (allocations : List Nat) :
    IndexInv { s with allocations := allocations,
                      allocationHeap := s.allocationHeap ++ [some a] } := by
  constructor
  · exact hinv.sorted_slot
  · exact hinv.region_sorted
  · intro b B j p hB hj
    simp only at hB
    by_cases hb : b < s.allocationHeap.length
    · rw [heapGet_append_lt _ _ _ hb] at hB
      exact hinv.alloc_slot b B j p hB hj
    · have hb2 : b = s.allocationHeap.length := by
        have := heapGet_lt hB
        simp at this; omega
      subst hb2
      rw [heapGet_append_new] at hB
      cases hB
      rw [ha] at hj; simp at hj
  · intro p r hp
    obtain ⟨A, hA, hAp⟩ := hinv.region_alloc p r hp
    refine ⟨A, ?_, hAp⟩
    simp only
    rw [heapGet_append_lt _ _ _ (heapGet_lt hA)]; exact hA
  · exact hinv.sorted_desc

/-- The size of the block `FindAvailableMemory` allocates when no region fits. -/
theorem newBlock_size_bounds (req : MemoryRequirements) (next : Nat)
    (hnext : next ≤ MAX_ALLOCATION_SIZE) (hsize : req.size ≤ REQUEST_LIMIT) :
    VULKAN_INTERNAL_NextHighestAlignment req.size STARTING_ALLOCATION_SIZE =
        STARTING_ALLOCATION_SIZE *
          ((req.size + STARTING_ALLOCATION_SIZE - 1) / STARTING_ALLOCATION_SIZE) ∧
    req.size ≤ STARTING_ALLOCATION_SIZE *
          ((req.size + STARTING_ALLOCATION_SIZE - 1) / STARTING_ALLOCATION_SIZE) ∧
    STARTING_ALLOCATION_SIZE *
          ((req.size + STARTING_ALLOCATION_SIZE - 1) / STARTING_ALLOCATION_SIZE) ≤ BLOCK_LIMIT ∧
    min ((next * 2) % DEVICE_SIZE_MOD) MAX_ALLOCATION_SIZE = min (next * 2) MAX_ALLOCATION_SIZE := by
  have hpos : 0 < STARTING_ALLOCATION_SIZE := by decide
  refine ⟨?_, roundUp_ge _ _ hpos, ?_, ?_⟩
  · apply NextHighestAlignment_eq _ _ hpos
    unfold STARTING_ALLOCATION_SIZE DEVICE_SIZE_MOD
    unfold REQUEST_LIMIT at hsize
    omega
  · have := roundUp_lt req.size STARTING_ALLOCATION_SIZE hpos
    unfold BLOCK_LIMIT
    omega
  · rw [Nat.mod_eq_of_lt]
    unfold MAX_ALLOCATION_SIZE at hnext
    unfold DEVICE_SIZE_MOD
    omega

/-- The new-block half of `FindAvailableMemory` when `vkAllocateMemory` succeeds. -/
theorem findAvailableMemoryNewBlock_ok (s : VulkanMemorySubAllocator)
    (req : MemoryRequirements) (allocSize : Nat) (hinv : IndexInv s)
    (hnext : s.nextAllocationSize ≤ MAX_ALLOCATION_SIZE)
    (hsize : req.size ≤ REQUEST_LIMIT)
    (hsz : allocSize =
      if (req.prefersDedicatedAllocation || req.requiresDedicatedAllocation) = true
      then req.size
      else if req.size > s.nextAllocationSize then
        STARTING_ALLOCATION_SIZE *
          ((req.size + STARTING_ALLOCATION_SIZE - 1) / STARTING_ALLOCATION_SIZE)
      else s.nextAllocationSize) :
    ∃ s3, findAvailableMemoryNewBlock s req true =
        some (s3, 1, some { allocation := s.allocationHeap.length, offset := 0,
                            size := req.size }) ∧
      IndexInv s3 ∧
      req.size ≤ allocSize ∧ allocSize ≤ BLOCK_LIMIT ∧
      s3.allocationHeap.length = s.allocationHeap.length + 1 ∧
      (∃ A3, heapGet s3.allocationHeap s.allocationHeap.length = some A3 ∧
        A3.size = allocSize ∧
        A3.dedicated = (req.prefersDedicatedAllocation || req.requiresDedicatedAllocation)) ∧
      (∀ b, b ≠ s.allocationHeap.length →
        (heapGet s3.allocationHeap b).map (fun A => (A.size, A.dedicated)) =
          (heapGet s.allocationHeap b).map (fun A => (A.size, A.dedicated))) ∧
      s3.allocations =
        (if (req.prefersDedicatedAllocation || req.requiresDedicatedAllocation) = true
         then s.allocations else s.allocations ++ [s.allocationHeap.length]) ∧
      s3.nextAllocationSize =
        (if (req.prefersDedicatedAllocation || req.requiresDedicatedAllocation) = true
         then s.nextAllocationSize
         else if req.size > s.nextAllocationSize then s.nextAllocationSize
         else min (s.nextAllocationSize * 2) MAX_ALLOCATION_SIZE) ∧
      (freeSpans s3).Perm
        ((if allocSize - req.size ≠ 0
          then [{ allocation := s.allocationHeap.length, offset := req.size,
                  size := allocSize - req.size }]
          else []) ++ freeSpans s) ∧
      (allocSize - req.size = 0 → s3.sortedFreeRegions = s.sortedFreeRegions) := by
  obtain ⟨ded, hded⟩ : ∃ ded, ded =
    (req.prefersDedicatedAllocation || req.requiresDedicatedAllocation) := ⟨_, rfl⟩
  rw [← hded] at hsz ⊢
  obtain ⟨hNHA, hge, hle, hmin⟩ := newBlock_size_bounds req s.nextAllocationSize hnext hsize
  -- the state handed to AllocateMemory and the size chosen
  obtain ⟨s0, hs0⟩ : ∃ s0 : VulkanMemorySubAllocator, s0 =
      (if ded = true then s
       else if req.size > s.nextAllocationSize then s
       else { s with nextAllocationSize := min (s.nextAllocationSize * 2) MAX_ALLOCATION_SIZE }) :=
    ⟨_, rfl⟩
  have hsizing : (if ded = true then (s, req.size)
        else if req.size > s.nextAllocationSize then
          (s, VULKAN_INTERNAL_NextHighestAlignment req.size STARTING_ALLOCATION_SIZE)
        else
          ({ s with nextAllocationSize :=
                      min ((s.nextAllocationSize * 2) % DEVICE_SIZE_MOD) MAX_ALLOCATION_SIZE },
           s.nextAllocationSize)) = (s0, allocSize) := by
    rw [hs0, hsz, hNHA, hmin]
    split
    · rfl
    · split <;> rfl
  have hs0_heap : s0.allocationHeap = s.allocationHeap := by
    rw [hs0]; split
    · rfl
    · split <;> rfl
  have hs0_reg : s0.regionHeap = s.regionHeap := by
    rw [hs0]; split
    · rfl
    · split <;> rfl
  have hs0_sorted : s0.sortedFreeRegions = s.sortedFreeRegions := by
    rw [hs0]; split
    · rfl
    · split <;> rfl
  have hs0_allocs : s0.allocations = s.allocations := by
    rw [hs0]; split
    · rfl
    · split <;> rfl
  have hs0_next : s0.nextAllocationSize =
      (if ded = true then s.nextAllocationSize
       else if req.size > s.nextAllocationSize then s.nextAllocationSize
       else min (s.nextAllocationSize * 2) MAX_ALLOCATION_SIZE) := by
    rw [hs0]; split
    · rfl
    · split <;> rfl
  have hinv0 : IndexInv s0 := by
    constructor
    · rw [hs0_reg, hs0_sorted]; exact hinv.sorted_slot
    · rw [hs0_reg, hs0_sorted]; exact hinv.region_sorted
    · rw [hs0_reg, hs0_heap]; exact hinv.alloc_slot
    · rw [hs0_reg, hs0_heap]; exact hinv.region_alloc
    · rw [hs0_reg, hs0_sorted]; exact hinv.sorted_desc
  have hreq_le : req.size ≤ allocSize := by
    rw [hsz]; split
    · exact Nat.le_refl _
    · split
      · exact hge
      · omega
  have halloc_le : allocSize ≤ BLOCK_LIMIT := by
    rw [hsz]; split
    · unfold BLOCK_LIMIT; omega
    · split
      · exact hle
      · unfold BLOCK_LIMIT REQUEST_LIMIT STARTING_ALLOCATION_SIZE
        unfold MAX_ALLOCATION_SIZE at hnext
        omega
  -- AllocateMemory: the new block
  obtain ⟨anew, hanew⟩ : ∃ anew : VulkanMemoryAllocation, anew =
      { size := allocSize, freeRegions := [], freeRegionCapacity := 1, dedicated := ded } :=
    ⟨_, rfl⟩
  obtain ⟨sa, hsa⟩ : ∃ sa : VulkanMemorySubAllocator, sa =
      { s0 with
          allocations := if ded = true then s0.allocations
                         else s0.allocations ++ [s0.allocationHeap.length]
          allocationHeap := s0.allocationHeap ++ [some anew] } := ⟨_, rfl⟩
  have hinva : IndexInv sa := by
    rw [hsa]; exact hinv0.append_allocation anew (by rw [hanew]) _
  have hsa_heap : sa.allocationHeap = s.allocationHeap ++ [some anew] := by
    rw [hsa, hs0_heap]
  have hsa_reg : sa.regionHeap = s.regionHeap := by rw [hsa, hs0_reg]
  have hsa_sorted : sa.sortedFreeRegions = s.sortedFreeRegions := by rw [hsa, hs0_sorted]
  have hA : heapGet sa.allocationHeap s.allocationHeap.length = some anew := by
    rw [hsa_heap]; exact heapGet_append_new _ _
  obtain ⟨s1, e1, hinv1, eff1⟩ :=
    NewMemoryFreeRegion_spec sa s.allocationHeap.length 0 allocSize anew hinva hA
  rw [hsa_reg] at e1
  obtain ⟨rP, hrP, erPa, erPo, erPs⟩ := eff1.new_region
  rw [hsa_reg] at hrP
  obtain ⟨A0, A1, hA0, hA1, eA1s, eA1d, eA1f⟩ := eff1.alloc_self
  rw [hA] at hA0; cases hA0
  rw [hsa_reg] at eA1f
  have hfirst : A1.freeRegions[0]? = some s.regionHeap.length := by
    rw [eA1f, hanew]; rfl
  -- the removal of the region that covers the block
  obtain ⟨s2, e2, hinv2, eff2⟩ := RemoveMemoryFreeRegion_spec s1 _ rP hinv1 hrP
  have au12 := eff2.removed_allocations_unchanged
  obtain ⟨A2, hA2, eA2s, eA2d⟩ := au12.live hA1
  -- the rest of the block
  obtain ⟨s3, e3, hinv3, au23, _, _, hperm3, _, _⟩ :=
    newRegionIf_spec (allocSize - req.size ≠ 0) s2 s.allocationHeap.length req.size
      (allocSize - req.size) A2 hinv2 hA2
  have hm1 : (rP.offset + req.size) % DEVICE_SIZE_MOD = req.size := by
    rw [erPo, Nat.zero_add]
    apply Nat.mod_eq_of_lt
    unfold REQUEST_LIMIT at hsize; unfold DEVICE_SIZE_MOD; omega
  have hm2 : (rP.size + DEVICE_SIZE_MOD - req.size) % DEVICE_SIZE_MOD = allocSize - req.size := by
    rw [erPs]
    apply sub_mod_eq _ _ hreq_le
    unfold BLOCK_LIMIT REQUEST_LIMIT STARTING_ALLOCATION_SIZE at halloc_le
    unfold DEVICE_SIZE_MOD; omega
  have au13 := au12.trans au23
  obtain ⟨A3, hA3, eA3s, eA3d⟩ := au13.live hA1
  -- spans
  have hperm1 := eff1.freeSpans_perm hinva
  have hperm2 := eff2.removed_freeSpans_perm hinv1 hrP
  have hspanP : regionSpan rP =
      { allocation := s.allocationHeap.length, offset := 0, size := allocSize } := by
    simp [regionSpan, erPa, erPo, erPs]
  rw [hspanP] at hperm2
  have hperm12 : (freeSpans s2).Perm (freeSpans sa) :=
    (List.Perm.cons_inv (hperm2.symm.trans hperm1))
  have hfsa : freeSpans sa = freeSpans s := by
    unfold freeSpans; rw [hsa_reg, hsa_sorted]
  rw [hfsa] at hperm12
  -- the sorted list after the removal is the old one
  have hsorted2 : s2.sortedFreeRegions = s.sortedFreeRegions := by
    obtain ⟨idx, hidx, hsorted1, _, _⟩ := eff1.sorted_eq
    rw [hsa_reg, hsa_sorted] at hsorted1
    rw [hsa_sorted] at hidx
    have hat : s1.sortedFreeRegions[idx]? = some s.regionHeap.length := by
      rw [hsorted1, getElem?_insertAt _ _ _ hidx, if_neg (Nat.lt_irrefl _), if_pos rfl]
    obtain ⟨r2, hr2, er2⟩ := hinv1.sorted_slot idx _ hat
    rw [hrP] at hr2; cases hr2
    rw [eff2.sorted_eq, er2, hsorted1, List.eraseIdx_eq_take_drop_succ]
    have hlen : (List.take idx s.sortedFreeRegions).length = idx := by simp [hidx]
    rw [List.take_append_eq_append_take, List.drop_append_eq_append_drop]
    simp only [hlen, List.take_take, Nat.min_self, Nat.sub_self, List.take_zero,
      List.append_nil]
    have h1 : List.drop (idx + 1) (List.take idx s.sortedFreeRegions) = [] := by
      apply List.drop_eq_nil_of_le; rw [hlen]; omega
    have h2 : idx + 1 - idx = 1 := by omega
    rw [h1, h2]
    simp
  refine ⟨s3, ?_, hinv3, hreq_le, halloc_le, ?_, ⟨A3, ?_, ?_, ?_⟩, ?_, ?_, ?_, ?_, ?_⟩
  · unfold findAvailableMemoryNewBlock
    simp only [← hded, hsizing]
    unfold VULKAN_INTERNAL_AllocateMemory
    simp only [if_true]
    have e1b := e1
    rw [hsa, hanew, ← hs0_heap] at e1b
    simp only [e1b]
    simp only [hs0_heap, Nat.one_ne_zero, if_false, hA1, hfirst, hrP, e2, hm1, hm2, e3]
  · rw [au13.heap_len, eff1.alloc_len, hsa_heap]; simp
  · exact hA3
  · rw [eA3s, eA1s, hanew]
  · rw [eA3d, eA1d, hanew]
  · intro b hb
    rw [au13.same b, eff1.allocations_unchanged.same b, hsa_heap]
    by_cases hlt : b < s.allocationHeap.length
    · rw [heapGet_append_lt _ _ _ hlt]
    · rw [heapGet_ge _ _ (by simp; omega), heapGet_ge _ _ (by omega)]
  · rw [au13.allocations_eq, eff1.allocations_eq, hsa, hs0_allocs, hs0_heap]
  · rw [au13.next_eq, eff1.next_eq, hsa, hs0_next]
  · exact hperm3.trans (List.Perm.append_left _ hperm12)
  · intro hz
    have : s3 = s2 := by
      rw [if_neg (by omega)] at e3
      cases e3; rfl
    rw [this, hsorted2]

/-! ## Separation of spans -/
theorem spanSeparate_symm {x y : MemorySpan} (h : spanSeparate x y) : spanSeparate y x := by
  intro e
  rcases h e.symm with h1 | h1
  · exact Or.inr h1
  · exact Or.inl h1

/-- A span inside a span separate from `y` is separate from `y`. -/
theorem spanSeparate_of_inside {x e y : MemorySpan} (h : spanSeparate x y)
    (ha : e.allocation = x.allocation) (hlo : x.offset ≤ e.offset)
    (hhi : e.offset + e.size ≤ x.offset + x.size) : spanSeparate e y := by
  intro e1
  rcases h (ha.symm.trans e1) with h1 | h1
  · left; omega
  · right; omega

theorem perm_cons_eraseIdx {α : Type} (l : List α) (i : Nat) (x : α) (h : l[i]? = some x) :
    l.Perm (x :: l.eraseIdx i) := by
  have hlt := (List.getElem?_eq_some.mp h).1
  have hget : l[i] = x := (List.getElem?_eq_some.mp h).2
  rw [List.eraseIdx_eq_take_drop_succ]
  have h1 : l = l.take i ++ x :: l.drop (i + 1) := by
    conv_lhs => rw [← List.take_append_drop i l]
    rw [List.drop_eq_getElem_cons hlt, hget]
  conv_lhs => rw [h1]
  exact List.perm_middle

theorem mem_freeSpans {s : VulkanMemorySubAllocator} {p : Nat} {r : VulkanMemoryFreeRegion}
    (hp : p ∈ s.sortedFreeRegions) (hr : heapGet s.regionHeap p = some r) :
    regionSpan r ∈ freeSpans s := by
  unfold freeSpans spansOf
  rw [List.mem_filterMap]
  exact ⟨p, hp, by simp [hr]⟩

theorem freeSpans_mem_live {s : VulkanMemorySubAllocator} {x : MemorySpan}
    (hx : x ∈ freeSpans s) :
    ∃ p r, p ∈ s.sortedFreeRegions ∧ heapGet s.regionHeap p = some r ∧ regionSpan r = x := by
  unfold freeSpans spansOf at hx
  rw [List.mem_filterMap] at hx
  obtain ⟨p, hp, h⟩ := hx
  cases hr : heapGet s.regionHeap p with
  | none => rw [hr] at h; simp at h
  | some r => rw [hr] at h; simp at h; exact ⟨p, r, hp, hr, h⟩

/-- Replacing one span of a pairwise separate family by separate spans inside it
keeps the family pairwise separate. -/
theorem carve_pairwise (x : MemorySpan) (G E : List MemorySpan)
    (hG : (x :: G).Pairwise spanSeparate) (hE : E.Pairwise spanSeparate)
    (hin : ∀ e, e ∈ E → e.allocation = x.allocation ∧ x.offset ≤ e.offset ∧
      e.offset + e.size ≤ x.offset + x.size) :
    (E ++ G).Pairwise spanSeparate := by
  rw [List.pairwise_cons] at hG
  rw [List.pairwise_append]
  refine ⟨hE, hG.2, ?_⟩
  intro e he y hy
  obtain ⟨h1, h2, h3⟩ := hin e he
  exact spanSeparate_of_inside (hG.1 y hy) h1 h2 h3

/-- The carved span and the remainders are pairwise separate and lie inside the
region. -/
theorem carve_parts (R : VulkanMemoryFreeRegion) (al sz : Nat) (hge : R.offset ≤ al)
    (hfit : al + sz ≤ R.offset + R.size) :
    (({ allocation := R.allocation, offset := al, size := sz } : MemorySpan) ::
        carveRemainders R al sz).Pairwise spanSeparate ∧
    ∀ e, e ∈ ({ allocation := R.allocation, offset := al, size := sz } : MemorySpan) ::
        carveRemainders R al sz →
      e.allocation = (regionSpan R).allocation ∧ (regionSpan R).offset ≤ e.offset ∧
        e.offset + e.size ≤ (regionSpan R).offset + (regionSpan R).size := by
  unfold carveRemainders regionSpan
  by_cases h1 : R.offset = al <;> by_cases h2 : al + sz = R.offset + R.size
  · simp only [if_neg (not_not.mpr h1), if_neg (not_not.mpr h2), List.append_nil]
    refine ⟨by simp, ?_⟩
    intro e he
    simp at he; subst he
    dsimp only; omega
  · simp only [if_neg (not_not.mpr h1), if_pos h2, List.nil_append]
    refine ⟨?_, ?_⟩
    · simp only [List.pairwise_cons, List.mem_singleton, forall_eq, List.not_mem_nil,
        false_imp_iff, implies_true, List.Pairwise.nil, and_true]
      intro _; left; dsimp only; omega
    · intro e he
      simp at he
      rcases he with he | he <;> subst he <;> dsimp only <;> omega
  · simp only [if_pos h1, if_neg (not_not.mpr h2), List.append_nil]
    refine ⟨?_, ?_⟩
    · simp only [List.pairwise_cons, List.mem_singleton, forall_eq, List.not_mem_nil,
        false_imp_iff, implies_true, List.Pairwise.nil, and_true]
      intro _; right; dsimp only; omega
    · intro e he
      simp at he
      rcases he with he | he <;> subst he <;> dsimp only <;> omega
  · simp only [if_pos h1, if_pos h2]
    refine ⟨?_, ?_⟩
    · simp only [List.singleton_append, List.pairwise_cons, List.mem_cons, List.mem_singleton,
        forall_eq_or_imp, forall_eq, List.not_mem_nil, false_imp_iff, implies_true,
        List.Pairwise.nil, and_true]
      refine ⟨⟨?_, ?_⟩, ?_⟩
      · intro _; right; dsimp only; omega
      · intro _; left; dsimp only; omega
      · intro _; left; dsimp only; omega
    · intro e he
      simp at he
      rcases he with he | he | he <;> subst he <;> dsimp only <;> omega

/-! ## The allocator invariant: the common step -/
theorem AllocationsUnchanged.blocksKept {s s1 : VulkanMemorySubAllocator}
    (h : AllocationsUnchanged s s1) : BlocksKept s s1 := fun b _ => h.same b

theorem BlocksKept.kept_live {s s1 : VulkanMemorySubAllocator} (h : BlocksKept s s1) {b : Nat}
    {A : VulkanMemoryAllocation} (hA : heapGet s.allocationHeap b = some A) :
    ∃ A1, heapGet s1.allocationHeap b = some A1 ∧ A1.size = A.size ∧
      A1.dedicated = A.dedicated := by
  have := h b (heapGet_lt hA)
  rw [hA] at this
  cases h1 : heapGet s1.allocationHeap b with
  | none => rw [h1] at this; simp at this
  | some A1 =>
    rw [h1] at this
    simp at this
    exact ⟨A1, rfl, this.1, this.2⟩

theorem BlocksKept.live_rev {s s1 : VulkanMemorySubAllocator} (h : BlocksKept s s1) {b : Nat}
    {A1 : VulkanMemoryAllocation} (hb : b < s.allocationHeap.length)
    (hA1 : heapGet s1.allocationHeap b = some A1) :
    ∃ A, heapGet s.allocationHeap b = some A ∧ A1.size = A.size ∧
      A1.dedicated = A.dedicated := by
  have := h b hb
  rw [hA1] at this
  cases h1 : heapGet s.allocationHeap b with
  | none => rw [h1] at this; simp at this
  | some A =>
    rw [h1] at this
    simp at this
    exact ⟨A, rfl, this.1, this.2⟩

/-- A span that is within a block of `s` is within the same block of `s1`. -/
theorem BlocksKept.bounds {s s1 : VulkanMemorySubAllocator} (h : BlocksKept s s1)
    {x : MemorySpan}
    (hx : ∃ A, heapGet s.allocationHeap x.allocation = some A ∧ x.offset + x.size ≤ A.size) :
    ∃ A, heapGet s1.allocationHeap x.allocation = some A ∧ x.offset + x.size ≤ A.size := by
  obtain ⟨A, hA, hle⟩ := hx
  obtain ⟨A1, hA1, e, _⟩ := h.kept_live hA
  exact ⟨A1, hA1, by omega⟩

theorem BlocksKept.shared {s s1 : VulkanMemorySubAllocator} (h : BlocksKept s s1) {b : Nat}
    (hb : b < s.allocationHeap.length)
    (hs : ∀ A, heapGet s.allocationHeap b = some A → A.dedicated = false) :
    ∀ A1, heapGet s1.allocationHeap b = some A1 → A1.dedicated = false := by
  intro A1 hA1
  obtain ⟨A, hA, _, e⟩ := h.live_rev hb hA1
  rw [e]; exact hs A hA

theorem AllocatorInv.alloc_lt {s : VulkanMemorySubAllocator} {live : List MemorySpan}
    (h : AllocatorInv s live) {x : MemorySpan} (hx : x ∈ live ++ freeSpans s) :
    x.allocation < s.allocationHeap.length := by
  obtain ⟨A, hA, _⟩ := h.bounds x hx
  exact heapGet_lt hA

/-- What the steps of the allocator that add spans have in common: the live spans
gain `sp`, the free spans become `E ++ F'` where the old free spans are `F0 ++ F'`,
and `sp :: E` are separate spans that fit the new state and avoid everything
else. -/
theorem AllocatorInv.step {s s1 : VulkanMemorySubAllocator} {live : List MemorySpan}
    (hinv : AllocatorInv s live) (hinv1 : IndexInv s1) (kept : BlocksKept s s1)
    (sp : MemorySpan) (E F' : List MemorySpan)
    (hF1 : (freeSpans s1).Perm (E ++ F'))
    (hF'sub : ∀ x, x ∈ F' → x ∈ freeSpans s)
    (hsep : ((sp :: E) ++ (live ++ F')).Pairwise spanSeparate)
    (hbounds : ∀ e, e ∈ sp :: E →
      ∃ A, heapGet s1.allocationHeap e.allocation = some A ∧ e.offset + e.size ≤ A.size)
    (hEshared : ∀ e, e ∈ E →
      ∀ A, heapGet s1.allocationHeap e.allocation = some A → A.dedicated = false)
    (hspshared : ∀ x, x ∈ live → x.allocation = sp.allocation →
      ∀ A, heapGet s1.allocationHeap x.allocation = some A → A.dedicated = false)
    (hblock : ∀ b A, s.allocationHeap.length ≤ b → heapGet s1.allocationHeap b = some A →
      A.size ≤ BLOCK_LIMIT)
    (hnext : s1.nextAllocationSize ≤ MAX_ALLOCATION_SIZE) :
    AllocatorInv s1 (live ++ [sp]) := by
  have hmemF1 : ∀ x, x ∈ freeSpans s1 → x ∈ E ∨ x ∈ F' := by
    intro x hx
    exact List.mem_append.mp (hF1.subset hx)
  constructor
  · exact hinv1
  · intro x hx
    rw [List.mem_append, List.mem_append, List.mem_singleton] at hx
    rcases hx with (hx | hx) | hx
    · exact kept.bounds (hinv.bounds x (List.mem_append_left _ hx))
    · exact hbounds x (hx ▸ List.mem_cons_self _ _)
    · rcases hmemF1 x hx with hx | hx
      · exact hbounds x (List.mem_cons_of_mem _ hx)
      · exact kept.bounds (hinv.bounds x (List.mem_append_right _ (hF'sub x hx)))
  · have hperm : ((live ++ [sp]) ++ freeSpans s1).Perm ((sp :: E) ++ (live ++ F')) := by
      have h1 : ((live ++ [sp]) ++ freeSpans s1).Perm ((live ++ [sp]) ++ (E ++ F')) :=
        List.Perm.append_left _ hF1
      refine h1.trans ?_
      have h2 : (live ++ [sp]).Perm (sp :: live) := List.perm_append_singleton _ _
      refine (List.Perm.append_right _ h2).trans ?_
      simp only [List.cons_append]
      refine List.Perm.cons _ ?_
      rw [← List.append_assoc, ← List.append_assoc]
      exact List.Perm.append_right _ List.perm_append_comm
    exact hperm.symm.pairwise hsep (fun h => spanSeparate_symm h)
  · intro b A hA
    by_cases hb : b < s.allocationHeap.length
    · obtain ⟨A0, hA0, e, _⟩ := kept.live_rev hb hA
      rw [e]; exact hinv.block_size b A0 hA0
    · exact hblock b A (by omega) hA
  · exact hnext
  · intro x hx
    rcases hmemF1 x hx with hx | hx
    · exact hEshared x hx
    · have hxF := hF'sub x hx
      exact kept.shared (hinv.alloc_lt (List.mem_append_right _ hxF)) (hinv.free_shared x hxF)
  · rw [List.pairwise_append]
    refine ⟨?_, by simp, ?_⟩
    · refine List.Pairwise.imp_of_mem ?_ hinv.live_shared
      intro x y hx _ hxy e
      exact kept.shared (hinv.alloc_lt (List.mem_append_left _ hx)) (hxy e)
    · intro x hx y hy
      rw [List.mem_singleton] at hy
      subst hy
      exact hspshared x hx

/-! ## The allocator invariant: failure and the choice of the path -/
/-- A step that changes neither the live spans nor the free spans. -/
theorem AllocatorInv.frame {s s1 : VulkanMemorySubAllocator} {live : List MemorySpan}
    (hinv : AllocatorInv s live) (hinv1 : IndexInv s1) (kept : BlocksKept s s1)
    (hF : freeSpans s1 = freeSpans s)
    (hblock : ∀ b A, s.allocationHeap.length ≤ b → heapGet s1.allocationHeap b = some A →
      A.size ≤ BLOCK_LIMIT)
    (hnext : s1.nextAllocationSize ≤ MAX_ALLOCATION_SIZE) :
    AllocatorInv s1 live := by
  constructor
  · exact hinv1
  · intro x hx
    rw [hF] at hx
    exact kept.bounds (hinv.bounds x hx)
  · rw [hF]; exact hinv.separate
  · intro b A hA
    by_cases hb : b < s.allocationHeap.length
    · obtain ⟨A0, hA0, e, _⟩ := kept.live_rev hb hA
      rw [e]; exact hinv.block_size b A0 hA0
    · exact hblock b A (by omega) hA
  · exact hnext
  · intro x hx
    rw [hF] at hx
    exact kept.shared (hinv.alloc_lt (List.mem_append_right _ hx)) (hinv.free_shared x hx)
  · refine List.Pairwise.imp_of_mem ?_ hinv.live_shared
    intro x y hx _ hxy e
    exact kept.shared (hinv.alloc_lt (List.mem_append_left _ hx)) (hxy e)

/-- The new-block half of `FindAvailableMemory` when `vkAllocateMemory` fails: code 2;
the block object stays behind, without memory and without free region. -/
theorem findAvailableMemoryNewBlock_fail (s : VulkanMemorySubAllocator)
    (req : MemoryRequirements) (hinv : IndexInv s)
    (hnext : s.nextAllocationSize ≤ MAX_ALLOCATION_SIZE)
    (hsize : req.size ≤ REQUEST_LIMIT) :
    ∃ s1 anew, findAvailableMemoryNewBlock s req false = some (s1, 2, none) ∧
      IndexInv s1 ∧
      s1.regionHeap = s.regionHeap ∧ s1.sortedFreeRegions = s.sortedFreeRegions ∧
      s1.allocationHeap = s.allocationHeap ++ [some anew] ∧
      anew.size ≤ BLOCK_LIMIT ∧ anew.freeRegions = [] ∧
      s1.nextAllocationSize ≤ MAX_ALLOCATION_SIZE ∧
      s1.allocations =
        (if (req.prefersDedicatedAllocation || req.requiresDedicatedAllocation) = true
         then s.allocations else s.allocations ++ [s.allocationHeap.length]) ∧
      s1.nextAllocationSize =
        (if (req.prefersDedicatedAllocation || req.requiresDedicatedAllocation) = true
         then s.nextAllocationSize
         else if req.size > s.nextAllocationSize then s.nextAllocationSize
         else min (s.nextAllocationSize * 2) MAX_ALLOCATION_SIZE) := by
  obtain ⟨ded, hded⟩ : ∃ ded, ded =
    (req.prefersDedicatedAllocation || req.requiresDedicatedAllocation) := ⟨_, rfl⟩
  rw [← hded]
  obtain ⟨hNHA, hge, hle, hmin⟩ := newBlock_size_bounds req s.nextAllocationSize hnext hsize
  obtain ⟨allocSize, hsz⟩ : ∃ allocSize, allocSize =
      (if ded = true then req.size
       else if req.size > s.nextAllocationSize then
         STARTING_ALLOCATION_SIZE *
           ((req.size + STARTING_ALLOCATION_SIZE - 1) / STARTING_ALLOCATION_SIZE)
       else s.nextAllocationSize) := ⟨_, rfl⟩
  obtain ⟨s0, hs0⟩ : ∃ s0 : VulkanMemorySubAllocator, s0 =
      (if ded = true then s
       else if req.size > s.nextAllocationSize then s
       else { s with nextAllocationSize := min (s.nextAllocationSize * 2) MAX_ALLOCATION_SIZE }) :=
    ⟨_, rfl⟩
  have hsizing : (if ded = true then (s, req.size)
        else if req.size > s.nextAllocationSize then
          (s, VULKAN_INTERNAL_NextHighestAlignment req.size STARTING_ALLOCATION_SIZE)
        else
          ({ s with nextAllocationSize :=
                      min ((s.nextAllocationSize * 2) % DEVICE_SIZE_MOD) MAX_ALLOCATION_SIZE },
           s.nextAllocationSize)) = (s0, allocSize) := by
    rw [hs0, hsz, hNHA, hmin]
    split
    · rfl
    · split <;> rfl
  have hs0_heap : s0.allocationHeap = s.allocationHeap := by
    rw [hs0]; split
    · rfl
    · split <;> rfl
  have hs0_reg : s0.regionHeap = s.regionHeap := by
    rw [hs0]; split
    · rfl
    · split <;> rfl
  have hs0_sorted : s0.sortedFreeRegions = s.sortedFreeRegions := by
    rw [hs0]; split
    · rfl
    · split <;> rfl
  have hs0_allocs : s0.allocations = s.allocations := by
    rw [hs0]; split
    · rfl
    · split <;> rfl
  have hs0_next : s0.nextAllocationSize =
      (if ded = true then s.nextAllocationSize
       else if req.size > s.nextAllocationSize then s.nextAllocationSize
       else min (s.nextAllocationSize * 2) MAX_ALLOCATION_SIZE) := by
    rw [hs0]; split
    · rfl
    · split <;> rfl
  have hinv0 : IndexInv s0 := by
    constructor
    · rw [hs0_reg, hs0_sorted]; exact hinv.sorted_slot
    · rw [hs0_reg, hs0_sorted]; exact hinv.region_sorted
    · rw [hs0_reg, hs0_heap]; exact hinv.alloc_slot
    · rw [hs0_reg, hs0_heap]; exact hinv.region_alloc
    · rw [hs0_reg, hs0_sorted]; exact hinv.sorted_desc
  have halloc_le : allocSize ≤ BLOCK_LIMIT := by
    rw [hsz]; split
    · unfold BLOCK_LIMIT; omega
    · split
      · exact hle
      · unfold BLOCK_LIMIT REQUEST_LIMIT STARTING_ALLOCATION_SIZE
        unfold MAX_ALLOCATION_SIZE at hnext
        omega
  refine ⟨{ s0 with
              allocations := if ded = true then s0.allocations
                             else s0.allocations ++ [s0.allocationHeap.length]
              allocationHeap := s0.allocationHeap ++
                [some { size := allocSize, freeRegions := [], freeRegionCapacity := 1,
                        dedicated := ded }] },
    { size := allocSize, freeRegions := [], freeRegionCapacity := 1, dedicated := ded },
    ?_, ?_, hs0_reg, hs0_sorted, ?_, halloc_le, rfl, ?_, ?_, ?_⟩
  · unfold findAvailableMemoryNewBlock
    simp only [← hded, hsizing]
    unfold VULKAN_INTERNAL_AllocateMemory
    simp
  · exact hinv0.append_allocation _ rfl _
  · simp only [hs0_heap]
  · simp only [hs0_next]
    split
    · exact hnext
    · split
      · exact hnext
      · exact Nat.min_le_right _ _
  · simp only [hs0_allocs, hs0_heap]
  · exact hs0_next

/-- When the first region of the sorted list is too small for the aligned request,
or the list is empty, `FindAvailableMemory` continues with a new block. -/
theorem FindAvailableMemory_nofit (s : VulkanMemorySubAllocator) (buffer image : Nat)
    (req : MemoryRequirements) (ok : Bool)
    (hhandle : (buffer ≠ 0 ∧ image = 0) ∨ (buffer = 0 ∧ image ≠ 0))
    (halign : 0 < req.alignment)
    (hno : ∀ p R, s.sortedFreeRegions[0]? = some p → heapGet s.regionHeap p = some R →
      R.offset + R.size + req.alignment + req.size < DEVICE_SIZE_MOD ∧
      ¬ (req.alignment * ((R.offset + req.alignment - 1) / req.alignment) + req.size ≤
        R.offset + R.size))
    (hlive : ∀ p, s.sortedFreeRegions[0]? = some p → ∃ R, heapGet s.regionHeap p = some R) :
    VULKAN_INTERNAL_FindAvailableMemory s buffer image (some req) ok =
      findAvailableMemoryNewBlock s req ok := by
  have hn1 : ¬ (buffer ≠ 0 ∧ image ≠ 0) := by
    rcases hhandle with h | h
    · exact fun hc => hc.2 h.2
    · exact fun hc => hc.1 h.1
  have hn2 : ¬ (buffer = 0 ∧ image = 0) := by
    rcases hhandle with h | h
    · exact fun hc => h.1 hc.1
    · exact fun hc => h.2 hc.2
  unfold VULKAN_INTERNAL_FindAvailableMemory
  rw [if_neg hn1, if_neg hn2]
  cases hl : s.sortedFreeRegions with
  | nil => rfl
  | cons p rest =>
    have hhead : s.sortedFreeRegions[0]? = some p := by rw [hl]; simp
    obtain ⟨R, hR⟩ := hlive p hhead
    obtain ⟨hbound, hnofit⟩ := hno p R hhead hR
    have hge := roundUp_ge R.offset req.alignment halign
    have hlt := roundUp_lt R.offset req.alignment halign
    have hNHA : VULKAN_INTERNAL_NextHighestAlignment R.offset req.alignment =
        req.alignment * ((R.offset + req.alignment - 1) / req.alignment) :=
      NextHighestAlignment_eq _ _ halign (by omega)
    have hm1 : (req.alignment * ((R.offset + req.alignment - 1) / req.alignment) + req.size) %
        DEVICE_SIZE_MOD =
        req.alignment * ((R.offset + req.alignment - 1) / req.alignment) + req.size :=
      Nat.mod_eq_of_lt (by omega)
    have hm2 : (R.offset + R.size) % DEVICE_SIZE_MOD = R.offset + R.size :=
      Nat.mod_eq_of_lt (by omega)
    simp only [hR, hNHA, hm1, hm2, if_neg hnofit]

/-! ## The allocator invariant under an allocation -/
theorem AllocatorInv.allocate_fit {s : VulkanMemorySubAllocator} {live : List MemorySpan}
    (hinv : AllocatorInv s live) (buffer image : Nat) (req : MemoryRequirements) (ok : Bool)
    (p : Nat) (R : VulkanMemoryFreeRegion)
    (hhandle : (buffer ≠ 0 ∧ image = 0) ∨ (buffer = 0 ∧ image ≠ 0))
    (hhead : s.sortedFreeRegions[0]? = some p) (hR : heapGet s.regionHeap p = some R)
    (halign : 0 < req.alignment)
    (hbound : R.offset + R.size + req.alignment + req.size < DEVICE_SIZE_MOD)
    (hfit : req.alignment * ((R.offset + req.alignment - 1) / req.alignment) + req.size ≤
      R.offset + R.size) :
    ∃ s1 span, VULKAN_INTERNAL_FindAvailableMemory s buffer image (some req) ok =
        some (s1, 1, some span) ∧ AllocatorInv s1 (live ++ [span]) := by
  obtain ⟨s1, e, hinv1, au, _, hperm, _, _⟩ :=
    FindAvailableMemory_fit s buffer image req ok p R hinv.index hhandle hhead hR halign
      hbound hfit
  refine ⟨s1, _, e, ?_⟩
  obtain ⟨al, hal⟩ : ∃ al, al = req.alignment * ((R.offset + req.alignment - 1) / req.alignment) :=
    ⟨_, rfl⟩
  rw [← hal] at hperm hfit ⊢
  have hge : R.offset ≤ al := hal ▸ roundUp_ge R.offset req.alignment halign
  have hpmem : p ∈ s.sortedFreeRegions := List.getElem?_mem hhead
  have hRF : regionSpan R ∈ freeSpans s := mem_freeSpans hpmem hR
  have hF := List.perm_cons_erase hRF
  have hF1 : (freeSpans s1).Perm
      (carveRemainders R al req.size ++ (freeSpans s).erase (regionSpan R)) :=
    List.Perm.cons_inv
      (hperm.trans ((List.Perm.append_left _ hF).trans List.perm_middle))
  obtain ⟨A, hA, hRA⟩ := hinv.bounds (regionSpan R) (List.mem_append_right _ hRF)
  have hAded := hinv.free_shared (regionSpan R) hRF A hA
  have kept := au.blocksKept
  obtain ⟨A1, hA1, eA1s, eA1d⟩ := kept.kept_live hA
  obtain ⟨hparts, hinside⟩ := carve_parts R al req.size hge hfit
  have hold : (regionSpan R :: (live ++ (freeSpans s).erase (regionSpan R))).Pairwise
      spanSeparate := by
    have h1 : (live ++ freeSpans s).Perm
        (regionSpan R :: (live ++ (freeSpans s).erase (regionSpan R))) :=
      (List.Perm.append_left _ hF).trans List.perm_middle
    exact h1.pairwise hinv.separate (fun h => spanSeparate_symm h)
  refine hinv.step hinv1 kept _ (carveRemainders R al req.size)
    ((freeSpans s).erase (regionSpan R)) hF1 (fun x hx => List.mem_of_mem_erase hx) ?_ ?_ ?_ ?_
    ?_ ?_
  · exact carve_pairwise (regionSpan R) _ _ hold hparts hinside
  · intro e he
    obtain ⟨h1, h2, h3⟩ := hinside e he
    refine ⟨A1, by rw [h1]; exact hA1, ?_⟩
    simp only [regionSpan] at h3 hRA
    omega
  · intro e he A2 hA2
    obtain ⟨h1, _, _⟩ := hinside e (List.mem_cons_of_mem _ he)
    rw [h1] at hA2
    rw [hA1] at hA2; cases hA2
    rw [eA1d]; exact hAded
  · intro x _ hx A2 hA2
    rw [hx] at hA2
    rw [show (regionSpan R).allocation = R.allocation from rfl] at hA1
    rw [hA1] at hA2; cases hA2
    rw [eA1d]; exact hAded
  · intro b A2 hb hA2
    have := heapGet_lt hA2
    rw [au.heap_len] at this
    omega
  · rw [au.next_eq]; exact hinv.next_le

theorem AllocatorInv.allocate_new {s : VulkanMemorySubAllocator} {live : List MemorySpan}
    (hinv : AllocatorInv s live) (req : MemoryRequirements)
    (hsize : req.size ≤ REQUEST_LIMIT) :
    ∃ s1 span, findAvailableMemoryNewBlock s req true = some (s1, 1, some span) ∧
      AllocatorInv s1 (live ++ [span]) := by
  obtain ⟨s3, e, hinv3, hreq, hlim, hlen, ⟨A3, hA3, eA3s, eA3d⟩, hother, _, hnext, hperm, _⟩ :=
    findAvailableMemoryNewBlock_ok s req _ hinv.index hinv.next_le hsize rfl
  refine ⟨s3, _, e, ?_⟩
  obtain ⟨allocSize, hsz⟩ : ∃ allocSize, allocSize =
      (if (req.prefersDedicatedAllocation || req.requiresDedicatedAllocation) = true
       then req.size
       else if req.size > s.nextAllocationSize then
         STARTING_ALLOCATION_SIZE *
           ((req.size + STARTING_ALLOCATION_SIZE - 1) / STARTING_ALLOCATION_SIZE)
       else s.nextAllocationSize) := ⟨_, rfl⟩
  rw [← hsz] at hreq hlim eA3s hperm
  have kept : BlocksKept s s3 := fun b hb => hother b (Nat.ne_of_lt hb)
  have hfresh : ∀ y, y ∈ live ++ freeSpans s → y.allocation ≠ s.allocationHeap.length :=
    fun y hy => Nat.ne_of_lt (hinv.alloc_lt hy)
  refine hinv.step hinv3 kept _ _ (freeSpans s) hperm (fun x hx => hx) ?_ ?_ ?_ ?_ ?_ ?_
  · rw [List.pairwise_append]
    refine ⟨?_, hinv.separate, ?_⟩
    · by_cases hz : allocSize - req.size ≠ 0
      · rw [if_pos hz]
        simp only [List.pairwise_cons, List.mem_singleton, forall_eq, List.not_mem_nil,
          false_imp_iff, implies_true, List.Pairwise.nil, and_true]
        intro _; left; dsimp only; omega
      · rw [if_neg hz]; simp
    · intro e he y hy e1
      exfalso
      have hea : e.allocation = s.allocationHeap.length := by
        rw [List.mem_cons] at he
        rcases he with he | he
        · rw [he]
        · by_cases hz : allocSize - req.size ≠ 0
          · rw [if_pos hz, List.mem_singleton] at he; rw [he]
          · rw [if_neg hz] at he; simp at he
      exact hfresh y hy (e1.symm.trans hea)
  · intro e he
    rw [List.mem_cons] at he
    rcases he with he | he
    · subst he
      exact ⟨A3, hA3, by dsimp only; omega⟩
    · by_cases hz : allocSize - req.size ≠ 0
      · rw [if_pos hz, List.mem_singleton] at he
        subst he
        exact ⟨A3, hA3, by dsimp only; omega⟩
      · rw [if_neg hz] at he; simp at he
  · intro e he A hA
    by_cases hz : allocSize - req.size ≠ 0
    · rw [if_pos hz, List.mem_singleton] at he
      subst he
      dsimp only at hA
      rw [hA3] at hA; cases hA
      rw [eA3d]
      cases hd : (req.prefersDedicatedAllocation || req.requiresDedicatedAllocation) with
      | false => rfl
      | true =>
        exfalso
        rw [hd] at hsz
        simp only [if_true] at hsz
        omega
    · rw [if_neg hz] at he; simp at he
  · intro x hx e1
    exact absurd e1 (hfresh x (List.mem_append_left _ hx))
  · intro b A hb hA
    have hlt := heapGet_lt hA
    rw [hlen] at hlt
    have hbN : b = s.allocationHeap.length := by omega
    subst hbN
    rw [hA3] at hA; cases hA
    rw [eA3s]; exact hlim
  · rw [hnext]
    split
    · exact hinv.next_le
    · split
      · exact hinv.next_le
      · exact Nat.min_le_right _ _

theorem AllocatorInv.allocate_fail {s : VulkanMemorySubAllocator} {live : List MemorySpan}
    (hinv : AllocatorInv s live) (req : MemoryRequirements)
    (hsize : req.size ≤ REQUEST_LIMIT) :
    ∃ s1, findAvailableMemoryNewBlock s req false = some (s1, 2, none) ∧
      AllocatorInv s1 live := by
  obtain ⟨s1, anew, e, hinv1, hreg, hsorted, hheap, hlim, _, hnext, _, _⟩ :=
    findAvailableMemoryNewBlock_fail s req hinv.index hinv.next_le hsize
  refine ⟨s1, e, hinv.frame hinv1 ?_ ?_ ?_ hnext⟩
  · intro b hb
    rw [hheap, heapGet_append_lt _ _ _ hb]
  · unfold freeSpans; rw [hreg, hsorted]
  · intro b A hb hA
    rw [hheap] at hA
    have hlt := heapGet_lt hA
    simp at hlt
    have hbN : b = s.allocationHeap.length := by omega
    subst hbN
    rw [heapGet_append_new] at hA; cases hA
    exact hlim

/-- An allocation keeps the allocator invariant, and it returns. -/
theorem AllocatorInv.allocate {s : VulkanMemorySubAllocator} {live : List MemorySpan}
    (hinv : AllocatorInv s live) (buffer image : Nat) (requirements : Option MemoryRequirements)
    (ok : Bool) (hrange : callInRange (.allocate buffer image requirements ok) = true) :
    ∃ st1, applyAllocatorCall (s, live) (.allocate buffer image requirements ok) = some st1 ∧
      AllocatorInv st1.1 st1.2 := by
  by_cases hhandle : (buffer ≠ 0 ∧ image = 0) ∨ (buffer = 0 ∧ image ≠ 0)
  · cases requirements with
    | none =>
      refine ⟨(s, live), ?_, hinv⟩
      have hn1 : ¬ (buffer ≠ 0 ∧ image ≠ 0) := by
        rcases hhandle with h | h
        · exact fun hc => hc.2 h.2
        · exact fun hc => hc.1 h.1
      have hn2 : ¬ (buffer = 0 ∧ image = 0) := by
        rcases hhandle with h | h
        · exact fun hc => h.1 hc.1
        · exact fun hc => h.2 hc.2
      simp only [applyAllocatorCall, VULKAN_INTERNAL_FindAvailableMemory, if_neg hn1, if_neg hn2]
    | some req =>
      simp only [callInRange, requestInRange, Bool.and_eq_true, decide_eq_true_eq] at hrange
      obtain ⟨⟨halign, hal⟩, hsize⟩ := hrange
      have hbnd : ∀ p R, s.sortedFreeRegions[0]? = some p → heapGet s.regionHeap p = some R →
          R.offset + R.size + req.alignment + req.size < DEVICE_SIZE_MOD := by
        intro p R hp hR
        obtain ⟨A, hA, hle⟩ := hinv.bounds (regionSpan R)
          (List.mem_append_right _ (mem_freeSpans (List.getElem?_mem hp) hR))
        have := hinv.block_size _ A hA
        simp only [regionSpan] at hle
        unfold BLOCK_LIMIT REQUEST_LIMIT STARTING_ALLOCATION_SIZE at this
        unfold REQUEST_LIMIT at hal hsize
        unfold DEVICE_SIZE_MOD
        omega
      by_cases hfit : ∃ p R, s.sortedFreeRegions[0]? = some p ∧
          heapGet s.regionHeap p = some R ∧
          req.alignment * ((R.offset + req.alignment - 1) / req.alignment) + req.size ≤
            R.offset + R.size
      · obtain ⟨p, R, hp, hR, hfit⟩ := hfit
        obtain ⟨s1, span, e, hinv1⟩ :=
          hinv.allocate_fit buffer image req ok p R hhandle hp hR halign (hbnd p R hp hR) hfit
        exact ⟨(s1, live ++ [span]), by simp only [applyAllocatorCall, e], hinv1⟩
      · have e := FindAvailableMemory_nofit s buffer image req ok hhandle halign
          (fun p R hp hR => ⟨hbnd p R hp hR, fun hf => hfit ⟨p, R, hp, hR, hf⟩⟩)
          (fun p hp => hinv.index.sorted_live (List.getElem?_mem hp))
        cases ok with
        | true =>
          obtain ⟨s1, span, e1, hinv1⟩ := hinv.allocate_new req hsize
          exact ⟨(s1, live ++ [span]), by simp only [applyAllocatorCall, e, e1], hinv1⟩
        | false =>
          obtain ⟨s1, e1, hinv1⟩ := hinv.allocate_fail req hsize
          exact ⟨(s1, live), by simp only [applyAllocatorCall, e, e1], hinv1⟩
  · refine ⟨(s, live), ?_, hinv⟩
    have hcase : (buffer ≠ 0 ∧ image ≠ 0) ∨ (buffer = 0 ∧ image = 0) := by
      by_cases hb : buffer = 0 <;> by_cases hi : image = 0
      · exact Or.inr ⟨hb, hi⟩
      · exact absurd (Or.inr ⟨hb, hi⟩) hhandle
      · exact absurd (Or.inl ⟨hb, hi⟩) hhandle
      · exact Or.inl ⟨hb, hi⟩
    rcases hcase with h | h
    · simp only [applyAllocatorCall, VULKAN_INTERNAL_FindAvailableMemory, if_pos h]
    · have hn : ¬ (buffer ≠ 0 ∧ image ≠ 0) := fun hc => hc.1 h.1
      simp only [applyAllocatorCall, VULKAN_INTERNAL_FindAvailableMemory, if_neg hn, if_pos h]

/-! ## C1: live spans stay in bounds and disjoint -/
theorem span_eta (x : MemorySpan) :
    ({ allocation := x.allocation, offset := x.offset, size := x.size } : MemorySpan) = x := by
  cases x; rfl

/-- Freeing a live span keeps the allocator invariant, and it returns. -/
theorem AllocatorInv.free {s : VulkanMemorySubAllocator} {live : List MemorySpan}
    (hinv : AllocatorInv s live) (i : Nat) :
    ∃ st1, applyAllocatorCall (s, live) (.free i) = some st1 ∧
      AllocatorInv st1.1 st1.2 := by
  cases hx : live[i]? with
  | none =>
    exact ⟨(s, live), by simp only [applyAllocatorCall, hx], hinv⟩
  | some x =>
    have hxmem : x ∈ live := List.getElem?_mem hx
    have hlive := perm_cons_eraseIdx live i x hx
    obtain ⟨A, hA, hle⟩ := hinv.bounds x (List.mem_append_left _ hxmem)
    cases hd : A.dedicated with
    | false =>
      obtain ⟨s1, e1, hinv1, eff⟩ :=
        NewMemoryFreeRegion_spec s x.allocation x.offset x.size A hinv.index hA
      have hF1 := eff.freeSpans_perm hinv.index
      rw [span_eta] at hF1
      have kept := eff.allocations_unchanged.blocksKept
      have hperm : (live.eraseIdx i ++ freeSpans s1).Perm (live ++ freeSpans s) := by
        refine (List.Perm.append_left _ hF1).trans ?_
        refine List.perm_middle.trans ?_
        rw [← List.cons_append]
        exact List.Perm.append_right _ hlive.symm
      refine ⟨(s1, live.eraseIdx i), ?_, ?_⟩
      · simp only [applyAllocatorCall, hx, destroyResourceMemory, hA, hd, e1]
        rfl
      · constructor
        · exact hinv1
        · intro y hy
          exact kept.bounds (hinv.bounds y (hperm.subset hy))
        · exact hperm.symm.pairwise hinv.separate (fun h => spanSeparate_symm h)
        · intro b B hB
          have hlt := heapGet_lt hB
          rw [eff.alloc_len] at hlt
          obtain ⟨B0, hB0, e, _⟩ := kept.live_rev hlt hB
          rw [e]; exact hinv.block_size b B0 hB0
        · rw [eff.next_eq]; exact hinv.next_le
        · intro y hy
          have hy2 := hF1.subset hy
          rw [List.mem_cons] at hy2
          rcases hy2 with hy2 | hy2
          · rw [hy2]
            refine kept.shared (heapGet_lt hA) ?_
            intro A2 hA2
            rw [hA] at hA2; cases hA2; exact hd
          · exact kept.shared (hinv.alloc_lt (List.mem_append_right _ hy2))
              (hinv.free_shared y hy2)
        · refine List.Pairwise.imp_of_mem ?_
            (List.Pairwise.sublist (List.eraseIdx_sublist _ _) hinv.live_shared)
          intro y z hy _ hyz e
          have hy2 : y ∈ live := (List.eraseIdx_sublist _ _).subset hy
          exact kept.shared (hinv.alloc_lt (List.mem_append_left _ hy2)) (hyz e)
    | true =>
      obtain ⟨s1, hs1⟩ : ∃ s1 : VulkanMemorySubAllocator, s1 =
        { s with allocationHeap := s.allocationHeap.set x.allocation none } := ⟨_, rfl⟩
      have hself : heapGet s1.allocationHeap x.allocation = none := by
        rw [hs1]; exact heapGet_set_eq _ _ _ (heapGet_lt hA)
      have hother : ∀ b, b ≠ x.allocation →
          heapGet s1.allocationHeap b = heapGet s.allocationHeap b := by
        intro b hb
        rw [hs1]; exact heapGet_set_ne _ _ _ _ (Ne.symm hb)
      have hsub : ∀ b B, heapGet s1.allocationHeap b = some B →
          heapGet s.allocationHeap b = some B := by
        intro b B hB
        by_cases hb : b = x.allocation
        · rw [hb, hself] at hB; cases hB
        · rw [← hother b hb]; exact hB
      have hreg : s1.regionHeap = s.regionHeap := by rw [hs1]
      have hsorted : s1.sortedFreeRegions = s.sortedFreeRegions := by rw [hs1]
      have hF : freeSpans s1 = freeSpans s := by unfold freeSpans; rw [hreg, hsorted]
      -- nothing else refers to the block
      have hfree_ne : ∀ y, y ∈ freeSpans s → y.allocation ≠ x.allocation := by
        intro y hy e
        have := hinv.free_shared y hy A (by rw [e]; exact hA)
        rw [hd] at this; cases this
      have hlive_ne : ∀ y, y ∈ live.eraseIdx i → y.allocation ≠ x.allocation := by
        intro y hy e
        have hsym : ∀ {u v : MemorySpan},
            (u.allocation = v.allocation →
              ∀ A, heapGet s.allocationHeap u.allocation = some A → A.dedicated = false) →
            (v.allocation = u.allocation →
              ∀ A, heapGet s.allocationHeap v.allocation = some A → A.dedicated = false) := by
          intro u v h e1 A2 hA2
          exact h e1.symm A2 (by rw [← e1]; exact hA2)
        have h1 := hlive.pairwise hinv.live_shared hsym
        rw [List.pairwise_cons] at h1
        have := h1.1 y hy e.symm A hA
        rw [hd] at this; cases this
      refine ⟨(s1, live.eraseIdx i), ?_, ?_⟩
      · simp only [applyAllocatorCall, hx, destroyResourceMemory, hA, hd, if_true, hs1]
      · constructor
        · constructor
          · rw [hreg, hsorted]; exact hinv.index.sorted_slot
          · rw [hreg, hsorted]; exact hinv.index.region_sorted
          · intro b B j p hB hj
            rw [hreg]
            exact hinv.index.alloc_slot b B j p (hsub b B hB) hj
          · intro p r hp
            rw [hreg] at hp
            obtain ⟨B, hB, hBp⟩ := hinv.index.region_alloc p r hp
            refine ⟨B, ?_, hBp⟩
            have hpm : p ∈ s.sortedFreeRegions :=
              List.getElem?_mem (hinv.index.region_sorted p r hp)
            have hne := hfree_ne _ (mem_freeSpans hpm hp)
            exact (hother r.allocation hne).trans hB
          · rw [hreg, hsorted]; exact hinv.index.sorted_desc
        · intro y hy
          rw [hF, List.mem_append] at hy
          have hne : y.allocation ≠ x.allocation := by
            rcases hy with hy | hy
            · exact hlive_ne y hy
            · exact hfree_ne y hy
          have hy2 : y ∈ live ++ freeSpans s := by
            rcases hy with hy | hy
            · exact List.mem_append_left _ ((List.eraseIdx_sublist _ _).subset hy)
            · exact List.mem_append_right _ hy
          rw [hother _ hne]
          exact hinv.bounds y hy2
        · rw [hF]
          exact List.Pairwise.sublist
            (List.Sublist.append_right (List.eraseIdx_sublist _ _) _) hinv.separate
        · intro b B hB
          exact hinv.block_size b B (hsub b B hB)
        · rw [hs1]; exact hinv.next_le
        · intro y hy B hB
          rw [hF] at hy
          exact hinv.free_shared y hy B (hsub _ B hB)
        · refine List.Pairwise.imp ?_
            (List.Pairwise.sublist (List.eraseIdx_sublist _ _) hinv.live_shared)
          intro y z hyz e B hB
          exact hyz e B (hsub _ B hB)

theorem initial_allocatorInv : AllocatorInv initialSubAllocator [] := by
  constructor
  · constructor
    · intro i p hp; simp [initialSubAllocator] at hp
    · intro p r hp; simp [initialSubAllocator, heapGet] at hp
    · intro a A j p hA; simp [initialSubAllocator, heapGet] at hA
    · intro p r hp; simp [initialSubAllocator, heapGet] at hp
    · intro i j p q rp rq _ hp; simp [initialSubAllocator] at hp
  · intro x hx; simp [freeSpans, spansOf, initialSubAllocator] at hx
  · simp [freeSpans, spansOf, initialSubAllocator]
  · intro b A hA; simp [initialSubAllocator, heapGet] at hA
  · decide
  · intro x hx; simp [freeSpans, spansOf, initialSubAllocator] at hx
  · simp

theorem AllocatorInv.run (calls : List AllocatorCall) :
    ∀ (st : VulkanMemorySubAllocator × List MemorySpan), AllocatorInv st.1 st.2 →
      (∀ c, c ∈ calls → callInRange c = true) →
      ∃ st1, runAllocatorCalls st calls = some st1 ∧ AllocatorInv st1.1 st1.2 := by
  induction calls with
  | nil => intro st h _; exact ⟨st, rfl, h⟩
  | cons c cs ih =>
    intro st h hr
    have hstep : ∃ st1, applyAllocatorCall st c = some st1 ∧ AllocatorInv st1.1 st1.2 := by
      obtain ⟨s, live⟩ := st
      cases c with
      | allocate buffer image requirements ok =>
        exact h.allocate buffer image requirements ok (hr _ (List.mem_cons_self _ _))
      | free i => exact h.free i
    obtain ⟨st1, e1, h1⟩ := hstep
    obtain ⟨st2, e2, h2⟩ := ih st1 h1 (fun c hc => hr c (List.mem_cons_of_mem _ hc))
    exact ⟨st2, by simp only [runAllocatorCalls, e1, e2], h2⟩

theorem AllocatorInv.spansSafe {s : VulkanMemorySubAllocator} {live : List MemorySpan}
    (h : AllocatorInv s live) : SpansSafe s live :=
  ⟨fun x hx => h.bounds x (List.mem_append_left _ hx),
    List.Pairwise.sublist (List.sublist_append_left _ _) h.separate⟩

/-- C1. For every sequence of allocations (`FindAvailableMemory`) and frees (the memory
branch of `DestroyBuffer` / `DestroyTexture`) on one memory type, starting from the
sub-allocator of a new device and with requests in range, every call returns, and
afterwards every span held by a live resource lies within the size of its block
and no two live spans of one block overlap. -/
theorem live_spans_in_bounds_and_disjoint (calls : List AllocatorCall)
    (hrange : ∀ c, c ∈ calls → callInRange c = true) :
    ∃ s live, runAllocatorCalls (initialSubAllocator, []) calls = some (s, live) ∧
      SpansSafe s live := by
  obtain ⟨st1, e, h⟩ := AllocatorInv.run calls (initialSubAllocator, []) initial_allocatorInv hrange
  exact ⟨st1.1, st1.2, e, h.spansSafe⟩

theorem live_spans_in_bounds_and_disjoint_witness :
    (∀ c, c ∈ sampleCalls → callInRange c = true) ∧
    ∃ s live, runAllocatorCalls (initialSubAllocator, []) sampleCalls = some (s, live) ∧
      SpansSafe s live :=
  ⟨by decide, live_spans_in_bounds_and_disjoint sampleCalls (by decide)⟩


/-! ## Lookups in the sampler descriptor-set cache -/
theorem hashCodeFrom_len (d : SamplerDescriptorSetData) :
    ∀ (n i r h : Nat), hashCodeFrom d n i r = some h →
      ∀ k, k < n → i + k < d.descriptorImageInfo.length := by
  intro n
  induction n with
  | zero => intro i r h _ k hk; omega
  | succ n ih =>
    intro i r h hh k hk
    unfold hashCodeFrom at hh
    cases hi : d.descriptorImageInfo[i]? with
    | none => rw [hi] at hh; cases hh
    | some info =>
      rw [hi] at hh
      have hlt : i < d.descriptorImageInfo.length := by
        rcases List.getElem?_eq_some_iff.mp hi with ⟨h1, _⟩
        exact h1
      cases k with
      | zero => simpa using hlt
      | succ k =>
        have := ih (i + 1) _ h hh k (by omega)
        omega

theorem dataEqualFrom_take (a : SamplerDescriptorSetData) (n : Nat) :
    ∀ (m i : Nat), (∀ k, k < m → i + k < a.descriptorImageInfo.length ∧ i + k < n) →
      dataEqualFrom a { descriptorImageInfo := a.descriptorImageInfo.take n } m i = some true := by
  intro m
  induction m with
  | zero => intro i _; rfl
  | succ m ih =>
    intro i h
    have h0 := h 0 (by omega)
    have hi : i < a.descriptorImageInfo.length := by omega
    have e1 : a.descriptorImageInfo[i]? = some a.descriptorImageInfo[i] :=
      List.getElem?_eq_getElem hi
    have e2 : (a.descriptorImageInfo.take n)[i]? = some a.descriptorImageInfo[i] := by
      rw [List.getElem?_take_of_lt (by omega)]
      exact e1
    unfold dataEqualFrom
    simp only [e1, e2, ne_eq, not_true_eq_false, or_self, if_false]
    apply ih
    intro k hk
    have := h (k + 1) (by omega)
    constructor <;> omega

theorem findDescriptorSet_congr (c c1 : SamplerDescriptorSetCache) (d : SamplerDescriptorSetData)
    (hn : c1.samplerBindingCount = c.samplerBindingCount) :
    ∀ l : List Nat,
      (∀ j, j ∈ l → (c1.elements[j]?).map (fun e => e.descriptorSetData) =
        (c.elements[j]?).map (fun e => e.descriptorSetData)) →
      findDescriptorSet c1 d l = findDescriptorSet c d l := by
  intro l
  induction l with
  | nil => intro _; rfl
  | cons j rest ih =>
    intro h
    have hj := h j (List.mem_cons_self _ _)
    have hrest := ih (fun j hj => h j (List.mem_cons_of_mem _ hj))
    unfold findDescriptorSet
    cases e1 : c1.elements[j]? with
    | none =>
      rw [e1] at hj
      cases e0 : c.elements[j]? with
      | none => rfl
      | some x => rw [e0] at hj; cases hj
    | some x1 =>
      rw [e1] at hj
      cases e0 : c.elements[j]? with
      | none => rw [e0] at hj; cases hj
      | some x =>
        rw [e0] at hj
        simp only [Option.map_some', Option.some.injEq] at hj
        simp only [hj, hn, hrest]

theorem findDescriptorSet_append (c : SamplerDescriptorSetCache) (d : SamplerDescriptorSetData) :
    ∀ l1 l2 : List Nat, findDescriptorSet c d l1 = some none →
      findDescriptorSet c d (l1 ++ l2) = findDescriptorSet c d l2 := by
  intro l1
  induction l1 with
  | nil => intro l2 _; rfl
  | cons j rest ih =>
    intro l2 h
    rw [List.cons_append]
    unfold findDescriptorSet at h
    conv_lhs => unfold findDescriptorSet
    cases e0 : c.elements[j]? with
    | none => rw [e0] at h; cases h
    | some x =>
      rw [e0] at h
      simp only
      simp only at h
      cases e1 : SamplerDescriptorSetDataEqual d x.descriptorSetData c.samplerBindingCount with
      | none => rw [e1] at h; cases h
      | some b =>
        rw [e1] at h
        cases b with
        | true => simp at h
        | false =>
          simp only at h ⊢
          exact ih l2 h

theorem findDescriptorSet_none_lt (c : SamplerDescriptorSetCache) (d : SamplerDescriptorSetData) :
    ∀ l : List Nat, findDescriptorSet c d l = some none →
      ∀ j, j ∈ l → j < c.elements.length := by
  intro l
  induction l with
  | nil => intro _ j hj; cases hj
  | cons j0 rest ih =>
    intro h j hj
    unfold findDescriptorSet at h
    cases e0 : c.elements[j0]? with
    | none => rw [e0] at h; cases h
    | some x =>
      rw [e0] at h
      simp only at h
      cases e1 : SamplerDescriptorSetDataEqual d x.descriptorSetData c.samplerBindingCount with
      | none => rw [e1] at h; cases h
      | some b =>
        rw [e1] at h
        cases b with
        | true => simp at h
        | false =>
          simp only at h
          rcases List.mem_cons.mp hj with hj | hj
          · rw [hj]
            exact (List.getElem?_eq_some_iff.mp e0).1
          · exact ih h j hj


theorem set_getElem?_same {α : Type} (l : List α) (j : Nat) (e : α) (he : l[j]? = some e) :
    l.set j e = l := by
  apply List.ext_getElem?
  intro k
  by_cases hk : j = k
  · subst hk
    rw [List.getElem?_set_self (List.getElem?_eq_some_iff.mp he).1, he]
  · rw [List.getElem?_set_ne hk]

theorem map_data_set_counter (l : List SamplerDescriptorSetHashMap) (j : Nat)
    (e : SamplerDescriptorSetHashMap) (he : l[j]? = some e) (k : Nat) :
    ((l.set j { e with inactiveFrameCount := 0 })[k]?).map (fun e => e.descriptorSetData) =
      (l[k]?).map (fun e => e.descriptorSetData) := by
  by_cases hk : j = k
  · subst hk
    have hlt := (List.getElem?_eq_some_iff.mp he).1
    rw [List.getElem?_set_self hlt, he]
    rfl
  · rw [List.getElem?_set_ne hk]

theorem findDescriptorSet_some (c : SamplerDescriptorSetCache) (d : SamplerDescriptorSetData) :
    ∀ (l : List Nat) (j : Nat), findDescriptorSet c d l = some (some j) →
      ∃ e, c.elements[j]? = some e := by
  intro l
  induction l with
  | nil => intro j h; simp [findDescriptorSet] at h
  | cons j0 rest ih =>
    intro j h
    unfold findDescriptorSet at h
    cases e0 : c.elements[j0]? with
    | none => rw [e0] at h; cases h
    | some x =>
      rw [e0] at h
      simp only at h
      cases e1 : SamplerDescriptorSetDataEqual d x.descriptorSetData c.samplerBindingCount with
      | none => rw [e1] at h; cases h
      | some b =>
        rw [e1] at h
        cases b with
        | true =>
          simp only [Option.some.injEq] at h
          subst h
          exact ⟨x, e0⟩
        | false => exact ih j h

theorem fetch_hit_again (c : SamplerDescriptorSetCache) (d : SamplerDescriptorSetData)
    (hashcode : Nat) (arr : SamplerDescriptorSetHashArray) (j : Nat)
    (e : SamplerDescriptorSetHashMap) (newPool : Nat) (newSets : Option (List Nat))
    (hh : SamplerDescriptorSetHashTable_GetHashCode d c.samplerBindingCount = some hashcode)
    (hb : c.buckets[hashcode % NUM_DESCRIPTOR_SET_HASH_BUCKETS]? = some arr)
    (hf : findDescriptorSet c d arr.elements = some (some j))
    (he : c.elements[j]? = some e) (h0 : e.inactiveFrameCount = 0) :
    VULKAN_INTERNAL_FetchSamplerDescriptorSet c d newPool newSets =
      some (c, e.descriptorSet, []) := by
  unfold VULKAN_INTERNAL_FetchSamplerDescriptorSet
  simp only [hh, hb, hf, fetchSamplerDescriptorSetHit, he]
  have e1 : ({ e with inactiveFrameCount := 0 } : SamplerDescriptorSetHashMap) = e := by
    cases e; simp only at h0; subst h0; rfl
  rw [e1, set_getElem?_same _ _ _ he]

/-! ## C4: fetching a tuple twice -/
/-- C4. Two consecutive calls of `VULKAN_INTERNAL_FetchSamplerDescriptorSet` with the
same tuple, with no eviction sweep in between, return the identical descriptor set:
whenever the first call returns, the second one (whatever the driver would answer)
returns the same handle, issues no descriptor write and leaves the whole cache as
it is (nothing is allocated, no set leaves the inactive list); it is a hit on an
element that holds this handle and whose idle-frame counter is 0. -/
theorem fetch_twice_same_descriptor_set (cache : SamplerDescriptorSetCache)
    (data : SamplerDescriptorSetData) (newPool : Nat) (newSets : Option (List Nat))
    (newPool2 : Nat) (newSets2 : Option (List Nat))
    (c1 : SamplerDescriptorSetCache) (set1 : Nat) (writes1 : List VkWriteDescriptorSet)
    (h1 : VULKAN_INTERNAL_FetchSamplerDescriptorSet cache data newPool newSets =
      some (c1, set1, writes1)) :
    VULKAN_INTERNAL_FetchSamplerDescriptorSet c1 data newPool2 newSets2 = some (c1, set1, []) ∧
    ∃ hashcode arr j e,
      SamplerDescriptorSetHashTable_GetHashCode data c1.samplerBindingCount = some hashcode ∧
      c1.buckets[hashcode % NUM_DESCRIPTOR_SET_HASH_BUCKETS]? = some arr ∧
      findDescriptorSet c1 data arr.elements = some (some j) ∧
      c1.elements[j]? = some e ∧ e.descriptorSet = set1 ∧ e.inactiveFrameCount = 0 := by
  unfold VULKAN_INTERNAL_FetchSamplerDescriptorSet at h1
  cases hh : SamplerDescriptorSetHashTable_GetHashCode data cache.samplerBindingCount with
  | none => rw [hh] at h1; cases h1
  | some hashcode =>
    rw [hh] at h1
    simp only at h1
    cases hb : cache.buckets[hashcode % NUM_DESCRIPTOR_SET_HASH_BUCKETS]? with
    | none => rw [hb] at h1; cases h1
    | some arr =>
      rw [hb] at h1
      simp only at h1
      have hidx : hashcode % NUM_DESCRIPTOR_SET_HASH_BUCKETS < cache.buckets.length :=
        (List.getElem?_eq_some_iff.mp hb).1
      cases hf : findDescriptorSet cache data arr.elements with
      | none => rw [hf] at h1; cases h1
      | some r =>
        rw [hf] at h1
        cases r with
        | some j =>
          -- the first call is a hit
          simp only [fetchSamplerDescriptorSetHit] at h1
          obtain ⟨e, he⟩ := findDescriptorSet_some cache data _ j hf
          rw [he] at h1
          simp only [Option.some.injEq, Prod.mk.injEq] at h1
          obtain ⟨hc1, hset, _⟩ := h1
          have hlt := (List.getElem?_eq_some_iff.mp he).1
          have hn : c1.samplerBindingCount = cache.samplerBindingCount := by rw [← hc1]
          have hbk : c1.buckets = cache.buckets := by rw [← hc1]
          have hel : c1.elements = cache.elements.set j { e with inactiveFrameCount := 0 } := by
            rw [← hc1]
          have hf1 : findDescriptorSet c1 data arr.elements = some (some j) := by
            rw [findDescriptorSet_congr cache c1 data hn, hf]
            intro k _
            rw [hel]
            exact map_data_set_counter _ _ _ he k
          have he1 : c1.elements[j]? = some { e with inactiveFrameCount := 0 } := by
            rw [hel, List.getElem?_set_self hlt]
          have hh1 : SamplerDescriptorSetHashTable_GetHashCode data c1.samplerBindingCount =
              some hashcode := by rw [hn, hh]
          have hb1 : c1.buckets[hashcode % NUM_DESCRIPTOR_SET_HASH_BUCKETS]? = some arr := by
            rw [hbk, hb]
          subst hset
          refine ⟨?_, hashcode, arr, j, _, hh1, hb1, hf1, he1, rfl, rfl⟩
          exact fetch_hit_again c1 data hashcode arr j { e with inactiveFrameCount := 0 }
            newPool2 newSets2 hh1 hb1 hf1 he1 rfl
        | none =>
          -- the first call is a miss
          simp only [fetchSamplerDescriptorSetMiss] at h1
          obtain ⟨cg, hcg, hsame⟩ : ∃ cg, (if cache.inactiveDescriptorSets.length = 0 then
              growInactiveDescriptorSets cache newPool newSets else some cache) = some cg ∧
              cg.samplerBindingCount = cache.samplerBindingCount ∧
              cg.buckets = cache.buckets ∧ cg.elements = cache.elements := by
            by_cases h0 : cache.inactiveDescriptorSets.length = 0
            · rw [if_pos h0] at h1 ⊢
              unfold growInactiveDescriptorSets at h1 ⊢
              cases newSets with
              | none => simp at h1
              | some sets =>
                simp only at h1 ⊢
                by_cases hl : sets.length = cache.nextPoolSize
                · rw [if_pos hl]
                  exact ⟨_, rfl, rfl, rfl, rfl⟩
                · rw [if_neg hl] at h1
                  simp at h1
            · rw [if_neg h0]
              exact ⟨cache, rfl, rfl, rfl, rfl⟩
          obtain ⟨hn, hbk, hel⟩ := hsame
          rw [hcg] at h1
          simp only at h1
          rw [hbk, hb] at h1
          cases hlast : cg.inactiveDescriptorSets.getLast? with
          | none => rw [hlast] at h1; simp at h1
          | some newSet =>
            rw [hlast] at h1
            simp only [Option.some.injEq, Prod.mk.injEq] at h1
            obtain ⟨hc1, hset, _⟩ := h1
            subst hset
            have hn1 : c1.samplerBindingCount = cache.samplerBindingCount := by rw [← hc1, hn]
            have hb1 : c1.buckets[hashcode % NUM_DESCRIPTOR_SET_HASH_BUCKETS]? =
                some (hashArrayAppend arr 2 cg.elements.length) := by
              rw [← hc1]
              simp only
              rw [List.getElem?_set_self hidx]
            have hel1 : c1.elements = cache.elements ++
                [{ key := hashcode,
                   descriptorSetData :=
                    { descriptorImageInfo :=
                        data.descriptorImageInfo.take cache.samplerBindingCount },
                   descriptorSet := newSet,
                   inactiveFrameCount := 0 }] := by
              rw [← hc1]
              simp only [hel, hn]
            have hh1 : SamplerDescriptorSetHashTable_GetHashCode data c1.samplerBindingCount =
                some hashcode := by rw [hn1, hh]
            have hold : findDescriptorSet c1 data arr.elements = some none := by
              rw [findDescriptorSet_congr cache c1 data hn1, hf]
              intro k hk
              have hklt := findDescriptorSet_none_lt cache data _ hf k hk
              rw [hel1, List.getElem?_append_left hklt]
            have hnew : c1.elements[cache.elements.length]? =
                some { key := hashcode,
                       descriptorSetData :=
                        { descriptorImageInfo :=
                            data.descriptorImageInfo.take cache.samplerBindingCount },
                       descriptorSet := newSet,
                       inactiveFrameCount := 0 } := by
              rw [hel1]
              simp
            have heq : SamplerDescriptorSetDataEqual data
                { descriptorImageInfo :=
                    data.descriptorImageInfo.take cache.samplerBindingCount }
                c1.samplerBindingCount = some true := by
              unfold SamplerDescriptorSetDataEqual
              apply dataEqualFrom_take
              intro k hk
              have hmod : c1.samplerBindingCount % UINT8_MOD ≤ cache.samplerBindingCount := by
                rw [hn1]; exact Nat.mod_le _ _
              have := hashCodeFrom_len data _ 0 1 hashcode hh k (by omega)
              omega
            have hf1 : findDescriptorSet c1 data (hashArrayAppend arr 2 cg.elements.length).elements
                = some (some cache.elements.length) := by
              have : (hashArrayAppend arr 2 cg.elements.length).elements =
                  arr.elements ++ [cache.elements.length] := by
                simp only [hashArrayAppend, hel]
              rw [this, findDescriptorSet_append c1 data _ _ hold]
              simp only [findDescriptorSet, hnew, heq]
            refine ⟨?_, hashcode, _, _, _, hh1, hb1, hf1, hnew, rfl, rfl⟩
            exact fetch_hit_again c1 data hashcode _ _ _ newPool2 newSets2 hh1 hb1 hf1 hnew rfl

set_option maxRecDepth 100000 in
theorem fetch_twice_same_descriptor_set_witness :
    VULKAN_INTERNAL_FetchSamplerDescriptorSet sampleCache sampleData 61 none =
      some (sampleFetched.1, sampleFetched.2.1, sampleFetched.2.2) ∧
    VULKAN_INTERNAL_FetchSamplerDescriptorSet sampleFetched.1 sampleData 62 none =
      some (sampleFetched.1, sampleFetched.2.1, []) :=
  ⟨by decide,
    (fetch_twice_same_descriptor_set sampleCache sampleData 61 none 62 none
      sampleFetched.1 sampleFetched.2.1 sampleFetched.2.2 (by decide)).1⟩

/-! ## C5: fetching a tuple again after its eviction -/
theorem hashCodeFrom_some (d : SamplerDescriptorSetData) :
    ∀ (n i r : Nat), i + n ≤ d.descriptorImageInfo.length →
      ∃ h, hashCodeFrom d n i r = some h := by
  intro n
  induction n with
  | zero => intro i r _; exact ⟨r, rfl⟩
  | succ n ih =>
    intro i r hlen
    unfold hashCodeFrom
    have hi : i < d.descriptorImageInfo.length := by omega
    have e1 : d.descriptorImageInfo[i]? = some d.descriptorImageInfo[i] :=
      List.getElem?_eq_getElem hi
    rw [e1]
    exact ih (i + 1) _ (by omega)

/-- A sweep over a table with one element that stays below the threshold only
counts the idle frame. -/
theorem sweep_one_idle (c : SamplerDescriptorSetCache) (e : SamplerDescriptorSetHashMap)
    (hel : c.elements = [e]) (hcount : e.inactiveFrameCount + 2 ≤ DESCRIPTOR_SET_DEACTIVATE_FRAMES) :
    VULKAN_INTERNAL_DeactivateUnusedDescriptorSets c =
      some { c with elements := [{ e with inactiveFrameCount := e.inactiveFrameCount + 1 }] } := by
  have h10 : DESCRIPTOR_SET_DEACTIVATE_FRAMES = 10 := rfl
  have h256 : UINT8_MOD = 256 := rfl
  rw [h10] at hcount
  have hmod : (e.inactiveFrameCount + 1) % UINT8_MOD = e.inactiveFrameCount + 1 := by
    rw [h256]; omega
  unfold VULKAN_INTERNAL_DeactivateUnusedDescriptorSets
  rw [hel]
  simp only [List.length_singleton, deactivateFrom, deactivateStep, hel,
    List.getElem?_cons_zero, hmod, List.set_cons_zero]
  rw [if_neg (by rw [h10]; omega)]

/-- The sweep in which the only element of the table reaches the threshold removes
it and puts its descriptor set on top of the inactive sets. -/
theorem sweep_one_evict (c : SamplerDescriptorSetCache) (e : SamplerDescriptorSetHashMap)
    (arr : SamplerDescriptorSetHashArray)
    (hel : c.elements = [e]) (hcount : e.inactiveFrameCount = 9)
    (hb : c.buckets[e.key % NUM_DESCRIPTOR_SET_HASH_BUCKETS]? = some arr)
    (harr : arr.elements = [0])
    (hcap : c.inactiveDescriptorSets.length < c.inactiveDescriptorSetCapacity) :
    VULKAN_INTERNAL_DeactivateUnusedDescriptorSets c =
      some { c with
        elements := []
        buckets := c.buckets.set (e.key % NUM_DESCRIPTOR_SET_HASH_BUCKETS)
          { arr with elements := [] }
        inactiveDescriptorSets := c.inactiveDescriptorSets ++ [e.descriptorSet] } := by
  have h10 : DESCRIPTOR_SET_DEACTIVATE_FRAMES = 10 := rfl
  have h256 : UINT8_MOD = 256 := rfl
  have hmod : (e.inactiveFrameCount + 1) % UINT8_MOD = 10 := by
    rw [h256, hcount]
  unfold VULKAN_INTERNAL_DeactivateUnusedDescriptorSets
  rw [hel]
  simp only [List.length_singleton, deactivateFrom, deactivateStep, hel,
    List.getElem?_cons_zero, hmod, List.set_cons_zero]
  rw [if_pos (by rw [h10]; omega)]
  simp only [deactivateElement, updateBucket, hb, removeIndexFromBucket, harr,
    List.indexOf_cons_self, List.length_singleton, Nat.lt_irrefl, if_false,
    Nat.zero_lt_one, if_true, List.dropLast_single, hcap, fillHole, Nat.sub_self,
    List.dropLast_single]

/-- A sweep over an empty table does nothing. -/
theorem sweep_empty (c : SamplerDescriptorSetCache) (hel : c.elements = []) :
    VULKAN_INTERNAL_DeactivateUnusedDescriptorSets c = some c := by
  unfold VULKAN_INTERNAL_DeactivateUnusedDescriptorSets
  rw [hel]
  rfl

theorem deactivateTimes_empty (c : SamplerDescriptorSetCache) (hel : c.elements = []) :
    ∀ k, deactivateTimes c k = some c := by
  intro k
  induction k with
  | zero => rfl
  | succ k ih =>
    unfold deactivateTimes
    rw [sweep_empty c hel]
    exact ih

theorem deactivateTimes_add (c : SamplerDescriptorSetCache) :
    ∀ (a b : Nat) (c1 : SamplerDescriptorSetCache), deactivateTimes c a = some c1 →
      deactivateTimes c (a + b) = deactivateTimes c1 b := by
  intro a
  induction a generalizing c with
  | zero =>
    intro b c1 h
    simp only [deactivateTimes, Option.some.injEq] at h
    rw [Nat.zero_add, h]
  | succ a ih =>
    intro b c1 h
    rw [Nat.add_right_comm]
    unfold deactivateTimes at h
    conv_lhs => unfold deactivateTimes
    cases hs : VULKAN_INTERNAL_DeactivateUnusedDescriptorSets c with
    | none => rw [hs] at h; cases h
    | some c' =>
      rw [hs] at h
      simp only at h ⊢
      exact ih c' b c1 h

/-- Idle sweeps of a table with one element, up to counter value 9. -/
theorem deactivateTimes_idle (c : SamplerDescriptorSetCache) (e : SamplerDescriptorSetHashMap) :
    ∀ (j : Nat), c.elements = [e] → e.inactiveFrameCount + j + 1 ≤ DESCRIPTOR_SET_DEACTIVATE_FRAMES →
      deactivateTimes c j =
        some { c with elements := [{ e with inactiveFrameCount := e.inactiveFrameCount + j }] } := by
  intro j
  induction j generalizing c e with
  | zero =>
    intro hel _
    unfold deactivateTimes
    cases c; cases e
    simp only at hel
    subst hel
    rfl
  | succ j ih =>
    intro hel hcount
    unfold deactivateTimes
    rw [sweep_one_idle c e hel (by omega)]
    simp only
    rw [ih _ { e with inactiveFrameCount := e.inactiveFrameCount + 1 } rfl (by simp only; omega)]
    simp only [Nat.add_assoc, Nat.add_comm 1 j]


/-- A fetch whose bucket is empty is a miss; with an inactive set at hand it takes
the one on top. -/
theorem fetch_empty_bucket (c : SamplerDescriptorSetCache) (data : SamplerDescriptorSetData)
    (newPool : Nat) (newSets : Option (List Nat)) (hashcode : Nat)
    (arr : SamplerDescriptorSetHashArray) (rest : List Nat) (top : Nat)
    (hh : SamplerDescriptorSetHashTable_GetHashCode data c.samplerBindingCount = some hashcode)
    (hb : c.buckets[hashcode % NUM_DESCRIPTOR_SET_HASH_BUCKETS]? = some arr)
    (harr : arr.elements = [])
    (hin : c.inactiveDescriptorSets = rest ++ [top]) :
    VULKAN_INTERNAL_FetchSamplerDescriptorSet c data newPool newSets =
      some
        ({ c with
            inactiveDescriptorSets := rest
            buckets := c.buckets.set (hashcode % NUM_DESCRIPTOR_SET_HASH_BUCKETS)
              (hashArrayAppend arr 2 c.elements.length)
            capacity := if c.elements.length = c.capacity then c.capacity * 2 else c.capacity
            elements := c.elements ++
              [{ key := hashcode,
                 descriptorSetData :=
                  { descriptorImageInfo :=
                      data.descriptorImageInfo.take c.samplerBindingCount },
                 descriptorSet := top,
                 inactiveFrameCount := 0 }] },
          top,
          samplerDescriptorWrites data c.samplerBindingCount top) := by
  have hne : ¬ c.inactiveDescriptorSets.length = 0 := by
    rw [hin]; simp
  unfold VULKAN_INTERNAL_FetchSamplerDescriptorSet
  simp only [hh, hb, harr, findDescriptorSet, fetchSamplerDescriptorSetMiss, if_neg hne]
  rw [hin]
  simp only [List.getLast?_append, List.getLast?_singleton, Option.or,
    List.dropLast_concat]

/-- C5 (amended). A tuple is fetched from a cache whose table is empty and is then
left idle for `k` sweeps, `k` at least `DESCRIPTOR_SET_DEACTIVATE_FRAMES` (for
example 11).  The sweeps evict the element (the table is empty again) and put its
descriptor set back on top of the inactive sets, so the next fetch with the same
tuple is a miss that writes the descriptors again and returns the same handle as
the first fetch, not a different one. -/
theorem refetch_after_eviction_same_set (cache : SamplerDescriptorSetCache)
    (data : SamplerDescriptorSetData) (newPool1 : Nat) (newSets1 : Option (List Nat))
    (newPool2 : Nat) (newSets2 : Option (List Nat)) (k : Nat)
    (hel : cache.elements = [])
    (hlen : cache.buckets.length = NUM_DESCRIPTOR_SET_HASH_BUCKETS)
    (hbk : ∀ b, b ∈ cache.buckets → b.elements = [])
    (hin : cache.inactiveDescriptorSets ≠ [])
    (hcap : cache.inactiveDescriptorSets.length ≤ cache.inactiveDescriptorSetCapacity)
    (hdata : cache.samplerBindingCount ≤ data.descriptorImageInfo.length)
    (hk : DESCRIPTOR_SET_DEACTIVATE_FRAMES ≤ k) :
    ∃ c1 set1 c2 c3,
      VULKAN_INTERNAL_FetchSamplerDescriptorSet cache data newPool1 newSets1 =
        some (c1, set1, samplerDescriptorWrites data cache.samplerBindingCount set1) ∧
      deactivateTimes c1 k = some c2 ∧ c2.elements = [] ∧
      c2.inactiveDescriptorSets = cache.inactiveDescriptorSets ∧
      VULKAN_INTERNAL_FetchSamplerDescriptorSet c2 data newPool2 newSets2 =
        some (c3, set1, samplerDescriptorWrites data cache.samplerBindingCount set1) := by
  have h10 : DESCRIPTOR_SET_DEACTIVATE_FRAMES = 10 := rfl
  obtain ⟨hashcode, hh⟩ := hashCodeFrom_some data cache.samplerBindingCount 0 1 (by omega)
  have hidx : hashcode % NUM_DESCRIPTOR_SET_HASH_BUCKETS < cache.buckets.length := by
    rw [hlen]; exact Nat.mod_lt _ (by decide)
  obtain ⟨arr, hb⟩ : ∃ arr, cache.buckets[hashcode % NUM_DESCRIPTOR_SET_HASH_BUCKETS]? = some arr :=
    ⟨_, List.getElem?_eq_getElem hidx⟩
  have harr : arr.elements = [] := hbk arr (List.getElem?_mem hb)
  obtain ⟨rest, top, hin2⟩ : ∃ rest top, cache.inactiveDescriptorSets = rest ++ [top] :=
    ⟨_, _, (List.dropLast_append_getLast hin).symm⟩
  have hf1 := fetch_empty_bucket cache data newPool1 newSets1 hashcode arr rest top hh hb harr hin2
  rw [hel] at hf1
  simp only [List.nil_append, List.length_nil] at hf1
  -- the cache after the first fetch
  obtain ⟨c1, hc1⟩ : ∃ c1 : SamplerDescriptorSetCache, c1 =
      { cache with
          inactiveDescriptorSets := rest
          buckets := cache.buckets.set (hashcode % NUM_DESCRIPTOR_SET_HASH_BUCKETS)
            (hashArrayAppend arr 2 0)
          capacity := if 0 = cache.capacity then cache.capacity * 2 else cache.capacity
          elements :=
            [{ key := hashcode,
               descriptorSetData :=
                { descriptorImageInfo :=
                    data.descriptorImageInfo.take cache.samplerBindingCount },
               descriptorSet := top,
               inactiveFrameCount := 0 }] } := ⟨_, rfl⟩
  rw [← hc1] at hf1
  have hc1_el : c1.elements =
      [{ key := hashcode,
         descriptorSetData :=
          { descriptorImageInfo := data.descriptorImageInfo.take cache.samplerBindingCount },
         descriptorSet := top,
         inactiveFrameCount := 0 }] := by rw [hc1]
  have hc1_b : c1.buckets[hashcode % NUM_DESCRIPTOR_SET_HASH_BUCKETS]? =
      some (hashArrayAppend arr 2 0) := by
    rw [hc1]; simp only; rw [List.getElem?_set_self hidx]
  have hc1_in : c1.inactiveDescriptorSets = rest := by rw [hc1]
  have hc1_cap : c1.inactiveDescriptorSetCapacity = cache.inactiveDescriptorSetCapacity := by
    rw [hc1]
  have hc1_n : c1.samplerBindingCount = cache.samplerBindingCount := by rw [hc1]
  -- nine idle sweeps
  have hidle := deactivateTimes_idle c1 _ 9 hc1_el (by rw [h10])
  simp only [Nat.zero_add] at hidle
  -- the tenth sweep evicts
  have hevict := sweep_one_evict
    { c1 with elements :=
        [{ key := hashcode,
           descriptorSetData :=
            { descriptorImageInfo := data.descriptorImageInfo.take cache.samplerBindingCount },
           descriptorSet := top,
           inactiveFrameCount := 9 }] }
    { key := hashcode,
      descriptorSetData :=
        { descriptorImageInfo := data.descriptorImageInfo.take cache.samplerBindingCount },
      descriptorSet := top,
      inactiveFrameCount := 9 }
    (hashArrayAppend arr 2 0) rfl rfl hc1_b (by simp only [hashArrayAppend, harr, List.nil_append])
    (by
      simp only
      rw [hc1_in, hc1_cap]
      rw [hin2] at hcap
      simp only [List.length_append, List.length_singleton] at hcap
      omega)
  simp only at hevict
  obtain ⟨c2, hc2⟩ : ∃ c2 : SamplerDescriptorSetCache, c2 =
      { c1 with
          elements := []
          buckets := c1.buckets.set (hashcode % NUM_DESCRIPTOR_SET_HASH_BUCKETS)
            { hashArrayAppend arr 2 0 with elements := [] }
          inactiveDescriptorSets := cache.inactiveDescriptorSets } := ⟨_, rfl⟩
  have hc2_el : c2.elements = [] := by rw [hc2]
  have hidx1 : hashcode % NUM_DESCRIPTOR_SET_HASH_BUCKETS < c1.buckets.length :=
    (List.getElem?_eq_some_iff.mp hc1_b).1
  have hc2_b : c2.buckets[hashcode % NUM_DESCRIPTOR_SET_HASH_BUCKETS]? =
      some { hashArrayAppend arr 2 0 with elements := [] } := by
    rw [hc2]; simp only; rw [List.getElem?_set_self hidx1]
  have hc2_in : c2.inactiveDescriptorSets = cache.inactiveDescriptorSets := by rw [hc2]
  have hc2_n : c2.samplerBindingCount = cache.samplerBindingCount := by rw [hc2, hc1_n]
  have hten : deactivateTimes c1 10 = some c2 := by
    rw [show (10 : Nat) = 9 + 1 from rfl, deactivateTimes_add c1 9 1 _ hidle]
    simp only [deactivateTimes]
    rw [hevict]
    simp only [hc2, hc1_in, hin2]
  have hsweeps : deactivateTimes c1 k = some c2 := by
    obtain ⟨m, hm⟩ : ∃ m, k = 10 + m := ⟨k - 10, by rw [h10] at hk; omega⟩
    rw [hm, deactivateTimes_add c1 10 m c2 hten]
    exact deactivateTimes_empty c2 hc2_el m
  have hf2 := fetch_empty_bucket c2 data newPool2 newSets2 hashcode _ rest top
    (by rw [hc2_n]; exact hh) hc2_b rfl (by rw [hc2_in, hin2])
  rw [hc2_n] at hf2
  exact ⟨c1, top, c2, _, hf1, hsweeps, hc2_el, hc2_in, hf2⟩

/-- Every bucket of a new cache is empty. -/
theorem created_cache_buckets_empty (descriptorSetLayout samplerBindingCount newPool : Nat)
    (newSets : List Nat) (b : SamplerDescriptorSetHashArray)
    (hb : b ∈ (VULKAN_INTERNAL_CreateSamplerDescriptorSetCache descriptorSetLayout
      samplerBindingCount newPool newSets).buckets) : b.elements = [] := by
  simp only [VULKAN_INTERNAL_CreateSamplerDescriptorSetCache] at hb
  rw [List.eq_of_mem_replicate hb]

set_option maxRecDepth 100000 in
theorem refetch_after_eviction_same_set_witness :
    (sampleCache.elements = [] ∧
      sampleCache.buckets.length = NUM_DESCRIPTOR_SET_HASH_BUCKETS ∧
      (∀ b, b ∈ sampleCache.buckets → b.elements = []) ∧
      sampleCache.inactiveDescriptorSets ≠ [] ∧
      sampleCache.inactiveDescriptorSets.length ≤ sampleCache.inactiveDescriptorSetCapacity ∧
      sampleCache.samplerBindingCount ≤ sampleData.descriptorImageInfo.length ∧
      DESCRIPTOR_SET_DEACTIVATE_FRAMES ≤ 11) ∧
    ∃ c1 set1 c2 c3,
      VULKAN_INTERNAL_FetchSamplerDescriptorSet sampleCache sampleData 61 none =
        some (c1, set1, samplerDescriptorWrites sampleData sampleCache.samplerBindingCount set1) ∧
      deactivateTimes c1 11 = some c2 ∧ c2.elements = [] ∧
      c2.inactiveDescriptorSets = sampleCache.inactiveDescriptorSets ∧
      VULKAN_INTERNAL_FetchSamplerDescriptorSet c2 sampleData 62 none =
        some (c3, set1, samplerDescriptorWrites sampleData sampleCache.samplerBindingCount set1) :=
  ⟨⟨by decide, by decide, created_cache_buckets_empty 50 1 60 sampleSets, by decide, by decide,
      by decide, by decide⟩,
    refetch_after_eviction_same_set sampleCache sampleData 61 none 62 none 11
      (by decide) (by decide) (created_cache_buckets_empty 50 1 60 sampleSets) (by decide)
      (by decide) (by decide) (by decide)⟩

set_option maxRecDepth 100000 in
/-- C5, as first stated, fails: in a newly created cache a tuple is fetched (the set
1127 is returned), eleven sweeps pass without a fetch, and the next fetch with the
same tuple returns the set 1127 again. -/
theorem refetch_after_eleven_sweeps_same_handle :
    VULKAN_INTERNAL_FetchSamplerDescriptorSet sampleCache sampleData 61 none =
      some (sampleFetched.1, 1127, sampleFetched.2.2) ∧
    ((deactivateTimes sampleFetched.1 11).bind (fun c =>
      (VULKAN_INTERNAL_FetchSamplerDescriptorSet c sampleData 62 none).map
        (fun r => r.2.1))) = some 1127 := by
  decide

/-! ## Command recording -/
theorem BeginCommandBuffer_frame (r : VulkanRenderer) (driver : DriverResults)
    (r1 : VulkanRenderer) (h : VULKAN_INTERNAL_BeginCommandBuffer r driver = some r1) :
    CommandFrame r r1 ∧ r1.calls = r.calls ∧ r1.numActiveCommands = r.numActiveCommands := by
  unfold VULKAN_INTERNAL_BeginCommandBuffer at h
  by_cases h1 : r.inactiveCommandBuffers.length = 0 ∧ driver.vkAllocateCommandBuffers = false
  · rw [if_pos h1] at h
    simp only [Option.some.injEq] at h
    subst h
    exact ⟨rfl, rfl, rfl⟩
  · rw [if_neg h1] at h
    by_cases h2 : r.inactiveCommandBuffers.length = 0
    · simp only [if_pos h2] at h
      cases hl : (List.range' r.nextCommandBufferHandle r.allocatedCommandBufferCount).getLast? with
      | none => rw [hl] at h; cases h
      | some x =>
        rw [hl] at h
        simp only [Option.some.injEq] at h
        subst h
        exact ⟨rfl, rfl, rfl⟩
    · simp only [if_neg h2] at h
      cases hl : r.inactiveCommandBuffers.getLast? with
      | none => rw [hl] at h; cases h
      | some x =>
        rw [hl] at h
        simp only [Option.some.injEq] at h
        subst h
        exact ⟨rfl, rfl, rfl⟩

theorem BeginCommandBuffer_defined (r : VulkanRenderer) (driver : DriverResults)
    (h : CommandBufferAvailable r driver) :
    ∃ r1, VULKAN_INTERNAL_BeginCommandBuffer r driver = some r1 := by
  unfold VULKAN_INTERNAL_BeginCommandBuffer
  by_cases h1 : r.inactiveCommandBuffers.length = 0 ∧ driver.vkAllocateCommandBuffers = false
  · rw [if_pos h1]; exact ⟨_, rfl⟩
  · rw [if_neg h1]
    by_cases h2 : r.inactiveCommandBuffers.length = 0
    · simp only [if_pos h2]
      have h3 : 0 < r.allocatedCommandBufferCount := by
        rcases h with h | h | h
        · exact absurd (List.length_eq_zero.mp h2) h
        · exact h
        · exact absurd ⟨h2, h⟩ h1
      have h4 : List.range' r.nextCommandBufferHandle r.allocatedCommandBufferCount ≠ [] := by
        intro e
        have := congrArg List.length e
        simp only [List.length_range', List.length_nil] at this
        omega
      obtain ⟨x, hx⟩ : ∃ x, (List.range' r.nextCommandBufferHandle
          r.allocatedCommandBufferCount).getLast? = some x :=
        ⟨_, List.getLast?_eq_getLast _ h4⟩
      rw [hx]
      exact ⟨_, rfl⟩
    · simp only [if_neg h2]
      have h4 : r.inactiveCommandBuffers ≠ [] := fun e => h2 (by rw [e]; rfl)
      obtain ⟨x, hx⟩ : ∃ x, r.inactiveCommandBuffers.getLast? = some x :=
        ⟨_, List.getLast?_eq_getLast _ h4⟩
      rw [hx]
      exact ⟨_, rfl⟩

theorem RECORD_CMD_frame (r : VulkanRenderer) (driver : DriverResults)
    (cmdCall : Option Nat → VulkanCall) (r1 : VulkanRenderer)
    (h : RECORD_CMD r driver cmdCall = some r1) :
    CommandFrame r r1 ∧ r1.calls = r.calls ++ [cmdCall r1.currentCommandBuffer] ∧
      r1.numActiveCommands = (r.numActiveCommands + 1) % UINT32_MOD := by
  unfold RECORD_CMD at h
  by_cases hc : r.currentCommandBuffer = none
  · rw [if_pos hc] at h
    cases hb : VULKAN_INTERNAL_BeginCommandBuffer r driver with
    | none => rw [hb] at h; cases h
    | some r0 =>
      rw [hb] at h
      simp only [Option.some.injEq] at h
      obtain ⟨hf, hcalls, hnum⟩ := BeginCommandBuffer_frame r driver r0 hb
      subst h
      refine ⟨?_, by simp only [hcalls], by simp only [hnum]⟩
      unfold CommandFrame at hf ⊢
      simp only
      conv_lhs => rw [hf]
  · rw [if_neg hc] at h
    simp only [Option.some.injEq] at h
    subst h
    exact ⟨rfl, rfl, rfl⟩

theorem RECORD_CMD_defined (r : VulkanRenderer) (driver : DriverResults)
    (cmdCall : Option Nat → VulkanCall)
    (h : r.currentCommandBuffer ≠ none ∨ CommandBufferAvailable r driver) :
    ∃ r1, RECORD_CMD r driver cmdCall = some r1 := by
  unfold RECORD_CMD
  by_cases hc : r.currentCommandBuffer = none
  · rw [if_pos hc]
    obtain ⟨r0, h0⟩ := BeginCommandBuffer_defined r driver
      (h.resolve_left (fun hn => hn hc))
    rw [h0]
    exact ⟨_, rfl⟩
  · rw [if_neg hc]
    exact ⟨_, rfl⟩

theorem CommandFrame.bufferHeap {r r1 : VulkanRenderer} (h : CommandFrame r r1) :
    r1.bufferHeap = r.bufferHeap := by
  unfold CommandFrame at h; rw [h]

/-! ## C2: a repeated barrier -/
/-- C2. Calling `VULKAN_INTERNAL_BufferMemoryBarrier` (first part) or
`VULKAN_INTERNAL_ImageMemoryBarrier` (second part) twice in a row with the same
target access type `t`: the first call returns and leaves the tracked access type
equal to `t`; the second call returns the state it was given, unchanged, so it
records no pipeline barrier, and the tracked access type is still `t`. -/
theorem barrier_twice_second_is_noop (renderer : VulkanRenderer)
    (driver driver2 : DriverResults) (t : VulkanResourceAccessType)
    (havail : renderer.currentCommandBuffer ≠ none ∨ CommandBufferAvailable renderer driver) :
    (∀ (buffer subBuffer : Nat) (b : VulkanBuffer) (sb : VulkanSubBuffer),
      heapGet renderer.bufferHeap buffer = some b →
      heapGet renderer.subBufferHeap subBuffer = some sb →
      ∃ r1 b1,
        VULKAN_INTERNAL_BufferMemoryBarrier renderer driver t buffer subBuffer = some r1 ∧
        heapGet r1.bufferHeap buffer = some b1 ∧ b1.resourceAccessType = t ∧
        VULKAN_INTERNAL_BufferMemoryBarrier r1 driver2 t buffer subBuffer = some r1) ∧
    (∀ (aspectMask baseLayer layerCount baseLevel levelCount : Nat) (discardContents : Bool)
      (image : Nat) (resourceAccessType : VulkanResourceAccessType),
      ∃ r1,
        VULKAN_INTERNAL_ImageMemoryBarrier renderer driver t aspectMask baseLayer layerCount
          baseLevel levelCount discardContents image resourceAccessType = some (r1, t) ∧
        VULKAN_INTERNAL_ImageMemoryBarrier r1 driver2 t aspectMask baseLayer layerCount
          baseLevel levelCount discardContents image t = some (r1, t)) := by
  constructor
  · intro buffer subBuffer b sb hb hsb
    by_cases ht : b.resourceAccessType = t
    · refine ⟨renderer, b, ?_, hb, ht, ?_⟩ <;>
        simp only [VULKAN_INTERNAL_BufferMemoryBarrier, hb, ht, if_true]
    · obtain ⟨r0, h0⟩ := RECORD_CMD_defined renderer driver
        (bufferBarrierCall b.resourceAccessType t sb.buffer b.size) havail
      have hheap := (RECORD_CMD_frame renderer driver _ r0 h0).1.bufferHeap
      have hlt : buffer < r0.bufferHeap.length := by
        rw [hheap]; exact heapGet_lt hb
      have hget : heapGet (r0.bufferHeap.set buffer (some { b with resourceAccessType := t }))
          buffer = some { b with resourceAccessType := t } :=
        heapGet_set_eq _ _ _ hlt
      obtain ⟨r1, hr1⟩ : ∃ r1 : VulkanRenderer, r1 =
          { r0 with
            bufferHeap := r0.bufferHeap.set buffer (some { b with resourceAccessType := t }) } :=
        ⟨_, rfl⟩
      have hget1 : heapGet r1.bufferHeap buffer = some { b with resourceAccessType := t } := by
        rw [hr1]; exact hget
      refine ⟨r1, { b with resourceAccessType := t }, ?_, hget1, rfl, ?_⟩
      · simp only [VULKAN_INTERNAL_BufferMemoryBarrier, hb, if_neg ht, hsb, h0, hr1]
      · simp only [VULKAN_INTERNAL_BufferMemoryBarrier, hget1, if_true]
  · intro aspectMask baseLayer layerCount baseLevel levelCount discardContents image prev
    by_cases ht : prev = t
    · refine ⟨renderer, ?_, ?_⟩
      · subst ht
        simp only [VULKAN_INTERNAL_ImageMemoryBarrier, if_true]
      · simp only [VULKAN_INTERNAL_ImageMemoryBarrier, if_true]
    · obtain ⟨r0, h0⟩ := RECORD_CMD_defined renderer driver
        (imageBarrierCall prev t aspectMask baseLayer layerCount baseLevel levelCount
          discardContents image) havail
      refine ⟨r0, ?_, ?_⟩
      · simp only [VULKAN_INTERNAL_ImageMemoryBarrier, if_neg ht, h0]
      · simp only [VULKAN_INTERNAL_ImageMemoryBarrier, if_true]

theorem barrier_twice_second_is_noop_witness :
    (sampleRenderer.currentCommandBuffer ≠ none ∨
      CommandBufferAvailable sampleRenderer okDriver) ∧
    ((∀ (buffer subBuffer : Nat) (b : VulkanBuffer) (sb : VulkanSubBuffer),
      heapGet sampleRenderer.bufferHeap buffer = some b →
      heapGet sampleRenderer.subBufferHeap subBuffer = some sb →
      ∃ r1 b1,
        VULKAN_INTERNAL_BufferMemoryBarrier sampleRenderer okDriver
          .RESOURCE_ACCESS_TRANSFER_WRITE buffer subBuffer = some r1 ∧
        heapGet r1.bufferHeap buffer = some b1 ∧
        b1.resourceAccessType = .RESOURCE_ACCESS_TRANSFER_WRITE ∧
        VULKAN_INTERNAL_BufferMemoryBarrier r1 okDriver
          .RESOURCE_ACCESS_TRANSFER_WRITE buffer subBuffer = some r1) ∧
    (∀ (aspectMask baseLayer layerCount baseLevel levelCount : Nat) (discardContents : Bool)
      (image : Nat) (resourceAccessType : VulkanResourceAccessType),
      ∃ r1,
        VULKAN_INTERNAL_ImageMemoryBarrier sampleRenderer okDriver
          .RESOURCE_ACCESS_TRANSFER_WRITE aspectMask baseLayer layerCount
          baseLevel levelCount discardContents image resourceAccessType =
            some (r1, .RESOURCE_ACCESS_TRANSFER_WRITE) ∧
        VULKAN_INTERNAL_ImageMemoryBarrier r1 okDriver
          .RESOURCE_ACCESS_TRANSFER_WRITE aspectMask baseLayer layerCount
          baseLevel levelCount discardContents image .RESOURCE_ACCESS_TRANSFER_WRITE =
            some (r1, .RESOURCE_ACCESS_TRANSFER_WRITE))) :=
  ⟨Or.inl (by decide),
    barrier_twice_second_is_noop sampleRenderer okDriver okDriver
      .RESOURCE_ACCESS_TRANSFER_WRITE (Or.inl (by decide))⟩

/-! ## C6: destroying a buffer -/
theorem heapGet_set_none {α : Type} (h : List (Option α)) (p : Nat) :
    heapGet (h.set p none) p = none := by
  by_cases hp : p < h.length
  · exact heapGet_set_eq h p none hp
  · exact heapGet_ge _ _ (by rw [List.length_set]; omega)

/-- Releasing the first live span is defined and keeps the allocator invariant for
the remaining spans. -/
theorem AllocatorInv.release_head {s : VulkanMemorySubAllocator} {x : MemorySpan}
    {rest : List MemorySpan} (h : AllocatorInv s (x :: rest)) :
    ∃ s1 A, heapGet s.allocationHeap x.allocation = some A ∧
      destroyResourceMemory s x = some s1 ∧ AllocatorInv s1 rest := by
  obtain ⟨A, hA, _⟩ := h.bounds x (List.mem_append_left _ (List.mem_cons_self _ _))
  obtain ⟨st1, e, hinv⟩ := h.free 0
  simp only [applyAllocatorCall, List.getElem?_cons_zero] at e
  cases hd : destroyResourceMemory s x with
  | none => rw [hd] at e; cases e
  | some s1 =>
    rw [hd] at e
    simp only [Option.some.injEq] at e
    subst e
    exact ⟨s1, A, hA, rfl, hinv⟩

theorem destroySubBuffers_spec :
    ∀ (ptrs : List Nat) (subs : List VulkanSubBuffer) (r : VulkanRenderer)
      (others : List MemorySpan),
      ptrs.map (heapGet r.subBufferHeap) = subs.map some →
      ptrs.Nodup →
      AllocatorInv r.memoryAllocator (subs.map subBufferSpan ++ others) →
      ∃ r1, destroySubBuffers r ptrs = some r1 ∧
        (∀ sp, sp ∈ ptrs → heapGet r1.subBufferHeap sp = none) ∧
        (∀ q, q ∉ ptrs → heapGet r1.subBufferHeap q = heapGet r.subBufferHeap q) ∧
        (∀ sb, sb ∈ subs → VulkanCall.vkDestroyBuffer sb.buffer ∈ r1.calls) ∧
        (∀ c, c ∈ r.calls → c ∈ r1.calls) ∧
        AllocatorInv r1.memoryAllocator others ∧
        r1.bufferHeap = r.bufferHeap := by
  intro ptrs
  induction ptrs with
  | nil =>
    intro subs r others hmap _ hinv
    cases subs with
    | nil =>
      exact ⟨r, rfl, fun sp h => absurd h (List.not_mem_nil _), fun _ _ => rfl,
        fun sb h => absurd h (List.not_mem_nil _), fun _ h => h, hinv, rfl⟩
    | cons sb ss => simp at hmap
  | cons sp ps ih =>
    intro subs r others hmap hnodup hinv
    cases subs with
    | nil => simp at hmap
    | cons sb ss =>
      simp only [List.map_cons, List.cons.injEq] at hmap
      obtain ⟨hsb, hrest⟩ := hmap
      rw [List.nodup_cons] at hnodup
      obtain ⟨hnotin, hnodup2⟩ := hnodup
      rw [List.map_cons, List.cons_append] at hinv
      obtain ⟨s1, A, hA, hrel, hinv1⟩ := hinv.release_head
      have hA2 : heapGet r.memoryAllocator.allocationHeap sb.allocation = some A := hA
      have hrel2 : destroyResourceMemory r.memoryAllocator
          { allocation := sb.allocation, offset := sb.offset, size := sb.size } = some s1 := hrel
      obtain ⟨r', hr'⟩ : ∃ r' : VulkanRenderer, r' =
          { r with
            memoryAllocator := s1
            calls := (if A.dedicated then r.calls ++ [VulkanCall.vkFreeMemory sb.allocation]
              else r.calls) ++ [VulkanCall.vkDestroyBuffer sb.buffer]
            subBufferHeap := r.subBufferHeap.set sp none } := ⟨_, rfl⟩
      have hstep : destroySubBuffers r (sp :: ps) = destroySubBuffers r' ps := by
        conv_lhs => unfold destroySubBuffers
        simp only [hsb, releaseResourceMemory, hA2, hrel2, hr']
      have hmap' : ps.map (heapGet r'.subBufferHeap) = ss.map some := by
        rw [← hrest]
        apply List.map_congr_left
        intro q hq
        rw [hr']
        exact heapGet_set_ne _ _ _ _ (fun e => hnotin (e ▸ hq))
      have hinv' : AllocatorInv r'.memoryAllocator (ss.map subBufferSpan ++ others) := by
        rw [hr']; exact hinv1
      obtain ⟨r1, e1, hnone, hkeep, hcalls, hold, hinvf, hbuf⟩ := ih ss r' others hmap' hnodup2 hinv'
      refine ⟨r1, by rw [hstep, e1], ?_, ?_, ?_, ?_, hinvf, ?_⟩
      · intro q hq
        rcases List.mem_cons.mp hq with hq | hq
        · subst hq
          rw [hkeep q hnotin, hr']
          exact heapGet_set_none _ _
        · exact hnone q hq
      · intro q hq
        have hq1 : q ≠ sp := fun e => hq (e ▸ List.mem_cons_self _ _)
        have hq2 : q ∉ ps := fun e => hq (List.mem_cons_of_mem _ e)
        rw [hkeep q hq2, hr']
        exact heapGet_set_ne _ _ _ _ (Ne.symm hq1)
      · intro x hx
        rcases List.mem_cons.mp hx with hx | hx
        · subst hx
          apply hold
          rw [hr']
          simp
        · exact hcalls x hx
      · intro c hc
        apply hold
        rw [hr']
        simp only [List.mem_append, List.mem_singleton]
        left
        split
        · exact List.mem_append_left _ hc
        · exact hc
      · rw [hbuf, hr']

/-- The allocator of `sampleRenderer` satisfies the invariant with its three spans. -/
theorem sample_allocatorInv : AllocatorInv sampleAllocation.1 sampleAllocation.2 := by
  obtain ⟨st1, h, hinv⟩ := AllocatorInv.run sampleAllocationCalls (initialSubAllocator, [])
    initial_allocatorInv (by decide)
  have e : sampleAllocation = st1 := by
    have : runAllocatorCalls (initialSubAllocator, []) sampleAllocationCalls =
        some sampleAllocation := by decide
    rw [this] at h
    exact Option.some.inj h
  rw [e]
  exact hinv

/-! ## What the destroy functions leave alone -/
theorem Untouched.untouched_refl (r : VulkanRenderer) : Untouched r r := ⟨rfl, rfl, rfl, rfl, rfl, rfl⟩

theorem Untouched.untouched_trans {r r1 r2 : VulkanRenderer} (h1 : Untouched r r1) (h2 : Untouched r1 r2) :
    Untouched r r2 :=
  ⟨h2.deferred.trans h1.deferred, h2.frameIndex.trans h1.frameIndex,
    h2.buffersInUse.trans h1.buffersInUse, h2.submittedBuffers.trans h1.submittedBuffers,
    h2.numActiveCommands.trans h1.numActiveCommands, h2.destroyCalls.trans h1.destroyCalls⟩

theorem SameBuffers.buffers_refl (r : VulkanRenderer) : SameBuffers r r := ⟨rfl, rfl⟩

theorem SameBuffers.buffers_trans {r r1 r2 : VulkanRenderer} (h1 : SameBuffers r r1)
    (h2 : SameBuffers r1 r2) : SameBuffers r r2 :=
  ⟨h2.bufferHeap.trans h1.bufferHeap, h2.subBufferHeap.trans h1.subBufferHeap⟩

theorem releaseResourceMemory_frame (r : VulkanRenderer) (span : MemorySpan) (r1 : VulkanRenderer)
    (h : releaseResourceMemory r span = some r1) :
    Untouched r r1 ∧ SameBuffers r r1 ∧ r1.textureHeap = r.textureHeap := by
  unfold releaseResourceMemory at h
  cases ha : heapGet r.memoryAllocator.allocationHeap span.allocation with
  | none => rw [ha] at h; cases h
  | some a =>
    rw [ha] at h
    simp only at h
    cases hd : destroyResourceMemory r.memoryAllocator span with
    | none => rw [hd] at h; cases h
    | some m =>
      rw [hd] at h
      simp only [Option.some.injEq] at h
      subst h
      exact ⟨⟨rfl, rfl, rfl, rfl, rfl, rfl⟩, ⟨rfl, rfl⟩, rfl⟩

theorem DestroyTexture_frame (r : VulkanRenderer) (texture : Nat) (r1 : VulkanRenderer)
    (h : VULKAN_INTERNAL_DestroyTexture r texture = some r1) :
    Untouched r r1 ∧ SameBuffers r r1 := by
  unfold VULKAN_INTERNAL_DestroyTexture at h
  cases ht : heapGet r.textureHeap texture with
  | none => rw [ht] at h; cases h
  | some t =>
    rw [ht] at h
    simp only at h
    cases hm : releaseResourceMemory r
        { allocation := t.allocation, offset := t.offset, size := t.memorySize } with
    | none => rw [hm] at h; cases h
    | some r0 =>
      rw [hm] at h
      simp only [Option.some.injEq] at h
      obtain ⟨hu, hs, _⟩ := releaseResourceMemory_frame r _ r0 hm
      subst h
      exact ⟨⟨hu.deferred, hu.frameIndex, hu.buffersInUse, hu.submittedBuffers,
        hu.numActiveCommands, hu.destroyCalls⟩, ⟨hs.bufferHeap, hs.subBufferHeap⟩⟩

theorem DestroyColorTarget_frame (r : VulkanRenderer) (colorTarget : Nat) (r1 : VulkanRenderer)
    (h : VULKAN_INTERNAL_DestroyColorTarget r colorTarget = some r1) :
    Untouched r r1 ∧ SameBuffers r r1 := by
  unfold VULKAN_INTERNAL_DestroyColorTarget at h
  cases ht : heapGet r.colorTargetHeap colorTarget with
  | none => rw [ht] at h; cases h
  | some t =>
    rw [ht] at h
    simp only at h
    cases hm : t.multisampleTexture with
    | none =>
      rw [hm] at h
      simp only [Option.some.injEq] at h
      subst h
      exact ⟨⟨rfl, rfl, rfl, rfl, rfl, rfl⟩, ⟨rfl, rfl⟩⟩
    | some tex =>
      rw [hm] at h
      simp only at h
      cases hd : VULKAN_INTERNAL_DestroyTexture
          { r with calls := r.calls ++ [VulkanCall.vkDestroyImageView t.view] } tex with
      | none => rw [hd] at h; cases h
      | some r0 =>
        rw [hd] at h
        simp only [Option.some.injEq] at h
        obtain ⟨hu, hs⟩ := DestroyTexture_frame _ _ r0 hd
        subst h
        exact ⟨⟨hu.deferred, hu.frameIndex, hu.buffersInUse, hu.submittedBuffers,
          hu.numActiveCommands, hu.destroyCalls⟩, ⟨hs.bufferHeap, hs.subBufferHeap⟩⟩

theorem DestroyDepthStencilTarget_frame (r : VulkanRenderer) (target : Nat) (r1 : VulkanRenderer)
    (h : VULKAN_INTERNAL_DestroyDepthStencilTarget r target = some r1) :
    Untouched r r1 ∧ SameBuffers r r1 := by
  unfold VULKAN_INTERNAL_DestroyDepthStencilTarget at h
  cases ht : heapGet r.depthStencilTargetHeap target with
  | none => rw [ht] at h; cases h
  | some t =>
    rw [ht] at h
    simp only at h
    cases hd : VULKAN_INTERNAL_DestroyTexture r t.texture with
    | none => rw [hd] at h; cases h
    | some r0 =>
      rw [hd] at h
      simp only [Option.some.injEq] at h
      obtain ⟨hu, hs⟩ := DestroyTexture_frame _ _ r0 hd
      subst h
      exact ⟨⟨hu.deferred, hu.frameIndex, hu.buffersInUse, hu.submittedBuffers,
        hu.numActiveCommands, hu.destroyCalls⟩, ⟨hs.bufferHeap, hs.subBufferHeap⟩⟩

theorem destroySubBuffers_frame :
    ∀ (l : List Nat) (r r1 : VulkanRenderer), destroySubBuffers r l = some r1 →
      Untouched r r1 := by
  intro l
  induction l with
  | nil =>
    intro r r1 h
    simp only [destroySubBuffers, Option.some.injEq] at h
    subst h
    exact Untouched.untouched_refl r
  | cons sp rest ih =>
    intro r r1 h
    unfold destroySubBuffers at h
    cases hs : heapGet r.subBufferHeap sp with
    | none => rw [hs] at h; cases h
    | some sb =>
      rw [hs] at h
      simp only at h
      cases hm : releaseResourceMemory r
          { allocation := sb.allocation, offset := sb.offset, size := sb.size } with
      | none => rw [hm] at h; cases h
      | some r0 =>
        rw [hm] at h
        simp only at h
        obtain ⟨hu, _, _⟩ := releaseResourceMemory_frame r _ r0 hm
        have h2 := ih _ r1 h
        exact ⟨h2.deferred.trans hu.deferred, h2.frameIndex.trans hu.frameIndex,
          h2.buffersInUse.trans hu.buffersInUse, h2.submittedBuffers.trans hu.submittedBuffers,
          h2.numActiveCommands.trans hu.numActiveCommands,
          h2.destroyCalls.trans hu.destroyCalls⟩

theorem DestroyBuffer_frame (r : VulkanRenderer) (buffer : Nat) (r1 : VulkanRenderer)
    (h : VULKAN_INTERNAL_DestroyBuffer r buffer = some r1) : Untouched r r1 := by
  unfold VULKAN_INTERNAL_DestroyBuffer at h
  cases hb : heapGet r.bufferHeap buffer with
  | none => rw [hb] at h; cases h
  | some b =>
    rw [hb] at h
    simp only at h
    by_cases hm : b.bound ≠ 0 ∨ b.boundSubmitted ≠ 0
    · rw [if_pos hm] at h
      simp only [Option.some.injEq] at h
      subst h
      exact Untouched.untouched_refl r
    · rw [if_neg hm] at h
      cases hd : destroySubBuffers r b.subBuffers with
      | none => rw [hd] at h; cases h
      | some r0 =>
        rw [hd] at h
        simp only [Option.some.injEq] at h
        have hu := destroySubBuffers_frame _ r r0 hd
        subst h
        exact ⟨hu.deferred, hu.frameIndex, hu.buffersInUse, hu.submittedBuffers,
          hu.numActiveCommands, hu.destroyCalls⟩

theorem DestroyGraphicsPipeline_frame (r : VulkanRenderer) (p : Nat) (r1 : VulkanRenderer)
    (h : VULKAN_INTERNAL_DestroyGraphicsPipeline r p = some r1) :
    Untouched r r1 ∧ SameBuffers r r1 := by
  unfold VULKAN_INTERNAL_DestroyGraphicsPipeline at h
  cases hp : heapGet r.graphicsPipelineHeap p with
  | none => rw [hp] at h; cases h
  | some x =>
    rw [hp] at h
    simp only [Option.some.injEq] at h
    subst h
    exact ⟨⟨rfl, rfl, rfl, rfl, rfl, rfl⟩, ⟨rfl, rfl⟩⟩

theorem DestroyShaderModule_frame (r : VulkanRenderer) (p : Nat) (r1 : VulkanRenderer)
    (h : VULKAN_INTERNAL_DestroyShaderModule r p = some r1) :
    Untouched r r1 ∧ SameBuffers r r1 := by
  simp only [VULKAN_INTERNAL_DestroyShaderModule, Option.some.injEq] at h
  subst h
  exact ⟨⟨rfl, rfl, rfl, rfl, rfl, rfl⟩, ⟨rfl, rfl⟩⟩

theorem DestroySampler_frame (r : VulkanRenderer) (p : Nat) (r1 : VulkanRenderer)
    (h : VULKAN_INTERNAL_DestroySampler r p = some r1) :
    Untouched r r1 ∧ SameBuffers r r1 := by
  simp only [VULKAN_INTERNAL_DestroySampler, Option.some.injEq] at h
  subst h
  exact ⟨⟨rfl, rfl, rfl, rfl, rfl, rfl⟩, ⟨rfl, rfl⟩⟩

theorem DestroyRenderPass_frame (r : VulkanRenderer) (p : Nat) (r1 : VulkanRenderer)
    (h : VULKAN_INTERNAL_DestroyRenderPass r p = some r1) :
    Untouched r r1 ∧ SameBuffers r r1 := by
  simp only [VULKAN_INTERNAL_DestroyRenderPass, Option.some.injEq] at h
  subst h
  exact ⟨⟨rfl, rfl, rfl, rfl, rfl, rfl⟩, ⟨rfl, rfl⟩⟩

theorem DestroyFramebuffer_frame (r : VulkanRenderer) (p : Nat) (r1 : VulkanRenderer)
    (h : VULKAN_INTERNAL_DestroyFramebuffer r p = some r1) :
    Untouched r r1 ∧ SameBuffers r r1 := by
  unfold VULKAN_INTERNAL_DestroyFramebuffer at h
  cases hp : heapGet r.framebufferHeap p with
  | none => rw [hp] at h; cases h
  | some x =>
    rw [hp] at h
    simp only [Option.some.injEq] at h
    subst h
    exact ⟨⟨rfl, rfl, rfl, rfl, rfl, rfl⟩, ⟨rfl, rfl⟩⟩

/-- One destroy loop: the untouched fields stay, and the calls are noted in
order. -/
theorem destroyEach_spec (kind : DisposeKind)
    (destroy : VulkanRenderer → Nat → Option VulkanRenderer)
    (hd : ∀ r p r1, destroy r p = some r1 → Untouched r r1) :
    ∀ (l : List Nat) (r r1 : VulkanRenderer), destroyEach kind destroy r l = some r1 →
      r1.deferred = r.deferred ∧ r1.frameIndex = r.frameIndex ∧
      r1.buffersInUse = r.buffersInUse ∧ r1.submittedBuffers = r.submittedBuffers ∧
      r1.numActiveCommands = r.numActiveCommands ∧
      r1.destroyCalls = r.destroyCalls ++ l.map (fun p => (kind, p)) := by
  intro l
  induction l with
  | nil =>
    intro r r1 h
    simp only [destroyEach, Option.some.injEq] at h
    subst h
    simp
  | cons p rest ih =>
    intro r r1 h
    unfold destroyEach at h
    cases h0 : destroy { r with destroyCalls := r.destroyCalls ++ [(kind, p)] } p with
    | none => rw [h0] at h; cases h
    | some r0 =>
      rw [h0] at h
      simp only at h
      have hu := hd _ _ _ h0
      obtain ⟨e1, e2, e3, e4, e5, e6⟩ := ih r0 r1 h
      refine ⟨e1.trans hu.deferred, e2.trans hu.frameIndex, e3.trans hu.buffersInUse,
        e4.trans hu.submittedBuffers, e5.trans hu.numActiveCommands, ?_⟩
      rw [e6, hu.destroyCalls]
      simp

/-- One destroy loop of a kind other than buffers leaves the buffers alone. -/
theorem destroyEach_sameBuffers (kind : DisposeKind)
    (destroy : VulkanRenderer → Nat → Option VulkanRenderer)
    (hd : ∀ r p r1, destroy r p = some r1 → SameBuffers r r1) :
    ∀ (l : List Nat) (r r1 : VulkanRenderer), destroyEach kind destroy r l = some r1 →
      SameBuffers r r1 := by
  intro l
  induction l with
  | nil =>
    intro r r1 h
    simp only [destroyEach, Option.some.injEq] at h
    subst h
    exact SameBuffers.buffers_refl r
  | cons p rest ih =>
    intro r r1 h
    unfold destroyEach at h
    cases h0 : destroy { r with destroyCalls := r.destroyCalls ++ [(kind, p)] } p with
    | none => rw [h0] at h; cases h
    | some r0 =>
      rw [h0] at h
      simp only at h
      have hs := hd _ _ _ h0
      have h2 := ih r0 r1 h
      exact ⟨h2.bufferHeap.trans hs.bufferHeap, h2.subBufferHeap.trans hs.subBufferHeap⟩

/-! ## The cleanup step and `Submit` -/
/-- The destroy loops: the untouched fields stay and the calls are noted. -/
theorem destroySubmittedResources_spec (r r1 : VulkanRenderer)
    (h : destroySubmittedResources r = some r1) :
    r1.deferred = r.deferred ∧ r1.frameIndex = r.frameIndex ∧
    r1.buffersInUse = r.buffersInUse ∧ r1.submittedBuffers = r.submittedBuffers ∧
    r1.numActiveCommands = r.numActiveCommands ∧
    r1.destroyCalls = r.destroyCalls ++ submittedDestroyCalls r.deferred := by
  unfold destroySubmittedResources at h
  simp only [Option.bind_eq_some] at h
  obtain ⟨a1, h1, a2, h2, a3, h3, a4, h4, a5, h5, a6, h6, a7, h7, a8, h8, h9⟩ := h
  obtain ⟨d1, f1, u1, s1, n1, c1⟩ := destroyEach_spec _ _
    (fun r p r1 h => (DestroyColorTarget_frame r p r1 h).1) _ _ _ h1
  obtain ⟨d2, f2, u2, s2, n2, c2⟩ := destroyEach_spec _ _
    (fun r p r1 h => (DestroyDepthStencilTarget_frame r p r1 h).1) _ _ _ h2
  obtain ⟨d3, f3, u3, s3, n3, c3⟩ := destroyEach_spec _ _
    (fun r p r1 h => (DestroyTexture_frame r p r1 h).1) _ _ _ h3
  obtain ⟨d4, f4, u4, s4, n4, c4⟩ := destroyEach_spec _ _
    (fun r p r1 h => DestroyBuffer_frame r p r1 h) _ _ _ h4
  obtain ⟨d5, f5, u5, s5, n5, c5⟩ := destroyEach_spec _ _
    (fun r p r1 h => (DestroyGraphicsPipeline_frame r p r1 h).1) _ _ _ h5
  obtain ⟨d6, f6, u6, s6, n6, c6⟩ := destroyEach_spec _ _
    (fun r p r1 h => (DestroyShaderModule_frame r p r1 h).1) _ _ _ h6
  obtain ⟨d7, f7, u7, s7, n7, c7⟩ := destroyEach_spec _ _
    (fun r p r1 h => (DestroySampler_frame r p r1 h).1) _ _ _ h7
  obtain ⟨d8, f8, u8, s8, n8, c8⟩ := destroyEach_spec _ _
    (fun r p r1 h => (DestroyFramebuffer_frame r p r1 h).1) _ _ _ h8
  obtain ⟨d9, f9, u9, s9, n9, c9⟩ := destroyEach_spec _ _
    (fun r p r1 h => (DestroyRenderPass_frame r p r1 h).1) _ _ _ h9
  have e2 : a2.deferred = r.deferred := d2.trans d1
  have e3 : a3.deferred = r.deferred := d3.trans e2
  have e4 : a4.deferred = r.deferred := d4.trans e3
  have e5 : a5.deferred = r.deferred := d5.trans e4
  have e6 : a6.deferred = r.deferred := d6.trans e5
  have e7 : a7.deferred = r.deferred := d7.trans e6
  have e8 : a8.deferred = r.deferred := d8.trans e7
  refine ⟨d9.trans e8, ?_, ?_, ?_, ?_, ?_⟩
  · rw [f9, f8, f7, f6, f5, f4, f3, f2, f1]
  · rw [u9, u8, u7, u6, u5, u4, u3, u2, u1]
  · rw [s9, s8, s7, s6, s5, s4, s3, s2, s1]
  · rw [n9, n8, n7, n6, n5, n4, n3, n2, n1]
  · rw [c9, c8, c7, c6, c5, c4, c3, c2, c1, e8, e7, e6, e5, e4, e3, e2, d1]
    simp only [submittedDestroyCalls, List.append_assoc]

/-- With no buffer awaiting destruction, the destroy loops leave the buffers
alone. -/
theorem destroySubmittedResources_sameBuffers (r r1 : VulkanRenderer)
    (h : destroySubmittedResources r = some r1)
    (hb : r.deferred.submittedBuffersToDestroy = []) : SameBuffers r r1 := by
  unfold destroySubmittedResources at h
  simp only [Option.bind_eq_some] at h
  obtain ⟨a1, h1, a2, h2, a3, h3, a4, h4, a5, h5, a6, h6, a7, h7, a8, h8, h9⟩ := h
  have d1 := (destroyEach_spec _ _
    (fun r p r1 h => (DestroyColorTarget_frame r p r1 h).1) _ _ _ h1).1
  have d2 := (destroyEach_spec _ _
    (fun r p r1 h => (DestroyDepthStencilTarget_frame r p r1 h).1) _ _ _ h2).1
  have d3 := (destroyEach_spec _ _
    (fun r p r1 h => (DestroyTexture_frame r p r1 h).1) _ _ _ h3).1
  have e3 : a3.deferred.submittedBuffersToDestroy = [] := by rw [d3, d2, d1, hb]
  rw [e3] at h4
  simp only [destroyEach, Option.some.injEq] at h4
  subst h4
  have b1 := destroyEach_sameBuffers _ _
    (fun r p r1 h => (DestroyColorTarget_frame r p r1 h).2) _ _ _ h1
  have b2 := destroyEach_sameBuffers _ _
    (fun r p r1 h => (DestroyDepthStencilTarget_frame r p r1 h).2) _ _ _ h2
  have b3 := destroyEach_sameBuffers _ _
    (fun r p r1 h => (DestroyTexture_frame r p r1 h).2) _ _ _ h3
  have b5 := destroyEach_sameBuffers _ _
    (fun r p r1 h => (DestroyGraphicsPipeline_frame r p r1 h).2) _ _ _ h5
  have b6 := destroyEach_sameBuffers _ _
    (fun r p r1 h => (DestroyShaderModule_frame r p r1 h).2) _ _ _ h6
  have b7 := destroyEach_sameBuffers _ _
    (fun r p r1 h => (DestroySampler_frame r p r1 h).2) _ _ _ h7
  have b8 := destroyEach_sameBuffers _ _
    (fun r p r1 h => (DestroyFramebuffer_frame r p r1 h).2) _ _ _ h8
  have b9 := destroyEach_sameBuffers _ _
    (fun r p r1 h => (DestroyRenderPass_frame r p r1 h).2) _ _ _ h9
  exact (((((((b1.buffers_trans b2).buffers_trans b3).buffers_trans b5).buffers_trans b6).buffers_trans
    b7).buffers_trans b8).buffers_trans b9)

theorem unmarkSubmittedBuffers_frame :
    ∀ (l : List Nat) (r r1 : VulkanRenderer), unmarkSubmittedBuffers r l = some r1 →
      Untouched r r1 := by
  intro l
  induction l with
  | nil =>
    intro r r1 h
    simp only [unmarkSubmittedBuffers, Option.some.injEq] at h
    subst h
    exact Untouched.untouched_refl r
  | cons p rest ih =>
    intro r r1 h
    unfold unmarkSubmittedBuffers at h
    cases hb : heapGet r.bufferHeap p with
    | none => rw [hb] at h; cases h
    | some b =>
      rw [hb] at h
      simp only at h
      cases hu : unmarkSubBuffers r.frameIndex r.subBufferHeap b.subBuffers with
      | none => rw [hu] at h; cases h
      | some heap =>
        rw [hu] at h
        simp only at h
        have h2 := ih _ r1 h
        exact ⟨h2.deferred, h2.frameIndex, h2.buffersInUse, h2.submittedBuffers,
          h2.numActiveCommands, h2.destroyCalls⟩

theorem markBuffersSubmitted_frame :
    ∀ (l : List Nat) (r r1 : VulkanRenderer), markBuffersSubmitted r l = some r1 →
      Untouched r r1 ∧ r1.subBufferHeap = r.subBufferHeap := by
  intro l
  induction l with
  | nil =>
    intro r r1 h
    simp only [markBuffersSubmitted, Option.some.injEq] at h
    subst h
    exact ⟨Untouched.untouched_refl r, rfl⟩
  | cons p rest ih =>
    intro r r1 h
    unfold markBuffersSubmitted at h
    cases hb : heapGet r.bufferHeap p with
    | none => rw [hb] at h; cases h
    | some b =>
      rw [hb] at h
      simp only at h
      have h2 := ih _ r1 h
      exact ⟨⟨h2.1.deferred, h2.1.frameIndex, h2.1.buffersInUse, h2.1.submittedBuffers,
        h2.1.numActiveCommands, h2.1.destroyCalls⟩, h2.2⟩

/-- `PostWorkCleanup`: the destroy function is called on the elements of the
submitted lists and on nothing else, then every to-destroy list moves to its
submitted list, and the frame index flips. -/
theorem PostWorkCleanup_spec (r r1 : VulkanRenderer)
    (h : VULKAN_INTERNAL_PostWorkCleanup r = some r1) :
    r1.deferred = rotateDestroyLists r.deferred ∧
    r1.destroyCalls = r.destroyCalls ++ submittedDestroyCalls r.deferred ∧
    r1.frameIndex = (r.frameIndex + 1) % 2 ∧
    r1.numActiveCommands = r.numActiveCommands ∧
    r1.submittedBuffers = r.buffersInUse ∧ r1.buffersInUse = [] := by
  unfold VULKAN_INTERNAL_PostWorkCleanup at h
  cases hd : destroySubmittedResources r with
  | none => rw [hd] at h; cases h
  | some a =>
    rw [hd] at h
    simp only at h
    obtain ⟨d1, f1, u1, s1, n1, c1⟩ := destroySubmittedResources_spec r a hd
    cases hu : unmarkSubmittedBuffers
        { a with deferred := rotateDestroyLists a.deferred, frameIndex := (a.frameIndex + 1) % 2 }
        a.submittedBuffers with
    | none => rw [hu] at h; cases h
    | some b =>
      rw [hu] at h
      simp only at h
      have hub := unmarkSubmittedBuffers_frame _ _ b hu
      cases hm : markBuffersSubmitted b b.buffersInUse with
      | none => rw [hm] at h; cases h
      | some c =>
        rw [hm] at h
        simp only [Option.some.injEq] at h
        have hmc := (markBuffersSubmitted_frame _ _ c hm).1
        subst h
        refine ⟨?_, ?_, ?_, ?_, ?_, rfl⟩
        · show c.deferred = _
          rw [hmc.deferred, hub.deferred, d1]
        · show c.destroyCalls = _
          rw [hmc.destroyCalls, hub.destroyCalls]
          exact c1
        · show c.frameIndex = _
          rw [hmc.frameIndex, hub.frameIndex, f1]
        · show c.numActiveCommands = _
          rw [hmc.numActiveCommands, hub.numActiveCommands]
          exact n1
        · show c.buffersInUse = _
          rw [hmc.buffersInUse, hub.buffersInUse]
          exact u1

theorem deactivateCacheOf_frame (r : VulkanRenderer) (cache : Option Nat) (r1 : VulkanRenderer)
    (h : deactivateCacheOf r cache = some r1) : Untouched r r1 ∧ SameBuffers r r1 := by
  cases cache with
  | none =>
    simp only [deactivateCacheOf, Option.some.injEq] at h
    subst h
    exact ⟨Untouched.untouched_refl r, SameBuffers.buffers_refl r⟩
  | some p =>
    unfold deactivateCacheOf at h
    simp only at h
    cases hc : heapGet r.samplerDescriptorSetCacheHeap p with
    | none => rw [hc] at h; cases h
    | some c =>
      rw [hc] at h
      simp only at h
      cases hd : VULKAN_INTERNAL_DeactivateUnusedDescriptorSets c with
      | none => rw [hd] at h; cases h
      | some c1 =>
        rw [hd] at h
        simp only [Option.some.injEq] at h
        subst h
        exact ⟨⟨rfl, rfl, rfl, rfl, rfl, rfl⟩, ⟨rfl, rfl⟩⟩

theorem resetDescriptorSetDataOf_frame :
    ∀ (l : List VulkanGraphicsPipelineLayout) (r r1 : VulkanRenderer),
      resetDescriptorSetDataOf r l = some r1 → Untouched r r1 ∧ SameBuffers r r1 := by
  intro l
  induction l with
  | nil =>
    intro r r1 h
    simp only [resetDescriptorSetDataOf, Option.some.injEq] at h
    subst h
    exact ⟨Untouched.untouched_refl r, SameBuffers.buffers_refl r⟩
  | cons p rest ih =>
    intro r r1 h
    unfold resetDescriptorSetDataOf at h
    cases h1 : deactivateCacheOf r p.vertexSamplerDescriptorSetCache with
    | none => rw [h1] at h; cases h
    | some a =>
      rw [h1] at h
      simp only at h
      cases h2 : deactivateCacheOf a p.fragmentSamplerDescriptorSetCache with
      | none => rw [h2] at h; cases h
      | some b =>
        rw [h2] at h
        simp only at h
        obtain ⟨ua, sa⟩ := deactivateCacheOf_frame _ _ _ h1
        obtain ⟨ub, sb⟩ := deactivateCacheOf_frame _ _ _ h2
        obtain ⟨uc, sc⟩ := ih b r1 h
        exact ⟨(ua.untouched_trans ub).untouched_trans uc, (sa.buffers_trans sb).buffers_trans sc⟩

theorem BeginCommandBuffer_untouched (r : VulkanRenderer) (driver : DriverResults)
    (r1 : VulkanRenderer) (h : VULKAN_INTERNAL_BeginCommandBuffer r driver = some r1) :
    Untouched r r1 ∧ SameBuffers r r1 := by
  obtain ⟨hf, _, hn⟩ := BeginCommandBuffer_frame r driver r1 h
  unfold CommandFrame at hf
  refine ⟨⟨?_, ?_, ?_, ?_, hn, ?_⟩, ⟨?_, ?_⟩⟩ <;> rw [hf]

/-- The rest of `Submit` after the cleanup touches none of the tracked fields. -/
theorem submitAfterCleanup_frame (r : VulkanRenderer) (driver : DriverResults) (present : Bool)
    (r1 : VulkanRenderer) (h : submitAfterCleanup r driver present = some r1) :
    Untouched r r1 ∧ SameBuffers r r1 := by
  unfold submitAfterCleanup at h
  by_cases hq : driver.vkQueueSubmit = false
  · rw [if_pos hq] at h
    simp only [Option.some.injEq] at h
    subst h
    exact ⟨⟨rfl, rfl, rfl, rfl, rfl, rfl⟩, ⟨rfl, rfl⟩⟩
  · rw [if_neg hq] at h
    split at h
    · cases h
    · rename_i a ha
      obtain ⟨u1, s1⟩ := resetDescriptorSetDataOf_frame _ _ _ ha
      obtain ⟨u2, s2⟩ := BeginCommandBuffer_untouched _ _ _ h
      exact ⟨⟨u2.deferred.trans u1.deferred, u2.frameIndex.trans u1.frameIndex,
        u2.buffersInUse.trans u1.buffersInUse, u2.submittedBuffers.trans u1.submittedBuffers,
        u2.numActiveCommands.trans u1.numActiveCommands,
        u2.destroyCalls.trans u1.destroyCalls⟩,
        ⟨s2.bufferHeap.trans s1.bufferHeap, s2.subBufferHeap.trans s1.subBufferHeap⟩⟩

/-- A `Submit` whose cleanup runs: the cleanup is applied to the renderer (after the
current command buffer is ended), and the rest keeps the tracked fields. -/
theorem Submit_runs_cleanup (r : VulkanRenderer) (driver : DriverResults) (r1 : VulkanRenderer)
    (hrun : submitRunsCleanup r driver = true) (h : VULKAN_Submit r driver = some r1) :
    ∃ r0 rc, (r0 = r ∨ r0 = VULKAN_INTERNAL_EndCommandBuffer r) ∧
      VULKAN_INTERNAL_PostWorkCleanup r0 = some rc ∧ Untouched rc r1 ∧ SameBuffers rc r1 := by
  unfold submitRunsCleanup at hrun
  simp only [Bool.and_eq_true, Bool.not_eq_true', Bool.and_eq_false_iff,
    decide_eq_false_iff_not, decide_eq_true_eq] at hrun
  obtain ⟨hc, hw⟩ := hrun
  have hc2 : ¬ (r.activeCommandBuffers.length ≤ 1 ∧ r.numActiveCommands = 0) := by
    intro ⟨a, b⟩
    rcases hc with hc | hc
    · exact hc a
    · exact hc b
  unfold VULKAN_Submit at h
  rw [if_neg hc2, if_neg (by rw [hw]; simp)] at h
  cases hp : VULKAN_INTERNAL_PostWorkCleanup
      (if r.currentCommandBuffer ≠ none then VULKAN_INTERNAL_EndCommandBuffer r else r) with
  | none => rw [hp] at h; cases h
  | some rc =>
    rw [hp] at h
    simp only at h
    obtain ⟨u, s⟩ := submitAfterCleanup_frame _ _ _ _ h
    refine ⟨_, rc, ?_, hp, u, s⟩
    by_cases hcur : r.currentCommandBuffer ≠ none
    · rw [if_pos hcur]; exact Or.inr rfl
    · rw [if_neg hcur]; exact Or.inl rfl

theorem submittedToDestroyOf_rotate (kind : DisposeKind) (d : DeferredDestroyStorage) :
    submittedToDestroyOf kind (rotateDestroyLists d) = toDestroyOf kind d ∧
    toDestroyOf kind (rotateDestroyLists d) = [] := by
  cases kind <;> exact ⟨rfl, rfl⟩

/-! ## Sub-buffer rotation -/
theorem SetBufferData_spec (r : VulkanRenderer) (driver : DriverResults)
    (buffer offsetInBytes : Nat) (data : List Nat) (b : VulkanBuffer) (r1 : VulkanRenderer)
    (hb : heapGet r.bufferHeap buffer = some b) (hbound : b.bound = 0)
    (h : VULKAN_INTERNAL_SetBufferData r driver buffer offsetInBytes data = some r1) :
    ∃ i, firstUnboundSubBuffer r.subBufferHeap b.subBuffers 0 = some i ∧
      r1.bufferHeap = r.bufferHeap.set buffer (some { b with currentSubBufferIndex := i }) ∧
      r1.subBufferHeap = r.subBufferHeap ∧ Untouched r r1 ∧
      r1.activeCommandBuffers = r.activeCommandBuffers ∧
      r1.currentCommandBuffer = r.currentCommandBuffer := by
  unfold VULKAN_INTERNAL_SetBufferData at h
  rw [hb] at h
  simp only at h
  rw [if_neg (by rw [hbound]; simp)] at h
  cases hi : firstUnboundSubBuffer r.subBufferHeap b.subBuffers 0 with
  | none => rw [hi] at h; cases h
  | some i =>
    rw [hi] at h
    simp only at h
    refine ⟨i, rfl, ?_⟩
    cases hs : (b.subBuffers[i]?).bind (heapGet r.subBufferHeap) with
    | none => rw [hs] at h; cases h
    | some sb =>
      rw [hs] at h
      simp only at h
      cases ha : heapGet r.memoryAllocator.allocationHeap sb.allocation with
      | none => rw [ha] at h; cases h
      | some a =>
        rw [ha] at h
        simp only at h
        by_cases hm : driver.vkMapMemory = false
        · rw [if_pos hm] at h
          simp only [Option.some.injEq] at h
          subst h
          exact ⟨rfl, rfl, ⟨rfl, rfl, rfl, rfl, rfl, rfl⟩, rfl, rfl⟩
        · rw [if_neg hm] at h
          by_cases hl : offsetInBytes + data.length ≤ sb.size
          · rw [if_pos hl] at h
            simp only [Option.some.injEq] at h
            subst h
            exact ⟨rfl, rfl, ⟨rfl, rfl, rfl, rfl, rfl, rfl⟩, rfl, rfl⟩
          · rw [if_neg hl] at h
            cases h

theorem int8ToUInt32_neg_one : int8ToUInt32 (-1) = 4294967295 := by decide

theorem int8ToUInt32_small (n : Nat) (h : n < 2) : int8ToUInt32 (n : Int) = n := by
  interval_cases n <;> decide

theorem uint32ToInt8_small (n : Nat) (h : n < 2) : uint32ToInt8 n = (n : Int) := by
  interval_cases n <;> decide

/-! ## One frame of the sub-buffer rotation -/

theorem unmarked_other (f : Nat) (hf : f < 2) (s : VulkanSubBuffer)
    (hs : s.bound = ((1 - f : Nat) : Int)) :
    (unmarked ((f + 1) % 2) s).bound = -1 := by
  unfold unmarked
  rw [hs, int8ToUInt32_small _ (by omega)]
  have : 1 - f = (f + 1) % 2 := by interval_cases f <;> rfl
  rw [if_pos this]

/-- C11 (amended). When the driver reports that the resource prefers or requires
dedicated memory and no existing free region fits (the sorted list is empty, or
the aligned span does not fit its first, largest region), a successful
`FindAvailableMemory` serves the request from offset 0 of a newly allocated block
that is dedicated and whose size equals the exact requirement; afterwards the
sorted free-region list, the allocation list, the free spans and the next
allocation size are the same as before. -/
theorem dedicated_request_gets_exact_block (s : VulkanMemorySubAllocator)
    (buffer image : Nat) (req : MemoryRequirements)
    (hinv : FreeRegionInvariant s)
    (hnext : s.nextAllocationSize ≤ MAX_ALLOCATION_SIZE)
    (hhandle : (buffer ≠ 0 ∧ image = 0) ∨ (buffer = 0 ∧ image ≠ 0))
    (halign : 0 < req.alignment) (hsize : req.size ≤ REQUEST_LIMIT)
    (hded : req.prefersDedicatedAllocation = true ∨ req.requiresDedicatedAllocation = true)
    (hno : ∀ p R, s.sortedFreeRegions[0]? = some p → heapGet s.regionHeap p = some R →
      R.offset + R.size + req.alignment + req.size < DEVICE_SIZE_MOD ∧
      ¬ (req.alignment * ((R.offset + req.alignment - 1) / req.alignment) + req.size ≤
        R.offset + R.size)) :
    ∃ s1 A,
      VULKAN_INTERNAL_FindAvailableMemory s buffer image (some req) true =
        some (s1, 1, some { allocation := s.allocationHeap.length, offset := 0,
                            size := req.size }) ∧
      heapGet s.allocationHeap s.allocationHeap.length = none ∧
      heapGet s1.allocationHeap s.allocationHeap.length = some A ∧
      A.size = req.size ∧ A.dedicated = true ∧
      s1.sortedFreeRegions = s.sortedFreeRegions ∧ s1.allocations = s.allocations ∧
      (freeSpans s1).Perm (freeSpans s) ∧
      s1.nextAllocationSize = s.nextAllocationSize := by
  have hidx := hinv.toIndexInv
  have hd : (req.prefersDedicatedAllocation || req.requiresDedicatedAllocation) = true := by
    rcases hded with h | h
    · rw [h]; rfl
    · rw [h]; simp
  have hlive : ∀ p, s.sortedFreeRegions[0]? = some p → ∃ R, heapGet s.regionHeap p = some R := by
    intro p hp
    obtain ⟨r, hr, _⟩ := hidx.sorted_slot 0 p hp
    exact ⟨r, hr⟩
  rw [FindAvailableMemory_nofit s buffer image req true hhandle halign hno hlive]
  obtain ⟨s3, h3, _, _, _, _, ⟨A3, hA3, hsz3, hded3⟩, _, hall, hnx, hperm, hsorted⟩ :=
    findAvailableMemoryNewBlock_ok s req req.size hidx hnext hsize (by rw [if_pos hd])
  refine ⟨s3, A3, h3, heapGet_ge _ _ (Nat.le_refl _), hA3, hsz3, by rw [hded3, hd], ?_, ?_, ?_, ?_⟩
  · exact hsorted (Nat.sub_self _)
  · rw [hall, if_pos hd]
  · have := hperm
    rw [Nat.sub_self] at this
    simpa using this
  · rw [hnx, if_pos hd]

theorem dedicated_request_gets_exact_block_witness :
    ∃ s1 A,
      VULKAN_INTERNAL_FindAvailableMemory reuseStep1 0 9
          (some { size := 4096, alignment := 64, prefersDedicatedAllocation := true,
                  requiresDedicatedAllocation := false }) true =
        some (s1, 1, some { allocation := reuseStep1.allocationHeap.length, offset := 0,
                            size := 4096 }) ∧
      heapGet reuseStep1.allocationHeap reuseStep1.allocationHeap.length = none ∧
      heapGet s1.allocationHeap reuseStep1.allocationHeap.length = some A ∧
      A.size = 4096 ∧ A.dedicated = true ∧
      s1.sortedFreeRegions = reuseStep1.sortedFreeRegions ∧
      s1.allocations = reuseStep1.allocations ∧
      (freeSpans s1).Perm (freeSpans reuseStep1) ∧
      s1.nextAllocationSize = reuseStep1.nextAllocationSize :=
  dedicated_request_gets_exact_block reuseStep1 0 9
    { size := 4096, alignment := 64, prefersDedicatedAllocation := true,
      requiresDedicatedAllocation := false }
    (IndexInv.toFreeRegionInvariant
      ⟨by intro i p hp; simp [reuseStep1] at hp,
       by intro p r hp; cases p with
          | zero => simp [reuseStep1, heapGet] at hp
          | succ n => simp [reuseStep1, heapGet] at hp,
       by intro a A j p hA hj
          have : A.freeRegions = [] := by
            cases a with
            | zero =>
              simp [reuseStep1, heapGet] at hA
              rw [← hA]
            | succ n => simp [reuseStep1, heapGet] at hA
          rw [this] at hj; simp at hj,
       by intro p r hp; cases p with
          | zero => simp [reuseStep1, heapGet] at hp
          | succ n => simp [reuseStep1, heapGet] at hp,
       by intro i j p q rp rq _ hp; simp [reuseStep1] at hp⟩)
    (by decide) (Or.inr ⟨rfl, by decide⟩) (by decide) (by decide) (Or.inl rfl)
    (by intro p R hp; simp [reuseStep1] at hp)

/-- C11, as stated, fails.  After a buffer of 1000 bytes was created on a new device,
a request for 500 bytes for which the driver prefers and requires dedicated memory
is served from the free region of the existing shared block 0 (at offset 1024):
no block is allocated, block 0 is not dedicated and is larger than the
requirement, and the sorted free-region list is not the one from before the call. -/
theorem dedicated_request_served_from_shared_block :
    VULKAN_INTERNAL_FindAvailableMemory initialSubAllocator 1 0
      (some { size := 1000, alignment := 16, prefersDedicatedAllocation := false,
              requiresDedicatedAllocation := false }) true =
      some (sharedBlockAllocator, 1, some { allocation := 0, offset := 0, size := 1000 }) ∧
    VULKAN_INTERNAL_FindAvailableMemory sharedBlockAllocator 2 0
      (some { size := 500, alignment := 256, prefersDedicatedAllocation := true,
              requiresDedicatedAllocation := true }) true =
      some (sharedBlockAfterDedicated, 1, some { allocation := 0, offset := 1024, size := 500 }) ∧
    sharedBlockAfterDedicated.allocationHeap.length = sharedBlockAllocator.allocationHeap.length ∧
    (heapGet sharedBlockAfterDedicated.allocationHeap 0).map (fun A => (A.size, A.dedicated)) =
      some (64000000, false) ∧
    sharedBlockAfterDedicated.sortedFreeRegions ≠ sharedBlockAllocator.sortedFreeRegions := by
  decide

/-! ## C12: the size of a new block and the next allocation size -/

theorem applyAllocatorCall_next {s : VulkanMemorySubAllocator} {live : List MemorySpan}
    (hinv : AllocatorInv s live) (c : AllocatorCall) (hrange : callInRange c = true) :
    ∃ st1, applyAllocatorCall (s, live) c = some st1 ∧
      (st1.1.nextAllocationSize = s.nextAllocationSize ∨
        st1.1.nextAllocationSize = min (s.nextAllocationSize * 2) MAX_ALLOCATION_SIZE) := by
  cases c with
  | free i =>
    cases hx : live[i]? with
    | none => exact ⟨(s, live), by simp only [applyAllocatorCall, hx], Or.inl rfl⟩
    | some x =>
      obtain ⟨A, hA, _⟩ := hinv.bounds x (List.mem_append_left _ (List.getElem?_mem hx))
      cases hd : A.dedicated with
      | false =>
        obtain ⟨s1, e1, _, eff⟩ :=
          NewMemoryFreeRegion_spec s x.allocation x.offset x.size A hinv.index hA
        refine ⟨(s1, live.eraseIdx i), ?_, Or.inl eff.next_eq⟩
        simp only [applyAllocatorCall, hx, destroyResourceMemory, hA, hd, e1]
        rfl
      | true =>
        refine ⟨({ s with allocationHeap := s.allocationHeap.set x.allocation none },
          live.eraseIdx i), ?_, Or.inl rfl⟩
        simp only [applyAllocatorCall, hx, destroyResourceMemory, hA, hd, if_true]
  | allocate buffer image requirements ok =>
    by_cases hhandle : (buffer ≠ 0 ∧ image = 0) ∨ (buffer = 0 ∧ image ≠ 0)
    · cases requirements with
      | none =>
        refine ⟨(s, live), ?_, Or.inl rfl⟩
        have hn1 : ¬ (buffer ≠ 0 ∧ image ≠ 0) := by
          rcases hhandle with h | h
          · exact fun hc => hc.2 h.2
          · exact fun hc => hc.1 h.1
        have hn2 : ¬ (buffer = 0 ∧ image = 0) := by
          rcases hhandle with h | h
          · exact fun hc => h.1 hc.1
          · exact fun hc => h.2 hc.2
        simp only [applyAllocatorCall, VULKAN_INTERNAL_FindAvailableMemory, if_neg hn1,
          if_neg hn2]
      | some req =>
        simp only [callInRange, requestInRange, Bool.and_eq_true, decide_eq_true_eq] at hrange
        obtain ⟨⟨halign, hal⟩, hsize⟩ := hrange
        have hbnd : ∀ p R, s.sortedFreeRegions[0]? = some p → heapGet s.regionHeap p = some R →
            R.offset + R.size + req.alignment + req.size < DEVICE_SIZE_MOD := by
          intro p R hp hR
          obtain ⟨A, hA, hle⟩ := hinv.bounds (regionSpan R)
            (List.mem_append_right _ (mem_freeSpans (List.getElem?_mem hp) hR))
          have := hinv.block_size _ A hA
          simp only [regionSpan] at hle
          unfold BLOCK_LIMIT REQUEST_LIMIT STARTING_ALLOCATION_SIZE at this
          unfold REQUEST_LIMIT at hal hsize
          unfold DEVICE_SIZE_MOD
          omega
        by_cases hfit : ∃ p R, s.sortedFreeRegions[0]? = some p ∧
            heapGet s.regionHeap p = some R ∧
            req.alignment * ((R.offset + req.alignment - 1) / req.alignment) + req.size ≤
              R.offset + R.size
        · obtain ⟨p, R, hp, hR, hfit⟩ := hfit
          obtain ⟨s1, e, _, hun, _⟩ := FindAvailableMemory_fit s buffer image req ok p R
            hinv.index hhandle hp hR halign (hbnd p R hp hR) hfit
          exact ⟨(s1, _), by simp only [applyAllocatorCall, e]; rfl, Or.inl hun.next_eq⟩
        · have e := FindAvailableMemory_nofit s buffer image req ok hhandle halign
            (fun p R hp hR => ⟨hbnd p R hp hR, fun hf => hfit ⟨p, R, hp, hR, hf⟩⟩)
            (fun p hp => hinv.index.sorted_live (List.getElem?_mem hp))
          have hcases : ∀ n : Nat,
              n = (if (req.prefersDedicatedAllocation || req.requiresDedicatedAllocation) = true
                then s.nextAllocationSize
                else if req.size > s.nextAllocationSize then s.nextAllocationSize
                else min (s.nextAllocationSize * 2) MAX_ALLOCATION_SIZE) →
              n = s.nextAllocationSize ∨
                n = min (s.nextAllocationSize * 2) MAX_ALLOCATION_SIZE := by
            intro n hn
            split at hn
            · exact Or.inl hn
            · split at hn
              · exact Or.inl hn
              · exact Or.inr hn
          cases ok with
          | true =>
            obtain ⟨s3, e3, _, _, _, _, _, _, _, hnx, _⟩ :=
              findAvailableMemoryNewBlock_ok s req _ hinv.index hinv.next_le hsize rfl
            exact ⟨(s3, _), by simp only [applyAllocatorCall, e, e3]; rfl, hcases _ hnx⟩
          | false =>
            obtain ⟨s1, anew, e1, _, _, _, _, _, _, _, _, hnx⟩ :=
              findAvailableMemoryNewBlock_fail s req hinv.index hinv.next_le hsize
            exact ⟨(s1, live), by simp only [applyAllocatorCall, e, e1], hcases _ hnx⟩
    · refine ⟨(s, live), ?_, Or.inl rfl⟩
      have hcase : (buffer ≠ 0 ∧ image ≠ 0) ∨ (buffer = 0 ∧ image = 0) := by
        by_cases hb : buffer = 0 <;> by_cases hi : image = 0
        · exact Or.inr ⟨hb, hi⟩
        · exact absurd (Or.inr ⟨hb, hi⟩) hhandle
        · exact absurd (Or.inl ⟨hb, hi⟩) hhandle
        · exact Or.inl ⟨hb, hi⟩
      rcases hcase with h | h
      · simp only [applyAllocatorCall, VULKAN_INTERNAL_FindAvailableMemory, if_pos h]
      · have hn : ¬ (buffer ≠ 0 ∧ image ≠ 0) := fun hc => hc.1 h.1
        simp only [applyAllocatorCall, VULKAN_INTERNAL_FindAvailableMemory, if_neg hn, if_pos h]


/-- Along every run from a state that satisfies the allocator invariant and whose
next allocation size is the starting size doubled at most twice, this stays so. -/
theorem runAllocatorCalls_next (calls : List AllocatorCall) :
    ∀ (st : VulkanMemorySubAllocator × List MemorySpan), AllocatorInv st.1 st.2 →
      (st.1.nextAllocationSize = STARTING_ALLOCATION_SIZE ∨
        st.1.nextAllocationSize = 2 * STARTING_ALLOCATION_SIZE ∨
        st.1.nextAllocationSize = MAX_ALLOCATION_SIZE) →
      (∀ c, c ∈ calls → callInRange c = true) →
      ∃ st1, runAllocatorCalls st calls = some st1 ∧ AllocatorInv st1.1 st1.2 ∧
        (st1.1.nextAllocationSize = STARTING_ALLOCATION_SIZE ∨
          st1.1.nextAllocationSize = 2 * STARTING_ALLOCATION_SIZE ∨
          st1.1.nextAllocationSize = MAX_ALLOCATION_SIZE) := by
  induction calls with
  | nil => intro st h hn _; exact ⟨st, rfl, h, hn⟩
  | cons c cs ih =>
    intro st hinv hn hr
    obtain ⟨s, live⟩ := st
    have hc := hr c (List.mem_cons_self _ _)
    obtain ⟨st1, e1, hnext⟩ := applyAllocatorCall_next hinv c hc
    have hinv1 : AllocatorInv st1.1 st1.2 := by
      cases c with
      | allocate buffer image requirements ok =>
        obtain ⟨st2, e2, h2⟩ := hinv.allocate buffer image requirements ok hc
        rw [e1] at e2
        cases e2
        exact h2
      | free i =>
        obtain ⟨st2, e2, h2⟩ := hinv.free i
        rw [e1] at e2
        cases e2
        exact h2
    have hn1 : st1.1.nextAllocationSize = STARTING_ALLOCATION_SIZE ∨
        st1.1.nextAllocationSize = 2 * STARTING_ALLOCATION_SIZE ∨
        st1.1.nextAllocationSize = MAX_ALLOCATION_SIZE := by
      simp only at hn hnext
      unfold STARTING_ALLOCATION_SIZE MAX_ALLOCATION_SIZE at hn ⊢
      unfold MAX_ALLOCATION_SIZE at hnext
      rcases hnext with h | h
      · rw [h]; exact hn
      · rw [h]
        rcases hn with h0 | h0 | h0 <;> rw [h0] <;> decide
    obtain ⟨st2, e2, h2, hn2⟩ := ih st1 hinv1 hn1 (fun c hc => hr c (List.mem_cons_of_mem _ hc))
    exact ⟨st2, by simp only [runAllocatorCalls, e1, e2], h2, hn2⟩

/-- C12. In every state that a sequence of allocations and frees on one memory type
reaches from the sub-allocator of a new device: `nextAllocationSize`, which
starts at `STARTING_ALLOCATION_SIZE` = 64,000,000, is that size doubled at most
twice, so it does not exceed the cap 256,000,000; every further call leaves it as
it is or doubles it; and when no existing region fits a request that is not
dedicated, the new block has the size `max nextAllocationSize r`, where `r` is
the requirement rounded up to a multiple of 64,000,000. -/
theorem new_block_size_and_next_size (calls : List AllocatorCall)
    (hrange : ∀ c, c ∈ calls → callInRange c = true) :
    initialSubAllocator.nextAllocationSize = 64000000 ∧
    ∃ s live, runAllocatorCalls (initialSubAllocator, []) calls = some (s, live) ∧
      (s.nextAllocationSize = 64000000 ∨ s.nextAllocationSize = 128000000 ∨
        s.nextAllocationSize = 256000000) ∧
      (∀ c, callInRange c = true →
        ∃ st1, applyAllocatorCall (s, live) c = some st1 ∧
          (st1.1.nextAllocationSize = s.nextAllocationSize ∨
            st1.1.nextAllocationSize = 2 * s.nextAllocationSize) ∧
          st1.1.nextAllocationSize ≤ 256000000) ∧
      (∀ (buffer image : Nat) (req : MemoryRequirements),
        (buffer ≠ 0 ∧ image = 0) ∨ (buffer = 0 ∧ image ≠ 0) →
        requestInRange req = true →
        req.prefersDedicatedAllocation = false → req.requiresDedicatedAllocation = false →
        (∀ p R, s.sortedFreeRegions[0]? = some p → heapGet s.regionHeap p = some R →
          ¬ (req.alignment * ((R.offset + req.alignment - 1) / req.alignment) + req.size ≤
            R.offset + R.size)) →
        ∃ s1 A,
          VULKAN_INTERNAL_FindAvailableMemory s buffer image (some req) true =
            some (s1, 1, some { allocation := s.allocationHeap.length, offset := 0,
                                size := req.size }) ∧
          heapGet s.allocationHeap s.allocationHeap.length = none ∧
          heapGet s1.allocationHeap s.allocationHeap.length = some A ∧
          A.dedicated = false ∧
          A.size = max s.nextAllocationSize (64000000 * ((req.size + 64000000 - 1) / 64000000))) := by
  refine ⟨rfl, ?_⟩
  obtain ⟨⟨s, live⟩, hrun, hinv, hn⟩ := runAllocatorCalls_next calls (initialSubAllocator, [])
    initial_allocatorInv (Or.inl rfl) hrange
  simp only at hinv hn
  unfold STARTING_ALLOCATION_SIZE MAX_ALLOCATION_SIZE at hn
  refine ⟨s, live, hrun, hn, ?_, ?_⟩
  · intro c hc
    obtain ⟨st1, e1, hnext⟩ := applyAllocatorCall_next hinv c hc
    refine ⟨st1, e1, ?_⟩
    unfold MAX_ALLOCATION_SIZE at hnext
    rcases hn with h0 | h0 | h0 <;> rcases hnext with h | h <;> rw [h, h0] <;> decide
  · intro buffer image req hhandle hreq hp hr hno
    simp only [requestInRange, Bool.and_eq_true, decide_eq_true_eq] at hreq
    obtain ⟨⟨halign, hal⟩, hsize⟩ := hreq
    have hbnd : ∀ p R, s.sortedFreeRegions[0]? = some p → heapGet s.regionHeap p = some R →
        R.offset + R.size + req.alignment + req.size < DEVICE_SIZE_MOD := by
      intro p R hp hR
      obtain ⟨A, hA, hle⟩ := hinv.bounds (regionSpan R)
        (List.mem_append_right _ (mem_freeSpans (List.getElem?_mem hp) hR))
      have := hinv.block_size _ A hA
      simp only [regionSpan] at hle
      unfold BLOCK_LIMIT REQUEST_LIMIT STARTING_ALLOCATION_SIZE at this
      unfold REQUEST_LIMIT at hal hsize
      unfold DEVICE_SIZE_MOD
      omega
    rw [FindAvailableMemory_nofit s buffer image req true hhandle halign
      (fun p R hp hR => ⟨hbnd p R hp hR, hno p R hp hR⟩)
      (fun p hp => hinv.index.sorted_live (List.getElem?_mem hp))]
    have hd : ¬ (req.prefersDedicatedAllocation || req.requiresDedicatedAllocation) = true := by
      rw [hp, hr]; decide
    obtain ⟨s3, h3, _, _, _, _, ⟨A3, hA3, hsz3, hded3⟩, _⟩ :=
      findAvailableMemoryNewBlock_ok s req _ hinv.index hinv.next_le hsize rfl
    refine ⟨s3, A3, h3, heapGet_ge _ _ (Nat.le_refl _), hA3, ?_, ?_⟩
    · rw [hded3, hp, hr]; rfl
    · rw [hsz3, if_neg hd]
      unfold STARTING_ALLOCATION_SIZE
      by_cases hgt : req.size > s.nextAllocationSize
      · rw [if_pos hgt]
        have := roundUp_ge req.size 64000000 (by decide)
        exact (Nat.max_eq_right (by omega)).symm
      · rw [if_neg hgt]
        refine (Nat.max_eq_left ?_).symm
        rcases hn with h0 | h0 | h0 <;> rw [h0] at hgt ⊢ <;> omega

theorem new_block_size_and_next_size_witness :
    (∀ c, c ∈ sampleCalls → callInRange c = true) ∧
    ∃ s live, runAllocatorCalls (initialSubAllocator, []) sampleCalls = some (s, live) ∧
      (s.nextAllocationSize = 64000000 ∨ s.nextAllocationSize = 128000000 ∨
        s.nextAllocationSize = 256000000) :=
  ⟨by decide,
    match (new_block_size_and_next_size sampleCalls (by decide)).2 with
    | ⟨s, live, h, hn, _⟩ => ⟨s, live, h, hn⟩⟩

/-! ## C13: a failed allocation -/

/-- C13. Evaluation at the failing input: on the sub-allocator of a new device a
buffer asks for 1000 bytes, not dedicated, and `vkAllocateMemory` fails.
`FindAvailableMemory` returns the out-of-memory code 2, but the state is not the
one from before the call: the allocation list holds the block that could not be
allocated, and `nextAllocationSize` was doubled. -/
theorem failed_allocation_stays_registered :
    VULKAN_INTERNAL_FindAvailableMemory initialSubAllocator 1 0
      (some { size := 1000, alignment := 16, prefersDedicatedAllocation := false,
              requiresDedicatedAllocation := false }) false =
      some ({ nextAllocationSize := 128000000, allocations := [0], sortedFreeRegions := [],
              sortedFreeRegionCapacity := 4,
              allocationHeap := [some { size := 64000000, freeRegions := [],
                                        freeRegionCapacity := 1, dedicated := false }],
              regionHeap := [] }, 2, none) ∧
    initialSubAllocator.allocations = [] ∧
    initialSubAllocator.nextAllocationSize = 64000000 := by
  decide

/-! ## C14: what the creation functions return after a failure -/

set_option maxRecDepth 100000 in
/-- C14. On `sampleRenderer`, with a driver that runs out of device memory:
`VULKAN_INTERNAL_CreateBuffer` reports the code 2 and `VULKAN_CreateVertexBuffer`
and `VULKAN_CreateIndexBuffer` return the buffer pointer (not `NULL`), while on a
hard failure (code 0) they return `NULL`; `VULKAN_INTERNAL_CreateTexture` reports
the code 0 and `VULKAN_CreateTexture2D`, `3D` and `Cube` return the texture
pointer (not `NULL`). -/
theorem creation_functions_return_pointer_after_failure :
    (VULKAN_INTERNAL_CreateBuffer
        { sampleRenderer with bufferHeap := sampleRenderer.bufferHeap ++ [none] } okDriver
        outOfMemoryBufferAnswers 64000000 .RESOURCE_ACCESS_VERTEX_BUFFER
        VK_BUFFER_USAGE_VERTEX_BUFFER_BIT SUB_BUFFER_COUNT 1).map Prod.snd = some 2 ∧
    (VULKAN_CreateVertexBuffer sampleRenderer okDriver outOfMemoryBufferAnswers
        64000000).map Prod.snd = some (some 1) ∧
    (VULKAN_INTERNAL_CreateBuffer
        { sampleRenderer with bufferHeap := sampleRenderer.bufferHeap ++ [none] } okDriver
        outOfMemoryBufferAnswers 64000000 .RESOURCE_ACCESS_INDEX_BUFFER
        VK_BUFFER_USAGE_INDEX_BUFFER_BIT SUB_BUFFER_COUNT 1).map Prod.snd = some 2 ∧
    (VULKAN_CreateIndexBuffer sampleRenderer okDriver outOfMemoryBufferAnswers
        64000000).map Prod.snd = some (some 1) ∧
    (VULKAN_INTERNAL_CreateBuffer
        { sampleRenderer with bufferHeap := sampleRenderer.bufferHeap ++ [none] } okDriver
        hardFailureBufferAnswers 256 .RESOURCE_ACCESS_VERTEX_BUFFER
        VK_BUFFER_USAGE_VERTEX_BUFFER_BIT SUB_BUFFER_COUNT 1).map Prod.snd = some 0 ∧
    (VULKAN_CreateVertexBuffer sampleRenderer okDriver hardFailureBufferAnswers
        256).map Prod.snd = some none ∧
    (VULKAN_CreateIndexBuffer sampleRenderer okDriver hardFailureBufferAnswers
        256).map Prod.snd = some none ∧
    (VULKAN_INTERNAL_CreateTexture
        { sampleRenderer with textureHeap := sampleRenderer.textureHeap ++ [none] }
        outOfMemoryTextureAnswers 0 1 1).map Prod.snd = some 0 ∧
    (VULKAN_CreateTexture2D sampleRenderer outOfMemoryTextureAnswers 1).map Prod.snd =
      some (some 1) ∧
    (VULKAN_CreateTexture3D sampleRenderer outOfMemoryTextureAnswers 1).map Prod.snd =
      some (some 1) ∧
    (VULKAN_CreateTextureCube sampleRenderer outOfMemoryTextureAnswers 1).map Prod.snd =
      some (some 1) := by
  decide

/-! ## C15: destroying a resource adds one free region -/

theorem regionsAdded_nothing (s s1 : VulkanMemorySubAllocator)
    (hr : s1.regionHeap = s.regionHeap) (hs : s1.sortedFreeRegions = s.sortedFreeRegions) :
    RegionsAdded s s1 [] := by
  refine ⟨by rw [hr]; rfl, fun q _ => by rw [hr], fun k hk => absurd hk (Nat.not_lt_zero _), ?_⟩
  unfold freeSpans
  rw [hr, hs, List.append_nil]

theorem regionsAdded_append {s s1 s2 : VulkanMemorySubAllocator} {A B : List MemorySpan}
    (h1 : RegionsAdded s s1 A) (h2 : RegionsAdded s1 s2 B) : RegionsAdded s s2 (A ++ B) := by
  refine ⟨?_, ?_, ?_, ?_⟩
  · rw [h2.heap_len, h1.heap_len, List.length_append, Nat.add_assoc]
  · intro q hq
    rw [h2.old q (by rw [h1.heap_len]; omega), h1.old q hq]
  · intro k hk
    rw [List.length_append] at hk
    by_cases hkA : k < A.length
    · rw [h2.old _ (by rw [h1.heap_len]; omega), h1.new k hkA,
        List.getElem?_append_left hkA]
    · have hkB : k - A.length < B.length := by omega
      have e : s.regionHeap.length + k = s1.regionHeap.length + (k - A.length) := by
        rw [h1.heap_len]; omega
      rw [e, h2.new _ hkB, List.getElem?_append_right (by omega)]
  · refine h2.free.trans ?_
    rw [← List.append_assoc]
    exact List.Perm.append_right _ h1.free

theorem NewRegionEffect.regionsAdded {s s1 : VulkanMemorySubAllocator} {a off sz : Nat}
    (hinv : IndexInv s) (e : NewRegionEffect s s1 a off sz) :
    RegionsAdded s s1 [{ allocation := a, offset := off, size := sz }] := by
  refine ⟨e.heap_len, fun q hq => e.span_frame q (by omega), ?_, ?_⟩
  · intro k hk
    have hk0 : k = 0 := by simpa using hk
    subst hk0
    obtain ⟨r, hr, h1, h2, h3⟩ := e.new_region
    rw [Nat.add_zero, hr]
    simp only [Option.map_some', regionSpan, h1, h2, h3, List.getElem?_cons_zero]
  · refine (e.freeSpans_perm hinv).trans ?_
    exact (List.perm_append_singleton _ _).symm

/-- The memory branch of the destroy functions: a shared block gets the span back
as one new free region, a dedicated block gets none. -/
theorem destroyResourceMemory_regions (s : VulkanMemorySubAllocator) (x : MemorySpan)
    (A : VulkanMemoryAllocation) (hinv : IndexInv s)
    (hA : heapGet s.allocationHeap x.allocation = some A) :
    ∃ s1, destroyResourceMemory s x = some s1 ∧
      RegionsAdded s s1 (if A.dedicated then [] else [x]) := by
  cases hd : A.dedicated with
  | false =>
    obtain ⟨s1, e1, _, eff⟩ := NewMemoryFreeRegion_spec s x.allocation x.offset x.size A hinv hA
    refine ⟨s1, ?_, ?_⟩
    · simp only [destroyResourceMemory, hA, hd, e1]
      rfl
    · have := eff.regionsAdded hinv
      rw [span_eta] at this
      simpa using this
  | true =>
    refine ⟨{ s with allocationHeap := s.allocationHeap.set x.allocation none }, ?_, ?_⟩
    · simp only [destroyResourceMemory, hA, hd, if_true]
    · exact regionsAdded_nothing s
        { s with allocationHeap := s.allocationHeap.set x.allocation none } rfl rfl


theorem blockDedicated_of_live {s : VulkanMemorySubAllocator} {a : Nat}
    {A : VulkanMemoryAllocation} (hA : heapGet s.allocationHeap a = some A) :
    blockDedicated s a = A.dedicated := by
  simp only [blockDedicated, hA]

/-- Releasing the first live span leaves the dedicated flags of the blocks of the
other live spans as they are. -/
theorem AllocatorInv.release_flags {s s1 : VulkanMemorySubAllocator} {x : MemorySpan}
    {rest : List MemorySpan} (h : AllocatorInv s (x :: rest))
    (hrel : destroyResourceMemory s x = some s1) :
    ∀ y, y ∈ rest → blockDedicated s1 y.allocation = blockDedicated s y.allocation := by
  obtain ⟨A, hA, _⟩ := h.bounds x (List.mem_append_left _ (List.mem_cons_self _ _))
  intro y hy
  cases hd : A.dedicated with
  | false =>
    obtain ⟨s1', e1, _, eff⟩ :=
      NewMemoryFreeRegion_spec s x.allocation x.offset x.size A h.index hA
    simp only [destroyResourceMemory, hA, hd, e1, Option.map_some', Bool.false_eq_true,
      if_false, Option.some.injEq] at hrel
    have hsame := eff.allocations_unchanged.same y.allocation
    rw [← hrel]
    simp only [blockDedicated]
    cases h1 : heapGet s1'.allocationHeap y.allocation <;>
      cases h0 : heapGet s.allocationHeap y.allocation <;>
      rw [h1, h0] at hsame <;> simp at hsame ⊢
    exact hsame.2
  | true =>
    simp only [destroyResourceMemory, hA, hd, if_true, Option.some.injEq] at hrel
    have hne : y.allocation ≠ x.allocation := by
      intro e
      have hp := h.live_shared
      rw [List.pairwise_cons] at hp
      have := hp.1 y hy e.symm A hA
      rw [hd] at this
      cases this
    rw [← hrel]
    simp only [blockDedicated]
    rw [heapGet_set_ne _ _ _ _ (Ne.symm hne)]

/-- The loop of `DestroyBuffer`: one new free region for each sub-buffer in a shared
block, covering the span of the sub-buffer, and nothing else. -/
theorem destroySubBuffers_regions :
    ∀ (ptrs : List Nat) (subs : List VulkanSubBuffer) (r : VulkanRenderer)
      (others : List MemorySpan),
      ptrs.map (heapGet r.subBufferHeap) = subs.map some →
      ptrs.Nodup →
      AllocatorInv r.memoryAllocator (subs.map subBufferSpan ++ others) →
      ∃ r1, destroySubBuffers r ptrs = some r1 ∧
        RegionsAdded r.memoryAllocator r1.memoryAllocator
          ((subs.filter (fun sb => !blockDedicated r.memoryAllocator sb.allocation)).map
            subBufferSpan) := by
  intro ptrs
  induction ptrs with
  | nil =>
    intro subs r others hmap _ _
    cases subs with
    | nil => exact ⟨r, rfl, regionsAdded_nothing _ _ rfl rfl⟩
    | cons sb ss => simp at hmap
  | cons sp ps ih =>
    intro subs r others hmap hnodup hinv
    cases subs with
    | nil => simp at hmap
    | cons sb ss =>
      simp only [List.map_cons, List.cons.injEq] at hmap
      obtain ⟨hsb, hrest⟩ := hmap
      rw [List.nodup_cons] at hnodup
      obtain ⟨hnotin, hnodup2⟩ := hnodup
      rw [List.map_cons, List.cons_append] at hinv
      obtain ⟨s1, A, hA, hrel, hinv1⟩ := hinv.release_head
      have hflags := hinv.release_flags hrel
      obtain ⟨s1', hrel', hadd⟩ := destroyResourceMemory_regions r.memoryAllocator
        (subBufferSpan sb) A hinv.index hA
      rw [hrel] at hrel'
      simp only [Option.some.injEq] at hrel'
      subst hrel'
      have hA2 : heapGet r.memoryAllocator.allocationHeap sb.allocation = some A := hA
      have hrel2 : destroyResourceMemory r.memoryAllocator
          { allocation := sb.allocation, offset := sb.offset, size := sb.size } = some s1 := hrel
      obtain ⟨r', hr'⟩ : ∃ r' : VulkanRenderer, r' =
          { r with
            memoryAllocator := s1
            calls := (if A.dedicated then r.calls ++ [VulkanCall.vkFreeMemory sb.allocation]
              else r.calls) ++ [VulkanCall.vkDestroyBuffer sb.buffer]
            subBufferHeap := r.subBufferHeap.set sp none } := ⟨_, rfl⟩
      have hstep : destroySubBuffers r (sp :: ps) = destroySubBuffers r' ps := by
        conv_lhs => unfold destroySubBuffers
        simp only [hsb, releaseResourceMemory, hA2, hrel2, hr']
      have hmap' : ps.map (heapGet r'.subBufferHeap) = ss.map some := by
        rw [← hrest]
        apply List.map_congr_left
        intro q hq
        rw [hr']
        exact heapGet_set_ne _ _ _ _ (fun e => hnotin (e ▸ hq))
      have hinv' : AllocatorInv r'.memoryAllocator (ss.map subBufferSpan ++ others) := by
        rw [hr']; exact hinv1
      obtain ⟨r1, e1, hadd1⟩ := ih ss r' others hmap' hnodup2 hinv'
      refine ⟨r1, by rw [hstep, e1], ?_⟩
      have hr'a : r'.memoryAllocator = s1 := by rw [hr']
      rw [hr'a] at hadd1
      have hfilter : ss.filter (fun sb => !blockDedicated s1 sb.allocation) =
          ss.filter (fun sb => !blockDedicated r.memoryAllocator sb.allocation) := by
        apply List.filter_congr
        intro y hy
        have := hflags (subBufferSpan y)
          (List.mem_append_left _ (List.mem_map_of_mem _ hy))
        simp only [subBufferSpan] at this
        rw [this]
      rw [hfilter] at hadd1
      have hhead : (sb :: ss).filter (fun sb => !blockDedicated r.memoryAllocator sb.allocation) =
          (if A.dedicated then [] else [sb]) ++
            ss.filter (fun sb => !blockDedicated r.memoryAllocator sb.allocation) := by
        rw [List.filter_cons, blockDedicated_of_live hA2]
        cases A.dedicated <;> simp
      rw [hhead, List.map_append]
      have hmapif : (if A.dedicated then [] else [sb]).map subBufferSpan =
          (if A.dedicated then [] else [subBufferSpan sb]) := by
        cases A.dedicated <;> simp
      rw [hmapif]
      exact regionsAdded_append hadd hadd1

/-- C15. Destroying a texture (first part) or a buffer (second part): for the
texture, and for each sub-buffer of the buffer, a memory block that is not
dedicated gets exactly one new free region that covers the (offset, size) of the
resource, and a dedicated block gets none.  Every free region that existed
before is still there with the offset and size it had: nothing is merged, also
not with an adjacent region. -/
theorem destroy_adds_one_free_region_each (renderer : VulkanRenderer) :
    (∀ (texture : Nat) (t : VulkanTexture) (A : VulkanMemoryAllocation),
      heapGet renderer.textureHeap texture = some t →
      FreeRegionInvariant renderer.memoryAllocator →
      heapGet renderer.memoryAllocator.allocationHeap t.allocation = some A →
      ∃ r1, VULKAN_INTERNAL_DestroyTexture renderer texture = some r1 ∧
        RegionsAdded renderer.memoryAllocator r1.memoryAllocator
          (if A.dedicated then []
           else [{ allocation := t.allocation, offset := t.offset, size := t.memorySize }])) ∧
    (∀ (buffer : Nat) (b : VulkanBuffer) (subs : List VulkanSubBuffer)
      (others : List MemorySpan),
      heapGet renderer.bufferHeap buffer = some b →
      b.bound = 0 → b.boundSubmitted = 0 →
      b.subBuffers.map (heapGet renderer.subBufferHeap) = subs.map some →
      b.subBuffers.Nodup →
      AllocatorInv renderer.memoryAllocator (subs.map subBufferSpan ++ others) →
      ∃ r1, VULKAN_INTERNAL_DestroyBuffer renderer buffer = some r1 ∧
        RegionsAdded renderer.memoryAllocator r1.memoryAllocator
          ((subs.filter
            (fun sb => !blockDedicated renderer.memoryAllocator sb.allocation)).map
              subBufferSpan)) := by
  constructor
  · intro texture t A ht hinv hA
    obtain ⟨s1, hrel, hadd⟩ := destroyResourceMemory_regions renderer.memoryAllocator
      { allocation := t.allocation, offset := t.offset, size := t.memorySize } A
      hinv.toIndexInv hA
    have hA2 : heapGet renderer.memoryAllocator.allocationHeap
        ({ allocation := t.allocation, offset := t.offset, size := t.memorySize } :
          MemorySpan).allocation = some A := hA
    have hm : releaseResourceMemory renderer
        { allocation := t.allocation, offset := t.offset, size := t.memorySize } =
        some { renderer with
          memoryAllocator := s1
          calls := if A.dedicated then renderer.calls ++ [.vkFreeMemory t.allocation]
            else renderer.calls } := by
      simp only [releaseResourceMemory, hA, hrel]
    refine ⟨{ renderer with
        memoryAllocator := s1
        calls := (if A.dedicated then renderer.calls ++ [.vkFreeMemory t.allocation]
            else renderer.calls) ++ [.vkDestroyImageView t.view, .vkDestroyImage t.image]
        textureHeap := renderer.textureHeap.set texture none }, ?_, hadd⟩
    simp only [VULKAN_INTERNAL_DestroyTexture, ht, hm]
  · intro buffer b subs others hb h1 h2 hmap hnodup hinv
    obtain ⟨r1, e1, hadd⟩ := destroySubBuffers_regions b.subBuffers subs renderer others hmap
      hnodup hinv
    have hnm : ¬ (b.bound ≠ 0 ∨ b.boundSubmitted ≠ 0) := by
      intro h; rcases h with h | h
      · exact h h1
      · exact h h2
    refine ⟨{ r1 with bufferHeap := r1.bufferHeap.set buffer none }, ?_, hadd⟩
    simp only [VULKAN_INTERNAL_DestroyBuffer, hb, if_neg hnm, e1]

theorem destroy_adds_one_free_region_each_witness :
    (∃ r1, VULKAN_INTERNAL_DestroyTexture sampleRenderer 0 = some r1 ∧
      RegionsAdded sampleRenderer.memoryAllocator r1.memoryAllocator
        [{ allocation := 0, offset := 512, size := 4096 }]) ∧
    (∃ r1, VULKAN_INTERNAL_DestroyBuffer sampleRenderer 0 = some r1 ∧
      RegionsAdded sampleRenderer.memoryAllocator r1.memoryAllocator
        [{ allocation := 0, offset := 0, size := 256 },
         { allocation := 0, offset := 256, size := 256 }]) :=
  ⟨(destroy_adds_one_free_region_each sampleRenderer).1 0
      { allocation := 0, offset := 512, memorySize := 4096, image := 600, view := 601,
        layerCount := 1, levelCount := 1,
        resourceAccessType := .RESOURCE_ACCESS_NONE }
      { size := 64000000, freeRegions := [3], freeRegionCapacity := 1, dedicated := false }
      (by decide) sample_allocatorInv.index.toFreeRegionInvariant (by decide),
    (destroy_adds_one_free_region_each sampleRenderer).2 0
      { size := 256, subBuffers := [0, 1], currentSubBufferIndex := 0,
        resourceAccessType := .RESOURCE_ACCESS_VERTEX_BUFFER, usage := 128,
        bound := 0, boundSubmitted := 0 }
      [{ allocation := 0, buffer := 500, offset := 0, size := 256,
         resourceAccessType := .RESOURCE_ACCESS_VERTEX_BUFFER, bound := -1 },
       { allocation := 0, buffer := 501, offset := 256, size := 256,
         resourceAccessType := .RESOURCE_ACCESS_VERTEX_BUFFER, bound := -1 }]
      [{ allocation := 0, offset := 512, size := 4096 }]
      (by decide) rfl rfl (by decide) (by decide) sample_allocatorInv⟩

/-! ## C16: the source access mask of a barrier -/

theorem srcAccessMask_read_or_write (prev : VulkanResourceAccessType) :
    (if prev.toNat > VulkanResourceAccessType.RESOURCE_ACCESS_END_OF_READ.toNat then
      0 ||| (AccessMap prev).accessMask else 0) =
    (if prev ∈ readAccessTypes then 0 else (AccessMap prev).accessMask) := by
  cases prev <;> decide

theorem bufferBarrierCall_shape (prev next : VulkanResourceAccessType) (vkBuffer size : Nat)
    (commandBuffer : Option Nat) :
    ∃ srcStages dstStages barrier,
      bufferBarrierCall prev next vkBuffer size commandBuffer =
        .vkCmdPipelineBarrier commandBuffer srcStages dstStages [barrier] [] ∧
      barrier.srcAccessMask =
        (if prev ∈ readAccessTypes then 0 else (AccessMap prev).accessMask) :=
  ⟨_, _, _, rfl, srcAccessMask_read_or_write prev⟩

theorem imageBarrierCall_shape (prev next : VulkanResourceAccessType)
    (aspectMask baseLayer layerCount baseLevel levelCount : Nat) (discardContents : Bool)
    (image : Nat) (commandBuffer : Option Nat) :
    ∃ srcStages dstStages barrier,
      imageBarrierCall prev next aspectMask baseLayer layerCount baseLevel levelCount
          discardContents image commandBuffer =
        .vkCmdPipelineBarrier commandBuffer srcStages dstStages [] [barrier] ∧
      barrier.srcAccessMask =
        (if prev ∈ readAccessTypes then 0 else (AccessMap prev).accessMask) :=
  ⟨_, _, _, rfl, srcAccessMask_read_or_write prev⟩

/-- C16. For distinct access types `prev` and `next`, the call that
`VULKAN_INTERNAL_BufferMemoryBarrier` (first part) and
`VULKAN_INTERNAL_ImageMemoryBarrier` (second part) record is one
`vkCmdPipelineBarrier` with one memory barrier, whose `srcAccessMask` is 0 when
`prev` is one of the read access types and `AccessMap[prev].accessMask` when it is
a write or read-write access type. -/
theorem barrier_src_access_mask (renderer : VulkanRenderer) (driver : DriverResults)
    (prev next : VulkanResourceAccessType) (hne : prev ≠ next)
    (havail : renderer.currentCommandBuffer ≠ none ∨ CommandBufferAvailable renderer driver) :
    (∀ (buffer subBuffer : Nat) (b : VulkanBuffer) (sb : VulkanSubBuffer),
      heapGet renderer.bufferHeap buffer = some b → b.resourceAccessType = prev →
      heapGet renderer.subBufferHeap subBuffer = some sb →
      ∃ r1 commandBuffer srcStages dstStages barrier,
        VULKAN_INTERNAL_BufferMemoryBarrier renderer driver next buffer subBuffer = some r1 ∧
        r1.calls = renderer.calls ++
          [.vkCmdPipelineBarrier commandBuffer srcStages dstStages [barrier] []] ∧
        barrier.srcAccessMask =
          (if prev ∈ readAccessTypes then 0 else (AccessMap prev).accessMask)) ∧
    (∀ (aspectMask baseLayer layerCount baseLevel levelCount : Nat) (discardContents : Bool)
      (image : Nat),
      ∃ r1 commandBuffer srcStages dstStages barrier,
        VULKAN_INTERNAL_ImageMemoryBarrier renderer driver next aspectMask baseLayer layerCount
          baseLevel levelCount discardContents image prev = some (r1, next) ∧
        r1.calls = renderer.calls ++
          [.vkCmdPipelineBarrier commandBuffer srcStages dstStages [] [barrier]] ∧
        barrier.srcAccessMask =
          (if prev ∈ readAccessTypes then 0 else (AccessMap prev).accessMask)) := by
  constructor
  · intro buffer subBuffer b sb hb hprev hsb
    subst hprev
    obtain ⟨r0, h0⟩ := RECORD_CMD_defined renderer driver
      (bufferBarrierCall b.resourceAccessType next sb.buffer b.size) havail
    obtain ⟨_, hcalls, _⟩ := RECORD_CMD_frame renderer driver _ r0 h0
    obtain ⟨src, dst, bm, hshape, hmask⟩ :=
      bufferBarrierCall_shape b.resourceAccessType next sb.buffer b.size
        r0.currentCommandBuffer
    refine ⟨{ r0 with
        bufferHeap := r0.bufferHeap.set buffer (some { b with resourceAccessType := next }) },
      r0.currentCommandBuffer, src, dst, bm, ?_, ?_, hmask⟩
    · simp only [VULKAN_INTERNAL_BufferMemoryBarrier, hb, if_neg hne, hsb, h0]
    · show r0.calls = _
      rw [hcalls, hshape]
  · intro aspectMask baseLayer layerCount baseLevel levelCount discardContents image
    obtain ⟨r0, h0⟩ := RECORD_CMD_defined renderer driver
      (imageBarrierCall prev next aspectMask baseLayer layerCount baseLevel levelCount
        discardContents image) havail
    obtain ⟨_, hcalls, _⟩ := RECORD_CMD_frame renderer driver _ r0 h0
    obtain ⟨src, dst, bm, hshape, hmask⟩ :=
      imageBarrierCall_shape prev next aspectMask baseLayer layerCount baseLevel levelCount
        discardContents image r0.currentCommandBuffer
    refine ⟨r0, r0.currentCommandBuffer, src, dst, bm, ?_, ?_, hmask⟩
    · simp only [VULKAN_INTERNAL_ImageMemoryBarrier, if_neg hne, h0]
    · rw [hcalls, hshape]

theorem barrier_src_access_mask_witness :
    (∃ r1 commandBuffer srcStages dstStages barrier,
      VULKAN_INTERNAL_BufferMemoryBarrier sampleRenderer okDriver
        .RESOURCE_ACCESS_TRANSFER_WRITE 0 1 = some r1 ∧
      r1.calls = sampleRenderer.calls ++
        [.vkCmdPipelineBarrier commandBuffer srcStages dstStages [barrier] []] ∧
      barrier.srcAccessMask = 0) ∧
    (∃ r1 commandBuffer srcStages dstStages barrier,
      VULKAN_INTERNAL_ImageMemoryBarrier sampleRenderer okDriver
        .RESOURCE_ACCESS_TRANSFER_WRITE 1 0 1 0 1 false 600 .RESOURCE_ACCESS_VERTEX_BUFFER =
          some (r1, .RESOURCE_ACCESS_TRANSFER_WRITE) ∧
      r1.calls = sampleRenderer.calls ++
        [.vkCmdPipelineBarrier commandBuffer srcStages dstStages [] [barrier]] ∧
      barrier.srcAccessMask = 0) :=
  ⟨(barrier_src_access_mask sampleRenderer okDriver .RESOURCE_ACCESS_VERTEX_BUFFER
      .RESOURCE_ACCESS_TRANSFER_WRITE (by decide) (Or.inl (by decide))).1 0 1
      { size := 256, subBuffers := [0, 1], currentSubBufferIndex := 0,
        resourceAccessType := .RESOURCE_ACCESS_VERTEX_BUFFER, usage := 128,
        bound := 0, boundSubmitted := 0 }
      { allocation := 0, buffer := 501, offset := 256, size := 256,
        resourceAccessType := .RESOURCE_ACCESS_VERTEX_BUFFER, bound := -1 }
      (by decide) rfl (by decide),
    (barrier_src_access_mask sampleRenderer okDriver .RESOURCE_ACCESS_VERTEX_BUFFER
      .RESOURCE_ACCESS_TRANSFER_WRITE (by decide) (Or.inl (by decide))).2 1 0 1 0 1 false 600⟩

/-! ## C17: which access type a buffer barrier tracks -/

/-- What `VULKAN_INTERNAL_BufferMemoryBarrier (next, buffer, subBuffer)` does on
every input: it decides whether a barrier is needed from the access type stored in
the buffer, not from the one stored in the sub-buffer.  When the buffer's type is
`next` the call changes nothing; otherwise it records one barrier, for the
`VkBuffer` of the given sub-buffer, and stores `next` as the access type of the
buffer.  The sub-buffers, with their own stored access types, are left as they
are. -/
theorem buffer_barrier_uses_buffer_access_type (renderer : VulkanRenderer)
    (driver : DriverResults) (next : VulkanResourceAccessType) (buffer subBuffer : Nat)
    (b : VulkanBuffer) (hb : heapGet renderer.bufferHeap buffer = some b) :
    (b.resourceAccessType = next →
      VULKAN_INTERNAL_BufferMemoryBarrier renderer driver next buffer subBuffer =
        some renderer) ∧
    (b.resourceAccessType ≠ next →
      ∀ sb, heapGet renderer.subBufferHeap subBuffer = some sb →
      (renderer.currentCommandBuffer ≠ none ∨ CommandBufferAvailable renderer driver) →
      ∃ r1,
        VULKAN_INTERNAL_BufferMemoryBarrier renderer driver next buffer subBuffer = some r1 ∧
        r1.calls = renderer.calls ++
          [bufferBarrierCall b.resourceAccessType next sb.buffer b.size
            r1.currentCommandBuffer] ∧
        heapGet r1.bufferHeap buffer = some { b with resourceAccessType := next } ∧
        r1.subBufferHeap = renderer.subBufferHeap) := by
  constructor
  · intro ht
    simp only [VULKAN_INTERNAL_BufferMemoryBarrier, hb, ht, if_true]
  · intro hne sb hsb havail
    obtain ⟨r0, h0⟩ := RECORD_CMD_defined renderer driver
      (bufferBarrierCall b.resourceAccessType next sb.buffer b.size) havail
    obtain ⟨hcf, hcalls, _⟩ := RECORD_CMD_frame renderer driver _ r0 h0
    have hheap := hcf.bufferHeap
    have hsub : r0.subBufferHeap = renderer.subBufferHeap := by
      unfold CommandFrame at hcf
      rw [hcf]
    refine ⟨{ r0 with
        bufferHeap := r0.bufferHeap.set buffer (some { b with resourceAccessType := next }) },
      ?_, hcalls, ?_, hsub⟩
    · simp only [VULKAN_INTERNAL_BufferMemoryBarrier, hb, if_neg hne, hsb, h0]
    · exact heapGet_set_eq _ _ _ (by rw [hheap]; exact heapGet_lt hb)

theorem buffer_barrier_uses_buffer_access_type_witness :
    ∃ r1,
      VULKAN_INTERNAL_BufferMemoryBarrier sampleRenderer okDriver
        .RESOURCE_ACCESS_TRANSFER_WRITE 0 1 = some r1 ∧
      r1.calls = sampleRenderer.calls ++
        [bufferBarrierCall .RESOURCE_ACCESS_VERTEX_BUFFER .RESOURCE_ACCESS_TRANSFER_WRITE 501 256
          r1.currentCommandBuffer] ∧
      heapGet r1.bufferHeap 0 = some
        { size := 256, subBuffers := [0, 1], currentSubBufferIndex := 0,
          resourceAccessType := .RESOURCE_ACCESS_TRANSFER_WRITE, usage := 128,
          bound := 0, boundSubmitted := 0 } ∧
      r1.subBufferHeap = sampleRenderer.subBufferHeap :=
  (buffer_barrier_uses_buffer_access_type sampleRenderer okDriver
    .RESOURCE_ACCESS_TRANSFER_WRITE 0 1
    { size := 256, subBuffers := [0, 1], currentSubBufferIndex := 0,
      resourceAccessType := .RESOURCE_ACCESS_VERTEX_BUFFER, usage := 128,
      bound := 0, boundSubmitted := 0 } (by decide)).2 (by decide)
    { allocation := 0, buffer := 501, offset := 256, size := 256,
      resourceAccessType := .RESOURCE_ACCESS_VERTEX_BUFFER, bound := -1 }
    (by decide) (Or.inl (by decide))

/-- The search loop of `SetBufferData` stops at the first sub-buffer whose marker is
-1. -/
theorem firstUnboundSubBuffer_first (heap : List (Option VulkanSubBuffer)) :
    ∀ (l : List Nat) (k i p : Nat) (sb : VulkanSubBuffer),
      l[i]? = some p → heapGet heap p = some sb → sb.bound = -1 →
      (∀ j q, j < i → l[j]? = some q → ∃ sq, heapGet heap q = some sq ∧ sq.bound ≠ -1) →
      firstUnboundSubBuffer heap l k = some (k + i) := by
  intro l
  induction l with
  | nil => intro k i p sb hp; simp at hp
  | cons x rest ih =>
    intro k i p sb hp hsb hbound hbefore
    cases i with
    | zero =>
      simp only [List.getElem?_cons_zero, Option.some.injEq] at hp
      subst hp
      simp only [firstUnboundSubBuffer, hsb, hbound, if_true, Nat.add_zero]
    | succ n =>
      obtain ⟨sq, hsq, hne⟩ := hbefore 0 x (Nat.succ_pos n) (List.getElem?_cons_zero)
      simp only [List.getElem?_cons_succ] at hp
      have := ih (k + 1) n p sb hp hsb hbound (fun j q hj hq =>
        hbefore (j + 1) q (Nat.succ_lt_succ hj) (by simpa using hq))
      simp only [firstUnboundSubBuffer, hsq, if_neg hne, this]
      congr 1
      omega

/-- C18. `VULKAN_INTERNAL_SetBufferData` on a buffer that is marked bound returns the
state it was given: nothing is copied, the current sub-buffer index and everything
else are as before.  On a buffer that is not bound, whose first sub-buffer with
marker -1 is the one at index `i`, it makes `i` the current index and copies the
data into the memory of that sub-buffer at the given offset, and changes nothing
else (the memory can be mapped and the data fits the sub-buffer). -/
theorem set_buffer_data_bound_or_first_unbound (renderer : VulkanRenderer)
    (driver : DriverResults) (buffer offsetInBytes : Nat) (data : List Nat) (b : VulkanBuffer)
    (hb : heapGet renderer.bufferHeap buffer = some b) :
    (b.bound ≠ 0 →
      VULKAN_INTERNAL_SetBufferData renderer driver buffer offsetInBytes data =
        some renderer) ∧
    (b.bound = 0 →
      ∀ (i p : Nat) (sb : VulkanSubBuffer),
        b.subBuffers[i]? = some p → heapGet renderer.subBufferHeap p = some sb →
        sb.bound = -1 →
        (∀ j q, j < i → b.subBuffers[j]? = some q →
          ∃ sq, heapGet renderer.subBufferHeap q = some sq ∧ sq.bound ≠ -1) →
        heapGet renderer.memoryAllocator.allocationHeap sb.allocation ≠ none →
        driver.vkMapMemory = true → offsetInBytes + data.length ≤ sb.size →
        VULKAN_INTERNAL_SetBufferData renderer driver buffer offsetInBytes data =
          some { renderer with
            bufferHeap := renderer.bufferHeap.set buffer
              (some { b with currentSubBufferIndex := i })
            calls := renderer.calls ++
              [.memcpyMapped sb.allocation sb.offset offsetInBytes data] }) := by
  constructor
  · intro hbound
    simp only [VULKAN_INTERNAL_SetBufferData, hb, if_pos hbound]
  · intro hbound i p sb hp hsb hfree hbefore hmem hmap hfit
    have hfirst := firstUnboundSubBuffer_first renderer.subBufferHeap b.subBuffers 0 i p sb
      hp hsb hfree hbefore
    rw [Nat.zero_add] at hfirst
    unfold VULKAN_INTERNAL_SetBufferData
    rw [hb]
    simp only
    rw [if_neg (by rw [hbound]; simp), hfirst]
    simp only [hp, Option.some_bind, hsb]
    cases ha : heapGet renderer.memoryAllocator.allocationHeap sb.allocation with
    | none => exact absurd ha hmem
    | some a =>
      simp only
      rw [if_neg (by rw [hmap]; simp), if_pos hfit]

set_option maxRecDepth 100000 in
theorem set_buffer_data_bound_or_first_unbound_witness :
    VULKAN_INTERNAL_SetBufferData sampleBoundRenderer okDriver 0 0 [1, 2] =
      some sampleBoundRenderer ∧
    VULKAN_INTERNAL_SetBufferData sampleAfterOneFrame okDriver 0 4 [7, 8, 9] =
      some { sampleAfterOneFrame with
        bufferHeap := sampleAfterOneFrame.bufferHeap.set 0
          (some { size := 256, subBuffers := [0, 1], currentSubBufferIndex := 1,
                  resourceAccessType := .RESOURCE_ACCESS_VERTEX_BUFFER, usage := 128,
                  bound := 0, boundSubmitted := 1 })
        calls := sampleAfterOneFrame.calls ++ [.memcpyMapped 0 256 4 [7, 8, 9]] } :=
  ⟨(set_buffer_data_bound_or_first_unbound sampleBoundRenderer okDriver 0 0 [1, 2]
      { size := 256, subBuffers := [0, 1], currentSubBufferIndex := 0,
        resourceAccessType := .RESOURCE_ACCESS_VERTEX_BUFFER, usage := 128,
        bound := 1, boundSubmitted := 0 } (by decide)).1 (by decide),
    (set_buffer_data_bound_or_first_unbound sampleAfterOneFrame okDriver 0 4 [7, 8, 9]
      { size := 256, subBuffers := [0, 1], currentSubBufferIndex := 0,
        resourceAccessType := .RESOURCE_ACCESS_VERTEX_BUFFER, usage := 128,
        bound := 0, boundSubmitted := 1 } (by decide)).2 (by decide) 1 1
      { allocation := 0, buffer := 501, offset := 256, size := 256,
        resourceAccessType := .RESOURCE_ACCESS_VERTEX_BUFFER, bound := -1 }
      (by decide) (by decide) (by decide)
      (by
        intro j q hj hq
        have hj0 : j = 0 := by omega
        subst hj0
        simp only [List.getElem?_cons_zero, Option.some.injEq] at hq
        subst hq
        exact ⟨{ allocation := 0, buffer := 500, offset := 0, size := 256,
                 resourceAccessType := .RESOURCE_ACCESS_VERTEX_BUFFER, bound := 0 },
          by decide, by decide⟩)
      (by decide) (by decide) (by decide)⟩

/-! ## C19: the bound markers clear after two cleanups -/

theorem mem_subBuffersOf (heap : List (Option VulkanBuffer)) (p : Nat) :
    ∀ l : List Nat, p ∈ subBuffersOf heap l ↔
      ∃ q b, q ∈ l ∧ heapGet heap q = some b ∧ p ∈ b.subBuffers := by
  intro l
  induction l with
  | nil => simp [subBuffersOf]
  | cons q rest ih =>
    simp only [subBuffersOf, List.mem_append, ih, List.mem_cons]
    constructor
    · rintro (h | ⟨q1, b, hq, hb, hp⟩)
      · cases hq : heapGet heap q with
        | none => rw [hq] at h; simp at h
        | some b =>
          rw [hq] at h
          exact ⟨q, b, Or.inl rfl, hq, h⟩
      · exact ⟨q1, b, Or.inr hq, hb, hp⟩
    · rintro ⟨q1, b, hq | hq, hb, hp⟩
      · subst hq
        left
        rw [hb]
        exact hp
      · exact Or.inr ⟨q1, b, hq, hb, hp⟩

/-- The sub-buffer lists do not depend on the flags of the buffers. -/
theorem subBuffersOf_congr (heap heap1 : List (Option VulkanBuffer))
    (h : ∀ q, (heapGet heap1 q).map (fun b => b.subBuffers) =
      (heapGet heap q).map (fun b => b.subBuffers)) :
    ∀ l : List Nat, subBuffersOf heap1 l = subBuffersOf heap l := by
  intro l
  induction l with
  | nil => rfl
  | cons q rest ih =>
    simp only [subBuffersOf, ih]
    congr 1
    have := h q
    cases h1 : heapGet heap1 q <;> cases h0 : heapGet heap q <;>
      rw [h1, h0] at this <;> simp at this ⊢
    exact this

theorem unmarked_idem (f : Nat) (s : VulkanSubBuffer) :
    unmarked f (unmarked f s) = unmarked f s := by
  unfold unmarked
  by_cases h : int8ToUInt32 s.bound = f
  · rw [if_pos h]
    by_cases h2 : int8ToUInt32 ({ s with bound := -1 } : VulkanSubBuffer).bound = f
    · rw [if_pos h2]
    · rw [if_neg h2]
  · rw [if_neg h, if_neg h]

theorem unmarked_bound (f : Nat) (s : VulkanSubBuffer) :
    (unmarked f s).bound = s.bound ∨ (unmarked f s).bound = -1 := by
  unfold unmarked
  by_cases h : int8ToUInt32 s.bound = f
  · rw [if_pos h]; exact Or.inr rfl
  · rw [if_neg h]; exact Or.inl rfl

/-- The inner unmark loop, exactly: the sub-buffers of the list are unmarked, the
others are as they were. -/
theorem unmarkSubBuffers_exact (f : Nat) :
    ∀ (l : List Nat) (heap heap1 : List (Option VulkanSubBuffer)),
      unmarkSubBuffers f heap l = some heap1 →
      ∀ p, (p ∈ l → heapGet heap1 p = (heapGet heap p).map (unmarked f)) ∧
        (p ∉ l → heapGet heap1 p = heapGet heap p) := by
  intro l
  induction l with
  | nil =>
    intro heap heap1 h p
    simp only [unmarkSubBuffers, Option.some.injEq] at h
    subst h
    exact ⟨fun hp => absurd hp (List.not_mem_nil _), fun _ => rfl⟩
  | cons q rest ih =>
    intro heap heap1 h p
    unfold unmarkSubBuffers at h
    cases hq : heapGet heap q with
    | none => rw [hq] at h; cases h
    | some sb =>
      rw [hq] at h
      simp only at h
      have hstep : ∀ p, heapGet (if int8ToUInt32 sb.bound = f then
          heap.set q (some { sb with bound := -1 }) else heap) p =
          if p = q then some (unmarked f sb) else heapGet heap p := by
        intro p
        by_cases hc : int8ToUInt32 sb.bound = f
        · rw [if_pos hc]
          by_cases hpq : p = q
          · subst hpq
            rw [if_pos rfl, heapGet_set_eq _ _ _ (heapGet_lt hq)]
            unfold unmarked
            rw [if_pos hc]
          · rw [if_neg hpq, heapGet_set_ne _ _ _ _ (Ne.symm hpq)]
        · rw [if_neg hc]
          by_cases hpq : p = q
          · subst hpq
            rw [if_pos rfl, hq]
            unfold unmarked
            rw [if_neg hc]
          · rw [if_neg hpq]
      obtain ⟨hin, hout⟩ := ih _ heap1 h p
      by_cases hpq : p = q
      · subst hpq
        refine ⟨fun _ => ?_, fun hn => absurd (List.mem_cons_self _ _) hn⟩
        by_cases hr : p ∈ rest
        · rw [hin hr, hstep, if_pos rfl, hq]
          simp only [Option.map_some', unmarked_idem]
        · rw [hout hr, hstep, if_pos rfl, hq]
          rfl
      · constructor
        · intro hp
          have hr : p ∈ rest := by
            rcases List.mem_cons.mp hp with h | h
            · exact absurd h hpq
            · exact h
          rw [hin hr, hstep, if_neg hpq]
        · intro hp
          have hr : p ∉ rest := fun h => hp (List.mem_cons_of_mem _ h)
          rw [hout hr, hstep, if_neg hpq]

/-- The loop over `submittedBuffers`, exactly: every buffer of the list gets
`boundSubmitted = 0`, every sub-buffer of a buffer of the list is unmarked, and
everything else in the two heaps is as it was. -/
theorem unmarkSubmittedBuffers_exact :
    ∀ (l : List Nat) (r r1 : VulkanRenderer), unmarkSubmittedBuffers r l = some r1 →
      (∀ q, (q ∈ l → heapGet r1.bufferHeap q =
          (heapGet r.bufferHeap q).map (fun b => { b with boundSubmitted := 0 })) ∧
        (q ∉ l → heapGet r1.bufferHeap q = heapGet r.bufferHeap q)) ∧
      (∀ p, (p ∈ subBuffersOf r.bufferHeap l → heapGet r1.subBufferHeap p =
          (heapGet r.subBufferHeap p).map (unmarked r.frameIndex)) ∧
        (p ∉ subBuffersOf r.bufferHeap l →
          heapGet r1.subBufferHeap p = heapGet r.subBufferHeap p)) := by
  intro l
  induction l with
  | nil =>
    intro r r1 h
    simp only [unmarkSubmittedBuffers, Option.some.injEq] at h
    subst h
    exact ⟨fun q => ⟨fun hq => absurd hq (List.not_mem_nil _), fun _ => rfl⟩,
      fun p => ⟨fun hp => absurd hp (List.not_mem_nil _), fun _ => rfl⟩⟩
  | cons q0 rest ih =>
    intro r r1 h
    unfold unmarkSubmittedBuffers at h
    cases hb : heapGet r.bufferHeap q0 with
    | none => rw [hb] at h; cases h
    | some b =>
      rw [hb] at h
      simp only at h
      cases hu : unmarkSubBuffers r.frameIndex r.subBufferHeap b.subBuffers with
      | none => rw [hu] at h; cases h
      | some heap =>
        rw [hu] at h
        simp only at h
        obtain ⟨ihb, ihs⟩ := ih _ r1 h
        have hsub := unmarkSubBuffers_exact r.frameIndex _ _ _ hu
        have hheap : ∀ q, heapGet (r.bufferHeap.set q0
            (some { b with boundSubmitted := 0 })) q =
            if q = q0 then some { b with boundSubmitted := 0 } else heapGet r.bufferHeap q := by
          intro q
          by_cases hq : q = q0
          · subst hq
            rw [if_pos rfl, heapGet_set_eq _ _ _ (heapGet_lt hb)]
          · rw [if_neg hq, heapGet_set_ne _ _ _ _ (Ne.symm hq)]
        have hsb : subBuffersOf (r.bufferHeap.set q0 (some { b with boundSubmitted := 0 })) rest =
            subBuffersOf r.bufferHeap rest := by
          apply subBuffersOf_congr
          intro q
          rw [hheap]
          by_cases hq : q = q0
          · subst hq
            rw [if_pos rfl, hb]
            rfl
          · rw [if_neg hq]
        constructor
        · intro q
          obtain ⟨hin, hout⟩ := ihb q
          simp only at hin hout
          by_cases hq : q = q0
          · subst hq
            refine ⟨fun _ => ?_, fun hn => absurd (List.mem_cons_self _ _) hn⟩
            by_cases hr : q ∈ rest
            · rw [hin hr, hheap, if_pos rfl, hb]
              rfl
            · rw [hout hr, hheap, if_pos rfl, hb]
              rfl
          · constructor
            · intro hp
              have hr : q ∈ rest := by
                rcases List.mem_cons.mp hp with h | h
                · exact absurd h hq
                · exact h
              rw [hin hr, hheap, if_neg hq]
            · intro hp
              have hr : q ∉ rest := fun h => hp (List.mem_cons_of_mem _ h)
              rw [hout hr, hheap, if_neg hq]
        · intro p
          obtain ⟨hin, hout⟩ := ihs p
          simp only at hin hout
          rw [hsb] at hin hout
          obtain ⟨sin, sout⟩ := hsub p
          have hmem : p ∈ subBuffersOf r.bufferHeap (q0 :: rest) ↔
              p ∈ b.subBuffers ∨ p ∈ subBuffersOf r.bufferHeap rest := by
            simp only [subBuffersOf, hb, List.mem_append]
          rw [hmem]
          constructor
          · intro hp
            by_cases hr : p ∈ subBuffersOf r.bufferHeap rest
            · rw [hin hr]
              by_cases hb1 : p ∈ b.subBuffers
              · rw [sin hb1]
                cases heapGet r.subBufferHeap p with
                | none => rfl
                | some s => simp only [Option.map_some', unmarked_idem]
              · rw [sout hb1]
            · rw [hout hr]
              rcases hp with hp | hp
              · exact sin hp
              · exact absurd hp hr
          · intro hp
            have h1 : p ∉ b.subBuffers := fun h => hp (Or.inl h)
            have h2 : p ∉ subBuffersOf r.bufferHeap rest := fun h => hp (Or.inr h)
            rw [hout h2, sout h1]

/-- The loop over `buffersInUse`, exactly. -/
theorem markBuffersSubmitted_exact :
    ∀ (l : List Nat) (r r1 : VulkanRenderer), markBuffersSubmitted r l = some r1 →
      ∀ q, (q ∈ l → heapGet r1.bufferHeap q =
          (heapGet r.bufferHeap q).map (fun b => { b with bound := 0, boundSubmitted := 1 })) ∧
        (q ∉ l → heapGet r1.bufferHeap q = heapGet r.bufferHeap q) := by
  intro l
  induction l with
  | nil =>
    intro r r1 h
    simp only [markBuffersSubmitted, Option.some.injEq] at h
    subst h
    exact fun q => ⟨fun hq => absurd hq (List.not_mem_nil _), fun _ => rfl⟩
  | cons q0 rest ih =>
    intro r r1 h
    unfold markBuffersSubmitted at h
    cases hb : heapGet r.bufferHeap q0 with
    | none => rw [hb] at h; cases h
    | some b =>
      rw [hb] at h
      simp only at h
      have ihb := ih _ r1 h
      have hheap : ∀ q, heapGet (r.bufferHeap.set q0
          (some { b with bound := 0, boundSubmitted := 1 })) q =
          if q = q0 then some { b with bound := 0, boundSubmitted := 1 }
          else heapGet r.bufferHeap q := by
        intro q
        by_cases hq : q = q0
        · subst hq
          rw [if_pos rfl, heapGet_set_eq _ _ _ (heapGet_lt hb)]
        · rw [if_neg hq, heapGet_set_ne _ _ _ _ (Ne.symm hq)]
      intro q
      obtain ⟨hin, hout⟩ := ihb q
      simp only at hin hout
      by_cases hq : q = q0
      · subst hq
        refine ⟨fun _ => ?_, fun hn => absurd (List.mem_cons_self _ _) hn⟩
        by_cases hr : q ∈ rest
        · rw [hin hr, hheap, if_pos rfl, hb]
          rfl
        · rw [hout hr, hheap, if_pos rfl, hb]
          rfl
      · constructor
        · intro hp
          have hr : q ∈ rest := by
            rcases List.mem_cons.mp hp with h | h
            · exact absurd h hq
            · exact h
          rw [hin hr, hheap, if_neg hq]
        · intro hp
          have hr : q ∉ rest := fun h => hp (List.mem_cons_of_mem _ h)
          rw [hout hr, hheap, if_neg hq]


theorem destroySubBuffers_others :
    ∀ (l : List Nat) (r r1 : VulkanRenderer), destroySubBuffers r l = some r1 →
      r1.bufferHeap = r.bufferHeap ∧
      ∀ p, p ∉ l → heapGet r1.subBufferHeap p = heapGet r.subBufferHeap p := by
  intro l
  induction l with
  | nil =>
    intro r r1 h
    simp only [destroySubBuffers, Option.some.injEq] at h
    subst h
    exact ⟨rfl, fun _ _ => rfl⟩
  | cons sp rest ih =>
    intro r r1 h
    unfold destroySubBuffers at h
    cases hs : heapGet r.subBufferHeap sp with
    | none => rw [hs] at h; cases h
    | some sb =>
      rw [hs] at h
      simp only at h
      cases hm : releaseResourceMemory r
          { allocation := sb.allocation, offset := sb.offset, size := sb.size } with
      | none => rw [hm] at h; cases h
      | some r0 =>
        rw [hm] at h
        simp only at h
        obtain ⟨_, hsame, _⟩ := releaseResourceMemory_frame r _ r0 hm
        obtain ⟨h2, h3⟩ := ih _ r1 h
        refine ⟨h2.trans hsame.bufferHeap, ?_⟩
        intro p hp
        have hne : p ≠ sp := fun e => hp (e ▸ List.mem_cons_self _ _)
        have hr : p ∉ rest := fun e => hp (List.mem_cons_of_mem _ e)
        rw [h3 p hr]
        show heapGet (r0.subBufferHeap.set sp none) p = _
        rw [heapGet_set_ne _ _ _ _ (Ne.symm hne), hsame.subBufferHeap]

/-- The loop that destroys the submitted buffers leaves a marked buffer and its
sub-buffers alone, when no other buffer of the list shares a sub-buffer with it. -/
theorem destroyBuffers_keep (buf : Nat) (b : VulkanBuffer)
    (hflag : b.bound ≠ 0 ∨ b.boundSubmitted ≠ 0) :
    ∀ (l : List Nat) (r r1 : VulkanRenderer),
      heapGet r.bufferHeap buf = some b →
      (∀ q, q ∈ l → q ≠ buf → ∀ bq, heapGet r.bufferHeap q = some bq →
        ∀ p, p ∈ bq.subBuffers → p ∉ b.subBuffers) →
      destroyEach .buffer VULKAN_INTERNAL_DestroyBuffer r l = some r1 →
      heapGet r1.bufferHeap buf = some b ∧
      ∀ p, p ∈ b.subBuffers → heapGet r1.subBufferHeap p = heapGet r.subBufferHeap p := by
  intro l
  induction l with
  | nil =>
    intro r r1 hb _ h
    simp only [destroyEach, Option.some.injEq] at h
    subst h
    exact ⟨hb, fun _ _ => rfl⟩
  | cons q rest ih =>
    intro r r1 hb hown h
    unfold destroyEach at h
    cases h0 : VULKAN_INTERNAL_DestroyBuffer
        { r with destroyCalls := r.destroyCalls ++ [(DisposeKind.buffer, q)] } q with
    | none => rw [h0] at h; cases h
    | some r0 =>
      rw [h0] at h
      simp only at h
      have key : heapGet r0.bufferHeap buf = some b ∧
          (∀ q1 b1, heapGet r0.bufferHeap q1 = some b1 → heapGet r.bufferHeap q1 = some b1) ∧
          ∀ p, p ∈ b.subBuffers → heapGet r0.subBufferHeap p = heapGet r.subBufferHeap p := by
        unfold VULKAN_INTERNAL_DestroyBuffer at h0
        cases hq : heapGet r.bufferHeap q with
        | none =>
          have : heapGet ({ r with destroyCalls :=
              r.destroyCalls ++ [(DisposeKind.buffer, q)] } : VulkanRenderer).bufferHeap q =
              none := hq
          rw [this] at h0
          cases h0
        | some bq =>
          have hq2 : heapGet ({ r with destroyCalls :=
              r.destroyCalls ++ [(DisposeKind.buffer, q)] } : VulkanRenderer).bufferHeap q =
              some bq := hq
          rw [hq2] at h0
          simp only at h0
          by_cases hm : bq.bound ≠ 0 ∨ bq.boundSubmitted ≠ 0
          · rw [if_pos hm] at h0
            simp only [Option.some.injEq] at h0
            subst h0
            exact ⟨hb, fun _ _ h => h, fun _ _ => rfl⟩
          · rw [if_neg hm] at h0
            have hne : q ≠ buf := by
              intro e
              subst e
              rw [hb] at hq
              cases hq
              exact hm hflag
            cases hd : destroySubBuffers
                { r with destroyCalls := r.destroyCalls ++ [(DisposeKind.buffer, q)] }
                bq.subBuffers with
            | none => rw [hd] at h0; cases h0
            | some r00 =>
              rw [hd] at h0
              simp only [Option.some.injEq] at h0
              obtain ⟨e1, e2⟩ := destroySubBuffers_others _ _ _ hd
              subst h0
              refine ⟨?_, ?_, ?_⟩
              · show heapGet (r00.bufferHeap.set q none) buf = some b
                rw [heapGet_set_ne _ _ _ _ hne, e1]
                exact hb
              · intro q1 b1 h1
                have h1 : heapGet (r00.bufferHeap.set q none) q1 = some b1 := h1
                by_cases hq1 : q1 = q
                · subst hq1
                  rw [heapGet_set_none] at h1
                  cases h1
                · rw [heapGet_set_ne _ _ _ _ (Ne.symm hq1), e1] at h1
                  exact h1
              · intro p hp
                have hnot : p ∉ bq.subBuffers := fun hin =>
                  hown q (List.mem_cons_self _ _) hne bq hq p hin hp
                exact e2 p hnot
      obtain ⟨k1, k2, k3⟩ := key
      have hown' : ∀ q1, q1 ∈ rest → q1 ≠ buf → ∀ bq, heapGet r0.bufferHeap q1 = some bq →
          ∀ p, p ∈ bq.subBuffers → p ∉ b.subBuffers := by
        intro q1 hq1 hne bq hbq
        exact hown q1 (List.mem_cons_of_mem _ hq1) hne bq (k2 q1 bq hbq)
      obtain ⟨i1, i2⟩ := ih r0 r1 k1 hown' h
      exact ⟨i1, fun p hp => (i2 p hp).trans (k3 p hp)⟩

/-- The destroy loops of the cleanup leave a marked buffer and its sub-buffers
alone, when no other buffer awaiting destruction shares a sub-buffer with it. -/
theorem destroySubmittedResources_keep (r r1 : VulkanRenderer) (buf : Nat) (b : VulkanBuffer)
    (hb : heapGet r.bufferHeap buf = some b)
    (hflag : b.bound ≠ 0 ∨ b.boundSubmitted ≠ 0)
    (hown : ∀ q, q ∈ r.deferred.submittedBuffersToDestroy → q ≠ buf →
      ∀ bq, heapGet r.bufferHeap q = some bq → ∀ p, p ∈ bq.subBuffers → p ∉ b.subBuffers)
    (h : destroySubmittedResources r = some r1) :
    heapGet r1.bufferHeap buf = some b ∧
    ∀ p, p ∈ b.subBuffers → heapGet r1.subBufferHeap p = heapGet r.subBufferHeap p := by
  unfold destroySubmittedResources at h
  simp only [Option.bind_eq_some] at h
  obtain ⟨a1, h1, a2, h2, a3, h3, a4, h4, a5, h5, a6, h6, a7, h7, a8, h8, h9⟩ := h
  have d1 := (destroyEach_spec _ _
    (fun r p r1 h => (DestroyColorTarget_frame r p r1 h).1) _ _ _ h1).1
  have d2 := (destroyEach_spec _ _
    (fun r p r1 h => (DestroyDepthStencilTarget_frame r p r1 h).1) _ _ _ h2).1
  have d3 := (destroyEach_spec _ _
    (fun r p r1 h => (DestroyTexture_frame r p r1 h).1) _ _ _ h3).1
  have e3 : a3.deferred.submittedBuffersToDestroy = r.deferred.submittedBuffersToDestroy := by
    rw [d3, d2, d1]
  have b1 := destroyEach_sameBuffers _ _
    (fun r p r1 h => (DestroyColorTarget_frame r p r1 h).2) _ _ _ h1
  have b2 := destroyEach_sameBuffers _ _
    (fun r p r1 h => (DestroyDepthStencilTarget_frame r p r1 h).2) _ _ _ h2
  have b3 := destroyEach_sameBuffers _ _
    (fun r p r1 h => (DestroyTexture_frame r p r1 h).2) _ _ _ h3
  have b5 := destroyEach_sameBuffers _ _
    (fun r p r1 h => (DestroyGraphicsPipeline_frame r p r1 h).2) _ _ _ h5
  have b6 := destroyEach_sameBuffers _ _
    (fun r p r1 h => (DestroyShaderModule_frame r p r1 h).2) _ _ _ h6
  have b7 := destroyEach_sameBuffers _ _
    (fun r p r1 h => (DestroySampler_frame r p r1 h).2) _ _ _ h7
  have b8 := destroyEach_sameBuffers _ _
    (fun r p r1 h => (DestroyFramebuffer_frame r p r1 h).2) _ _ _ h8
  have b9 := destroyEach_sameBuffers _ _
    (fun r p r1 h => (DestroyRenderPass_frame r p r1 h).2) _ _ _ h9
  have s3 := (b1.buffers_trans b2).buffers_trans b3
  have s9 := (((b5.buffers_trans b6).buffers_trans b7).buffers_trans b8).buffers_trans b9
  have hb3 : heapGet a3.bufferHeap buf = some b := by rw [s3.bufferHeap]; exact hb
  have hown3 : ∀ q, q ∈ a3.deferred.submittedBuffersToDestroy → q ≠ buf →
      ∀ bq, heapGet a3.bufferHeap q = some bq → ∀ p, p ∈ bq.subBuffers → p ∉ b.subBuffers := by
    rw [e3, s3.bufferHeap]
    exact hown
  obtain ⟨k1, k2⟩ := destroyBuffers_keep buf b hflag _ a3 a4 hb3 hown3 h4
  constructor
  · rw [s9.bufferHeap]; exact k1
  · intro p hp
    rw [s9.subBufferHeap, k2 p hp, s3.subBufferHeap]


/-- What one cleanup does to a buffer that is marked `bound` or `boundSubmitted`
when the cleanup starts. -/
theorem PostWorkCleanup_buffer (r r1 : VulkanRenderer) (buf : Nat) (b : VulkanBuffer)
    (hb : heapGet r.bufferHeap buf = some b)
    (hflag : b.bound ≠ 0 ∨ b.boundSubmitted ≠ 0)
    (hown : ∀ q, q ∈ r.deferred.submittedBuffersToDestroy → q ≠ buf →
      ∀ bq, heapGet r.bufferHeap q = some bq → ∀ p, p ∈ bq.subBuffers → p ∉ b.subBuffers)
    (h : VULKAN_INTERNAL_PostWorkCleanup r = some r1) :
    (buf ∈ r.buffersInUse → ∃ b1, heapGet r1.bufferHeap buf = some b1 ∧
      b1.subBuffers = b.subBuffers ∧ b1.bound = 0 ∧ b1.boundSubmitted = 1) ∧
    (buf ∉ r.buffersInUse → buf ∈ r.submittedBuffers → ∃ b1,
      heapGet r1.bufferHeap buf = some b1 ∧
      b1.subBuffers = b.subBuffers ∧ b1.bound = b.bound ∧ b1.boundSubmitted = 0) ∧
    (∀ p, p ∈ b.subBuffers → ∀ sb, heapGet r.subBufferHeap p = some sb →
      (buf ∈ r.submittedBuffers →
        heapGet r1.subBufferHeap p = some (unmarked ((r.frameIndex + 1) % 2) sb)) ∧
      ∃ sb1, heapGet r1.subBufferHeap p = some sb1 ∧
        (sb1.bound = sb.bound ∨ sb1.bound = -1)) := by
  unfold VULKAN_INTERNAL_PostWorkCleanup at h
  cases hd : destroySubmittedResources r with
  | none => rw [hd] at h; cases h
  | some a =>
    rw [hd] at h
    simp only at h
    obtain ⟨_, f1, u1, s1, _, _⟩ := destroySubmittedResources_spec r a hd
    obtain ⟨ka, ks⟩ := destroySubmittedResources_keep r a buf b hb hflag hown hd
    cases hu : unmarkSubmittedBuffers
        { a with deferred := rotateDestroyLists a.deferred, frameIndex := (a.frameIndex + 1) % 2 }
        a.submittedBuffers with
    | none => rw [hu] at h; cases h
    | some rb =>
      rw [hu] at h
      simp only at h
      have hub := unmarkSubmittedBuffers_frame _ _ rb hu
      obtain ⟨xb, xs⟩ := unmarkSubmittedBuffers_exact _ _ rb hu
      simp only at xb xs
      cases hm : markBuffersSubmitted rb rb.buffersInUse with
      | none => rw [hm] at h; cases h
      | some rc =>
        rw [hm] at h
        simp only [Option.some.injEq] at h
        have hms := (markBuffersSubmitted_frame _ _ rc hm).2
        have mb := markBuffersSubmitted_exact _ _ rc hm
        have hin : rb.buffersInUse = r.buffersInUse := by
          rw [hub.buffersInUse]; exact u1
        rw [hin] at mb
        rw [s1] at xb xs
        rw [f1] at xs
        subst h
        have hbb : ∃ bb, heapGet rb.bufferHeap buf = some bb ∧ bb.subBuffers = b.subBuffers ∧
            bb.bound = b.bound ∧ (buf ∈ r.submittedBuffers → bb.boundSubmitted = 0) := by
          by_cases hs : buf ∈ r.submittedBuffers
          · refine ⟨{ b with boundSubmitted := 0 }, ?_, rfl, rfl, fun _ => rfl⟩
            rw [(xb buf).1 hs, ka]
            rfl
          · refine ⟨b, ?_, rfl, rfl, fun h => absurd h hs⟩
            rw [(xb buf).2 hs, ka]
        obtain ⟨bb, hbb, hb1, hb2, hb3⟩ := hbb
        refine ⟨?_, ?_, ?_⟩
        · intro hi
          refine ⟨{ bb with bound := 0, boundSubmitted := 1 }, ?_, hb1, rfl, rfl⟩
          show heapGet rc.bufferHeap buf = _
          rw [(mb buf).1 hi, hbb]
          rfl
        · intro hi hs
          refine ⟨bb, ?_, hb1, hb2, hb3 hs⟩
          show heapGet rc.bufferHeap buf = _
          rw [(mb buf).2 hi, hbb]
        · intro p hp sb hsb
          have hsa : heapGet a.subBufferHeap p = some sb := by rw [ks p hp]; exact hsb
          constructor
          · intro hs
            have hmem : p ∈ subBuffersOf a.bufferHeap r.submittedBuffers :=
              (mem_subBuffersOf _ _ _).mpr ⟨buf, b, hs, ka, hp⟩
            show heapGet rc.subBufferHeap p = _
            rw [hms, (xs p).1 hmem, hsa]
            rfl
          · by_cases hmem : p ∈ subBuffersOf a.bufferHeap r.submittedBuffers
            · refine ⟨unmarked ((r.frameIndex + 1) % 2) sb, ?_, unmarked_bound _ _⟩
              show heapGet rc.subBufferHeap p = _
              rw [hms, (xs p).1 hmem, hsa]
              rfl
            · refine ⟨sb, ?_, Or.inl rfl⟩
              show heapGet rc.subBufferHeap p = _
              rw [hms, (xs p).2 hmem, hsa]


theorem SubBuffersOwned.apart {r : VulkanRenderer} {buf : Nat} {b : VulkanBuffer}
    (h : SubBuffersOwned r buf) (hb : heapGet r.bufferHeap buf = some b) :
    ∀ q, q ∈ r.deferred.submittedBuffersToDestroy → q ≠ buf →
      ∀ bq, heapGet r.bufferHeap q = some bq → ∀ p, p ∈ bq.subBuffers → p ∉ b.subBuffers := by
  intro q hq hne bq hbq p hp hpb
  refine h q hq hne p ?_ ?_
  · exact (mem_subBuffersOf _ _ _).mpr ⟨q, bq, List.mem_singleton.mpr rfl, hbq, hp⟩
  · exact (mem_subBuffersOf _ _ _).mpr ⟨buf, b, List.mem_singleton.mpr rfl, hb, hpb⟩

/-- The cleanup of a `Submit` that runs it, seen from a buffer that is marked when
the `Submit` is called. -/
theorem Submit_buffer (r r1 : VulkanRenderer) (driver : DriverResults) (buf : Nat)
    (b : VulkanBuffer) (hb : heapGet r.bufferHeap buf = some b)
    (hflag : b.bound ≠ 0 ∨ b.boundSubmitted ≠ 0)
    (hown : SubBuffersOwned r buf)
    (hrun : submitRunsCleanup r driver = true) (h : VULKAN_Submit r driver = some r1) :
    r1.frameIndex = (r.frameIndex + 1) % 2 ∧
    r1.submittedBuffers = r.buffersInUse ∧
    (buf ∈ r.buffersInUse → ∃ b1, heapGet r1.bufferHeap buf = some b1 ∧
      b1.subBuffers = b.subBuffers ∧ b1.bound = 0 ∧ b1.boundSubmitted = 1) ∧
    (buf ∉ r.buffersInUse → buf ∈ r.submittedBuffers → ∃ b1,
      heapGet r1.bufferHeap buf = some b1 ∧
      b1.subBuffers = b.subBuffers ∧ b1.bound = b.bound ∧ b1.boundSubmitted = 0) ∧
    (∀ p, p ∈ b.subBuffers → ∀ sb, heapGet r.subBufferHeap p = some sb →
      (buf ∈ r.submittedBuffers →
        heapGet r1.subBufferHeap p = some (unmarked ((r.frameIndex + 1) % 2) sb)) ∧
      ∃ sb1, heapGet r1.subBufferHeap p = some sb1 ∧
        (sb1.bound = sb.bound ∨ sb1.bound = -1)) := by
  obtain ⟨r0, rc, hr0, hc, hu, hs⟩ := Submit_runs_cleanup r driver r1 hrun h
  have hspec := PostWorkCleanup_spec r0 rc hc
  have key := PostWorkCleanup_buffer r0 rc buf b
    (by rcases hr0 with e | e <;> rw [e] <;> exact hb) hflag
    (by rcases hr0 with e | e <;> rw [e] <;> exact hown.apart hb) hc
  have e1 : r0.frameIndex = r.frameIndex := by
    rcases hr0 with e | e
    · rw [e]
    · rw [e]; rfl
  have e2 : r0.buffersInUse = r.buffersInUse := by
    rcases hr0 with e | e
    · rw [e]
    · rw [e]; rfl
  have e3 : r0.submittedBuffers = r.submittedBuffers := by
    rcases hr0 with e | e
    · rw [e]
    · rw [e]; rfl
  have e4 : r0.subBufferHeap = r.subBufferHeap := by
    rcases hr0 with e | e
    · rw [e]
    · rw [e]; rfl
  rw [e1, e2, e3, e4] at key
  rw [e1, e2] at hspec
  rw [hs.bufferHeap, hs.subBufferHeap, hu.frameIndex, hu.submittedBuffers]
  exact ⟨hspec.2.2.1, hspec.2.2.2.2.1, key⟩


/-- With a frame index of 0 or 1 the markers clear.  A buffer that is marked bound
in a frame (`bound` is set and the buffer is in `buffersInUse` when the frame is
submitted) and is not bound again afterwards: after the cleanup steps of the next
two `Submit`s its `bound` and `boundSubmitted` are both 0 and every sub-buffer has
the marker -1, and `VULKAN_INTERNAL_DestroyBuffer` then frees it.  The frame index
is supposed 0 or 1 and the markers tracked when the frame is submitted (each is
-1, the frame index, or the other index with the buffer in `submittedBuffers`),
and no other buffer awaiting destruction shares a sub-buffer with it. -/
theorem bound_buffer_destroyable_after_two_cleanups
    (r r1 r1' r2 : VulkanRenderer) (driver1 driver2 : DriverResults) (buf : Nat)
    (b : VulkanBuffer) (hb : heapGet r.bufferHeap buf = some b)
    (hbound : b.bound ≠ 0) (hinUse : buf ∈ r.buffersInUse) (hf : r.frameIndex < 2)
    (hmarkers : ∀ p, p ∈ b.subBuffers → ∃ sb, heapGet r.subBufferHeap p = some sb ∧
      (sb.bound = -1 ∨ sb.bound = (r.frameIndex : Int) ∨
        (sb.bound = ((1 - r.frameIndex : Nat) : Int) ∧ buf ∈ r.submittedBuffers)))
    (hown : SubBuffersOwned r buf)
    (hrun1 : submitRunsCleanup r driver1 = true)
    (h1 : VULKAN_Submit r driver1 = some r1)
    (hidle : NotBoundSince buf r1 r1')
    (hown1 : SubBuffersOwned r1' buf)
    (hrun2 : submitRunsCleanup r1' driver2 = true)
    (h2 : VULKAN_Submit r1' driver2 = some r2) :
    ∃ b2, heapGet r2.bufferHeap buf = some b2 ∧ b2.subBuffers = b.subBuffers ∧
      b2.bound = 0 ∧ b2.boundSubmitted = 0 ∧
      (∀ p, p ∈ b.subBuffers → ∃ sb, heapGet r2.subBufferHeap p = some sb ∧ sb.bound = -1) ∧
      ∀ (subs : List VulkanSubBuffer) (others : List MemorySpan),
        b2.subBuffers.map (heapGet r2.subBufferHeap) = subs.map some →
        b2.subBuffers.Nodup →
        AllocatorInv r2.memoryAllocator (subs.map subBufferSpan ++ others) →
        ∃ r3, VULKAN_INTERNAL_DestroyBuffer r2 buf = some r3 ∧
          heapGet r3.bufferHeap buf = none ∧
          (∀ sp, sp ∈ b.subBuffers → heapGet r3.subBufferHeap sp = none) ∧
          AllocatorInv r3.memoryAllocator others := by
  obtain ⟨f1, s1, k1, _, m1⟩ := Submit_buffer r r1 driver1 buf b hb (Or.inl hbound) hown hrun1 h1
  obtain ⟨b1, hb1, hsub1, hbd1, hbs1⟩ := k1 hinUse
  -- the buffer at the second Submit
  have hflags := hidle.flags
  rw [hb1] at hflags
  cases hb1' : heapGet r1'.bufferHeap buf with
  | none => rw [hb1'] at hflags; cases hflags
  | some b1' =>
    rw [hb1'] at hflags
    simp only [Option.map_some', Option.some.injEq, Prod.mk.injEq] at hflags
    obtain ⟨hsub1', hbd1', hbs1'⟩ := hflags
    have hsubs : b1'.subBuffers = b.subBuffers := hsub1'.trans hsub1
    have hin1 : buf ∈ r1.submittedBuffers := by rw [s1]; exact hinUse
    have hin1' : buf ∈ r1'.submittedBuffers := hidle.submitted hin1
    obtain ⟨f2, _, _, k2, m2⟩ := Submit_buffer r1' r2 driver2 buf b1' hb1'
      (Or.inr (by rw [hbs1', hbs1]; decide)) hown1 hrun2 h2
    obtain ⟨b2, hb2, hsub2, hbd2, hbs2⟩ := k2 hidle.notInUse hin1'
    have hmark2 : ∀ p, p ∈ b.subBuffers →
        ∃ sb, heapGet r2.subBufferHeap p = some sb ∧ sb.bound = -1 := by
      intro p hp
      obtain ⟨sb, hsb, hcase⟩ := hmarkers p hp
      obtain ⟨hun1, sb1, hsb1, hbd⟩ := m1 p hp sb hsb
      -- after the first cleanup the marker is -1 or the frame index
      have hc1 : sb1.bound = -1 ∨ sb1.bound = (r.frameIndex : Int) := by
        rcases hcase with hc | hc | ⟨hc, hsm⟩
        · rcases hbd with h | h
          · exact Or.inl (h.trans hc)
          · exact Or.inl h
        · rcases hbd with h | h
          · exact Or.inr (h.trans hc)
          · exact Or.inl h
        · left
          have := hun1 hsm
          rw [hsb1] at this
          simp only [Option.some.injEq] at this
          rw [this]
          exact unmarked_other r.frameIndex hf sb hc
      -- the marker at the second Submit
      have hmk := hidle.markers p
        ((mem_subBuffersOf _ _ _).mpr ⟨buf, b1, List.mem_singleton.mpr rfl, hb1,
          by rw [hsub1]; exact hp⟩)
      rw [hsb1] at hmk
      cases hsb1' : heapGet r1'.subBufferHeap p with
      | none => rw [hsb1'] at hmk; cases hmk
      | some sb1' =>
        rw [hsb1'] at hmk
        simp only [Option.map_some', Option.some.injEq] at hmk
        obtain ⟨hun2, _⟩ := m2 p (by rw [hsubs]; exact hp) sb1' hsb1'
        refine ⟨_, hun2 hin1', ?_⟩
        rw [hidle.frameIndex, f1]
        have hfl : ((r.frameIndex + 1) % 2 + 1) % 2 = r.frameIndex := by omega
        rw [hfl]
        unfold unmarked
        rcases hc1 with h | h
        · by_cases hc : int8ToUInt32 sb1'.bound = r.frameIndex
          · rw [if_pos hc]
          · rw [if_neg hc, hmk, h]
        · rw [if_pos (by rw [hmk, h, int8ToUInt32_small _ hf])]
    refine ⟨b2, hb2, hsub2.trans hsubs, hbd2.trans (hbd1'.trans hbd1), hbs2, hmark2, ?_⟩
    intro subs others hmap hnodup hinv
    obtain ⟨r3, e3, hfreed, _, _, _, hinv3, hbuf⟩ :=
      destroySubBuffers_spec b2.subBuffers subs r2 others hmap hnodup hinv
    have hnm : ¬ (b2.bound ≠ 0 ∨ b2.boundSubmitted ≠ 0) := by
      intro h
      rcases h with h | h
      · exact h (hbd2.trans (hbd1'.trans hbd1))
      · exact h hbs2
    refine ⟨{ r3 with bufferHeap := r3.bufferHeap.set buf none }, ?_, ?_, ?_, hinv3⟩
    · simp only [VULKAN_INTERNAL_DestroyBuffer, hb2, if_neg hnm, e3]
    · exact heapGet_set_none _ _
    · intro sp hsp
      exact hfreed sp (by rw [hsub2, hsubs]; exact hsp)


set_option maxRecDepth 100000 in
theorem bound_buffer_destroyable_after_two_cleanups_witness :
    ∃ b2, heapGet sampleIdleSubmit.bufferHeap 0 = some b2 ∧ b2.subBuffers = [0, 1] ∧
      b2.bound = 0 ∧ b2.boundSubmitted = 0 ∧
      (∀ p, p ∈ [0, 1] → ∃ sb, heapGet sampleIdleSubmit.subBufferHeap p = some sb ∧
        sb.bound = -1) ∧
      ∃ r3, VULKAN_INTERNAL_DestroyBuffer sampleIdleSubmit 0 = some r3 ∧
        heapGet r3.bufferHeap 0 = none ∧
        (∀ sp, sp ∈ [0, 1] → heapGet r3.subBufferHeap sp = none) ∧
        AllocatorInv r3.memoryAllocator [{ allocation := 0, offset := 512, size := 4096 }] :=
  match bound_buffer_destroyable_after_two_cleanups sampleBoundFrame sampleBoundSubmit
      sampleIdleFrame sampleIdleSubmit okDriver okDriver 0
      { size := 256, subBuffers := [0, 1], currentSubBufferIndex := 0,
        resourceAccessType := .RESOURCE_ACCESS_VERTEX_BUFFER, usage := 128,
        bound := 1, boundSubmitted := 0 }
      (by decide) (by decide) (by decide) (by decide)
      (fun p hp => by
        rcases List.mem_cons.mp hp with h | h
        · exact ⟨{ allocation := 0, buffer := 500, offset := 0, size := 256,
                   resourceAccessType := .RESOURCE_ACCESS_VERTEX_BUFFER, bound := 0 },
            by rw [h]; decide, Or.inr (Or.inl (by decide))⟩
        · rw [List.mem_singleton.mp h]
          exact ⟨{ allocation := 0, buffer := 501, offset := 256, size := 256,
                   resourceAccessType := .RESOURCE_ACCESS_VERTEX_BUFFER, bound := -1 },
            by decide, Or.inl rfl⟩)
      (fun q hq => absurd hq (by
        rw [show sampleBoundFrame.deferred.submittedBuffersToDestroy = [] by decide]
        exact List.not_mem_nil q))
      (by decide) (by decide)
      ⟨by decide, by decide, by decide, by decide, by decide⟩
      (fun q hq => absurd hq (by
        rw [show sampleIdleFrame.deferred.submittedBuffersToDestroy = [] by decide]
        exact List.not_mem_nil q))
      (by decide) (by decide) with
  | ⟨b2, hb2, hsub, hbd, hbs, hmk, hdestroy⟩ =>
    ⟨b2, hb2, hsub, hbd, hbs, hmk,
      hdestroy
        [{ allocation := 0, buffer := 500, offset := 0, size := 256,
           resourceAccessType := .RESOURCE_ACCESS_VERTEX_BUFFER, bound := -1 },
         { allocation := 0, buffer := 501, offset := 256, size := 256,
           resourceAccessType := .RESOURCE_ACCESS_VERTEX_BUFFER, bound := -1 }]
        [{ allocation := 0, offset := 512, size := 4096 }]
        (by rw [hsub]; decide) (by rw [hsub]; decide) sample_allocatorInv⟩

set_option maxRecDepth 100000 in
/-- C19. The markers do not clear when the buffer is bound before the first
cleanup: `frameIndex` is assigned nowhere before that cleanup reads it, and
`VULKAN_INTERNAL_MarkAsBound` stores its value in the marker.  On
`sampleUnassigned` (the field holds 5) the buffer is bound as vertex buffer in
frame K: its `bound` is 1, it is in `buffersInUse`, and sub-buffer 0 has the
marker 5.  The `Submit` of frame K runs its cleanup and leaves the frame index 0;
in frame K+1 the buffer is not bound (a barrier is recorded) and the `Submit` runs
its cleanup and leaves the frame index 1.  Then `bound` and `boundSubmitted` are
both 0, but sub-buffer 0 still has the marker 5, not -1; a further cleanup leaves
it as well, since the cleanup only clears markers equal to the frame index 0 or
1.  `VULKAN_INTERNAL_DestroyBuffer`, which tests the two flags only, frees the
buffer. -/
theorem unassigned_frame_index_marker_never_cleared :
    VULKAN_BindVertexBuffers sampleUnassigned okDriver 0 [0] [0] = some sampleUnassignedBound ∧
    (heapGet sampleUnassignedBound.bufferHeap 0).map (fun b => (b.bound, b.boundSubmitted)) =
      some (1, 0) ∧
    sampleUnassignedBound.buffersInUse = [0] ∧
    (heapGet sampleUnassignedBound.subBufferHeap 0).map (fun s => s.bound) = some 5 ∧
    submitRunsCleanup sampleUnassignedBound okDriver = true ∧
    VULKAN_Submit sampleUnassignedBound okDriver = some sampleUnassignedSubmit ∧
    sampleUnassignedSubmit.frameIndex = 0 ∧
    VULKAN_INTERNAL_BufferMemoryBarrier sampleUnassignedSubmit okDriver
      .RESOURCE_ACCESS_TRANSFER_READ 0 0 = some sampleUnassignedIdle ∧
    sampleUnassignedIdle.buffersInUse = [] ∧
    submitRunsCleanup sampleUnassignedIdle okDriver = true ∧
    VULKAN_Submit sampleUnassignedIdle okDriver = some sampleUnassignedIdleSubmit ∧
    sampleUnassignedIdleSubmit.frameIndex = 1 ∧
    (heapGet sampleUnassignedIdleSubmit.bufferHeap 0).map
      (fun b => (b.subBuffers, b.bound, b.boundSubmitted)) = some ([0, 1], 0, 0) ∧
    (heapGet sampleUnassignedIdleSubmit.subBufferHeap 0).map (fun s => s.bound) = some 5 ∧
    (heapGet sampleUnassignedIdleSubmit.subBufferHeap 1).map (fun s => s.bound) = some (-1) ∧
    ((VULKAN_INTERNAL_PostWorkCleanup sampleUnassignedIdleSubmit).bind
      (fun r => heapGet r.subBufferHeap 0)).map (fun s => s.bound) = some 5 ∧
    ((VULKAN_INTERNAL_DestroyBuffer sampleUnassignedIdleSubmit 0).map
      (fun r => heapGet r.bufferHeap 0)) = some none := by
  decide

/-! ## C20: two runs of the cleanup -/

theorem count_tagged (k k' : DisposeKind) (p : Nat) (l : List Nat) :
    (l.map (fun q => (k', q))).count (k, p) = if k' = k then l.count p else 0 := by
  induction l with
  | nil => simp
  | cons x rest ih =>
    simp only [List.map_cons, List.count_cons, ih]
    by_cases hk : k' = k
    · subst hk
      simp
    · simp [hk]

theorem count_submittedDestroyCalls (d : DeferredDestroyStorage) (kind : DisposeKind)
    (p : Nat) :
    (submittedDestroyCalls d).count (kind, p) = (submittedToDestroyOf kind d).count p := by
  unfold submittedDestroyCalls
  simp only [List.count_append, count_tagged]
  cases kind <;> simp [submittedToDestroyOf]

/-- C20. Two runs of `VULKAN_INTERNAL_PostWorkCleanup` in a row, with no `AddDispose`
call in between, flush both generations.  The first run calls the destroy
functions on the submitted lists and promotes the to-destroy lists; the second
run calls them on the promoted lists.  Afterwards every to-destroy list and every
submitted-to-destroy list is empty, and the destroy calls made by the two runs
hold every resource as often as the lists held it before: exactly once for a
resource that was queued once. -/
theorem two_cleanups_flush_both_generations (r r1 r2 : VulkanRenderer)
    (h1 : VULKAN_INTERNAL_PostWorkCleanup r = some r1)
    (h2 : VULKAN_INTERNAL_PostWorkCleanup r1 = some r2) :
    (r1.destroyCalls = r.destroyCalls ++ submittedDestroyCalls r.deferred ∧
      r1.deferred = rotateDestroyLists r.deferred) ∧
    r2.destroyCalls = r1.destroyCalls ++ submittedDestroyCalls (rotateDestroyLists r.deferred) ∧
    r2.deferred = emptyDeferredDestroyStorage ∧
    ∀ kind p,
      (submittedDestroyCalls r.deferred ++
          submittedDestroyCalls (rotateDestroyLists r.deferred)).count (kind, p) =
        (submittedToDestroyOf kind r.deferred).count p + (toDestroyOf kind r.deferred).count p := by
  obtain ⟨d1, c1, _⟩ := PostWorkCleanup_spec r r1 h1
  obtain ⟨d2, c2, _⟩ := PostWorkCleanup_spec r1 r2 h2
  refine ⟨⟨c1, d1⟩, by rw [c2, d1], by rw [d2, d1]; rfl, ?_⟩
  intro kind p
  rw [List.count_append, count_submittedDestroyCalls, count_submittedDestroyCalls,
    (submittedToDestroyOf_rotate kind r.deferred).1]

set_option maxRecDepth 100000 in
theorem two_cleanups_flush_both_generations_witness :
    (VULKAN_INTERNAL_PostWorkCleanup sampleTeardown = some sampleTeardown1 ∧
      VULKAN_INTERNAL_PostWorkCleanup sampleTeardown1 = some sampleTeardown2) ∧
    sampleTeardown.deferred.submittedTexturesToDestroy = [0] ∧
    sampleTeardown.deferred.buffersToDestroy = [0] ∧
    sampleTeardown2.destroyCalls = [(.texture, 0), (.buffer, 0)] ∧
    sampleTeardown2.deferred = emptyDeferredDestroyStorage ∧
    heapGet sampleTeardown2.textureHeap 0 = none ∧
    heapGet sampleTeardown2.bufferHeap 0 = none :=
  ⟨⟨by decide, by decide⟩, by decide, by decide, by decide,
    (two_cleanups_flush_both_generations sampleTeardown sampleTeardown1 sampleTeardown2
      (by decide) (by decide)).2.2.1, by decide, by decide⟩

/-! ## Sampler descriptor-set cache: buckets, sweeps and reachable states -/

theorem first_occurrence_split {α : Type} [DecidableEq α] (i : α) :
    ∀ l : List α, i ∈ l → ∃ a b, l = a ++ i :: b ∧ i ∉ a := by
  intro l
  induction l with
  | nil => intro h; exact absurd h (List.not_mem_nil i)
  | cons x rest ih =>
    intro h
    by_cases hx : x = i
    · exact ⟨[], rest, by rw [hx]; rfl, List.not_mem_nil i⟩
    · have hr : i ∈ rest := by
        rcases List.mem_cons.mp h with h1 | h1
        · exact absurd h1.symm hx
        · exact h1
      obtain ⟨a, b, e, hn⟩ := ih hr
      refine ⟨x :: a, b, by rw [e]; rfl, ?_⟩
      intro hm
      rcases List.mem_cons.mp hm with h1 | h1
      · exact hx h1.symm
      · exact hn h1

theorem indexOf_split {α : Type} [DecidableEq α] (i : α) (a b : List α) (hn : i ∉ a) :
    (a ++ i :: b).indexOf i = a.length := by
  rw [List.indexOf_append_of_not_mem hn, List.indexOf_cons_self, Nat.add_zero]

/-- The entries of a bucket after "remove index from bucket". -/
theorem removeIndexFromBucket_perm (arr : SamplerDescriptorSetHashArray) (i : Nat)
    (hi : i ∈ arr.elements) :
    (removeIndexFromBucket arr i).elements.Perm (arr.elements.erase i) := by
  obtain ⟨a, b, e, hn⟩ := first_occurrence_split i arr.elements hi
  have hidx := indexOf_split i a b hn
  unfold removeIndexFromBucket
  simp only
  rw [e, hidx]
  have hlen : a.length < (a ++ i :: b).length := by
    rw [List.length_append, List.length_cons]; omega
  rw [if_pos hlen]
  simp only
  rw [List.erase_append_right _ hn, List.erase_cons_head]
  rcases List.eq_nil_or_concat b with hb | ⟨b1, x, hb⟩
  · subst hb
    have h2 : ¬ a.length < (a ++ [i]).length - 1 := by
      rw [List.length_append, List.length_singleton]; omega
    rw [if_neg h2, List.dropLast_concat, List.append_nil]
  · rw [List.concat_eq_append] at hb
    subst hb
    have h2 : a.length < (a ++ i :: (b1 ++ [x])).length - 1 := by
      simp only [List.length_append, List.length_cons, List.length_singleton, List.length_nil]
      omega
    rw [if_pos h2]
    have hlast : (a ++ i :: (b1 ++ [x])).getLastD 0 = x := by
      have : a ++ i :: (b1 ++ [x]) = (a ++ i :: b1) ++ [x] := by simp
      rw [this, List.getLastD_concat]
    rw [hlast]
    have hset : (a ++ i :: (b1 ++ [x])).set a.length x = (a ++ x :: b1) ++ [x] := by
      rw [List.set_append_right _ _ (Nat.le_refl _)]
      simp
    rw [hset, List.dropLast_concat]
    refine List.Perm.append_left a ?_
    exact (List.perm_append_singleton x b1).symm

theorem mem_removeIndexFromBucket (arr : SamplerDescriptorSetHashArray) (i x : Nat)
    (hnd : arr.elements.Nodup) :
    x ∈ (removeIndexFromBucket arr i).elements ↔ x ∈ arr.elements ∧ x ≠ i := by
  by_cases hi : i ∈ arr.elements
  · rw [(removeIndexFromBucket_perm arr i hi).mem_iff, hnd.mem_erase_iff]
    exact and_comm
  · have hidx : ¬ arr.elements.indexOf i < arr.elements.length := by
      intro h
      exact hi (List.indexOf_lt_length.mp h)
    unfold removeIndexFromBucket
    simp only
    rw [if_neg hidx]
    constructor
    · intro h
      exact ⟨h, fun hx => hi (hx ▸ h)⟩
    · intro h
      exact h.1

theorem nodup_removeIndexFromBucket (arr : SamplerDescriptorSetHashArray) (i : Nat)
    (hnd : arr.elements.Nodup) : (removeIndexFromBucket arr i).elements.Nodup := by
  by_cases hi : i ∈ arr.elements
  · exact (removeIndexFromBucket_perm arr i hi).nodup_iff.mpr (hnd.erase i)
  · have hidx : ¬ arr.elements.indexOf i < arr.elements.length := by
      intro h
      exact hi (List.indexOf_lt_length.mp h)
    unfold removeIndexFromBucket
    simp only
    rw [if_neg hidx]
    exact hnd

theorem replaceIndexInBucket_elements (arr : SamplerDescriptorSetHashArray) (old new : Nat)
    (a b : List Nat) (e : arr.elements = a ++ old :: b) (hn : old ∉ a) :
    (replaceIndexInBucket arr old new).elements = a ++ new :: b := by
  unfold replaceIndexInBucket
  simp only
  rw [e, indexOf_split old a b hn]
  have hlen : a.length < (a ++ old :: b).length := by
    rw [List.length_append, List.length_cons]; omega
  rw [if_pos hlen]
  simp only
  rw [List.set_append_right _ _ (Nat.le_refl _)]
  simp

theorem mem_replaceIndexInBucket (arr : SamplerDescriptorSetHashArray) (old new x : Nat)
    (hnd : arr.elements.Nodup) (ho : old ∈ arr.elements) :
    x ∈ (replaceIndexInBucket arr old new).elements ↔
      (x ∈ arr.elements ∧ x ≠ old) ∨ x = new := by
  obtain ⟨a, b, e, hn⟩ := first_occurrence_split old arr.elements ho
  rw [replaceIndexInBucket_elements arr old new a b e hn, e]
  rw [e] at hnd
  have hnb : old ∉ b := by
    have := List.nodup_append.mp hnd
    exact (List.nodup_cons.mp this.2.1).1
  simp only [List.mem_append, List.mem_cons]
  constructor
  · rintro (h | h | h)
    · exact Or.inl ⟨Or.inl h, fun hx => hn (hx ▸ h)⟩
    · exact Or.inr h
    · exact Or.inl ⟨Or.inr (Or.inr h), fun hx => hnb (hx ▸ h)⟩
  · rintro (⟨h | h | h, hne⟩ | h)
    · exact Or.inl h
    · exact absurd h hne
    · exact Or.inr (Or.inr h)
    · exact Or.inr (Or.inl h)

theorem nodup_replaceIndexInBucket (arr : SamplerDescriptorSetHashArray) (old new : Nat)
    (hnd : arr.elements.Nodup) (hnew : new ∉ arr.elements) :
    (replaceIndexInBucket arr old new).elements.Nodup := by
  by_cases ho : old ∈ arr.elements
  · obtain ⟨a, b, e, hn⟩ := first_occurrence_split old arr.elements ho
    rw [replaceIndexInBucket_elements arr old new a b e hn]
    rw [e] at hnd hnew
    have h1 := List.nodup_append.mp hnd
    have h2 := List.nodup_cons.mp h1.2.1
    simp only [List.mem_append, List.mem_cons, not_or] at hnew
    refine List.nodup_append.mpr ⟨h1.1, List.nodup_cons.mpr ⟨hnew.2.2, h2.2⟩, ?_⟩
    intro y hya hyb
    rcases List.mem_cons.mp hyb with h | h
    · exact hnew.1 (h ▸ hya)
    · exact h1.2.2 hya (List.mem_cons_of_mem _ h)
  · have hidx : ¬ arr.elements.indexOf old < arr.elements.length := by
      intro h
      exact ho (List.indexOf_lt_length.mp h)
    unfold replaceIndexInBucket
    simp only
    rw [if_neg hidx]
    exact hnd

theorem keyAt_append (ks : List Nat) (k x b : Nat) :
    KeyAt (ks ++ [k]) x b ↔
      KeyAt ks x b ∨ (x = ks.length ∧ k % NUM_DESCRIPTOR_SET_HASH_BUCKETS = b) := by
  unfold KeyAt
  rcases Nat.lt_trichotomy x ks.length with h | h | h
  · rw [List.getElem?_append_left h]
    constructor
    · intro h1; exact Or.inl h1
    · rintro (h1 | ⟨h1, _⟩)
      · exact h1
      · omega
  · subst h
    rw [List.getElem?_append_right (Nat.le_refl _), Nat.sub_self,
      List.getElem?_eq_none (Nat.le_refl _)]
    constructor
    · rintro ⟨k1, h1, h2⟩
      simp only [List.getElem?_cons_zero, Option.some.injEq] at h1
      exact Or.inr ⟨rfl, h1 ▸ h2⟩
    · rintro (⟨k1, h1, _⟩ | ⟨_, h2⟩)
      · cases h1
      · exact ⟨k, rfl, h2⟩
  · rw [List.getElem?_eq_none (by rw [List.length_append, List.length_singleton]; omega),
      List.getElem?_eq_none (Nat.le_of_lt h)]
    constructor
    · rintro ⟨k1, h1, _⟩
      cases h1
    · rintro (⟨k1, h1, _⟩ | ⟨h1, _⟩)
      · cases h1
      · omega

theorem keyAt_set (ks : List Nat) (j k x b : Nat) (hj : j < ks.length) :
    KeyAt (ks.set j k) x b ↔
      (x ≠ j ∧ KeyAt ks x b) ∨ (x = j ∧ k % NUM_DESCRIPTOR_SET_HASH_BUCKETS = b) := by
  unfold KeyAt
  by_cases hx : x = j
  · subst hx
    rw [List.getElem?_set_self hj]
    simp
  · rw [List.getElem?_set_ne (fun h => hx h.symm)]
    simp [hx]

theorem keyAt_lt {ks : List Nat} {x b : Nat} (h : KeyAt ks x b) : x < ks.length := by
  obtain ⟨k, hk, _⟩ := h
  by_contra hc
  rw [List.getElem?_eq_none (Nat.le_of_not_lt hc)] at hk
  cases hk

theorem keyAt_unique {ks : List Nat} {x b b1 : Nat} (h : KeyAt ks x b) (h1 : KeyAt ks x b1) :
    b = b1 := by
  obtain ⟨k, hk, e⟩ := h
  obtain ⟨k1, hk1, e1⟩ := h1
  rw [hk] at hk1
  cases hk1
  rw [← e, ← e1]

theorem set_getElem?_cases {α : Type} (l : List α) (p b : Nat) (v a : α)
    (h : (l.set p v)[b]? = some a) : (b = p ∧ a = v) ∨ (b ≠ p ∧ l[b]? = some a) := by
  by_cases hb : b = p
  · subst hb
    have hlt : b < l.length := by
      by_contra hc
      rw [List.getElem?_eq_none (by rw [List.length_set]; exact Nat.le_of_not_lt hc)] at h
      cases h
    rw [List.getElem?_set_self hlt] at h
    cases h
    exact Or.inl ⟨rfl, rfl⟩
  · rw [List.getElem?_set_ne (fun hh => hb hh.symm)] at h
    exact Or.inr ⟨hb, h⟩

/-- The append of a miss keeps the buckets in step with the keys. -/
theorem BucketsOk_append (bs : List SamplerDescriptorSetHashArray) (ks : List Nat) (k init : Nat)
    (arr : SamplerDescriptorSetHashArray) (hok : BucketsOk bs ks)
    (harr : bs[k % NUM_DESCRIPTOR_SET_HASH_BUCKETS]? = some arr) :
    BucketsOk (bs.set (k % NUM_DESCRIPTOR_SET_HASH_BUCKETS) (hashArrayAppend arr init ks.length))
      (ks ++ [k]) := by
  refine ⟨by rw [List.length_set]; exact hok.1, ?_⟩
  intro b arr1 h1
  rcases set_getElem?_cases _ _ _ _ _ h1 with ⟨hb, ha⟩ | ⟨hb, ha⟩
  · subst hb ha
    obtain ⟨hnd, hmem⟩ := hok.2 _ arr harr
    have hnew : ks.length ∉ arr.elements := by
      intro hc
      have := keyAt_lt ((hmem _).mp hc)
      omega
    constructor
    · show (arr.elements ++ [ks.length]).Nodup
      exact List.nodup_append.mpr ⟨hnd, List.nodup_singleton _, by
        intro y hy hy1
        rw [List.mem_singleton] at hy1
        exact hnew (hy1 ▸ hy)⟩
    · intro x
      show x ∈ arr.elements ++ [ks.length] ↔ _
      rw [keyAt_append, List.mem_append, List.mem_singleton, hmem]
      constructor
      · rintro (h | h)
        · exact Or.inl h
        · exact Or.inr ⟨h, rfl⟩
      · rintro (h | ⟨h, _⟩)
        · exact Or.inl h
        · exact Or.inr h
  · obtain ⟨hnd, hmem⟩ := hok.2 b arr1 ha
    refine ⟨hnd, ?_⟩
    intro x
    rw [keyAt_append, hmem]
    constructor
    · intro h; exact Or.inl h
    · rintro (h | ⟨_, h⟩)
      · exact h
      · exact absurd h.symm hb

/-- Removing the last index from its bucket keeps the buckets in step with the keys
without the last one. -/
theorem BucketsOk_remove_last (bs : List SamplerDescriptorSetHashArray) (ks : List Nat) (k : Nat)
    (arr : SamplerDescriptorSetHashArray) (hok : BucketsOk bs (ks ++ [k]))
    (harr : bs[k % NUM_DESCRIPTOR_SET_HASH_BUCKETS]? = some arr) :
    BucketsOk (bs.set (k % NUM_DESCRIPTOR_SET_HASH_BUCKETS) (removeIndexFromBucket arr ks.length))
      ks := by
  refine ⟨by rw [List.length_set]; exact hok.1, ?_⟩
  intro b arr1 h1
  rcases set_getElem?_cases _ _ _ _ _ h1 with ⟨hb, ha⟩ | ⟨hb, ha⟩
  · subst hb ha
    obtain ⟨hnd, hmem⟩ := hok.2 _ arr harr
    refine ⟨nodup_removeIndexFromBucket arr _ hnd, ?_⟩
    intro x
    rw [mem_removeIndexFromBucket arr _ x hnd, hmem, keyAt_append]
    constructor
    · rintro ⟨h | ⟨h, _⟩, hne⟩
      · exact h
      · exact absurd h hne
    · intro h
      exact ⟨Or.inl h, Nat.ne_of_lt (keyAt_lt h)⟩
  · obtain ⟨hnd, hmem⟩ := hok.2 b arr1 ha
    refine ⟨hnd, ?_⟩
    intro x
    rw [hmem, keyAt_append]
    constructor
    · rintro (h | ⟨_, h⟩)
      · exact h
      · exact absurd h.symm hb
    · intro h; exact Or.inl h

/-- Removing index `j` from its bucket and renaming the last index to `j` in its
bucket keeps the buckets in step with the keys after the last key moved to `j`. -/
theorem BucketsOk_swap_remove (bs : List SamplerDescriptorSetHashArray) (ks : List Nat)
    (j k kl : Nat) (arr arr2 : SamplerDescriptorSetHashArray)
    (hok : BucketsOk bs (ks ++ [kl])) (hj : j < ks.length) (hk : ks[j]? = some k)
    (harr : bs[k % NUM_DESCRIPTOR_SET_HASH_BUCKETS]? = some arr)
    (harr2 : (bs.set (k % NUM_DESCRIPTOR_SET_HASH_BUCKETS) (removeIndexFromBucket arr j))[
      kl % NUM_DESCRIPTOR_SET_HASH_BUCKETS]? = some arr2) :
    BucketsOk
      ((bs.set (k % NUM_DESCRIPTOR_SET_HASH_BUCKETS) (removeIndexFromBucket arr j)).set
        (kl % NUM_DESCRIPTOR_SET_HASH_BUCKETS) (replaceIndexInBucket arr2 ks.length j))
      (ks.set j kl) := by
  have hKj : KeyAt (ks ++ [kl]) j (k % NUM_DESCRIPTOR_SET_HASH_BUCKETS) :=
    (keyAt_append ks kl j _).mpr (Or.inl ⟨k, hk, rfl⟩)
  have hKl : KeyAt (ks ++ [kl]) ks.length (kl % NUM_DESCRIPTOR_SET_HASH_BUCKETS) :=
    (keyAt_append ks kl _ _).mpr (Or.inr ⟨rfl, rfl⟩)
  -- the first update
  have hfirst : ∀ b a1,
      (bs.set (k % NUM_DESCRIPTOR_SET_HASH_BUCKETS) (removeIndexFromBucket arr j))[b]? = some a1 →
      a1.elements.Nodup ∧ ∀ x, x ∈ a1.elements ↔ (KeyAt (ks ++ [kl]) x b ∧ x ≠ j) := by
    intro b a1 h1
    rcases set_getElem?_cases _ _ _ _ _ h1 with ⟨hb, ha⟩ | ⟨hb, ha⟩
    · subst hb ha
      obtain ⟨hnd, hmem⟩ := hok.2 _ arr harr
      refine ⟨nodup_removeIndexFromBucket arr _ hnd, ?_⟩
      intro x
      rw [mem_removeIndexFromBucket arr _ x hnd, hmem]
    · obtain ⟨hnd, hmem⟩ := hok.2 b a1 ha
      refine ⟨hnd, ?_⟩
      intro x
      rw [hmem]
      constructor
      · intro h
        refine ⟨h, ?_⟩
        intro hx
        subst hx
        exact hb (keyAt_unique h hKj)
      · intro h; exact h.1
  refine ⟨by rw [List.length_set, List.length_set]; exact hok.1, ?_⟩
  intro b arr1 h1
  rcases set_getElem?_cases _ _ _ _ _ h1 with ⟨hb, ha⟩ | ⟨hb, ha⟩
  · subst hb ha
    obtain ⟨hnd, hmem⟩ := hfirst _ arr2 harr2
    have hjn : j ∉ arr2.elements := by
      intro hc
      exact ((hmem j).mp hc).2 rfl
    have hl : ks.length ∈ arr2.elements := (hmem _).mpr ⟨hKl, Nat.ne_of_gt hj⟩
    refine ⟨nodup_replaceIndexInBucket arr2 _ _ hnd hjn, ?_⟩
    intro x
    rw [mem_replaceIndexInBucket arr2 _ _ x hnd hl, hmem, keyAt_set ks j kl x _ hj, keyAt_append]
    constructor
    · rintro (⟨⟨h | ⟨h, _⟩, hne⟩, hne2⟩ | h)
      · exact Or.inl ⟨hne, h⟩
      · exact absurd h hne2
      · exact Or.inr ⟨h, rfl⟩
    · rintro (⟨hne, h⟩ | ⟨h, _⟩)
      · exact Or.inl ⟨⟨Or.inl h, hne⟩, Nat.ne_of_lt (keyAt_lt h)⟩
      · exact Or.inr h
  · obtain ⟨hnd, hmem⟩ := hfirst b arr1 ha
    refine ⟨hnd, ?_⟩
    intro x
    rw [hmem, keyAt_set ks j kl x _ hj, keyAt_append]
    constructor
    · rintro ⟨h | ⟨_, h⟩, hne⟩
      · exact Or.inl ⟨hne, h⟩
      · exact absurd h.symm hb
    · rintro (⟨hne, h⟩ | ⟨_, h⟩)
      · exact ⟨Or.inl h, hne⟩
      · exact absurd h.symm hb

theorem BucketsOk_created :
    BucketsOk (List.replicate NUM_DESCRIPTOR_SET_HASH_BUCKETS { elements := [], capacity := 0 })
      [] := by
  refine ⟨List.length_replicate _ _, ?_⟩
  intro b arr h
  have hm := List.getElem?_mem h
  rw [List.eq_of_mem_replicate hm]
  refine ⟨List.nodup_nil, ?_⟩
  intro x
  constructor
  · intro hx; exact absurd hx (List.not_mem_nil x)
  · rintro ⟨k, hk, _⟩
    cases hk

theorem getElem?_middle {α : Type} (P S : List α) (e : α) : (P ++ e :: S)[P.length]? = some e := by
  rw [List.getElem?_append_right (Nat.le_refl _), Nat.sub_self, List.getElem?_cons_zero]

theorem set_middle {α : Type} (P S : List α) (e v : α) :
    (P ++ e :: S).set P.length v = P ++ v :: S := by
  rw [List.set_append_right _ _ (Nat.le_refl _), Nat.sub_self, List.set_cons_zero]

theorem bucket_defined (bs : List SamplerDescriptorSetHashArray)
    (h : bs.length = NUM_DESCRIPTOR_SET_HASH_BUCKETS) (k : Nat) :
    ∃ arr, bs[k % NUM_DESCRIPTOR_SET_HASH_BUCKETS]? = some arr := by
  have : k % NUM_DESCRIPTOR_SET_HASH_BUCKETS < bs.length := by
    rw [h]; exact Nat.mod_lt _ (by decide)
  exact ⟨_, List.getElem?_eq_getElem this⟩

/-- A round of the sweep that keeps the element. -/
theorem deactivateStep_keep (c : SamplerDescriptorSetCache)
    (P S : List SamplerDescriptorSetHashMap) (e0 : SamplerDescriptorSetHashMap)
    (hel : c.elements = P ++ e0 :: S)
    (hcount : e0.inactiveFrameCount + 2 ≤ DESCRIPTOR_SET_DEACTIVATE_FRAMES) :
    deactivateStep c P.length =
      some { c with elements :=
        P ++ { e0 with inactiveFrameCount := e0.inactiveFrameCount + 1 } :: S } := by
  have h10 : DESCRIPTOR_SET_DEACTIVATE_FRAMES = 10 := rfl
  have h256 : UINT8_MOD = 256 := rfl
  rw [h10] at hcount
  have hmod : (e0.inactiveFrameCount + 1) % UINT8_MOD = e0.inactiveFrameCount + 1 := by
    rw [h256]; omega
  unfold deactivateStep
  rw [hel, getElem?_middle]
  simp only [hmod, set_middle]
  rw [if_neg (by rw [h10]; omega)]

/-- A round of the sweep that evicts the last element of the array. -/
theorem deactivateStep_evict_last (c : SamplerDescriptorSetCache)
    (P : List SamplerDescriptorSetHashMap) (e0 : SamplerDescriptorSetHashMap)
    (arr : SamplerDescriptorSetHashArray)
    (hel : c.elements = P ++ [e0])
    (hcount : DESCRIPTOR_SET_DEACTIVATE_FRAMES < e0.inactiveFrameCount + 2)
    (hsmall : e0.inactiveFrameCount < DESCRIPTOR_SET_DEACTIVATE_FRAMES)
    (harr : c.buckets[e0.key % NUM_DESCRIPTOR_SET_HASH_BUCKETS]? = some arr)
    (hcap : c.inactiveDescriptorSets.length < c.inactiveDescriptorSetCapacity) :
    deactivateStep c P.length =
      some { c with
        buckets := c.buckets.set (e0.key % NUM_DESCRIPTOR_SET_HASH_BUCKETS)
          (removeIndexFromBucket arr P.length)
        inactiveDescriptorSets := c.inactiveDescriptorSets ++ [e0.descriptorSet]
        elements := P } := by
  have h10 : DESCRIPTOR_SET_DEACTIVATE_FRAMES = 10 := rfl
  have h256 : UINT8_MOD = 256 := rfl
  rw [h10] at hcount hsmall
  have hmod : (e0.inactiveFrameCount + 1) % UINT8_MOD = e0.inactiveFrameCount + 1 := by
    rw [h256]; omega
  unfold deactivateStep
  rw [hel, getElem?_middle]
  simp only [hmod, set_middle]
  rw [if_pos (by rw [h10]; omega)]
  simp only [deactivateElement, updateBucket, harr, hcap, if_true, fillHole,
    List.length_append, List.length_singleton, Nat.add_sub_cancel, Nat.lt_irrefl, if_false,
    List.dropLast_concat]

/-- A round of the sweep that evicts an element that is not the last: the last
element takes its place. -/
theorem deactivateStep_evict_middle (c : SamplerDescriptorSetCache)
    (P S0 : List SamplerDescriptorSetHashMap) (e0 last : SamplerDescriptorSetHashMap)
    (arr arr2 : SamplerDescriptorSetHashArray)
    (hel : c.elements = P ++ e0 :: (S0 ++ [last]))
    (hcount : DESCRIPTOR_SET_DEACTIVATE_FRAMES < e0.inactiveFrameCount + 2)
    (hsmall : e0.inactiveFrameCount < DESCRIPTOR_SET_DEACTIVATE_FRAMES)
    (harr : c.buckets[e0.key % NUM_DESCRIPTOR_SET_HASH_BUCKETS]? = some arr)
    (harr2 : (c.buckets.set (e0.key % NUM_DESCRIPTOR_SET_HASH_BUCKETS)
      (removeIndexFromBucket arr P.length))[last.key % NUM_DESCRIPTOR_SET_HASH_BUCKETS]? =
        some arr2)
    (hcap : c.inactiveDescriptorSets.length < c.inactiveDescriptorSetCapacity) :
    deactivateStep c P.length =
      some { c with
        buckets := (c.buckets.set (e0.key % NUM_DESCRIPTOR_SET_HASH_BUCKETS)
          (removeIndexFromBucket arr P.length)).set
            (last.key % NUM_DESCRIPTOR_SET_HASH_BUCKETS)
            (replaceIndexInBucket arr2 (P.length + 1 + S0.length) P.length)
        inactiveDescriptorSets := c.inactiveDescriptorSets ++ [e0.descriptorSet]
        elements := P ++ last :: S0 } := by
  have h10 : DESCRIPTOR_SET_DEACTIVATE_FRAMES = 10 := rfl
  have h256 : UINT8_MOD = 256 := rfl
  rw [h10] at hcount hsmall
  have hmod : (e0.inactiveFrameCount + 1) % UINT8_MOD = e0.inactiveFrameCount + 1 := by
    rw [h256]; omega
  unfold deactivateStep
  rw [hel, getElem?_middle]
  simp only [hmod, set_middle]
  rw [if_pos (by rw [h10]; omega)]
  have hlen : P.length < (P ++ { e0 with inactiveFrameCount := e0.inactiveFrameCount + 1 } ::
      (S0 ++ [last])).length - 1 := by
    simp only [List.length_append, List.length_cons, List.length_singleton, List.length_nil]
    omega
  have hlast : (P ++ { e0 with inactiveFrameCount := e0.inactiveFrameCount + 1 } ::
      (S0 ++ [last])).getLast? = some last := by
    have : P ++ { e0 with inactiveFrameCount := e0.inactiveFrameCount + 1 } ::
      (S0 ++ [last]) = (P ++ { e0 with inactiveFrameCount := e0.inactiveFrameCount + 1 } ::
        S0) ++ [last] := by simp
    rw [this, List.getLast?_concat]
  simp only [deactivateElement, updateBucket, harr, hcap, if_true, fillHole, hlen, hlast,
    set_middle, harr2]
  have hd : (P ++ last :: (S0 ++ [last])).dropLast = P ++ last :: S0 := by
    have : P ++ last :: (S0 ++ [last]) = (P ++ last :: S0) ++ [last] := by simp
    rw [this, List.dropLast_concat]
  have hl2 : (P ++ { e0 with inactiveFrameCount := e0.inactiveFrameCount + 1 } ::
      (S0 ++ [last])).length - 1 = P.length + 1 + S0.length := by
    simp only [List.length_append, List.length_cons, List.length_singleton, List.length_nil]
    omega
  rw [hd, hl2]

/-- The invariant after a change of the element array behind the prefix `P`: one
element is counted once more, or it left for the inactive sets. -/
theorem CacheInv_step (c c1 : SamplerDescriptorSetCache) (owned : List Nat)
    (P S S1 : List SamplerDescriptorSetHashMap) (e0 : SamplerDescriptorSetHashMap)
    (hinv : CacheInv c owned) (hel : c.elements = P ++ e0 :: S) (hel1 : c1.elements = P ++ S1)
    (htable : BucketsOk c1.buckets (c1.elements.map (fun e => e.key)))
    (hb : c1.samplerBindingCount = c.samplerBindingCount)
    (hn : c1.nextPoolSize = c.nextPoolSize)
    (hcap : c1.inactiveDescriptorSetCapacity = c.inactiveDescriptorSetCapacity)
    (hcase :
      (e0.inactiveFrameCount + 2 ≤ DESCRIPTOR_SET_DEACTIVATE_FRAMES ∧
        S1 = { e0 with inactiveFrameCount := e0.inactiveFrameCount + 1 } :: S ∧
        c1.inactiveDescriptorSets = c.inactiveDescriptorSets) ∨
      (S1.Perm S ∧
        c1.inactiveDescriptorSets = c.inactiveDescriptorSets ++ [e0.descriptorSet])) :
    CacheInv c1 owned := by
  have hmemS : ∀ e, e ∈ P ∨ e ∈ S → e ∈ c.elements := by
    intro e he
    rw [hel, List.mem_append, List.mem_cons]
    rcases he with h | h
    · exact Or.inl h
    · exact Or.inr (Or.inr h)
  have hsets := hinv.sets
  have htotal := hinv.total
  rw [hel] at hsets htotal
  rcases hcase with ⟨hc, hS1, hin⟩ | ⟨hperm, hin⟩
  · subst hS1
    refine ⟨htable, ?_, hinv.owned_nodup, ?_, by rw [hn, hcap]; exact hinv.pool,
      by rw [hcap]; exact hinv.bound, ?_, ?_⟩
    · rw [hel1, hin]
      simpa using hsets
    · rw [hel1, hin, hcap]
      simpa using htotal
    · intro e he
      rw [hel1, List.mem_append, List.mem_cons] at he
      rcases he with h | h | h
      · exact hinv.counters e (hmemS e (Or.inl h))
      · subst h
        show e0.inactiveFrameCount + 1 < DESCRIPTOR_SET_DEACTIVATE_FRAMES
        omega
      · exact hinv.counters e (hmemS e (Or.inr h))
    · intro e he
      rw [hel1, List.mem_append, List.mem_cons] at he
      rw [hb]
      rcases he with h | h | h
      · exact hinv.data e (hmemS e (Or.inl h))
      · subst h
        exact hinv.data e0 (by rw [hel]; simp)
      · exact hinv.data e (hmemS e (Or.inr h))
  · refine ⟨htable, ?_, hinv.owned_nodup, ?_, by rw [hn, hcap]; exact hinv.pool,
      by rw [hcap]; exact hinv.bound, ?_, ?_⟩
    · rw [hel1, hin]
      refine List.Perm.trans ?_ hsets
      rw [List.perm_iff_count]
      intro a
      have h1 := (hperm.map (fun e : SamplerDescriptorSetHashMap => e.descriptorSet)).count_eq a
      simp only [List.map_append, List.map_cons, List.count_append, List.count_cons,
        List.count_nil, h1]
      omega
    · rw [hel1, hin, hcap, ← htotal]
      simp only [List.length_append, List.length_cons, List.length_nil, hperm.length_eq]
      omega
    · intro e he
      rw [hel1, List.mem_append] at he
      rcases he with h | h
      · exact hinv.counters e (hmemS e (Or.inl h))
      · exact hinv.counters e (hmemS e (Or.inr (hperm.mem_iff.mp h)))
    · intro e he
      rw [hel1, List.mem_append] at he
      rw [hb]
      rcases he with h | h
      · exact hinv.data e (hmemS e (Or.inl h))
      · exact hinv.data e (hmemS e (Or.inr (hperm.mem_iff.mp h)))

/-- One round of the sweep at the element behind the prefix `P`: the round is
defined and keeps the invariant; the element is counted once more, or, when its
counter plus one then exceeds the threshold, it leaves the array and its set goes on
top of the inactive sets, the elements behind it being permuted. -/
theorem deactivateStep_spec (c : SamplerDescriptorSetCache) (owned : List Nat)
    (P S : List SamplerDescriptorSetHashMap) (e0 : SamplerDescriptorSetHashMap)
    (hinv : CacheInv c owned) (hel : c.elements = P ++ e0 :: S) :
    ∃ c1 S1, deactivateStep c P.length = some c1 ∧ c1.elements = P ++ S1 ∧
      CacheInv c1 owned ∧
      ((e0.inactiveFrameCount + 2 ≤ DESCRIPTOR_SET_DEACTIVATE_FRAMES ∧
          S1 = { e0 with inactiveFrameCount := e0.inactiveFrameCount + 1 } :: S ∧
          c1.inactiveDescriptorSets = c.inactiveDescriptorSets) ∨
        (DESCRIPTOR_SET_DEACTIVATE_FRAMES < e0.inactiveFrameCount + 2 ∧ S1.Perm S ∧
          c1.inactiveDescriptorSets = c.inactiveDescriptorSets ++ [e0.descriptorSet])) := by
  have htab := hinv.table
  have hsmall : e0.inactiveFrameCount < DESCRIPTOR_SET_DEACTIVATE_FRAMES :=
    hinv.counters e0 (by rw [hel]; simp)
  have hcap : c.inactiveDescriptorSets.length < c.inactiveDescriptorSetCapacity := by
    have := hinv.total
    rw [hel] at this
    simp only [List.length_append, List.length_cons] at this
    omega
  by_cases hcount : e0.inactiveFrameCount + 2 ≤ DESCRIPTOR_SET_DEACTIVATE_FRAMES
  · refine ⟨_, _, deactivateStep_keep c P S e0 hel hcount, rfl, ?_, Or.inl ⟨hcount, rfl, rfl⟩⟩
    refine CacheInv_step c _ owned P S _ e0 hinv hel rfl ?_ rfl rfl rfl
      (Or.inl ⟨hcount, rfl, rfl⟩)
    show BucketsOk c.buckets _
    rw [hel] at htab
    simpa using htab
  · have hcount1 : DESCRIPTOR_SET_DEACTIVATE_FRAMES < e0.inactiveFrameCount + 2 :=
      Nat.lt_of_not_le hcount
    obtain ⟨arr, harr⟩ := bucket_defined c.buckets htab.1 e0.key
    rcases List.eq_nil_or_concat S with hS | ⟨S0, last, hS⟩
    · subst hS
      refine ⟨_, [], deactivateStep_evict_last c P e0 arr hel hcount1 hsmall harr hcap,
        (List.append_nil P).symm, ?_, Or.inr ⟨hcount1, List.Perm.refl _, rfl⟩⟩
      refine CacheInv_step c _ owned P [] [] e0 hinv hel (List.append_nil P).symm ?_ rfl rfl rfl
        (Or.inr ⟨List.Perm.refl _, rfl⟩)
      show BucketsOk (c.buckets.set _ _) (P.map _)
      rw [hel, List.map_append, List.map_singleton] at htab
      have := BucketsOk_remove_last c.buckets (P.map (fun e => e.key)) e0.key arr htab harr
      rw [List.length_map] at this
      exact this
    · rw [List.concat_eq_append] at hS
      subst hS
      have hlen1 : (c.buckets.set (e0.key % NUM_DESCRIPTOR_SET_HASH_BUCKETS)
          (removeIndexFromBucket arr P.length)).length = NUM_DESCRIPTOR_SET_HASH_BUCKETS := by
        rw [List.length_set]; exact htab.1
      obtain ⟨arr2, harr2⟩ := bucket_defined _ hlen1 last.key
      have hperm : (last :: S0).Perm (S0 ++ [last]) := (List.perm_append_singleton last S0).symm
      refine ⟨_, last :: S0,
        deactivateStep_evict_middle c P S0 e0 last arr arr2 hel hcount1 hsmall harr harr2 hcap,
        rfl, ?_, Or.inr ⟨hcount1, hperm, rfl⟩⟩
      refine CacheInv_step c _ owned P (S0 ++ [last]) (last :: S0) e0 hinv hel rfl ?_ rfl rfl rfl
        (Or.inr ⟨hperm, rfl⟩)
      show BucketsOk ((c.buckets.set _ _).set _ _) ((P ++ last :: S0).map _)
      have hkeys : (P ++ e0 :: (S0 ++ [last])).map (fun e => e.key) =
          (P ++ e0 :: S0).map (fun e => e.key) ++ [last.key] := by simp
      rw [hel, hkeys] at htab
      have hj : P.length < ((P ++ e0 :: S0).map (fun e => e.key)).length := by
        rw [List.length_map, List.length_append, List.length_cons]; omega
      have hk : ((P ++ e0 :: S0).map (fun e => e.key))[P.length]? = some e0.key := by
        rw [List.getElem?_map, getElem?_middle]; rfl
      have := BucketsOk_swap_remove c.buckets _ P.length e0.key last.key arr arr2 htab hj hk
        harr harr2
      have hl : ((P ++ e0 :: S0).map (fun e => e.key)).length = P.length + 1 + S0.length := by
        rw [List.length_map, List.length_append, List.length_cons]; omega
      have hs : ((P ++ e0 :: S0).map (fun e => e.key)).set P.length last.key =
          (P ++ last :: S0).map (fun e => e.key) := by
        rw [List.map_append, List.map_cons, List.map_append, List.map_cons]
        have := set_middle (P.map (fun e : SamplerDescriptorSetHashMap => e.key))
          (S0.map (fun e => e.key)) e0.key last.key
        rw [List.length_map] at this
        exact this
      rw [hl, hs] at this
      exact this

/-- The loop of the sweep over the prefix `P` of the element array: it is defined
and keeps the invariant; the elements of the prefix whose counter plus two is at most
the threshold stay, counted once more, the others leave for the inactive sets. -/
theorem deactivateFrom_spec (owned : List Nat) :
    ∀ (P T : List SamplerDescriptorSetHashMap) (c : SamplerDescriptorSetCache),
      CacheInv c owned → c.elements = P ++ T →
      ∃ c1, deactivateFrom c P.length = some c1 ∧ CacheInv c1 owned ∧
        c1.elements.Perm
          ((P.filter (fun e => decide (e.inactiveFrameCount + 2 ≤
              DESCRIPTOR_SET_DEACTIVATE_FRAMES))).map
            (fun e => { e with inactiveFrameCount := e.inactiveFrameCount + 1 }) ++ T) ∧
        c1.inactiveDescriptorSets.Perm
          (c.inactiveDescriptorSets ++
            (P.filter (fun e => decide (DESCRIPTOR_SET_DEACTIVATE_FRAMES <
              e.inactiveFrameCount + 2))).map (fun e => e.descriptorSet)) := by
  intro P
  induction P using List.reverseRecOn with
  | nil =>
    intro T c hinv hel
    refine ⟨c, rfl, hinv, ?_, ?_⟩
    · rw [hel]; exact List.Perm.refl _
    · simp
  | append_singleton P0 e0 ih =>
    intro T c hinv hel
    have hel0 : c.elements = P0 ++ e0 :: T := by rw [hel]; simp
    obtain ⟨c1, S1, hstep, hel1, hinv1, hcase⟩ := deactivateStep_spec c owned P0 T e0 hinv hel0
    obtain ⟨c2, hrest, hinv2, hp2, hi2⟩ := ih S1 c1 hinv1 hel1
    refine ⟨c2, ?_, hinv2, ?_, ?_⟩
    · rw [List.length_append, List.length_singleton]
      show (match deactivateStep c P0.length with
        | none => none
        | some c1 => deactivateFrom c1 P0.length) = some c2
      rw [hstep]
      exact hrest
    · rcases hcase with ⟨hc, hS1, _⟩ | ⟨hc, hS1, _⟩
      · refine hp2.trans ?_
        rw [hS1, List.filter_append, List.map_append]
        simp [hc]
      · refine hp2.trans ?_
        rw [List.filter_append, List.map_append]
        have hn : ¬ e0.inactiveFrameCount + 2 ≤ DESCRIPTOR_SET_DEACTIVATE_FRAMES := by omega
        simp only [List.filter_cons, List.filter_nil, hn, decide_False, Bool.false_eq_true,
          if_false, List.map_nil, List.append_nil]
        exact List.Perm.append_left _ hS1
    · rcases hcase with ⟨hc, _, hin⟩ | ⟨hc, _, hin⟩
      · refine hi2.trans ?_
        rw [hin, List.filter_append, List.map_append]
        have hn : ¬ DESCRIPTOR_SET_DEACTIVATE_FRAMES < e0.inactiveFrameCount + 2 := by omega
        simp [hn]
      · refine hi2.trans ?_
        rw [hin, List.filter_append, List.map_append]
        simp only [List.filter_cons, List.filter_nil, hc, decide_True, if_true, List.map_cons,
          List.map_nil]
        rw [List.perm_iff_count]
        intro a
        simp only [List.count_append, List.count_cons, List.count_nil]
        omega

/-- The sweep on a well-formed cache: it is defined and keeps the invariant; the
elements whose counter plus two is at most the threshold stay, counted once more, the
sets of the others join the inactive sets. -/
theorem DeactivateUnusedDescriptorSets_spec (c : SamplerDescriptorSetCache) (owned : List Nat)
    (hinv : CacheInv c owned) :
    ∃ c1, VULKAN_INTERNAL_DeactivateUnusedDescriptorSets c = some c1 ∧ CacheInv c1 owned ∧
      c1.elements.Perm
        ((c.elements.filter (fun e => decide (e.inactiveFrameCount + 2 ≤
            DESCRIPTOR_SET_DEACTIVATE_FRAMES))).map
          (fun e => { e with inactiveFrameCount := e.inactiveFrameCount + 1 })) ∧
      c1.inactiveDescriptorSets.Perm
        (c.inactiveDescriptorSets ++
          (c.elements.filter (fun e => decide (DESCRIPTOR_SET_DEACTIVATE_FRAMES <
            e.inactiveFrameCount + 2))).map (fun e => e.descriptorSet)) := by
  obtain ⟨c1, h1, h2, h3, h4⟩ := deactivateFrom_spec owned c.elements [] c hinv
    (List.append_nil _).symm
  rw [List.append_nil] at h3
  exact ⟨c1, h1, h2, h3, h4⟩

/-- In a well-formed cache no descriptor set is both in an element and inactive. -/
theorem CacheInv.resident_not_inactive {c : SamplerDescriptorSetCache} {owned : List Nat}
    (hinv : CacheInv c owned) (e : SamplerDescriptorSetHashMap) (he : e ∈ c.elements) :
    e.descriptorSet ∉ c.inactiveDescriptorSets := by
  have hnd : (c.elements.map (fun e => e.descriptorSet) ++ c.inactiveDescriptorSets).Nodup :=
    hinv.sets.nodup_iff.mpr hinv.owned_nodup
  intro hc
  exact (List.nodup_append.mp hnd).2.2 (List.mem_map_of_mem _ he) hc

/-- What a sweep does to one element of a well-formed cache. -/
theorem sweep_element (c : SamplerDescriptorSetCache) (owned : List Nat)
    (hinv : CacheInv c owned) :
    ∃ c1, VULKAN_INTERNAL_DeactivateUnusedDescriptorSets c = some c1 ∧ CacheInv c1 owned ∧
      (∀ e, e ∈ c.elements →
        (e.inactiveFrameCount + 2 ≤ DESCRIPTOR_SET_DEACTIVATE_FRAMES →
          { e with inactiveFrameCount := e.inactiveFrameCount + 1 } ∈ c1.elements) ∧
        (DESCRIPTOR_SET_DEACTIVATE_FRAMES < e.inactiveFrameCount + 2 →
          e.descriptorSet ∈ c1.inactiveDescriptorSets ∧
            ∀ e1, e1 ∈ c1.elements → e1.descriptorSet ≠ e.descriptorSet)) ∧
      (∀ e1, e1 ∈ c1.elements → ∃ e, e ∈ c.elements ∧
        e.inactiveFrameCount + 2 ≤ DESCRIPTOR_SET_DEACTIVATE_FRAMES ∧
        e1 = { e with inactiveFrameCount := e.inactiveFrameCount + 1 }) := by
  obtain ⟨c1, h1, h2, h3, h4⟩ := DeactivateUnusedDescriptorSets_spec c owned hinv
  refine ⟨c1, h1, h2, ?_, ?_⟩
  · intro e he
    constructor
    · intro hk
      rw [h3.mem_iff, List.mem_map]
      exact ⟨e, List.mem_filter.mpr ⟨he, decide_eq_true hk⟩, rfl⟩
    · intro hk
      have hin : e.descriptorSet ∈ c1.inactiveDescriptorSets := by
        rw [h4.mem_iff, List.mem_append, List.mem_map]
        exact Or.inr ⟨e, List.mem_filter.mpr ⟨he, decide_eq_true hk⟩, rfl⟩
      refine ⟨hin, ?_⟩
      intro e1 he1 heq
      exact h2.resident_not_inactive e1 he1 (heq ▸ hin)
  · intro e1 he1
    rw [h3.mem_iff, List.mem_map] at he1
    obtain ⟨e, hf, heq⟩ := he1
    obtain ⟨hm, hd⟩ := List.mem_filter.mp hf
    exact ⟨e, hm, of_decide_eq_true hd, heq.symm⟩

/-- Sweeps that leave an element below the threshold only count it. -/
theorem sweeps_count_element (owned : List Nat) :
    ∀ (k : Nat) (c : SamplerDescriptorSetCache) (e : SamplerDescriptorSetHashMap),
      CacheInv c owned → e ∈ c.elements →
      e.inactiveFrameCount + k < DESCRIPTOR_SET_DEACTIVATE_FRAMES →
      ∃ ck, deactivateTimes c k = some ck ∧ CacheInv ck owned ∧
        { e with inactiveFrameCount := e.inactiveFrameCount + k } ∈ ck.elements := by
  intro k
  induction k with
  | zero =>
    intro c e hinv he _
    exact ⟨c, rfl, hinv, he⟩
  | succ k ih =>
    intro c e hinv he hk
    obtain ⟨c1, h1, h2, h3, _⟩ := sweep_element c owned hinv
    have hm := (h3 e he).1 (by omega)
    obtain ⟨ck, hk1, hk2, hk3⟩ := ih c1 _ h2 hm (by show e.inactiveFrameCount + 1 + k < _; omega)
    refine ⟨ck, ?_, hk2, ?_⟩
    · show (match VULKAN_INTERNAL_DeactivateUnusedDescriptorSets c with
        | none => none
        | some c1 => deactivateTimes c1 k) = some ck
      rw [h1]
      exact hk1
    · have : e.inactiveFrameCount + (k + 1) = e.inactiveFrameCount + 1 + k := by omega
      rw [this]
      exact hk3

/-- An element with counter 0 stays in the array for nine sweeps and leaves it in
the tenth. -/
theorem sweeps_evict_element (c : SamplerDescriptorSetCache) (owned : List Nat)
    (e : SamplerDescriptorSetHashMap) (hinv : CacheInv c owned) (he : e ∈ c.elements)
    (h0 : e.inactiveFrameCount = 0) :
    (∀ k, k < DESCRIPTOR_SET_DEACTIVATE_FRAMES →
      ∃ ck, deactivateTimes c k = some ck ∧
        { e with inactiveFrameCount := k } ∈ ck.elements) ∧
    ∃ c10, deactivateTimes c DESCRIPTOR_SET_DEACTIVATE_FRAMES = some c10 ∧
      e.descriptorSet ∈ c10.inactiveDescriptorSets ∧
      ∀ e1, e1 ∈ c10.elements → e1.descriptorSet ≠ e.descriptorSet := by
  have h10 : DESCRIPTOR_SET_DEACTIVATE_FRAMES = 10 := rfl
  constructor
  · intro k hk
    obtain ⟨ck, h1, _, h3⟩ := sweeps_count_element owned k c e hinv he (by omega)
    rw [h0, Nat.zero_add] at h3
    exact ⟨ck, h1, h3⟩
  · obtain ⟨c9, h1, h2, h3⟩ := sweeps_count_element owned 9 c e hinv he (by omega)
    obtain ⟨c10, g1, _, g3, _⟩ := sweep_element c9 owned h2
    have := (g3 _ h3).2 (by show DESCRIPTOR_SET_DEACTIVATE_FRAMES < e.inactiveFrameCount + 9 + 2; omega)
    refine ⟨c10, ?_, this⟩
    have hadd := deactivateTimes_add c 9 1 c9 h1
    rw [h10]
    show deactivateTimes c (9 + 1) = some c10
    rw [hadd]
    show (match VULKAN_INTERNAL_DeactivateUnusedDescriptorSets c9 with
      | none => none
      | some c1 => deactivateTimes c1 0) = some c10
    rw [g1]
    rfl

/-- The growth of the inactive sets on a well-formed cache without inactive sets. -/
theorem growInactiveDescriptorSets_spec (c : SamplerDescriptorSetCache) (owned : List Nat)
    (newPool : Nat) (sets : List Nat) (hinv : CacheInv c owned)
    (hempty : c.inactiveDescriptorSets = [])
    (hbound : c.inactiveDescriptorSetCapacity + c.nextPoolSize ≤ INT32_MAX)
    (hlen : sets.length = c.nextPoolSize) (hnd : sets.Nodup)
    (hfresh : ∀ x, x ∈ sets → x ∉ owned) :
    ∃ c0, growInactiveDescriptorSets c newPool (some sets) = some c0 ∧
      CacheInv c0 (owned ++ sets) ∧ c0.inactiveDescriptorSets = sets ∧
      c0.elements = c.elements ∧ c0.buckets = c.buckets ∧
      c0.samplerBindingCount = c.samplerBindingCount ∧
      c0.samplerDescriptorPools = c.samplerDescriptorPools ++ [newPool] := by
  have h31 : INT32_MAX = 2147483647 := rfl
  have h32 : UINT32_MOD = 4294967296 := rfl
  have h128 : SAMPLER_POOL_STARTING_SIZE = 128 := rfl
  have hpool := hinv.pool
  have htotal := hinv.total
  rw [hempty, List.length_nil, Nat.add_zero] at htotal
  have hm1 : (c.inactiveDescriptorSetCapacity + c.nextPoolSize) % UINT32_MOD =
      c.inactiveDescriptorSetCapacity + c.nextPoolSize := by
    rw [h32]; omega
  have hm2 : (c.nextPoolSize * 2) % UINT32_MOD = c.nextPoolSize * 2 := by
    rw [h32]; omega
  have hgrow : growInactiveDescriptorSets c newPool (some sets) =
      some { c with
        samplerDescriptorPools := c.samplerDescriptorPools ++ [newPool]
        inactiveDescriptorSetCapacity :=
          (c.inactiveDescriptorSetCapacity + c.nextPoolSize) % UINT32_MOD
        inactiveDescriptorSets := sets
        nextPoolSize := (c.nextPoolSize * 2) % UINT32_MOD } := by
    unfold growInactiveDescriptorSets
    simp only [hlen, if_true]
  refine ⟨_, hgrow, ?_, rfl, rfl, rfl, rfl, rfl⟩
  refine ⟨hinv.table, ?_, ?_, ?_, ?_, ?_, hinv.counters, hinv.data⟩
  · show (c.elements.map (fun e => e.descriptorSet) ++ sets).Perm (owned ++ sets)
    have := hinv.sets
    rw [hempty, List.append_nil] at this
    exact List.Perm.append_right sets this
  · refine List.nodup_append.mpr ⟨hinv.owned_nodup, hnd, ?_⟩
    intro x hx hx1
    exact hfresh x hx1 hx
  · show c.elements.length + sets.length =
      (c.inactiveDescriptorSetCapacity + c.nextPoolSize) % UINT32_MOD
    rw [hm1, hlen, htotal]
  · show (c.nextPoolSize * 2) % UINT32_MOD =
      (c.inactiveDescriptorSetCapacity + c.nextPoolSize) % UINT32_MOD +
        SAMPLER_POOL_STARTING_SIZE
    rw [hm1, hm2]
    omega
  · show (c.inactiveDescriptorSetCapacity + c.nextPoolSize) % UINT32_MOD ≤ INT32_MAX
    rw [hm1]
    exact hbound

/-- The pop of a miss on a well-formed cache that has an inactive set. -/
theorem popInactive_spec (c : SamplerDescriptorSetCache) (owned : List Nat)
    (data : SamplerDescriptorSetData) (hashcode : Nat) (hinv : CacheInv c owned)
    (hdata : c.samplerBindingCount ≤ data.descriptorImageInfo.length)
    (hne : c.inactiveDescriptorSets ≠ []) :
    ∃ c1 top arr, c.inactiveDescriptorSets.getLast? = some top ∧
      c.buckets[hashcode % NUM_DESCRIPTOR_SET_HASH_BUCKETS]? = some arr ∧
      c1 = { c with
        inactiveDescriptorSets := c.inactiveDescriptorSets.dropLast
        buckets := c.buckets.set (hashcode % NUM_DESCRIPTOR_SET_HASH_BUCKETS)
          (hashArrayAppend arr 2 c.elements.length)
        capacity := if c.elements.length = c.capacity then c.capacity * 2 else c.capacity
        elements := c.elements ++
          [{ key := hashcode,
             descriptorSetData :=
              { descriptorImageInfo := data.descriptorImageInfo.take c.samplerBindingCount },
             descriptorSet := top,
             inactiveFrameCount := 0 }] } ∧
      CacheInv c1 owned := by
  obtain ⟨arr, harr⟩ := bucket_defined c.buckets hinv.table.1 hashcode
  rcases List.eq_nil_or_concat c.inactiveDescriptorSets with h | ⟨rest, top, h⟩
  · exact absurd h hne
  · rw [List.concat_eq_append] at h
    have hlast : c.inactiveDescriptorSets.getLast? = some top := by
      rw [h, List.getLast?_concat]
    have hdrop : c.inactiveDescriptorSets.dropLast = rest := by
      rw [h, List.dropLast_concat]
    refine ⟨_, top, arr, hlast, harr, rfl, ?_⟩
    have hsets := hinv.sets
    have htotal := hinv.total
    rw [h] at hsets htotal
    refine ⟨?_, ?_, hinv.owned_nodup, ?_, hinv.pool, hinv.bound, ?_, ?_⟩
    · show BucketsOk (c.buckets.set _ _) ((c.elements ++ [_]).map _)
      rw [List.map_append, List.map_singleton]
      have := BucketsOk_append c.buckets (c.elements.map (fun e => e.key)) hashcode 2 arr
        hinv.table harr
      rw [List.length_map] at this
      exact this
    · show ((c.elements ++ [_]).map _ ++ c.inactiveDescriptorSets.dropLast).Perm owned
      rw [hdrop]
      refine List.Perm.trans ?_ hsets
      rw [List.perm_iff_count]
      intro a
      simp only [List.map_append, List.map_cons, List.map_nil, List.count_append,
        List.count_cons, List.count_nil]
      omega
    · show (c.elements ++ [_]).length + c.inactiveDescriptorSets.dropLast.length = _
      rw [hdrop, ← htotal]
      simp only [List.length_append, List.length_singleton]
      omega
    · intro e he
      rcases List.mem_append.mp he with h1 | h1
      · exact hinv.counters e h1
      · rw [List.mem_singleton] at h1
        subst h1
        show 0 < DESCRIPTOR_SET_DEACTIVATE_FRAMES
        decide
    · intro e he
      rcases List.mem_append.mp he with h1 | h1
      · exact hinv.data e h1
      · rw [List.mem_singleton] at h1
        subst h1
        show c.samplerBindingCount ≤ (data.descriptorImageInfo.take c.samplerBindingCount).length
        rw [List.length_take]
        omega

/-- The miss path on a well-formed cache: it is defined, the pop reads an inactive
set that exists, and the invariant holds afterwards for the sets then owned. -/
theorem fetchSamplerDescriptorSetMiss_spec (c : SamplerDescriptorSetCache) (owned : List Nat)
    (data : SamplerDescriptorSetData) (hashcode newPool : Nat) (newSets : Option (List Nat))
    (hinv : CacheInv c owned)
    (hdata : c.samplerBindingCount ≤ data.descriptorImageInfo.length)
    (hbound : c.inactiveDescriptorSetCapacity + c.nextPoolSize ≤ INT32_MAX)
    (hsets : c.inactiveDescriptorSets = [] → ∃ sets, newSets = some sets ∧
      sets.length = c.nextPoolSize ∧ sets.Nodup ∧ ∀ x, x ∈ sets → x ∉ owned) :
    ∃ c1 top writes,
      fetchSamplerDescriptorSetMiss c data hashcode newPool newSets = some (c1, top, writes) ∧
      CacheInv c1 (ownedAfterFetch c c1 owned newSets) ∧
      c1.elements.length = c.elements.length + 1 := by
  by_cases hempty : c.inactiveDescriptorSets = []
  · obtain ⟨sets, hs, hlen, hnd, hfresh⟩ := hsets hempty
    subst hs
    obtain ⟨c0, hgrow, hinv0, hin0, hel0, hb0, hn0, hp0⟩ :=
      growInactiveDescriptorSets_spec c owned newPool sets hinv hempty hbound hlen hnd hfresh
    have hne0 : c0.inactiveDescriptorSets ≠ [] := by
      rw [hin0]
      intro hc
      have h128 : SAMPLER_POOL_STARTING_SIZE = 128 := rfl
      have := hinv.pool
      rw [hc, List.length_nil] at hlen
      omega
    obtain ⟨c1, top, arr, hlast, harr, hc1, hinv1⟩ :=
      popInactive_spec c0 (owned ++ sets) data hashcode hinv0 (by rw [hn0]; exact hdata) hne0
    have hpools : c1.samplerDescriptorPools.length ≠ c.samplerDescriptorPools.length := by
      rw [hc1]
      show c0.samplerDescriptorPools.length ≠ _
      rw [hp0, List.length_append, List.length_singleton]
      omega
    refine ⟨c1, top, samplerDescriptorWrites data c0.samplerBindingCount top, ?_, ?_, ?_⟩
    · unfold fetchSamplerDescriptorSetMiss
      rw [if_pos (by rw [hempty]; rfl), hgrow]
      simp only [hlast, harr]
      rw [hc1]
    · unfold ownedAfterFetch
      rw [if_neg hpools]
      exact hinv1
    · rw [hc1]
      show (c0.elements ++ [_]).length = _
      rw [hel0, List.length_append, List.length_singleton]
  · obtain ⟨c1, top, arr, hlast, harr, hc1, hinv1⟩ :=
      popInactive_spec c owned data hashcode hinv hdata hempty
    have hpools : c1.samplerDescriptorPools.length = c.samplerDescriptorPools.length := by
      rw [hc1]
    refine ⟨c1, top, samplerDescriptorWrites data c.samplerBindingCount top, ?_, ?_, ?_⟩
    · unfold fetchSamplerDescriptorSetMiss
      rw [if_neg (by
        intro hc
        exact hempty (List.length_eq_zero.mp hc))]
      simp only [hlast, harr]
      rw [hc1]
    · unfold ownedAfterFetch
      rw [if_pos hpools]
      exact hinv1
    · rw [hc1]
      show (c.elements ++ [_]).length = _
      rw [List.length_append, List.length_singleton]

/-- The hit path on a well-formed cache keeps the invariant. -/
theorem fetchSamplerDescriptorSetHit_spec (c : SamplerDescriptorSetCache) (owned : List Nat)
    (j : Nat) (e : SamplerDescriptorSetHashMap) (newSets : Option (List Nat))
    (hinv : CacheInv c owned) (he : c.elements[j]? = some e) :
    ∃ c1, fetchSamplerDescriptorSetHit c j = some (c1, e.descriptorSet, []) ∧
      CacheInv c1 (ownedAfterFetch c c1 owned newSets) ∧
      c1.elements = c.elements.set j { e with inactiveFrameCount := 0 } := by
  have hj : j < c.elements.length := (List.getElem?_eq_some_iff.mp he).1
  have hkeys : (c.elements.set j { e with inactiveFrameCount := 0 }).map (fun e => e.key) =
      c.elements.map (fun e => e.key) := by
    apply List.ext_getElem?
    intro k
    rw [List.getElem?_map, List.getElem?_map]
    by_cases hk : j = k
    · subst hk
      rw [List.getElem?_set_self hj, he]
      rfl
    · rw [List.getElem?_set_ne hk]
  have hsetsm : (c.elements.set j { e with inactiveFrameCount := 0 }).map
      (fun e => e.descriptorSet) = c.elements.map (fun e => e.descriptorSet) := by
    apply List.ext_getElem?
    intro k
    rw [List.getElem?_map, List.getElem?_map]
    by_cases hk : j = k
    · subst hk
      rw [List.getElem?_set_self hj, he]
      rfl
    · rw [List.getElem?_set_ne hk]
  refine ⟨_, by unfold fetchSamplerDescriptorSetHit; rw [he], ?_, rfl⟩
  unfold ownedAfterFetch
  rw [if_pos rfl]
  refine ⟨?_, ?_, hinv.owned_nodup, ?_, hinv.pool, hinv.bound, ?_, ?_⟩
  · show BucketsOk c.buckets ((c.elements.set _ _).map _)
    rw [hkeys]
    exact hinv.table
  · show ((c.elements.set _ _).map _ ++ c.inactiveDescriptorSets).Perm owned
    rw [hsetsm]
    exact hinv.sets
  · show (c.elements.set _ _).length + _ = _
    rw [List.length_set]
    exact hinv.total
  · intro e1 he1
    rcases List.mem_or_eq_of_mem_set he1 with h | h
    · exact hinv.counters e1 h
    · subst h
      show 0 < DESCRIPTOR_SET_DEACTIVATE_FRAMES
      decide
  · intro e1 he1
    rcases List.mem_or_eq_of_mem_set he1 with h | h
    · exact hinv.data e1 h
    · subst h
      exact hinv.data e (List.getElem?_mem he)

theorem dataEqualFrom_defined (a b : SamplerDescriptorSetData) :
    ∀ (m i : Nat), i + m ≤ a.descriptorImageInfo.length →
      i + m ≤ b.descriptorImageInfo.length → ∃ r, dataEqualFrom a b m i = some r := by
  intro m
  induction m with
  | zero => intro i _ _; exact ⟨true, rfl⟩
  | succ m ih =>
    intro i ha hb
    have e1 : a.descriptorImageInfo[i]? = some a.descriptorImageInfo[i] :=
      List.getElem?_eq_getElem (by omega)
    have e2 : b.descriptorImageInfo[i]? = some b.descriptorImageInfo[i] :=
      List.getElem?_eq_getElem (by omega)
    unfold dataEqualFrom
    rw [e1, e2]
    simp only
    split
    · exact ⟨false, rfl⟩
    · exact ih (i + 1) (by omega) (by omega)

/-- The search loop is defined on a bucket of a well-formed cache. -/
theorem findDescriptorSet_defined (c : SamplerDescriptorSetCache) (data : SamplerDescriptorSetData)
    (hdata : c.samplerBindingCount ≤ data.descriptorImageInfo.length) :
    ∀ l : List Nat,
      (∀ j, j ∈ l → ∃ e, c.elements[j]? = some e ∧
        c.samplerBindingCount ≤ e.descriptorSetData.descriptorImageInfo.length) →
      ∃ r, findDescriptorSet c data l = some r := by
  intro l
  induction l with
  | nil => intro _; exact ⟨none, rfl⟩
  | cons j rest ih =>
    intro h
    obtain ⟨e, he, hlen⟩ := h j (List.mem_cons_self _ _)
    have hmod : c.samplerBindingCount % UINT8_MOD ≤ c.samplerBindingCount := Nat.mod_le _ _
    obtain ⟨r, hr⟩ := dataEqualFrom_defined data e.descriptorSetData
      (c.samplerBindingCount % UINT8_MOD) 0 (by omega) (by omega)
    unfold findDescriptorSet
    rw [he]
    simp only [SamplerDescriptorSetDataEqual, hr]
    cases r with
    | true => exact ⟨_, rfl⟩
    | false => exact ih (fun j hj => h j (List.mem_cons_of_mem _ hj))

/-- The fetch on a well-formed cache is defined when the caller hands at least
`samplerBindingCount` tuples and the driver, if asked, allocates `nextPoolSize` new
sets; the invariant holds afterwards for the sets then owned. -/
theorem FetchSamplerDescriptorSet_spec (c : SamplerDescriptorSetCache) (owned : List Nat)
    (data : SamplerDescriptorSetData) (newPool : Nat) (newSets : Option (List Nat))
    (hinv : CacheInv c owned)
    (hdata : c.samplerBindingCount ≤ data.descriptorImageInfo.length)
    (hbound : c.inactiveDescriptorSetCapacity + c.nextPoolSize ≤ INT32_MAX)
    (hsets : c.inactiveDescriptorSets = [] → ∃ sets, newSets = some sets ∧
      sets.length = c.nextPoolSize ∧ sets.Nodup ∧ ∀ x, x ∈ sets → x ∉ owned) :
    ∃ c1 set writes,
      VULKAN_INTERNAL_FetchSamplerDescriptorSet c data newPool newSets =
        some (c1, set, writes) ∧
      CacheInv c1 (ownedAfterFetch c c1 owned newSets) := by
  obtain ⟨hashcode, hh⟩ := hashCodeFrom_some data c.samplerBindingCount 0 1 (by omega)
  obtain ⟨arr, harr⟩ := bucket_defined c.buckets hinv.table.1 hashcode
  obtain ⟨r, hr⟩ := findDescriptorSet_defined c data hdata arr.elements (by
    intro j hj
    obtain ⟨k, hk, _⟩ := ((hinv.table.2 _ arr harr).2 j).mp hj
    rw [List.getElem?_map] at hk
    cases he : c.elements[j]? with
    | none => rw [he] at hk; cases hk
    | some e => exact ⟨e, rfl, hinv.data e (List.getElem?_mem he)⟩)
  cases r with
  | some j =>
    obtain ⟨e, he⟩ := findDescriptorSet_some c data arr.elements j hr
    obtain ⟨c1, h1, h2, _⟩ := fetchSamplerDescriptorSetHit_spec c owned j e newSets hinv he
    refine ⟨c1, e.descriptorSet, [], ?_, h2⟩
    unfold VULKAN_INTERNAL_FetchSamplerDescriptorSet SamplerDescriptorSetHashTable_GetHashCode
    rw [hh]
    simp only [harr, hr]
    exact h1
  | none =>
    obtain ⟨c1, top, writes, h1, h2, _⟩ := fetchSamplerDescriptorSetMiss_spec c owned data
      hashcode newPool newSets hinv hdata hbound hsets
    refine ⟨c1, top, writes, ?_, h2⟩
    unfold VULKAN_INTERNAL_FetchSamplerDescriptorSet SamplerDescriptorSetHashTable_GetHashCode
    rw [hh]
    simp only [harr, hr]
    exact h1

/-- A fetch that returned keeps the invariant, when the sets the driver allocated
are new. -/
theorem FetchSamplerDescriptorSet_inv (c c1 : SamplerDescriptorSetCache) (owned : List Nat)
    (data : SamplerDescriptorSetData) (newPool : Nat) (newSets : Option (List Nat))
    (set : Nat) (writes : List VkWriteDescriptorSet)
    (hinv : CacheInv c owned)
    (hbound : c.inactiveDescriptorSetCapacity + c.nextPoolSize ≤ INT32_MAX)
    (hfresh : ∀ sets, newSets = some sets → sets.Nodup ∧ ∀ x, x ∈ sets → x ∉ owned)
    (h : VULKAN_INTERNAL_FetchSamplerDescriptorSet c data newPool newSets =
      some (c1, set, writes)) :
    CacheInv c1 (ownedAfterFetch c c1 owned newSets) := by
  have hdata : c.samplerBindingCount ≤ data.descriptorImageInfo.length := by
    cases hh : SamplerDescriptorSetHashTable_GetHashCode data c.samplerBindingCount with
    | none =>
      unfold VULKAN_INTERNAL_FetchSamplerDescriptorSet at h
      rw [hh] at h
      cases h
    | some hashcode =>
      by_contra hc
      have := hashCodeFrom_len data c.samplerBindingCount 0 1 hashcode hh
        (c.samplerBindingCount - 1) (by omega)
      omega
  cases hh : SamplerDescriptorSetHashTable_GetHashCode data c.samplerBindingCount with
  | none =>
    unfold VULKAN_INTERNAL_FetchSamplerDescriptorSet at h
    rw [hh] at h
    cases h
  | some hashcode =>
    obtain ⟨arr, harr⟩ := bucket_defined c.buckets hinv.table.1 hashcode
    unfold VULKAN_INTERNAL_FetchSamplerDescriptorSet at h
    rw [hh] at h
    simp only [harr] at h
    cases hr : findDescriptorSet c data arr.elements with
    | none =>
      rw [hr] at h
      cases h
    | some r =>
      rw [hr] at h
      cases r with
      | some j =>
        simp only at h
        obtain ⟨e, he⟩ := findDescriptorSet_some c data arr.elements j hr
        obtain ⟨c2, h1, h2, _⟩ := fetchSamplerDescriptorSetHit_spec c owned j e newSets hinv he
        rw [h] at h1
        simp only [Option.some.injEq, Prod.mk.injEq] at h1
        rw [h1.1]
        exact h2
      | none =>
        simp only at h
        have hsets : c.inactiveDescriptorSets = [] → ∃ sets, newSets = some sets ∧
            sets.length = c.nextPoolSize ∧ sets.Nodup ∧ ∀ x, x ∈ sets → x ∉ owned := by
          intro hempty
          unfold fetchSamplerDescriptorSetMiss at h
          rw [if_pos (by rw [hempty]; rfl)] at h
          cases hs : newSets with
          | none =>
            rw [hs] at h
            simp only [growInactiveDescriptorSets] at h
            cases h
          | some sets =>
            by_cases hlen : sets.length = c.nextPoolSize
            · exact ⟨sets, rfl, hlen, (hfresh sets hs).1, (hfresh sets hs).2⟩
            · rw [hs] at h
              simp only [growInactiveDescriptorSets, hlen, if_false] at h
              cases h
        obtain ⟨c2, top, writes2, h1, h2, _⟩ := fetchSamplerDescriptorSetMiss_spec c owned data
          hashcode newPool newSets hinv hdata hbound hsets
        rw [h] at h1
        simp only [Option.some.injEq, Prod.mk.injEq] at h1
        rw [h1.1]
        exact h2

theorem created_cache_inv (descriptorSetLayout samplerBindingCount newPool : Nat)
    (newSets : List Nat) (hlen : newSets.length = SAMPLER_POOL_STARTING_SIZE)
    (hnd : newSets.Nodup) :
    CacheInv (VULKAN_INTERNAL_CreateSamplerDescriptorSetCache descriptorSetLayout
      samplerBindingCount newPool newSets) newSets := by
  refine ⟨BucketsOk_created, List.Perm.refl _, hnd, ?_, ?_, ?_, ?_, ?_⟩
  · show 0 + newSets.length = SAMPLER_POOL_STARTING_SIZE
    rw [hlen, Nat.zero_add]
  · rfl
  · show SAMPLER_POOL_STARTING_SIZE ≤ INT32_MAX
    decide
  · intro e he
    exact absurd he (List.not_mem_nil e)
  · intro e he
    exact absurd he (List.not_mem_nil e)

/-- Every reachable cache state is well-formed. -/
theorem reachable_cache_inv (c : SamplerDescriptorSetCache) (owned : List Nat)
    (h : CacheReachable c owned) : CacheInv c owned := by
  induction h with
  | created l n p s hlen hnd => exact created_cache_inv l n p s hlen hnd
  | fetched c c1 owned data newPool newSets set writes _ hbound hfresh h ih =>
    exact FetchSamplerDescriptorSet_inv c c1 owned data newPool newSets set writes ih hbound
      hfresh h
  | swept c c1 owned _ h ih =>
    obtain ⟨c2, h1, h2, _⟩ := DeactivateUnusedDescriptorSets_spec c owned ih
    rw [h] at h1
    cases h1
    exact h2

/-- In a well-formed cache an owned set is resident or inactive, never both. -/
theorem CacheInv.resident_or_inactive {c : SamplerDescriptorSetCache} {owned : List Nat}
    (hinv : CacheInv c owned) (d : Nat) (hd : d ∈ owned) :
    (SetResident c d ∧ d ∉ c.inactiveDescriptorSets) ∨
      (d ∈ c.inactiveDescriptorSets ∧ ∀ e, e ∈ c.elements → e.descriptorSet ≠ d) := by
  have hnd : (c.elements.map (fun e => e.descriptorSet) ++ c.inactiveDescriptorSets).Nodup :=
    hinv.sets.nodup_iff.mpr hinv.owned_nodup
  have hnd1 := (List.nodup_append.mp hnd).1
  rcases List.mem_append.mp (hinv.sets.mem_iff.mpr hd) with hm | hm
  · left
    obtain ⟨e, he, hed⟩ := List.mem_map.mp hm
    obtain ⟨i, hi⟩ := List.getElem?_of_mem he
    have hkey : KeyAt (c.elements.map (fun e => e.key)) i
        (e.key % NUM_DESCRIPTOR_SET_HASH_BUCKETS) := by
      refine ⟨e.key, ?_, rfl⟩
      rw [List.getElem?_map, hi]
      rfl
    obtain ⟨arr, harr⟩ := bucket_defined c.buckets hinv.table.1 e.key
    refine ⟨⟨i, e, hi, hed, ?_, ⟨arr, harr, ?_⟩, ?_⟩, ?_⟩
    · intro j e2 hj hd2
      have h1 : (c.elements.map (fun e => e.descriptorSet))[j]? = some d := by
        rw [List.getElem?_map, hj]
        exact congrArg some hd2
      have h2 : (c.elements.map (fun e => e.descriptorSet))[i]? = some d := by
        rw [List.getElem?_map, hi]
        exact congrArg some hed
      have hlt1 := (List.getElem?_eq_some_iff.mp h1).1
      have hlt2 := (List.getElem?_eq_some_iff.mp h2).1
      have hne := List.nodup_iff_getElem?_ne_getElem?.mp hnd1
      rcases Nat.lt_trichotomy j i with hlt | heq | hgt
      · exact absurd (h1.trans h2.symm) (hne j i hlt hlt2)
      · exact heq
      · exact absurd (h2.trans h1.symm) (hne i j hgt hlt1)
    · obtain ⟨hn, hmem⟩ := hinv.table.2 _ arr harr
      exact List.count_eq_one_of_mem hn ((hmem i).mpr hkey)
    · intro b arr1 harr1 hin
      exact keyAt_unique (((hinv.table.2 b arr1 harr1).2 i).mp hin) hkey
    · intro hc
      exact (List.nodup_append.mp hnd).2.2 hm hc
  · right
    refine ⟨hm, ?_⟩
    intro e he heq
    exact hinv.resident_not_inactive e he (heq ▸ hm)

/-- The miss path is defined on a well-formed cache when the driver, if asked,
allocates `nextPoolSize` sets: the pop finds an inactive set. -/
theorem fetchSamplerDescriptorSetMiss_defined (c : SamplerDescriptorSetCache)
    (owned : List Nat) (data : SamplerDescriptorSetData) (hashcode newPool : Nat)
    (newSets : Option (List Nat)) (hinv : CacheInv c owned)
    (hsets : c.inactiveDescriptorSets = [] → ∃ sets, newSets = some sets ∧
      sets.length = c.nextPoolSize) :
    ∃ r, fetchSamplerDescriptorSetMiss c data hashcode newPool newSets = some r := by
  obtain ⟨arr, harr⟩ := bucket_defined c.buckets hinv.table.1 hashcode
  by_cases hempty : c.inactiveDescriptorSets = []
  · obtain ⟨sets, hs, hlen⟩ := hsets hempty
    subst hs
    have hne : sets ≠ [] := by
      intro hc
      have h128 : SAMPLER_POOL_STARTING_SIZE = 128 := rfl
      have := hinv.pool
      rw [hc, List.length_nil] at hlen
      omega
    obtain ⟨rest, top, hrt⟩ : ∃ rest top, sets = rest ++ [top] := by
      rcases List.eq_nil_or_concat sets with h | ⟨rest, top, h⟩
      · exact absurd h hne
      · exact ⟨rest, top, by rw [h, List.concat_eq_append]⟩
    unfold fetchSamplerDescriptorSetMiss
    rw [if_pos (by rw [hempty]; rfl)]
    simp only [growInactiveDescriptorSets, hlen, if_true, harr]
    rw [hrt, List.getLast?_concat]
    exact ⟨_, rfl⟩
  · obtain ⟨rest, top, hrt⟩ : ∃ rest top, c.inactiveDescriptorSets = rest ++ [top] := by
      rcases List.eq_nil_or_concat c.inactiveDescriptorSets with h | ⟨rest, top, h⟩
      · exact absurd h hempty
      · exact ⟨rest, top, by rw [h, List.concat_eq_append]⟩
    unfold fetchSamplerDescriptorSetMiss
    rw [if_neg (by
      intro hc
      exact hempty (List.length_eq_zero.mp hc))]
    simp only [harr]
    rw [hrt, List.getLast?_concat]
    exact ⟨_, rfl⟩

/-- The fetch is defined on a well-formed cache when the caller hands at least
`samplerBindingCount` tuples and the driver, if asked, allocates `nextPoolSize`
sets. -/
theorem FetchSamplerDescriptorSet_defined (c : SamplerDescriptorSetCache) (owned : List Nat)
    (data : SamplerDescriptorSetData) (newPool : Nat) (newSets : Option (List Nat))
    (hinv : CacheInv c owned)
    (hdata : c.samplerBindingCount ≤ data.descriptorImageInfo.length)
    (hsets : c.inactiveDescriptorSets = [] → ∃ sets, newSets = some sets ∧
      sets.length = c.nextPoolSize) :
    ∃ r, VULKAN_INTERNAL_FetchSamplerDescriptorSet c data newPool newSets = some r := by
  obtain ⟨hashcode, hh⟩ := hashCodeFrom_some data c.samplerBindingCount 0 1 (by omega)
  obtain ⟨arr, harr⟩ := bucket_defined c.buckets hinv.table.1 hashcode
  obtain ⟨r, hr⟩ := findDescriptorSet_defined c data hdata arr.elements (by
    intro j hj
    obtain ⟨k, hk, _⟩ := ((hinv.table.2 _ arr harr).2 j).mp hj
    rw [List.getElem?_map] at hk
    cases he : c.elements[j]? with
    | none => rw [he] at hk; cases hk
    | some e => exact ⟨e, rfl, hinv.data e (List.getElem?_mem he)⟩)
  unfold VULKAN_INTERNAL_FetchSamplerDescriptorSet SamplerDescriptorSetHashTable_GetHashCode
  rw [hh]
  simp only [harr, hr]
  cases r with
  | some j =>
    obtain ⟨e, he⟩ := findDescriptorSet_some c data arr.elements j hr
    simp only [fetchSamplerDescriptorSetHit, he]
    exact ⟨_, rfl⟩
  | none =>
    exact fetchSamplerDescriptorSetMiss_defined c owned data hashcode newPool newSets hinv hsets

set_option maxRecDepth 100000 in
/-- The cache of the sample after its first fetch is reachable. -/
theorem sample_cache_reachable :
    CacheReachable sampleFetched.1
      (ownedAfterFetch sampleCache sampleFetched.1 sampleSets none) :=
  CacheReachable.fetched sampleCache sampleFetched.1 sampleSets sampleData 61 none 1127
    sampleFetched.2.2
    (CacheReachable.created 50 1 60 sampleSets (by decide) (by decide))
    (by decide) (fun sets h => by cases h) (by decide)

/-- C21 (as amended). On every reachable cache state the sweep
`VULKAN_INTERNAL_DeactivateUnusedDescriptorSets` returns and counts every resident
element once more; it evicts an element exactly when its counter, after the
increment, plus one exceeds `DESCRIPTOR_SET_DEACTIVATE_FRAMES` = 10, that is when the
counter reaches 10: the set of an evicted element is inactive afterwards and no
element holds it, every other element stays with its counter incremented, and no
other element appears.  So an element with counter 0 is still resident, with counter
`k`, after `k` consecutive sweeps for every `k` up to 9, and the 10th sweep evicts
it. -/
theorem sweep_counts_and_evicts_at_threshold (c : SamplerDescriptorSetCache)
    (owned : List Nat) (h : CacheReachable c owned) :
    (∃ c1, VULKAN_INTERNAL_DeactivateUnusedDescriptorSets c = some c1 ∧
      (∀ e, e ∈ c.elements →
        (DESCRIPTOR_SET_DEACTIVATE_FRAMES < (e.inactiveFrameCount + 1) + 1 →
          e.descriptorSet ∈ c1.inactiveDescriptorSets ∧
            ∀ e1, e1 ∈ c1.elements → e1.descriptorSet ≠ e.descriptorSet) ∧
        (¬ DESCRIPTOR_SET_DEACTIVATE_FRAMES < (e.inactiveFrameCount + 1) + 1 →
          { e with inactiveFrameCount := e.inactiveFrameCount + 1 } ∈ c1.elements)) ∧
      (∀ e1, e1 ∈ c1.elements → ∃ e, e ∈ c.elements ∧
        e1 = { e with inactiveFrameCount := e.inactiveFrameCount + 1 })) ∧
    (∀ e, e ∈ c.elements → e.inactiveFrameCount = 0 →
      (∀ k, k < DESCRIPTOR_SET_DEACTIVATE_FRAMES →
        ∃ ck, deactivateTimes c k = some ck ∧
          { e with inactiveFrameCount := k } ∈ ck.elements) ∧
      ∃ c10, deactivateTimes c DESCRIPTOR_SET_DEACTIVATE_FRAMES = some c10 ∧
        e.descriptorSet ∈ c10.inactiveDescriptorSets ∧
        ∀ e1, e1 ∈ c10.elements → e1.descriptorSet ≠ e.descriptorSet) := by
  have hinv := reachable_cache_inv c owned h
  constructor
  · obtain ⟨c1, h1, _, h3, h4⟩ := sweep_element c owned hinv
    refine ⟨c1, h1, ?_, ?_⟩
    · intro e he
      constructor
      · intro hk
        exact (h3 e he).2 hk
      · intro hk
        exact (h3 e he).1 (by omega)
    · intro e1 he1
      obtain ⟨e, hm, _, heq⟩ := h4 e1 he1
      exact ⟨e, hm, heq⟩
  · intro e he h0
    exact sweeps_evict_element c owned e hinv he h0

set_option maxRecDepth 100000 in
/-- The amended statement at the cache of the sample after its first fetch: its one
element holds the set 1127 with counter 0. -/
theorem sweep_counts_and_evicts_at_threshold_witness :
    CacheReachable sampleFetched.1
      (ownedAfterFetch sampleCache sampleFetched.1 sampleSets none) ∧
    sampleFetched.1.elements.map (fun e => (e.descriptorSet, e.inactiveFrameCount)) =
      [(1127, 0)] ∧
    ∃ c10, deactivateTimes sampleFetched.1 DESCRIPTOR_SET_DEACTIVATE_FRAMES = some c10 ∧
      1127 ∈ c10.inactiveDescriptorSets ∧
      ∀ e1, e1 ∈ c10.elements → e1.descriptorSet ≠ 1127 := by
  refine ⟨sample_cache_reachable, by decide, ?_⟩
  have hel : sampleFetched.1.elements =
      [{ key := 9705, descriptorSetData := { descriptorImageInfo := sampleData.descriptorImageInfo },
         descriptorSet := 1127, inactiveFrameCount := 0 }] := by decide
  exact ((sweep_counts_and_evicts_at_threshold sampleFetched.1 _ sample_cache_reachable).2
    _ (by rw [hel]; exact List.mem_singleton_self _) rfl).2

set_option maxRecDepth 100000 in
/-- C21 as stated fails: the cache of the sample after its first fetch holds one
element, with the set 1127 and counter 0; nine sweeps leave it resident with counter
9, and after ten sweeps without a fetch the element array is empty and the set 1127
is on top of the inactive sets, so the element is not resident after 10 sweeps. -/
theorem element_gone_after_ten_sweeps :
    (VULKAN_INTERNAL_FetchSamplerDescriptorSet sampleCache sampleData 61 none).map
      (fun r => r.1) = some sampleFetched.1 ∧
    sampleFetched.1.elements.map (fun e => (e.descriptorSet, e.inactiveFrameCount)) =
      [(1127, 0)] ∧
    (deactivateTimes sampleFetched.1 9).map
      (fun c => c.elements.map (fun e => (e.descriptorSet, e.inactiveFrameCount))) =
      some [(1127, 9)] ∧
    (deactivateTimes sampleFetched.1 10).map (fun c => c.elements) = some [] ∧
    (deactivateTimes sampleFetched.1 10).map
      (fun c => c.inactiveDescriptorSets.getLast?) = some (some 1127) := by
  decide

/-- C22. In every cache state reachable through
`VULKAN_INTERNAL_FetchSamplerDescriptorSet` and
`VULKAN_INTERNAL_DeactivateUnusedDescriptorSets`, each descriptor set owned by the
cache is either resident (it is the set of exactly one slot of the element array, and
exactly one bucket entry, in the bucket selected by the key of that slot, holds the
index of the slot) and then not in the inactive list, or it is in the inactive list
and then the set of no element. -/
theorem owned_set_resident_or_inactive (c : SamplerDescriptorSetCache) (owned : List Nat)
    (d : Nat) (h : CacheReachable c owned) (hd : d ∈ owned) :
    (SetResident c d ∧ d ∉ c.inactiveDescriptorSets) ∨
      (d ∈ c.inactiveDescriptorSets ∧ ¬ SetResident c d ∧
        ∀ e, e ∈ c.elements → e.descriptorSet ≠ d) := by
  rcases (reachable_cache_inv c owned h).resident_or_inactive d hd with h1 | ⟨h1, h2⟩
  · exact Or.inl h1
  · refine Or.inr ⟨h1, ?_, h2⟩
    rintro ⟨i, e, hi, hed, _⟩
    exact h2 e (List.getElem?_mem hi) hed

set_option maxRecDepth 100000 in
/-- C22 at the cache of the sample after its first fetch, for the set 1127 (resident)
and the set 1000 (inactive). -/
theorem owned_set_resident_or_inactive_witness :
    CacheReachable sampleFetched.1
      (ownedAfterFetch sampleCache sampleFetched.1 sampleSets none) ∧
    1127 ∈ ownedAfterFetch sampleCache sampleFetched.1 sampleSets none ∧
    1000 ∈ ownedAfterFetch sampleCache sampleFetched.1 sampleSets none ∧
    ((SetResident sampleFetched.1 1127 ∧ 1127 ∉ sampleFetched.1.inactiveDescriptorSets) ∨
      (1127 ∈ sampleFetched.1.inactiveDescriptorSets ∧ ¬ SetResident sampleFetched.1 1127 ∧
        ∀ e, e ∈ sampleFetched.1.elements → e.descriptorSet ≠ 1127)) ∧
    ((SetResident sampleFetched.1 1000 ∧ 1000 ∉ sampleFetched.1.inactiveDescriptorSets) ∨
      (1000 ∈ sampleFetched.1.inactiveDescriptorSets ∧ ¬ SetResident sampleFetched.1 1000 ∧
        ∀ e, e ∈ sampleFetched.1.elements → e.descriptorSet ≠ 1000)) :=
  ⟨sample_cache_reachable, by decide, by decide,
    owned_set_resident_or_inactive sampleFetched.1 _ 1127 sample_cache_reachable (by decide),
    owned_set_resident_or_inactive sampleFetched.1 _ 1000 sample_cache_reachable (by decide)⟩

theorem pipelineKeyMatch_iff (key : PipelineLayoutHash) (e : PipelineLayoutHashMap) :
    pipelineLayoutHashMatches key e = true ↔ key = e.key := by
  obtain ⟨a, b, c, d⟩ := key
  obtain ⟨⟨a1, b1, c1, d1⟩, v⟩ := e
  simp only [pipelineLayoutHashMatches, Bool.and_eq_true, decide_eq_true_eq, PipelineLayoutHash.mk.injEq, and_assoc]

theorem samplerKeyMatch_iff (key : SamplerDescriptorSetLayoutHash)
    (e : SamplerDescriptorSetLayoutHashMap) :
    samplerLayoutHashMatches key e = true ↔ key = e.key := by
  obtain ⟨a, b, c⟩ := key
  obtain ⟨⟨a1, b1, c1⟩, v⟩ := e
  simp only [samplerLayoutHashMatches, Bool.and_eq_true, decide_eq_true_eq, SamplerDescriptorSetLayoutHash.mk.injEq,
    and_assoc]
  constructor
  · rintro ⟨h1, h2, h3⟩; exact ⟨h1, h3, h2⟩
  · rintro ⟨h1, h2, h3⟩; exact ⟨h1, h3, h2⟩

/-- `PipelineLayoutHashArray_Insert` on a table with its 1031 buckets returns; a key
that was absent is then fetched with the inserted value, every other key is
fetched as before, and every key that was present keeps its value. -/
theorem PipelineLayoutHashArray_Insert_spec (table : PipelineLayoutHashTable)
    (key : PipelineLayoutHash) (value : Nat)
    (hlen : table.buckets.length = NUM_PIPELINE_LAYOUT_BUCKETS) :
    ∃ t1, PipelineLayoutHashArray_Insert table key value = some t1 ∧
      t1.buckets.length = NUM_PIPELINE_LAYOUT_BUCKETS ∧
      (PipelineLayoutHashArray_Fetch table key = some none →
        PipelineLayoutHashArray_Fetch t1 key = some (some value)) ∧
      (∀ k, k ≠ key → PipelineLayoutHashArray_Fetch t1 k =
        PipelineLayoutHashArray_Fetch table k) ∧
      (∀ k p, PipelineLayoutHashArray_Fetch table k = some (some p) →
        PipelineLayoutHashArray_Fetch t1 k = some (some p)) := by
  have hidx : PipelineLayoutHashTable_GetHashCode key % NUM_PIPELINE_LAYOUT_BUCKETS <
      table.buckets.length := by
    rw [hlen]; exact Nat.mod_lt _ (by decide)
  obtain ⟨arr, harr⟩ : ∃ arr, table.buckets[PipelineLayoutHashTable_GetHashCode key %
      NUM_PIPELINE_LAYOUT_BUCKETS]? = some arr := ⟨_, List.getElem?_eq_getElem hidx⟩
  have hins : PipelineLayoutHashArray_Insert table key value =
      some { buckets := table.buckets.set
              (PipelineLayoutHashTable_GetHashCode key % NUM_PIPELINE_LAYOUT_BUCKETS)
              { elements := arr.elements ++ [{ key := key, value := value }],
                capacity :=
                  if arr.elements.length = arr.capacity then
                    (if arr.capacity = 0 then 4 else arr.capacity * 2)
                  else arr.capacity } } := by
    simp only [PipelineLayoutHashArray_Insert, harr]
  refine ⟨_, hins, ?_, ?_, ?_, ?_⟩
  · simp only [List.length_set]
    exact hlen
  · intro habs
    simp only [PipelineLayoutHashArray_Fetch, harr, Option.some.injEq,
      Option.map_eq_none'] at habs
    simp only [PipelineLayoutHashArray_Fetch, List.getElem?_set_self hidx, List.find?_append,
      habs, Option.none_or]
    rw [List.find?_cons_of_pos _
      ((pipelineKeyMatch_iff key { key := key, value := value }).mpr rfl)]
    rfl
  · intro k hk
    simp only [PipelineLayoutHashArray_Fetch]
    by_cases hi : PipelineLayoutHashTable_GetHashCode key % NUM_PIPELINE_LAYOUT_BUCKETS =
        PipelineLayoutHashTable_GetHashCode k % NUM_PIPELINE_LAYOUT_BUCKETS
    · rw [← hi, List.getElem?_set_self hidx, harr]
      simp only [List.find?_append]
      rw [List.find?_cons_of_neg _
        (fun h => hk ((pipelineKeyMatch_iff k { key := key, value := value }).mp h)),
        List.find?_nil, Option.or_none]
    · rw [List.getElem?_set_ne hi]
  · intro k p hk
    simp only [PipelineLayoutHashArray_Fetch] at hk ⊢
    by_cases hi : PipelineLayoutHashTable_GetHashCode key % NUM_PIPELINE_LAYOUT_BUCKETS =
        PipelineLayoutHashTable_GetHashCode k % NUM_PIPELINE_LAYOUT_BUCKETS
    · rw [← hi, harr] at hk
      rw [← hi, List.getElem?_set_self hidx]
      simp only [List.find?_append, Option.some.injEq] at hk ⊢
      cases hf : List.find? (pipelineLayoutHashMatches k) arr.elements with
      | none => rw [hf] at hk; cases hk
      | some e =>
        rw [hf] at hk
        exact hk
    · rw [List.getElem?_set_ne hi]
      exact hk

/-- `SamplerDescriptorSetLayoutHashTable_Insert` on a table with its 1031 buckets
returns; a key that was absent is then fetched with the inserted value, and every
key that was present keeps its value. -/
theorem SamplerDescriptorSetLayoutHashTable_Insert_spec
    (table : SamplerDescriptorSetLayoutHashTable) (key : SamplerDescriptorSetLayoutHash)
    (value : Nat) (hlen : table.buckets.length = NUM_DESCRIPTOR_SET_LAYOUT_BUCKETS) :
    ∃ t1, SamplerDescriptorSetLayoutHashTable_Insert table key value = some t1 ∧
      t1.buckets.length = NUM_DESCRIPTOR_SET_LAYOUT_BUCKETS ∧
      (SamplerLayoutsNonNull table →
        SamplerDescriptorSetLayoutHashTable_Fetch table key = some NULL_DESC_LAYOUT →
        SamplerDescriptorSetLayoutHashTable_Fetch t1 key = some value) ∧
      (∀ k h, h ≠ NULL_DESC_LAYOUT →
        SamplerDescriptorSetLayoutHashTable_Fetch table k = some h →
        SamplerDescriptorSetLayoutHashTable_Fetch t1 k = some h) := by
  have hidx : SamplerDescriptorSetLayoutHashTable_GetHashCode key %
      NUM_DESCRIPTOR_SET_LAYOUT_BUCKETS < table.buckets.length := by
    rw [hlen]; exact Nat.mod_lt _ (by decide)
  obtain ⟨arr, harr⟩ : ∃ arr, table.buckets[SamplerDescriptorSetLayoutHashTable_GetHashCode key %
      NUM_DESCRIPTOR_SET_LAYOUT_BUCKETS]? = some arr := ⟨_, List.getElem?_eq_getElem hidx⟩
  have hins : SamplerDescriptorSetLayoutHashTable_Insert table key value =
      some { buckets := table.buckets.set
              (SamplerDescriptorSetLayoutHashTable_GetHashCode key %
                NUM_DESCRIPTOR_SET_LAYOUT_BUCKETS)
              { elements := arr.elements ++ [{ key := key, value := value }],
                capacity :=
                  if arr.elements.length = arr.capacity then
                    (if arr.capacity = 0 then 4 else arr.capacity * 2)
                  else arr.capacity } } := by
    simp only [SamplerDescriptorSetLayoutHashTable_Insert, harr]
  refine ⟨_, hins, ?_, ?_, ?_⟩
  · simp only [List.length_set]
    exact hlen
  · intro hnz habs
    simp only [SamplerDescriptorSetLayoutHashTable_Fetch, harr] at habs
    simp only [SamplerDescriptorSetLayoutHashTable_Fetch, List.getElem?_set_self hidx,
      List.find?_append]
    cases hf : List.find? (samplerLayoutHashMatches key) arr.elements with
    | none =>
      rw [Option.none_or, List.find?_cons_of_pos _
        ((samplerKeyMatch_iff key { key := key, value := value }).mpr rfl)]
    | some e =>
      rw [hf] at habs
      simp only [Option.some.injEq] at habs
      exact absurd habs (hnz arr (List.getElem?_mem harr) e (List.mem_of_find?_eq_some hf))
  · intro k h hne hk
    simp only [SamplerDescriptorSetLayoutHashTable_Fetch] at hk ⊢
    by_cases hi : SamplerDescriptorSetLayoutHashTable_GetHashCode key %
        NUM_DESCRIPTOR_SET_LAYOUT_BUCKETS =
        SamplerDescriptorSetLayoutHashTable_GetHashCode k % NUM_DESCRIPTOR_SET_LAYOUT_BUCKETS
    · rw [← hi, harr] at hk
      rw [← hi, List.getElem?_set_self hidx]
      simp only [List.find?_append] at hk ⊢
      cases hf : List.find? (samplerLayoutHashMatches k) arr.elements with
      | none =>
        rw [hf] at hk
        simp only [Option.some.injEq] at hk
        exact absurd hk.symm hne
      | some e =>
        rw [hf] at hk
        exact hk
    · rw [List.getElem?_set_ne hi]
      exact hk


theorem LayoutsKept.kept_refl (s : PipelineLayoutState) : LayoutsKept s s :=
  ⟨rfl, rfl, rfl, rfl, fun _ _ _ h => h, fun _ _ h => h⟩

theorem LayoutsKept.kept_trans {s s1 s2 : PipelineLayoutState} (h1 : LayoutsKept s s1)
    (h2 : LayoutsKept s1 s2) : LayoutsKept s s2 :=
  ⟨h2.emptyVertex.trans h1.emptyVertex, h2.emptyFragment.trans h1.emptyFragment,
    h2.vertexParam.trans h1.vertexParam, h2.fragmentParam.trans h1.fragmentParam,
    fun k h hne hk => h2.sampler k h hne (h1.sampler k h hne hk),
    fun k p hk => h2.pipeline k p (h1.pipeline k p hk)⟩

theorem stage_ready_kept {s s1 : PipelineLayoutState} {stage count h : Nat}
    (hk : LayoutsKept s s1) (hr : StageLayoutReady s stage count h) :
    StageLayoutReady s1 stage count h := by
  rcases hr with ⟨h0, he⟩ | ⟨h0, hne, hf⟩
  · left
    refine ⟨h0, ?_⟩
    rw [he]
    unfold emptySamplerLayoutOf
    rw [hk.emptyVertex, hk.emptyFragment]
  · right
    exact ⟨h0, hne, hk.sampler _ _ hne hf⟩

theorem pipeline_ready_kept {s s1 : PipelineLayoutState} {v f p : Nat}
    (hk : LayoutsKept s s1) (hr : PipelineLayoutReady s v f p) :
    PipelineLayoutReady s1 v f p := by
  obtain ⟨hv, hf, r1, r2, r3⟩ := hr
  refine ⟨hv, hf, stage_ready_kept hk r1, stage_ready_kept hk r2, ?_⟩
  rw [hk.vertexParam, hk.fragmentParam]
  exact hk.pipeline _ _ r3

/-- A layout that is at hand is returned without any change of the state. -/
theorem FetchSamplerDescriptorSetLayout_ready (s : PipelineLayoutState) (created : Option Nat)
    (stage count h : Nat) (hr : StageLayoutReady s stage count h) :
    VULKAN_INTERNAL_FetchSamplerDescriptorSetLayout s created stage count = some (s, h) := by
  unfold VULKAN_INTERNAL_FetchSamplerDescriptorSetLayout
  rcases hr with ⟨h0, he⟩ | ⟨h0, hne, hf⟩
  · rw [if_pos h0, he]
    unfold emptySamplerLayoutOf
    by_cases h1 : stage = VK_SHADER_STAGE_VERTEX_BIT
    · rw [if_pos h1, if_pos h1]
    · rw [if_neg h1, if_neg h1]
      by_cases h2 : stage = VK_SHADER_STAGE_FRAGMENT_BIT
      · rw [if_pos h2, if_pos h2]
      · rw [if_neg h2, if_neg h2]
  · rw [if_neg h0]
    simp only [hf]
    rw [if_pos hne]

/-- `FetchSamplerDescriptorSetLayout` returns on well-formed tables; the tables only
grow, and after a successful creation the layout is at hand. -/
theorem FetchSamplerDescriptorSetLayout_spec (s : PipelineLayoutState) (created : Option Nat)
    (stage count : Nat) (hok : LayoutTablesOk s) :
    ∃ s1 h, VULKAN_INTERNAL_FetchSamplerDescriptorSetLayout s created stage count =
        some (s1, h) ∧
      LayoutTablesOk s1 ∧ LayoutsKept s s1 ∧
      s1.pipelineLayoutHashTable = s.pipelineLayoutHashTable ∧
      (SamplerLayoutsNonNull s.samplerDescriptorSetLayoutHashTable →
        (∃ hv, created = some hv ∧ hv ≠ NULL_DESC_LAYOUT) →
        StageLayoutReady s1 stage count h ∧
          SamplerLayoutsNonNull s1.samplerDescriptorSetLayoutHashTable) := by
  by_cases h0 : count = 0
  · have hr : StageLayoutReady s stage count (emptySamplerLayoutOf s stage) := Or.inl ⟨h0, rfl⟩
    exact ⟨s, _, FetchSamplerDescriptorSetLayout_ready s created stage count _ hr, hok,
      LayoutsKept.kept_refl s, rfl, fun hnz _ => ⟨hr, hnz⟩⟩
  · have hidx : SamplerDescriptorSetLayoutHashTable_GetHashCode
        { descriptorType := VK_DESCRIPTOR_TYPE_COMBINED_IMAGE_SAMPLER, stageFlag := stage,
          samplerBindingCount := count } % NUM_DESCRIPTOR_SET_LAYOUT_BUCKETS <
        s.samplerDescriptorSetLayoutHashTable.buckets.length := by
      rw [hok.sampler]; exact Nat.mod_lt _ (by decide)
    obtain ⟨d, hd⟩ : ∃ d, SamplerDescriptorSetLayoutHashTable_Fetch
        s.samplerDescriptorSetLayoutHashTable
        { descriptorType := VK_DESCRIPTOR_TYPE_COMBINED_IMAGE_SAMPLER, stageFlag := stage,
          samplerBindingCount := count } = some d := by
      simp only [SamplerDescriptorSetLayoutHashTable_Fetch, List.getElem?_eq_getElem hidx]
      cases List.find? _ _ with
      | none => exact ⟨_, rfl⟩
      | some e => exact ⟨_, rfl⟩
    by_cases hdn : d ≠ NULL_DESC_LAYOUT
    · have hr : StageLayoutReady s stage count d := Or.inr ⟨h0, hdn, hd⟩
      exact ⟨s, _, FetchSamplerDescriptorSetLayout_ready s created stage count _ hr, hok,
        LayoutsKept.kept_refl s, rfl, fun hnz _ => ⟨hr, hnz⟩⟩
    · have hdz : d = NULL_DESC_LAYOUT := not_not.mp hdn
      cases hc : created with
      | none =>
        refine ⟨{ s with layoutCalls := s.layoutCalls ++
            [.vkCreateDescriptorSetLayout stage count] }, NULL_DESC_LAYOUT, ?_,
          ⟨hok.sampler, hok.pipeline⟩,
          ⟨rfl, rfl, rfl, rfl, fun _ _ _ h => h, fun _ _ h => h⟩, rfl, ?_⟩
        · unfold VULKAN_INTERNAL_FetchSamplerDescriptorSetLayout
          rw [if_neg h0]
          simp only [hd]
          rw [if_neg hdn]
        · intro _ ⟨hv, e, _⟩
          cases e
      | some newLayout =>
        obtain ⟨t1, hins, hlen1, habs, hkeep⟩ :=
          SamplerDescriptorSetLayoutHashTable_Insert_spec
            s.samplerDescriptorSetLayoutHashTable
            { descriptorType := VK_DESCRIPTOR_TYPE_COMBINED_IMAGE_SAMPLER, stageFlag := stage,
              samplerBindingCount := count } newLayout hok.sampler
        refine ⟨{ s with
            layoutCalls := s.layoutCalls ++ [.vkCreateDescriptorSetLayout stage count]
            samplerDescriptorSetLayoutHashTable := t1 }, newLayout, ?_,
          ⟨hlen1, hok.pipeline⟩,
          ⟨rfl, rfl, rfl, rfl, hkeep, fun _ _ h => h⟩, rfl, ?_⟩
        · unfold VULKAN_INTERNAL_FetchSamplerDescriptorSetLayout
          rw [if_neg h0]
          simp only [hd]
          rw [if_neg hdn]
          simp only [hins]
        · intro hnz ⟨hv, e, hvn⟩
          cases e
          refine ⟨Or.inr ⟨h0, hvn, habs hnz (hdz ▸ hd)⟩, ?_⟩
          intro arr harr e he
          simp only [SamplerDescriptorSetLayoutHashTable_Insert] at hins
          rw [List.getElem?_eq_getElem hidx] at hins
          simp only [Option.some.injEq] at hins
          rw [← hins] at harr
          rcases List.mem_or_eq_of_mem_set harr with h1 | h1
          · exact hnz arr h1 e he
          · rw [h1] at he
            simp only [List.mem_append, List.mem_singleton] at he
            rcases he with he | he
            · exact hnz _ (List.getElem_mem hidx) e he
            · rw [he]
              exact hvn


/-- A pipeline layout that is in the table is returned without any change of the
state: nothing is created. -/
theorem FetchGraphicsPipelineLayout_ready (s : PipelineLayoutState)
    (driver : LayoutDriverResults) (v f p : Nat) (hr : PipelineLayoutReady s v f p) :
    VULKAN_INTERNAL_FetchGraphicsPipelineLayout s driver v f = some (s, some p) := by
  obtain ⟨hv, hf, r1, r2, r3⟩ := hr
  unfold VULKAN_INTERNAL_FetchGraphicsPipelineLayout
  rw [FetchSamplerDescriptorSetLayout_ready s _ _ _ hv r1]
  simp only
  rw [FetchSamplerDescriptorSetLayout_ready s _ _ _ hf r2]
  simp only [r3]

theorem makeStageCache_kept (s : PipelineLayoutState) (layout count newPool : Nat)
    (newSets : List Nat) :
    (makeStageCache s layout count newPool newSets).1.samplerDescriptorSetLayoutHashTable =
        s.samplerDescriptorSetLayoutHashTable ∧
    (makeStageCache s layout count newPool newSets).1.pipelineLayoutHashTable =
        s.pipelineLayoutHashTable ∧
    (makeStageCache s layout count newPool newSets).1.emptyVertexSamplerLayout =
        s.emptyVertexSamplerLayout ∧
    (makeStageCache s layout count newPool newSets).1.emptyFragmentSamplerLayout =
        s.emptyFragmentSamplerLayout ∧
    (makeStageCache s layout count newPool newSets).1.vertexParamLayout =
        s.vertexParamLayout ∧
    (makeStageCache s layout count newPool newSets).1.fragmentParamLayout =
        s.fragmentParamLayout := by
  unfold makeStageCache
  by_cases h : count = 0
  · rw [if_pos h]
    exact ⟨rfl, rfl, rfl, rfl, rfl, rfl⟩
  · rw [if_neg h]
    exact ⟨rfl, rfl, rfl, rfl, rfl, rfl⟩

/-- `FetchGraphicsPipelineLayout` returns on well-formed tables; the tables only
grow, and when the driver creates the sampler layouts the pipeline layout returned
is in the table afterwards. -/
theorem FetchGraphicsPipelineLayout_spec (s : PipelineLayoutState)
    (driver : LayoutDriverResults) (v f : Nat) (hok : LayoutTablesOk s) :
    ∃ s1 r, VULKAN_INTERNAL_FetchGraphicsPipelineLayout s driver v f = some (s1, r) ∧
      LayoutTablesOk s1 ∧ LayoutsKept s s1 ∧
      (SamplerLayoutsNonNull s.samplerDescriptorSetLayoutHashTable → LayoutDriverOk driver →
        ∀ p, r = some p → PipelineLayoutReady s1 v f p) := by
  obtain ⟨s1, hv, e1, ok1, k1, p1, rd1⟩ := FetchSamplerDescriptorSetLayout_spec s
    driver.vertexSamplerLayout VK_SHADER_STAGE_VERTEX_BIT v hok
  obtain ⟨s2, hf, e2, ok2, k2, p2, rd2⟩ := FetchSamplerDescriptorSetLayout_spec s1
    driver.fragmentSamplerLayout VK_SHADER_STAGE_FRAGMENT_BIT f ok1
  have k12 := k1.kept_trans k2
  have hidx : PipelineLayoutHashTable_GetHashCode
      { vertexSamplerLayout := hv, fragmentSamplerLayout := hf,
        vertexUniformLayout := s2.vertexParamLayout,
        fragmentUniformLayout := s2.fragmentParamLayout } % NUM_PIPELINE_LAYOUT_BUCKETS <
      s2.pipelineLayoutHashTable.buckets.length := by
    rw [ok2.pipeline]; exact Nat.mod_lt _ (by decide)
  obtain ⟨d, hd⟩ : ∃ d, PipelineLayoutHashArray_Fetch s2.pipelineLayoutHashTable
      { vertexSamplerLayout := hv, fragmentSamplerLayout := hf,
        vertexUniformLayout := s2.vertexParamLayout,
        fragmentUniformLayout := s2.fragmentParamLayout } = some d := by
    simp only [PipelineLayoutHashArray_Fetch, List.getElem?_eq_getElem hidx]
    exact ⟨_, rfl⟩
  have hready : SamplerLayoutsNonNull s.samplerDescriptorSetLayoutHashTable →
      LayoutDriverOk driver →
      StageLayoutReady s2 VK_SHADER_STAGE_VERTEX_BIT v hv ∧
        StageLayoutReady s2 VK_SHADER_STAGE_FRAGMENT_BIT f hf := by
    intro hnz hdrv
    obtain ⟨a1, a2⟩ := rd1 hnz hdrv.1
    obtain ⟨b1, _⟩ := rd2 a2 hdrv.2
    exact ⟨stage_ready_kept k2 a1, b1⟩
  cases d with
  | some q =>
    refine ⟨s2, some q, ?_, ok2, k12, ?_⟩
    · unfold VULKAN_INTERNAL_FetchGraphicsPipelineLayout
      simp only [e1, e2, hd]
    · intro hnz hdrv p hp
      cases hp
      obtain ⟨a, b⟩ := hready hnz hdrv
      exact ⟨hv, hf, a, b, hd⟩
  | none =>
    obtain ⟨s3, hs3⟩ : ∃ s3 : PipelineLayoutState, s3 =
        { s2 with
          pipelineLayoutHeap := s2.pipelineLayoutHeap ++ [none]
          layoutCalls := s2.layoutCalls ++
            [.vkCreatePipelineLayout
              [hv, hf, s2.vertexParamLayout, s2.fragmentParamLayout]] } := ⟨_, rfl⟩
    have k23 : LayoutsKept s2 s3 := by
      rw [hs3]
      exact ⟨rfl, rfl, rfl, rfl, fun _ _ _ h => h, fun _ _ h => h⟩
    have e3p : s3.pipelineLayoutHashTable = s2.pipelineLayoutHashTable := by rw [hs3]
    have e3s : s3.samplerDescriptorSetLayoutHashTable =
        s2.samplerDescriptorSetLayoutHashTable := by rw [hs3]
    cases hc : driver.vkCreatePipelineLayout with
    | none =>
      refine ⟨s3, none, ?_, ?_, ?_, ?_⟩
      · unfold VULKAN_INTERNAL_FetchGraphicsPipelineLayout
        simp only [e1, e2, hd, hc]
        rw [hs3]
      · exact ⟨by rw [e3s]; exact ok2.sampler, by rw [e3p]; exact ok2.pipeline⟩
      · exact k12.kept_trans k23
      · intro _ _ p hp
        cases hp
    | some pipelineLayout =>
      obtain ⟨t1, hins, hlen1, habs, _, hkeep⟩ := PipelineLayoutHashArray_Insert_spec
        s2.pipelineLayoutHashTable
        { vertexSamplerLayout := hv, fragmentSamplerLayout := hf,
          vertexUniformLayout := s2.vertexParamLayout,
          fragmentUniformLayout := s2.fragmentParamLayout }
        s2.pipelineLayoutHeap.length ok2.pipeline
      obtain ⟨s4, hs4⟩ : ∃ s4 : PipelineLayoutState, s4 =
          { s3 with pipelineLayoutHashTable := t1 } := ⟨_, rfl⟩
      have hs4b : s4 = { s2 with
            pipelineLayoutHeap := s2.pipelineLayoutHeap ++ [none]
            layoutCalls := s2.layoutCalls ++
              [.vkCreatePipelineLayout [hv, hf, s2.vertexParamLayout, s2.fragmentParamLayout]]
            pipelineLayoutHashTable := t1 } := by rw [hs4, hs3]
      have hs4 := hs4b
      have m1 := makeStageCache_kept s4 hv v driver.vertexCachePool driver.vertexCacheSets
      have m2 := makeStageCache_kept
        (makeStageCache s4 hv v driver.vertexCachePool driver.vertexCacheSets).1 hf f
        driver.fragmentCachePool driver.fragmentCacheSets
      have e4s : s4.samplerDescriptorSetLayoutHashTable =
          s2.samplerDescriptorSetLayoutHashTable := by rw [hs4]
      have e4p : s4.pipelineLayoutHashTable = t1 := by rw [hs4]
      have e4a : s4.emptyVertexSamplerLayout = s2.emptyVertexSamplerLayout := by rw [hs4]
      have e4b : s4.emptyFragmentSamplerLayout = s2.emptyFragmentSamplerLayout := by rw [hs4]
      have e4c : s4.vertexParamLayout = s2.vertexParamLayout := by rw [hs4]
      have e4d : s4.fragmentParamLayout = s2.fragmentParamLayout := by rw [hs4]
      have kfin : LayoutsKept s2
          { (makeStageCache
              (makeStageCache s4 hv v driver.vertexCachePool driver.vertexCacheSets).1 hf f
              driver.fragmentCachePool driver.fragmentCacheSets).1 with
            pipelineLayoutHeap :=
              (makeStageCache
                (makeStageCache s4 hv v driver.vertexCachePool driver.vertexCacheSets).1 hf f
                driver.fragmentCachePool driver.fragmentCacheSets).1.pipelineLayoutHeap.set
                s2.pipelineLayoutHeap.length
                (some { pipelineLayout := pipelineLayout,
                        vertexSamplerDescriptorSetCache :=
                          (makeStageCache s4 hv v driver.vertexCachePool
                            driver.vertexCacheSets).2,
                        fragmentSamplerDescriptorSetCache :=
                          (makeStageCache
                            (makeStageCache s4 hv v driver.vertexCachePool
                              driver.vertexCacheSets).1 hf f
                            driver.fragmentCachePool driver.fragmentCacheSets).2 }) } := by
        refine ⟨?_, ?_, ?_, ?_, ?_, ?_⟩
        · show (makeStageCache _ _ _ _ _).1.emptyVertexSamplerLayout = _
          rw [m2.2.2.1, m1.2.2.1, e4a]
        · show (makeStageCache _ _ _ _ _).1.emptyFragmentSamplerLayout = _
          rw [m2.2.2.2.1, m1.2.2.2.1, e4b]
        · show (makeStageCache _ _ _ _ _).1.vertexParamLayout = _
          rw [m2.2.2.2.2.1, m1.2.2.2.2.1, e4c]
        · show (makeStageCache _ _ _ _ _).1.fragmentParamLayout = _
          rw [m2.2.2.2.2.2, m1.2.2.2.2.2, e4d]
        · intro k h hne hk
          show SamplerDescriptorSetLayoutHashTable_Fetch
            (makeStageCache _ _ _ _ _).1.samplerDescriptorSetLayoutHashTable k = _
          rw [m2.1, m1.1, e4s]
          exact hk
        · intro k p hk
          show PipelineLayoutHashArray_Fetch
            (makeStageCache _ _ _ _ _).1.pipelineLayoutHashTable k = _
          rw [m2.2.1, m1.2.1, e4p]
          exact hkeep k p hk
      refine ⟨_, some s2.pipelineLayoutHeap.length, ?_, ?_, k12.kept_trans kfin, ?_⟩
      · unfold VULKAN_INTERNAL_FetchGraphicsPipelineLayout
        simp only [e1, e2, hd, hc, hins]
        rw [hs4]
      · constructor
        · show (makeStageCache _ _ _ _ _).1.samplerDescriptorSetLayoutHashTable.buckets.length = _
          rw [m2.1, m1.1, e4s]
          exact ok2.sampler
        · show (makeStageCache _ _ _ _ _).1.pipelineLayoutHashTable.buckets.length = _
          rw [m2.2.1, m1.2.1, e4p]
          exact hlen1
      · intro hnz hdrv p hp
        cases hp
        obtain ⟨a, b⟩ := hready hnz hdrv
        refine ⟨hv, hf, stage_ready_kept kfin a, stage_ready_kept kfin b, ?_⟩
        show PipelineLayoutHashArray_Fetch
          (makeStageCache _ _ _ _ _).1.pipelineLayoutHashTable
          { vertexSamplerLayout := hv, fragmentSamplerLayout := hf,
            vertexUniformLayout := (makeStageCache _ _ _ _ _).1.vertexParamLayout,
            fragmentUniformLayout := (makeStageCache _ _ _ _ _).1.fragmentParamLayout } = _
        rw [m2.2.1, m1.2.1, e4p, m2.2.2.2.2.1, m1.2.2.2.2.1, e4c, m2.2.2.2.2.2,
          m1.2.2.2.2.2, e4d]
        exact habs hd

theorem runLayoutFetches_kept :
    ∀ (calls : List (LayoutDriverResults × Nat × Nat)) (s s2 : PipelineLayoutState),
      LayoutTablesOk s → runLayoutFetches s calls = some s2 →
      LayoutsKept s s2 ∧ LayoutTablesOk s2 := by
  intro calls
  induction calls with
  | nil =>
    intro s s2 hok h
    simp only [runLayoutFetches, Option.some.injEq] at h
    subst h
    exact ⟨LayoutsKept.kept_refl s, hok⟩
  | cons c rest ih =>
    intro s s2 hok h
    obtain ⟨s1, r, e, ok1, k1, _⟩ := FetchGraphicsPipelineLayout_spec s c.1 c.2.1 c.2.2 hok
    unfold runLayoutFetches at h
    rw [e] at h
    simp only at h
    obtain ⟨k2, ok2⟩ := ih s1 s2 ok1 h
    exact ⟨k1.kept_trans k2, ok2⟩


/-- C23 (as amended). `PipelineLayoutHashArray_Insert(k, v)` on a table in which
`k` is absent makes `PipelineLayoutHashArray_Fetch(k)` return `v` and leaves the
fetch of every other key unchanged; and once `FetchGraphicsPipelineLayout` has
returned a layout for two binding counts, with the descriptor-set layouts created by
the driver, every later call with the same counts (after any other fetches, whatever
the driver would answer) returns the identical object and leaves the state, and so
the record of native creations, unchanged. -/
theorem pipeline_layouts_deduplicated :
    (∀ (table : PipelineLayoutHashTable) (key : PipelineLayoutHash) (value : Nat),
      table.buckets.length = NUM_PIPELINE_LAYOUT_BUCKETS →
      PipelineLayoutHashArray_Fetch table key = some none →
      ∃ t1, PipelineLayoutHashArray_Insert table key value = some t1 ∧
        PipelineLayoutHashArray_Fetch t1 key = some (some value) ∧
        ∀ k, k ≠ key →
          PipelineLayoutHashArray_Fetch t1 k = PipelineLayoutHashArray_Fetch table k) ∧
    (∀ (s s1 : PipelineLayoutState) (driver : LayoutDriverResults) (v f p : Nat),
      LayoutTablesOk s →
      SamplerLayoutsNonNull s.samplerDescriptorSetLayoutHashTable →
      LayoutDriverOk driver →
      VULKAN_INTERNAL_FetchGraphicsPipelineLayout s driver v f = some (s1, some p) →
      ∀ (calls : List (LayoutDriverResults × Nat × Nat)) (s2 : PipelineLayoutState),
        runLayoutFetches s1 calls = some s2 →
        ∀ driver2 : LayoutDriverResults,
          VULKAN_INTERNAL_FetchGraphicsPipelineLayout s2 driver2 v f = some (s2, some p)) := by
  constructor
  · intro table key value hlen habsent
    obtain ⟨t1, hins, _, habs, hothers, _⟩ :=
      PipelineLayoutHashArray_Insert_spec table key value hlen
    exact ⟨t1, hins, habs habsent, hothers⟩
  · intro s s1 driver v f p hok hnz hdrv hfetch calls s2 hrun driver2
    obtain ⟨s1a, r, e, ok1, _, hready⟩ := FetchGraphicsPipelineLayout_spec s driver v f hok
    rw [hfetch] at e
    simp only [Option.some.injEq, Prod.mk.injEq] at e
    obtain ⟨es, er⟩ := e
    subst es
    have hr1 : PipelineLayoutReady s1 v f p := hready hnz hdrv p er.symm
    obtain ⟨k2, _⟩ := runLayoutFetches_kept calls s1 s2 ok1 hrun
    exact FetchGraphicsPipelineLayout_ready s2 driver2 v f p (pipeline_ready_kept k2 hr1)

theorem initial_layout_tables_ok : LayoutTablesOk initialPipelineLayoutState :=
  ⟨by simp [initialPipelineLayoutState], by simp [initialPipelineLayoutState]⟩

theorem initial_layouts_non_null :
    SamplerLayoutsNonNull initialPipelineLayoutState.samplerDescriptorSetLayoutHashTable := by
  intro arr harr e he
  simp only [initialPipelineLayoutState, List.mem_replicate] at harr
  rw [harr.2] at he
  exact absurd he (List.not_mem_nil e)

set_option maxRecDepth 100000 in
/-- The amended statement at the tables of a new device: the key of the sample is
absent and inserted with the value 7; the layout for the counts 2 and 0 is fetched,
two other layouts are fetched, and the fetch for 2 and 0 then returns the first
object again, with a driver that would fail every call. -/
theorem pipeline_layouts_deduplicated_witness :
    (∃ t1, PipelineLayoutHashArray_Insert initialPipelineLayoutState.pipelineLayoutHashTable
        sampleLayoutKey 7 = some t1 ∧
      PipelineLayoutHashArray_Fetch t1 sampleLayoutKey = some (some 7)) ∧
    VULKAN_INTERNAL_FetchGraphicsPipelineLayout initialPipelineLayoutState okLayoutDriver 2 0 =
      some (sampleLayoutFetched.1, some 0) ∧
    runLayoutFetches sampleLayoutFetched.1 sampleOtherFetches = some sampleLayoutLater ∧
    sampleLayoutLater.pipelineLayoutHeap.length = 3 ∧
    VULKAN_INTERNAL_FetchGraphicsPipelineLayout sampleLayoutLater
        { vertexSamplerLayout := none, fragmentSamplerLayout := none,
          vkCreatePipelineLayout := none, vertexCachePool := 0, vertexCacheSets := [],
          fragmentCachePool := 0, fragmentCacheSets := [] } 2 0 =
      some (sampleLayoutLater, some 0) := by
  have hfirst : VULKAN_INTERNAL_FetchGraphicsPipelineLayout initialPipelineLayoutState
      okLayoutDriver 2 0 = some (sampleLayoutFetched.1, some 0) := by
    have h1 : (VULKAN_INTERNAL_FetchGraphicsPipelineLayout initialPipelineLayoutState
        okLayoutDriver 2 0).isSome = true := by decide
    have h2 : sampleLayoutFetched.2 = some 0 := by decide
    obtain ⟨x, hx⟩ := Option.isSome_iff_exists.mp h1
    have h3 : sampleLayoutFetched = x := by
      unfold sampleLayoutFetched
      rw [hx]
      rfl
    rw [hx, ← h3, ← h2]
  have hrun : runLayoutFetches sampleLayoutFetched.1 sampleOtherFetches =
      some sampleLayoutLater := by
    have h1 : (runLayoutFetches sampleLayoutFetched.1 sampleOtherFetches).isSome = true := by
      decide
    obtain ⟨x, hx⟩ := Option.isSome_iff_exists.mp h1
    unfold sampleLayoutLater
    rw [hx]
    rfl
  refine ⟨?_, hfirst, hrun, by decide, ?_⟩
  · obtain ⟨t1, h1, h2, _⟩ := pipeline_layouts_deduplicated.1
      initialPipelineLayoutState.pipelineLayoutHashTable sampleLayoutKey 7
      (by simp [initialPipelineLayoutState]) (by decide)
    exact ⟨t1, h1, h2⟩
  · exact pipeline_layouts_deduplicated.2 initialPipelineLayoutState sampleLayoutFetched.1
      okLayoutDriver 2 0 0 initial_layout_tables_ok initial_layouts_non_null
      ⟨⟨20, rfl, by decide⟩, ⟨21, rfl, by decide⟩⟩ hfirst sampleOtherFetches
      sampleLayoutLater hrun _

set_option maxRecDepth 100000 in
/-- C23 as stated fails: after `PipelineLayoutHashArray_Insert(k, 1)` and
`PipelineLayoutHashArray_Insert(k, 2)` on the empty table, the second insert has
returned and `PipelineLayoutHashArray_Fetch(k)` returns 1, not the value 2 that was
inserted last. -/
theorem pipeline_layout_insert_keeps_first_value :
    ((PipelineLayoutHashArray_Insert initialPipelineLayoutState.pipelineLayoutHashTable
        sampleLayoutKey 1).bind
      (fun t => PipelineLayoutHashArray_Insert t sampleLayoutKey 2)).isSome = true ∧
    PipelineLayoutHashArray_Fetch sampleInsertedTwice sampleLayoutKey = some (some 1) ∧
    PipelineLayoutHashArray_Fetch sampleInsertedTwice sampleLayoutKey ≠ some (some 2) := by
  decide

/-! ## C24: a Submit with nothing recorded -/

/-- C24. `VULKAN_Submit` with `numActiveCommands = 0` and at most one active command
buffer returns the renderer as it is: no cleanup runs and every field (frame
index, destroy lists, bound markers, descriptor-set caches, UBO cursors,
command-buffer lists, recorded calls) is unchanged. -/
theorem submit_without_commands_is_noop (renderer : VulkanRenderer) (driver : DriverResults)
    (hactive : renderer.activeCommandBuffers.length ≤ 1)
    (hcommands : renderer.numActiveCommands = 0) :
    VULKAN_Submit renderer driver = some renderer ∧
      submitRunsCleanup renderer driver = false := by
  constructor
  · unfold VULKAN_Submit
    rw [if_pos ⟨hactive, hcommands⟩]
  · unfold submitRunsCleanup
    simp [hactive, hcommands]

theorem submit_without_commands_is_noop_witness :
    VULKAN_Submit sampleRenderer okDriver = some sampleRenderer ∧
      submitRunsCleanup sampleRenderer okDriver = false :=
  submit_without_commands_is_noop sampleRenderer okDriver (by decide) (by decide)

/-! ## Command buffers across `BeginCommandBuffer` and `Submit` -/

theorem releaseResourceMemory_commands (r : VulkanRenderer) (span : MemorySpan)
    (r1 : VulkanRenderer) (h : releaseResourceMemory r span = some r1) :
    commandBufferState r1 = commandBufferState r := by
  unfold releaseResourceMemory at h
  cases ha : heapGet r.memoryAllocator.allocationHeap span.allocation with
  | none => rw [ha] at h; cases h
  | some a =>
    rw [ha] at h
    simp only at h
    cases hd : destroyResourceMemory r.memoryAllocator span with
    | none => rw [hd] at h; cases h
    | some m =>
      rw [hd] at h
      simp only [Option.some.injEq] at h
      subst h
      rfl

theorem DestroyTexture_commands (r : VulkanRenderer) (texture : Nat) (r1 : VulkanRenderer)
    (h : VULKAN_INTERNAL_DestroyTexture r texture = some r1) :
    commandBufferState r1 = commandBufferState r := by
  unfold VULKAN_INTERNAL_DestroyTexture at h
  cases ht : heapGet r.textureHeap texture with
  | none => rw [ht] at h; cases h
  | some t =>
    rw [ht] at h
    simp only at h
    cases hm : releaseResourceMemory r
        { allocation := t.allocation, offset := t.offset, size := t.memorySize } with
    | none => rw [hm] at h; cases h
    | some r0 =>
      rw [hm] at h
      simp only [Option.some.injEq] at h
      have hu := releaseResourceMemory_commands r _ r0 hm
      subst h
      exact hu

theorem DestroyColorTarget_commands (r : VulkanRenderer) (colorTarget : Nat)
    (r1 : VulkanRenderer) (h : VULKAN_INTERNAL_DestroyColorTarget r colorTarget = some r1) :
    commandBufferState r1 = commandBufferState r := by
  unfold VULKAN_INTERNAL_DestroyColorTarget at h
  cases ht : heapGet r.colorTargetHeap colorTarget with
  | none => rw [ht] at h; cases h
  | some t =>
    rw [ht] at h
    simp only at h
    cases hm : t.multisampleTexture with
    | none =>
      rw [hm] at h
      simp only [Option.some.injEq] at h
      subst h
      rfl
    | some tex =>
      rw [hm] at h
      simp only at h
      cases hd : VULKAN_INTERNAL_DestroyTexture
          { r with calls := r.calls ++ [VulkanCall.vkDestroyImageView t.view] } tex with
      | none => rw [hd] at h; cases h
      | some r0 =>
        rw [hd] at h
        simp only [Option.some.injEq] at h
        have hu := DestroyTexture_commands _ _ r0 hd
        subst h
        exact hu

theorem DestroyDepthStencilTarget_commands (r : VulkanRenderer) (target : Nat)
    (r1 : VulkanRenderer) (h : VULKAN_INTERNAL_DestroyDepthStencilTarget r target = some r1) :
    commandBufferState r1 = commandBufferState r := by
  unfold VULKAN_INTERNAL_DestroyDepthStencilTarget at h
  cases ht : heapGet r.depthStencilTargetHeap target with
  | none => rw [ht] at h; cases h
  | some t =>
    rw [ht] at h
    simp only at h
    cases hd : VULKAN_INTERNAL_DestroyTexture r t.texture with
    | none => rw [hd] at h; cases h
    | some r0 =>
      rw [hd] at h
      simp only [Option.some.injEq] at h
      have hu := DestroyTexture_commands _ _ r0 hd
      subst h
      exact hu

theorem destroySubBuffers_commands :
    ∀ (l : List Nat) (r r1 : VulkanRenderer), destroySubBuffers r l = some r1 →
      commandBufferState r1 = commandBufferState r := by
  intro l
  induction l with
  | nil =>
    intro r r1 h
    simp only [destroySubBuffers, Option.some.injEq] at h
    subst h
    rfl
  | cons sp rest ih =>
    intro r r1 h
    unfold destroySubBuffers at h
    cases hs : heapGet r.subBufferHeap sp with
    | none => rw [hs] at h; cases h
    | some sb =>
      rw [hs] at h
      simp only at h
      cases hm : releaseResourceMemory r
          { allocation := sb.allocation, offset := sb.offset, size := sb.size } with
      | none => rw [hm] at h; cases h
      | some r0 =>
        rw [hm] at h
        simp only at h
        have hu := releaseResourceMemory_commands r _ r0 hm
        have h2 := ih _ r1 h
        exact h2.trans hu

theorem DestroyBuffer_commands (r : VulkanRenderer) (buffer : Nat) (r1 : VulkanRenderer)
    (h : VULKAN_INTERNAL_DestroyBuffer r buffer = some r1) :
    commandBufferState r1 = commandBufferState r := by
  unfold VULKAN_INTERNAL_DestroyBuffer at h
  cases hb : heapGet r.bufferHeap buffer with
  | none => rw [hb] at h; cases h
  | some b =>
    rw [hb] at h
    simp only at h
    by_cases hm : b.bound ≠ 0 ∨ b.boundSubmitted ≠ 0
    · rw [if_pos hm] at h
      simp only [Option.some.injEq] at h
      subst h
      rfl
    · rw [if_neg hm] at h
      cases hd : destroySubBuffers r b.subBuffers with
      | none => rw [hd] at h; cases h
      | some r0 =>
        rw [hd] at h
        simp only [Option.some.injEq] at h
        have hu := destroySubBuffers_commands _ r r0 hd
        subst h
        exact hu

theorem DestroyGraphicsPipeline_commands (r : VulkanRenderer) (p : Nat) (r1 : VulkanRenderer)
    (h : VULKAN_INTERNAL_DestroyGraphicsPipeline r p = some r1) :
    commandBufferState r1 = commandBufferState r := by
  unfold VULKAN_INTERNAL_DestroyGraphicsPipeline at h
  cases hp : heapGet r.graphicsPipelineHeap p with
  | none => rw [hp] at h; cases h
  | some x =>
    rw [hp] at h
    simp only [Option.some.injEq] at h
    subst h
    rfl

theorem DestroyShaderModule_commands (r : VulkanRenderer) (p : Nat) (r1 : VulkanRenderer)
    (h : VULKAN_INTERNAL_DestroyShaderModule r p = some r1) :
    commandBufferState r1 = commandBufferState r := by
  simp only [VULKAN_INTERNAL_DestroyShaderModule, Option.some.injEq] at h
  subst h
  rfl

theorem DestroySampler_commands (r : VulkanRenderer) (p : Nat) (r1 : VulkanRenderer)
    (h : VULKAN_INTERNAL_DestroySampler r p = some r1) :
    commandBufferState r1 = commandBufferState r := by
  simp only [VULKAN_INTERNAL_DestroySampler, Option.some.injEq] at h
  subst h
  rfl

theorem DestroyRenderPass_commands (r : VulkanRenderer) (p : Nat) (r1 : VulkanRenderer)
    (h : VULKAN_INTERNAL_DestroyRenderPass r p = some r1) :
    commandBufferState r1 = commandBufferState r := by
  simp only [VULKAN_INTERNAL_DestroyRenderPass, Option.some.injEq] at h
  subst h
  rfl

theorem DestroyFramebuffer_commands (r : VulkanRenderer) (p : Nat) (r1 : VulkanRenderer)
    (h : VULKAN_INTERNAL_DestroyFramebuffer r p = some r1) :
    commandBufferState r1 = commandBufferState r := by
  unfold VULKAN_INTERNAL_DestroyFramebuffer at h
  cases hp : heapGet r.framebufferHeap p with
  | none => rw [hp] at h; cases h
  | some x =>
    rw [hp] at h
    simp only [Option.some.injEq] at h
    subst h
    rfl

theorem destroyEach_commands (kind : DisposeKind)
    (destroy : VulkanRenderer → Nat → Option VulkanRenderer)
    (hd : ∀ r p r1, destroy r p = some r1 → commandBufferState r1 = commandBufferState r) :
    ∀ (l : List Nat) (r r1 : VulkanRenderer), destroyEach kind destroy r l = some r1 →
      commandBufferState r1 = commandBufferState r := by
  intro l
  induction l with
  | nil =>
    intro r r1 h
    simp only [destroyEach, Option.some.injEq] at h
    subst h
    rfl
  | cons p rest ih =>
    intro r r1 h
    unfold destroyEach at h
    cases h0 : destroy { r with destroyCalls := r.destroyCalls ++ [(kind, p)] } p with
    | none => rw [h0] at h; cases h
    | some r0 =>
      rw [h0] at h
      simp only at h
      have hu := hd _ _ _ h0
      exact (ih r0 r1 h).trans hu

theorem destroySubmittedResources_commands (r r1 : VulkanRenderer)
    (h : destroySubmittedResources r = some r1) :
    commandBufferState r1 = commandBufferState r := by
  unfold destroySubmittedResources at h
  simp only [Option.bind_eq_some] at h
  obtain ⟨a1, h1, a2, h2, a3, h3, a4, h4, a5, h5, a6, h6, a7, h7, a8, h8, h9⟩ := h
  have c1 := destroyEach_commands _ _ DestroyColorTarget_commands _ _ _ h1
  have c2 := destroyEach_commands _ _ DestroyDepthStencilTarget_commands _ _ _ h2
  have c3 := destroyEach_commands _ _ DestroyTexture_commands _ _ _ h3
  have c4 := destroyEach_commands _ _ DestroyBuffer_commands _ _ _ h4
  have c5 := destroyEach_commands _ _ DestroyGraphicsPipeline_commands _ _ _ h5
  have c6 := destroyEach_commands _ _ DestroyShaderModule_commands _ _ _ h6
  have c7 := destroyEach_commands _ _ DestroySampler_commands _ _ _ h7
  have c8 := destroyEach_commands _ _ DestroyFramebuffer_commands _ _ _ h8
  have c9 := destroyEach_commands _ _ DestroyRenderPass_commands _ _ _ h9
  rw [c9, c8, c7, c6, c5, c4, c3, c2, c1]

theorem unmarkSubmittedBuffers_commands :
    ∀ (l : List Nat) (r r1 : VulkanRenderer), unmarkSubmittedBuffers r l = some r1 →
      commandBufferState r1 = commandBufferState r := by
  intro l
  induction l with
  | nil =>
    intro r r1 h
    simp only [unmarkSubmittedBuffers, Option.some.injEq] at h
    subst h
    rfl
  | cons p rest ih =>
    intro r r1 h
    unfold unmarkSubmittedBuffers at h
    cases hb : heapGet r.bufferHeap p with
    | none => rw [hb] at h; cases h
    | some b =>
      rw [hb] at h
      simp only at h
      cases hu : unmarkSubBuffers r.frameIndex r.subBufferHeap b.subBuffers with
      | none => rw [hu] at h; cases h
      | some heap =>
        rw [hu] at h
        simp only at h
        have h2 := ih _ r1 h
        exact h2

theorem markBuffersSubmitted_commands :
    ∀ (l : List Nat) (r r1 : VulkanRenderer), markBuffersSubmitted r l = some r1 →
      commandBufferState r1 = commandBufferState r := by
  intro l
  induction l with
  | nil =>
    intro r r1 h
    simp only [markBuffersSubmitted, Option.some.injEq] at h
    subst h
    rfl
  | cons p rest ih =>
    intro r r1 h
    unfold markBuffersSubmitted at h
    cases hb : heapGet r.bufferHeap p with
    | none => rw [hb] at h; cases h
    | some b =>
      rw [hb] at h
      simp only at h
      have h2 := ih _ r1 h
      exact h2

/-- `PostWorkCleanup` leaves the command buffers alone. -/
theorem PostWorkCleanup_commands (r r1 : VulkanRenderer)
    (h : VULKAN_INTERNAL_PostWorkCleanup r = some r1) :
    commandBufferState r1 = commandBufferState r := by
  unfold VULKAN_INTERNAL_PostWorkCleanup at h
  cases hd : destroySubmittedResources r with
  | none => rw [hd] at h; cases h
  | some a =>
    rw [hd] at h
    simp only at h
    have c1 := destroySubmittedResources_commands r a hd
    cases hu : unmarkSubmittedBuffers
        { a with deferred := rotateDestroyLists a.deferred, frameIndex := (a.frameIndex + 1) % 2 }
        a.submittedBuffers with
    | none => rw [hu] at h; cases h
    | some b =>
      rw [hu] at h
      simp only at h
      have c2 := unmarkSubmittedBuffers_commands _ _ b hu
      cases hm : markBuffersSubmitted b b.buffersInUse with
      | none => rw [hm] at h; cases h
      | some c =>
        rw [hm] at h
        simp only [Option.some.injEq] at h
        have c3 := markBuffersSubmitted_commands _ _ c hm
        subst h
        show commandBufferState c = _
        rw [c3, c2]
        exact c1

theorem deactivateCacheOf_commands (r : VulkanRenderer) (cache : Option Nat)
    (r1 : VulkanRenderer) (h : deactivateCacheOf r cache = some r1) :
    commandBufferState r1 = commandBufferState r := by
  cases cache with
  | none =>
    simp only [deactivateCacheOf, Option.some.injEq] at h
    subst h
    rfl
  | some p =>
    unfold deactivateCacheOf at h
    simp only at h
    cases hc : heapGet r.samplerDescriptorSetCacheHeap p with
    | none => rw [hc] at h; cases h
    | some c =>
      rw [hc] at h
      simp only at h
      cases hd : VULKAN_INTERNAL_DeactivateUnusedDescriptorSets c with
      | none => rw [hd] at h; cases h
      | some c1 =>
        rw [hd] at h
        simp only [Option.some.injEq] at h
        subst h
        rfl

theorem resetDescriptorSetDataOf_commands :
    ∀ (l : List VulkanGraphicsPipelineLayout) (r r1 : VulkanRenderer),
      resetDescriptorSetDataOf r l = some r1 →
      commandBufferState r1 = commandBufferState r := by
  intro l
  induction l with
  | nil =>
    intro r r1 h
    simp only [resetDescriptorSetDataOf, Option.some.injEq] at h
    subst h
    rfl
  | cons p rest ih =>
    intro r r1 h
    unfold resetDescriptorSetDataOf at h
    cases h1 : deactivateCacheOf r p.vertexSamplerDescriptorSetCache with
    | none => rw [h1] at h; cases h
    | some a =>
      rw [h1] at h
      simp only at h
      cases h2 : deactivateCacheOf a p.fragmentSamplerDescriptorSetCache with
      | none => rw [h2] at h; cases h
      | some b =>
        rw [h2] at h
        simp only at h
        have ua := deactivateCacheOf_commands _ _ _ h1
        have ub := deactivateCacheOf_commands _ _ _ h2
        have uc := ih b r1 h
        rw [uc, ub, ua]

theorem commandBufferState_fields {r r1 : VulkanRenderer}
    (h : commandBufferState r1 = commandBufferState r) :
    r1.inactiveCommandBuffers = r.inactiveCommandBuffers ∧
    r1.activeCommandBuffers = r.activeCommandBuffers ∧
    r1.submittedCommandBuffers = r.submittedCommandBuffers ∧
    r1.allocatedCommandBufferCount = r.allocatedCommandBufferCount ∧
    r1.nextCommandBufferHandle = r.nextCommandBufferHandle := by
  simp only [commandBufferState, Prod.mk.injEq] at h
  exact h

theorem CommandBuffersInv_congr {r r1 : VulkanRenderer}
    (h : commandBufferState r1 = commandBufferState r) (hinv : CommandBuffersInv r) :
    CommandBuffersInv r1 := by
  obtain ⟨e1, e2, e3, e4, e5⟩ := commandBufferState_fields h
  have hall : allCommandBuffers r1 = allCommandBuffers r := by
    unfold allCommandBuffers
    rw [e1, e2, e3]
  exact ⟨by rw [hall]; exact hinv.nodup, by rw [e1, e2, e3, e4]; exact hinv.total,
    by rw [hall, e5]; exact hinv.fresh, by rw [e4]; exact hinv.positive⟩

/-- Opening a command buffer from a pool that is not empty. -/
theorem openCommandBuffer_inv (r : VulkanRenderer) (rest : List Nat) (c : Nat)
    (hinv : CommandBuffersInv r) (hin : r.inactiveCommandBuffers = rest ++ [c]) :
    CommandBuffersInv
      { r with
        currentCommandBuffer := some c
        activeCommandBuffers := r.activeCommandBuffers ++ [c]
        inactiveCommandBuffers := rest } ∧
    c ∉ r.activeCommandBuffers ∧ c ∉ r.submittedCommandBuffers := by
  have hperm : (rest ++ (r.activeCommandBuffers ++ [c]) ++ r.submittedCommandBuffers).Perm
      (allCommandBuffers r) := by
    unfold allCommandBuffers
    rw [hin, List.perm_iff_count]
    intro a
    simp only [List.count_append, List.count_cons, List.count_nil]
    omega
  have hnd := hinv.nodup
  unfold allCommandBuffers at hnd
  rw [hin] at hnd
  have h1 := List.nodup_append.mp hnd
  have h2 := List.nodup_append.mp h1.1
  refine ⟨⟨hperm.nodup_iff.mpr hinv.nodup, ?_, ?_, hinv.positive⟩, ?_, ?_⟩
  · have := hinv.total
    rw [hin] at this
    show rest.length + (r.activeCommandBuffers ++ [c]).length + _ = _
    simp only [List.length_append, List.length_singleton] at this ⊢
    omega
  · intro x hx
    exact hinv.fresh x (hperm.mem_iff.mp hx)
  · intro hc
    exact h2.2.2 (List.mem_append_right _ (List.mem_singleton_self c)) hc
  · intro hc
    exact h1.2.2 (List.mem_append_left _ (List.mem_append_right _ (List.mem_singleton_self c))) hc

/-- The allocation of new command buffers by `BeginCommandBuffer`. -/
theorem growCommandBuffers_inv (r : VulkanRenderer) (hinv : CommandBuffersInv r)
    (hbound : r.allocatedCommandBufferCount * 2 < UINT32_MOD)
    (hempty : r.inactiveCommandBuffers = []) :
    CommandBuffersInv
      { r with
        inactiveCommandBuffers :=
          List.range' r.nextCommandBufferHandle r.allocatedCommandBufferCount
        nextCommandBufferHandle := r.nextCommandBufferHandle + r.allocatedCommandBufferCount
        allocatedCommandBufferCount := (r.allocatedCommandBufferCount * 2) % UINT32_MOD } := by
  have hmod : (r.allocatedCommandBufferCount * 2) % UINT32_MOD =
      r.allocatedCommandBufferCount * 2 := Nat.mod_eq_of_lt hbound
  have hallr : allCommandBuffers r = r.activeCommandBuffers ++ r.submittedCommandBuffers := by
    unfold allCommandBuffers
    rw [hempty, List.nil_append]
  refine ⟨?_, ?_, ?_, ?_⟩
  · show (List.range' r.nextCommandBufferHandle r.allocatedCommandBufferCount ++
      r.activeCommandBuffers ++ r.submittedCommandBuffers).Nodup
    rw [List.append_assoc, ← hallr]
    refine List.nodup_append.mpr ⟨List.nodup_range' _ _, hinv.nodup, ?_⟩
    intro x hx hx1
    have := hinv.fresh x hx1
    rw [List.mem_range'_1] at hx
    omega
  · show (List.range' r.nextCommandBufferHandle r.allocatedCommandBufferCount).length +
      r.activeCommandBuffers.length + r.submittedCommandBuffers.length =
        (r.allocatedCommandBufferCount * 2) % UINT32_MOD
    have := hinv.total
    rw [hempty, List.length_nil] at this
    rw [hmod, List.length_range']
    omega
  · intro x hx
    show x < r.nextCommandBufferHandle + r.allocatedCommandBufferCount
    have hx0 : x ∈ List.range' r.nextCommandBufferHandle r.allocatedCommandBufferCount ++
        r.activeCommandBuffers ++ r.submittedCommandBuffers := hx
    have hx1 : x ∈ List.range' r.nextCommandBufferHandle r.allocatedCommandBufferCount ∨
        x ∈ allCommandBuffers r := by
      rw [hallr]
      simp only [List.mem_append] at hx0 ⊢
      tauto
    rcases hx1 with hx1 | hx1
    · rw [List.mem_range'_1] at hx1
      omega
    · have := hinv.fresh x hx1
      omega
  · show 0 < (r.allocatedCommandBufferCount * 2) % UINT32_MOD
    rw [hmod]
    have := hinv.positive
    omega

/-- `BeginCommandBuffer` keeps the invariant and loses no command buffer; unless
the allocation it needs fails, exactly one buffer that was neither active nor
submitted becomes active and current. -/
theorem BeginCommandBuffer_inv (r : VulkanRenderer) (driver : DriverResults)
    (r1 : VulkanRenderer) (hinv : CommandBuffersInv r)
    (hbound : r.allocatedCommandBufferCount * 2 < UINT32_MOD)
    (h : VULKAN_INTERNAL_BeginCommandBuffer r driver = some r1) :
    CommandBuffersInv r1 ∧ (∀ x, x ∈ allCommandBuffers r → x ∈ allCommandBuffers r1) ∧
      r1.submittedCommandBuffers = r.submittedCommandBuffers ∧
      ((r1 = r ∧ r.inactiveCommandBuffers = [] ∧ driver.vkAllocateCommandBuffers = false) ∨
        ∃ c, r1.activeCommandBuffers = r.activeCommandBuffers ++ [c] ∧
          r1.currentCommandBuffer = some c ∧
          c ∉ r.activeCommandBuffers ∧ c ∉ r.submittedCommandBuffers ∧
          (r1.inactiveCommandBuffers ++ [c] = r.inactiveCommandBuffers ∨
            (r.inactiveCommandBuffers = [] ∧
              r1.inactiveCommandBuffers ++ [c] =
                List.range' r.nextCommandBufferHandle r.allocatedCommandBufferCount))) := by
  unfold VULKAN_INTERNAL_BeginCommandBuffer at h
  by_cases h1 : r.inactiveCommandBuffers.length = 0 ∧ driver.vkAllocateCommandBuffers = false
  · rw [if_pos h1] at h
    simp only [Option.some.injEq] at h
    subst h
    exact ⟨hinv, fun x hx => hx, rfl, Or.inl ⟨rfl, List.length_eq_zero.mp h1.1, h1.2⟩⟩
  · rw [if_neg h1] at h
    by_cases h2 : r.inactiveCommandBuffers.length = 0
    · simp only [if_pos h2] at h
      have hempty : r.inactiveCommandBuffers = [] := List.length_eq_zero.mp h2
      have hallr : allCommandBuffers r = r.activeCommandBuffers ++ r.submittedCommandBuffers := by
        unfold allCommandBuffers
        rw [hempty, List.nil_append]
      have hinvg := growCommandBuffers_inv r hinv hbound hempty
      cases hl : (List.range' r.nextCommandBufferHandle r.allocatedCommandBufferCount).getLast? with
      | none => rw [hl] at h; cases h
      | some c =>
        rw [hl] at h
        simp only [Option.some.injEq] at h
        have hsplit : List.range' r.nextCommandBufferHandle r.allocatedCommandBufferCount =
            (List.range' r.nextCommandBufferHandle r.allocatedCommandBufferCount).dropLast ++
              [c] := (List.dropLast_append_getLast? c hl).symm
        obtain ⟨hinv1, hc1, hc2⟩ := openCommandBuffer_inv _ _ c hinvg hsplit
        subst h
        refine ⟨hinv1, ?_, rfl, Or.inr ⟨c, rfl, rfl, hc1, hc2, Or.inr ⟨hempty, hsplit.symm⟩⟩⟩
        intro x hx
        rw [hallr] at hx
        show x ∈ (List.range' r.nextCommandBufferHandle r.allocatedCommandBufferCount).dropLast ++
          (r.activeCommandBuffers ++ [c]) ++ r.submittedCommandBuffers
        simp only [List.mem_append] at hx ⊢
        tauto
    · simp only [if_neg h2] at h
      cases hl : r.inactiveCommandBuffers.getLast? with
      | none => rw [hl] at h; cases h
      | some c =>
        rw [hl] at h
        simp only [Option.some.injEq] at h
        have hsplit : r.inactiveCommandBuffers = r.inactiveCommandBuffers.dropLast ++ [c] :=
          (List.dropLast_append_getLast? c hl).symm
        obtain ⟨hinv1, hc1, hc2⟩ := openCommandBuffer_inv r _ c hinv hsplit
        subst h
        refine ⟨hinv1, ?_, rfl, Or.inr ⟨c, rfl, rfl, hc1, hc2, Or.inl hsplit.symm⟩⟩
        intro x hx
        unfold allCommandBuffers at hx
        rw [hsplit] at hx
        show x ∈ r.inactiveCommandBuffers.dropLast ++ (r.activeCommandBuffers ++ [c]) ++
          r.submittedCommandBuffers
        simp only [List.mem_append, List.mem_singleton] at hx ⊢
        tauto

/-- The rest of `Submit` after the cleanup: if the queue submission fails the
submitted buffers have become inactive and nothing else moved; otherwise the
submitted buffers have become inactive, the active ones submitted, and
`BeginCommandBuffer` runs on that state. -/
theorem submitAfterCleanup_commands (rc : VulkanRenderer) (driver : DriverResults)
    (present : Bool) (r1 : VulkanRenderer)
    (h : submitAfterCleanup rc driver present = some r1) :
    (driver.vkQueueSubmit = false ∧
      commandBufferState r1 =
        (rc.inactiveCommandBuffers ++ rc.submittedCommandBuffers, rc.activeCommandBuffers, [],
          rc.allocatedCommandBufferCount, rc.nextCommandBufferHandle)) ∨
    (driver.vkQueueSubmit = true ∧ ∃ mid,
      commandBufferState mid =
        (rc.inactiveCommandBuffers ++ rc.submittedCommandBuffers, [], rc.activeCommandBuffers,
          rc.allocatedCommandBufferCount, rc.nextCommandBufferHandle) ∧
      VULKAN_INTERNAL_BeginCommandBuffer mid driver = some r1) := by
  unfold submitAfterCleanup at h
  by_cases hq : driver.vkQueueSubmit = false
  · rw [if_pos hq] at h
    simp only [Option.some.injEq] at h
    subst h
    exact Or.inl ⟨hq, rfl⟩
  · rw [if_neg hq] at h
    right
    refine ⟨by simpa using hq, ?_⟩
    split at h
    · cases h
    · rename_i rd hrd
      have hc := resetDescriptorSetDataOf_commands _ _ _ hrd
      refine ⟨_, ?_, h⟩
      exact hc

/-- The moves that keep the invariant: submitted buffers become inactive, active
buffers may become submitted. -/
theorem CommandBuffersInv_moved (r r1 : VulkanRenderer) (hinv : CommandBuffersInv r)
    (h : commandBufferState r1 =
        (r.inactiveCommandBuffers ++ r.submittedCommandBuffers, r.activeCommandBuffers, [],
          r.allocatedCommandBufferCount, r.nextCommandBufferHandle) ∨
      commandBufferState r1 =
        (r.inactiveCommandBuffers ++ r.submittedCommandBuffers, [], r.activeCommandBuffers,
          r.allocatedCommandBufferCount, r.nextCommandBufferHandle)) :
    CommandBuffersInv r1 ∧ (allCommandBuffers r1).Perm (allCommandBuffers r) := by
  have hperm : (allCommandBuffers r1).Perm (allCommandBuffers r) := by
    unfold allCommandBuffers
    rcases h with h | h
    · simp only [commandBufferState, Prod.mk.injEq] at h
      obtain ⟨e1, e2, e3, _, _⟩ := h
      rw [e1, e2, e3, List.perm_iff_count]
      intro a
      simp only [List.count_append, List.count_nil]
      omega
    · simp only [commandBufferState, Prod.mk.injEq] at h
      obtain ⟨e1, e2, e3, _, _⟩ := h
      rw [e1, e2, e3, List.perm_iff_count]
      intro a
      simp only [List.count_append, List.count_nil]
      omega
  have hfields : r1.inactiveCommandBuffers.length + r1.activeCommandBuffers.length +
      r1.submittedCommandBuffers.length = r.inactiveCommandBuffers.length +
        r.activeCommandBuffers.length + r.submittedCommandBuffers.length ∧
      r1.allocatedCommandBufferCount = r.allocatedCommandBufferCount ∧
      r1.nextCommandBufferHandle = r.nextCommandBufferHandle := by
    rcases h with h | h
    · simp only [commandBufferState, Prod.mk.injEq] at h
      obtain ⟨e1, e2, e3, e4, e5⟩ := h
      rw [e1, e2, e3, e4, e5]
      refine ⟨?_, rfl, rfl⟩
      simp only [List.length_append, List.length_nil]
      omega
    · simp only [commandBufferState, Prod.mk.injEq] at h
      obtain ⟨e1, e2, e3, e4, e5⟩ := h
      rw [e1, e2, e3, e4, e5]
      refine ⟨?_, rfl, rfl⟩
      simp only [List.length_append, List.length_nil]
      omega
  refine ⟨⟨hperm.nodup_iff.mpr hinv.nodup, ?_, ?_, ?_⟩, hperm⟩
  · rw [hfields.1, hfields.2.1]
    exact hinv.total
  · intro x hx
    rw [hfields.2.2]
    exact hinv.fresh x (hperm.mem_iff.mp hx)
  · rw [hfields.2.1]
    exact hinv.positive

/-- A `Submit` that passes its two early returns: the cleanup leaves the command
buffers alone, and the rest runs on its result. -/
theorem Submit_commands (r : VulkanRenderer) (driver : DriverResults) (r1 : VulkanRenderer)
    (hrun : submitRunsCleanup r driver = true) (h : VULKAN_Submit r driver = some r1) :
    ∃ rc present, commandBufferState rc = commandBufferState r ∧
      submitAfterCleanup rc driver present = some r1 := by
  unfold submitRunsCleanup at hrun
  simp only [Bool.and_eq_true, Bool.not_eq_true', Bool.and_eq_false_iff,
    decide_eq_false_iff_not, decide_eq_true_eq] at hrun
  obtain ⟨hc, hw⟩ := hrun
  have hc2 : ¬ (r.activeCommandBuffers.length ≤ 1 ∧ r.numActiveCommands = 0) := by
    intro ⟨a, b⟩
    rcases hc with hc | hc
    · exact hc a
    · exact hc b
  unfold VULKAN_Submit at h
  rw [if_neg hc2, if_neg (by rw [hw]; simp)] at h
  cases hp : VULKAN_INTERNAL_PostWorkCleanup
      (if r.currentCommandBuffer ≠ none then VULKAN_INTERNAL_EndCommandBuffer r else r) with
  | none => rw [hp] at h; cases h
  | some rc =>
    rw [hp] at h
    simp only at h
    refine ⟨rc, _, ?_, h⟩
    rw [PostWorkCleanup_commands _ rc hp]
    by_cases hcur : r.currentCommandBuffer ≠ none
    · rw [if_pos hcur]; rfl
    · rw [if_neg hcur]

/-- `Submit` keeps the invariant of the command buffers and loses none of them. -/
theorem Submit_inv (r : VulkanRenderer) (driver : DriverResults) (r1 : VulkanRenderer)
    (hinv : CommandBuffersInv r) (hbound : r.allocatedCommandBufferCount * 2 < UINT32_MOD)
    (h : VULKAN_Submit r driver = some r1) :
    CommandBuffersInv r1 ∧ ∀ x, x ∈ allCommandBuffers r → x ∈ allCommandBuffers r1 := by
  by_cases hrun : submitRunsCleanup r driver = true
  · obtain ⟨rc, present, hc, hrest⟩ := Submit_commands r driver r1 hrun h
    obtain ⟨e1, e2, e3, e4, e5⟩ := commandBufferState_fields hc
    have hinvc := CommandBuffersInv_congr hc hinv
    have hallc : allCommandBuffers rc = allCommandBuffers r := by
      unfold allCommandBuffers
      rw [e1, e2, e3]
    rcases submitAfterCleanup_commands rc driver present r1 hrest with ⟨_, hm⟩ | ⟨_, mid, hm, hb⟩
    · obtain ⟨hi, hp⟩ := CommandBuffersInv_moved rc r1 hinvc (Or.inl hm)
      refine ⟨hi, ?_⟩
      intro x hx
      rw [← hallc] at hx
      exact hp.mem_iff.mpr hx
    · obtain ⟨hi, hp⟩ := CommandBuffersInv_moved rc mid hinvc (Or.inr hm)
      have hma : mid.allocatedCommandBufferCount = r.allocatedCommandBufferCount := by
        simp only [commandBufferState, Prod.mk.injEq] at hm
        rw [hm.2.2.2.1, e4]
      obtain ⟨hi1, hsub, _⟩ := BeginCommandBuffer_inv mid driver r1 hi (by rw [hma]; exact hbound) hb
      refine ⟨hi1, ?_⟩
      intro x hx
      rw [← hallc] at hx
      exact hsub x (hp.mem_iff.mpr hx)
  · have hsame : commandBufferState r1 = commandBufferState r := by
      unfold submitRunsCleanup at hrun
      simp only [Bool.and_eq_true, Bool.not_eq_true', Bool.and_eq_false_iff,
        decide_eq_false_iff_not, decide_eq_true_eq, not_and, Bool.not_eq_true] at hrun
      unfold VULKAN_Submit at h
      by_cases hc2 : r.activeCommandBuffers.length ≤ 1 ∧ r.numActiveCommands = 0
      · rw [if_pos hc2] at h
        simp only [Option.some.injEq] at h
        rw [← h]
      · rw [if_neg hc2] at h
        have hw : driver.vkWaitForFences = false := by
          apply hrun
          by_contra hcc
          simp only [not_or, not_not] at hcc
          exact hc2 hcc
        rw [if_pos hw] at h
        simp only [Option.some.injEq] at h
        rw [← h]
        by_cases hcur : r.currentCommandBuffer ≠ none
        · rw [if_pos hcur]; rfl
        · rw [if_neg hcur]
    obtain ⟨e1, e2, e3, _, _⟩ := commandBufferState_fields hsame
    refine ⟨CommandBuffersInv_congr hsame hinv, ?_⟩
    intro x hx
    unfold allCommandBuffers at hx ⊢
    rw [e1, e2, e3]
    exact hx

/-- Every renderer reached by `BeginCommandBuffer` and `Submit` steps satisfies the
invariant and still holds the command buffers of the start. -/
theorem reachable_commands_inv (r0 r : VulkanRenderer) (h0 : CommandBuffersInv r0)
    (h : CommandBuffersReachable r0 r) :
    CommandBuffersInv r ∧ ∀ x, x ∈ allCommandBuffers r0 → x ∈ allCommandBuffers r := by
  induction h with
  | start => exact ⟨h0, fun x hx => hx⟩
  | step r r1 s _ hbound hs ih =>
    cases s with
    | beginCommandBuffer driver =>
      obtain ⟨hi, hsub, _⟩ := BeginCommandBuffer_inv r driver r1 ih.1 hbound hs
      exact ⟨hi, fun x hx => hsub x (ih.2 x hx)⟩
    | submit driver =>
      obtain ⟨hi, hsub⟩ := Submit_inv r driver r1 ih.1 hbound hs
      exact ⟨hi, fun x hx => hsub x (ih.2 x hx)⟩

/-- A `Submit` that proceeds: the buffers that were submitted join the inactive
ones, the active ones become the submitted ones, and `BeginCommandBuffer` opens
exactly one buffer, taken from the inactive ones (or from newly allocated ones when
there is none). -/
theorem Submit_proceeds_spec (r : VulkanRenderer) (driver : DriverResults) (r1 : VulkanRenderer)
    (hinv : CommandBuffersInv r) (hbound : r.allocatedCommandBufferCount * 2 < UINT32_MOD)
    (hp : submitProceeds r driver = true) (h : VULKAN_Submit r driver = some r1) :
    ∃ mid c,
      mid.inactiveCommandBuffers = r.inactiveCommandBuffers ++ r.submittedCommandBuffers ∧
      mid.activeCommandBuffers = [] ∧
      mid.submittedCommandBuffers = r.activeCommandBuffers ∧
      VULKAN_INTERNAL_BeginCommandBuffer mid driver = some r1 ∧
      r1.submittedCommandBuffers = r.activeCommandBuffers ∧
      r1.activeCommandBuffers = [c] ∧ r1.currentCommandBuffer = some c ∧
      c ∉ r.activeCommandBuffers ∧
      (r1.inactiveCommandBuffers ++ [c] =
          r.inactiveCommandBuffers ++ r.submittedCommandBuffers ∨
        (r.inactiveCommandBuffers = [] ∧ r.submittedCommandBuffers = [] ∧
          r1.inactiveCommandBuffers ++ [c] =
            List.range' r.nextCommandBufferHandle r.allocatedCommandBufferCount)) := by
  unfold submitProceeds at hp
  simp only [Bool.and_eq_true, Bool.or_eq_true, decide_eq_true_eq] at hp
  obtain ⟨⟨hrun, hq⟩, havail⟩ := hp
  obtain ⟨rc, present, hc, hrest⟩ := Submit_commands r driver r1 hrun h
  obtain ⟨e1, e2, e3, e4, e5⟩ := commandBufferState_fields hc
  have hinvc := CommandBuffersInv_congr hc hinv
  rcases submitAfterCleanup_commands rc driver present r1 hrest with ⟨hq1, _⟩ | ⟨_, mid, hm, hb⟩
  · rw [hq] at hq1
    cases hq1
  · obtain ⟨hi, _⟩ := CommandBuffersInv_moved rc mid hinvc (Or.inr hm)
    simp only [commandBufferState, Prod.mk.injEq] at hm
    obtain ⟨m1, m2, m3, m4, m5⟩ := hm
    rw [e1, e3] at m1
    rw [e2] at m3
    rw [e4] at m4
    rw [e5] at m5
    obtain ⟨_, _, hs, hcase⟩ := BeginCommandBuffer_inv mid driver r1 hi
      (by rw [m4]; exact hbound) hb
    rcases hcase with ⟨_, hempty, hfail⟩ | ⟨c, ha, hcur, _, hcs, hin⟩
    · exfalso
      rw [m1] at hempty
      obtain ⟨he1, he2⟩ := List.append_eq_nil.mp hempty
      rcases havail with (hx | hx) | hx
      · exact hx he1
      · exact hx he2
      · rw [hfail] at hx
        cases hx
    · refine ⟨mid, c, m1, m2, m3, hb, by rw [hs, m3], by rw [ha, m2]; rfl, hcur,
        by rw [← m3]; exact hcs, ?_⟩
      rcases hin with hin | ⟨hempty, hin⟩
      · exact Or.inl (by rw [hin, m1])
      · rw [m1] at hempty
        obtain ⟨he1, he2⟩ := List.append_eq_nil.mp hempty
        exact Or.inr ⟨he1, he2, by rw [hin, m4, m5]⟩

/-- C25. Across every sequence of `VULKAN_INTERNAL_BeginCommandBuffer` and
`VULKAN_Submit` steps from a renderer whose command buffers are each in exactly one
list, each command buffer is in exactly one of the inactive, active and submitted
lists (no buffer occurs twice, none is lost, and the three counts sum to
`allocatedCommandBufferCount`); and a `Submit` that proceeds moves the buffers that
were submitted to the inactive ones and the active ones to the submitted ones, and
ends with exactly one active buffer, newly opened by `BeginCommandBuffer` from the
inactive ones. -/
theorem command_buffers_in_exactly_one_list (r0 r : VulkanRenderer)
    (h0 : CommandBuffersInv r0) (h : CommandBuffersReachable r0 r) :
    (allCommandBuffers r).Nodup ∧
    r.inactiveCommandBuffers.length + r.activeCommandBuffers.length +
      r.submittedCommandBuffers.length = r.allocatedCommandBufferCount ∧
    (∀ x, x ∈ allCommandBuffers r0 → x ∈ allCommandBuffers r) ∧
    ∀ (driver : DriverResults) (r1 : VulkanRenderer),
      r.allocatedCommandBufferCount * 2 < UINT32_MOD →
      submitProceeds r driver = true →
      VULKAN_Submit r driver = some r1 →
      ∃ mid c,
        mid.inactiveCommandBuffers = r.inactiveCommandBuffers ++ r.submittedCommandBuffers ∧
        mid.activeCommandBuffers = [] ∧
        mid.submittedCommandBuffers = r.activeCommandBuffers ∧
        VULKAN_INTERNAL_BeginCommandBuffer mid driver = some r1 ∧
        r1.submittedCommandBuffers = r.activeCommandBuffers ∧
        r1.activeCommandBuffers = [c] ∧ r1.currentCommandBuffer = some c ∧
        c ∉ r.activeCommandBuffers ∧
        (r1.inactiveCommandBuffers ++ [c] =
            r.inactiveCommandBuffers ++ r.submittedCommandBuffers ∨
          (r.inactiveCommandBuffers = [] ∧ r.submittedCommandBuffers = [] ∧
            r1.inactiveCommandBuffers ++ [c] =
              List.range' r.nextCommandBufferHandle r.allocatedCommandBufferCount)) := by
  obtain ⟨hinv, hsub⟩ := reachable_commands_inv r0 r h0 h
  refine ⟨hinv.nodup, hinv.total, hsub, ?_⟩
  intro driver r1 hbound hp hs
  exact Submit_proceeds_spec r driver r1 hinv hbound hp hs

theorem sample_commands_inv : CommandBuffersInv sampleRenderer :=
  ⟨by decide, by decide, by decide, by decide⟩

set_option maxRecDepth 100000 in
theorem sample_two_active_reachable : CommandBuffersReachable sampleRenderer sampleTwoActive := by
  have h1 : (VULKAN_INTERNAL_BeginCommandBuffer sampleRenderer okDriver).isSome = true := by
    decide
  obtain ⟨y, hy⟩ := Option.isSome_iff_exists.mp h1
  have h2 : sampleTwoActive = y := by
    unfold sampleTwoActive
    rw [hy]
    rfl
  rw [h2]
  exact CommandBuffersReachable.step sampleRenderer y (.beginCommandBuffer okDriver)
    CommandBuffersReachable.start (by decide) hy

set_option maxRecDepth 100000 in
/-- C25 on the sample renderer: after one more `BeginCommandBuffer` the buffers 4 and
3 are active, 1 and 2 inactive; the `Submit` that follows leaves 4 and 3 submitted
and opens the buffer 2. -/
theorem command_buffers_in_exactly_one_list_witness :
    CommandBuffersInv sampleRenderer ∧
    CommandBuffersReachable sampleRenderer sampleTwoActive ∧
    sampleTwoActive.inactiveCommandBuffers = [1, 2] ∧
    sampleTwoActive.activeCommandBuffers = [4, 3] ∧
    sampleTwoActive.submittedCommandBuffers = [] ∧
    submitProceeds sampleTwoActive okDriver = true ∧
    VULKAN_Submit sampleTwoActive okDriver = some sampleTwoActiveSubmitted ∧
    sampleTwoActiveSubmitted.inactiveCommandBuffers = [1] ∧
    sampleTwoActiveSubmitted.activeCommandBuffers = [2] ∧
    sampleTwoActiveSubmitted.submittedCommandBuffers = [4, 3] ∧
    ∃ mid c,
      mid.inactiveCommandBuffers =
        sampleTwoActive.inactiveCommandBuffers ++ sampleTwoActive.submittedCommandBuffers ∧
      mid.activeCommandBuffers = [] ∧
      mid.submittedCommandBuffers = sampleTwoActive.activeCommandBuffers ∧
      VULKAN_INTERNAL_BeginCommandBuffer mid okDriver = some sampleTwoActiveSubmitted ∧
      sampleTwoActiveSubmitted.submittedCommandBuffers = sampleTwoActive.activeCommandBuffers ∧
      sampleTwoActiveSubmitted.activeCommandBuffers = [c] ∧
      sampleTwoActiveSubmitted.currentCommandBuffer = some c ∧
      c ∉ sampleTwoActive.activeCommandBuffers ∧
      (sampleTwoActiveSubmitted.inactiveCommandBuffers ++ [c] =
          sampleTwoActive.inactiveCommandBuffers ++ sampleTwoActive.submittedCommandBuffers ∨
        (sampleTwoActive.inactiveCommandBuffers = [] ∧
          sampleTwoActive.submittedCommandBuffers = [] ∧
          sampleTwoActiveSubmitted.inactiveCommandBuffers ++ [c] =
            List.range' sampleTwoActive.nextCommandBufferHandle
              sampleTwoActive.allocatedCommandBufferCount)) := by
  have hs : VULKAN_Submit sampleTwoActive okDriver = some sampleTwoActiveSubmitted := by
    have h1 : (VULKAN_Submit sampleTwoActive okDriver).isSome = true := by decide
    obtain ⟨y, hy⟩ := Option.isSome_iff_exists.mp h1
    unfold sampleTwoActiveSubmitted
    rw [hy]
    rfl
  exact ⟨sample_commands_inv, sample_two_active_reachable, by decide, by decide, by decide,
    by decide, hs, by decide, by decide, by decide,
    (command_buffers_in_exactly_one_list sampleRenderer sampleTwoActive sample_commands_inv
      sample_two_active_reachable).2.2.2 okDriver sampleTwoActiveSubmitted (by decide)
      (by decide) hs⟩

/-! ## Sub-buffer markers are preserved -/

/-- With tracked markers, a buffer that is not bound has a sub-buffer with the
marker -1: the first, or else the second. -/
theorem MarkersOk.unbound_free {f : Nat} {bound submitted : Prop} {ci : Nat} {m0 m1 : Int}
    (h : MarkersOk f bound submitted ci m0 m1) (hb : ¬ bound) :
    m0 = -1 ∨ (m0 ≠ -1 ∧ m1 = -1) := by
  obtain ⟨h0, h1, b0, b1, _, _, hn⟩ := h
  by_cases e0 : m0 = -1
  · exact Or.inl e0
  · right
    refine ⟨e0, ?_⟩
    rcases h0 with e | e | e
    · exact absurd e e0
    · exact absurd (b0 e).1 hb
    · rcases h1 with e1 | e1 | e1
      · exact e1
      · exact absurd (b1 e1).1 hb
      · exact absurd ⟨e, e1⟩ hn

/-- Choosing another current index keeps the markers of an unbound buffer tracked. -/
theorem MarkersOk.select {f : Nat} {bound submitted : Prop} {ci : Nat} {m0 m1 : Int}
    (h : MarkersOk f bound submitted ci m0 m1) (hb : ¬ bound) (i : Nat) :
    MarkersOk f bound submitted i m0 m1 := by
  obtain ⟨h0, h1, b0, b1, s0, s1, hn⟩ := h
  exact ⟨h0, h1, fun e => absurd (b0 e).1 hb, fun e => absurd (b1 e).1 hb, s0, s1, hn⟩

/-- Marking the current sub-buffer with the frame index keeps the markers tracked. -/
theorem MarkersOk.mark {f : Nat} {bound submitted : Prop} {ci : Nat} {m0 m1 : Int}
    (h : MarkersOk f bound submitted ci m0 m1) (hf : f < 2) :
    (ci = 0 → MarkersOk f True submitted ci (f : Int) m1) ∧
    (ci = 1 → MarkersOk f True submitted ci m0 (f : Int)) := by
  obtain ⟨h0, h1, b0, b1, s0, s1, hn⟩ := h
  have hne : (f : Int) ≠ ((1 - f : Nat) : Int) := by omega
  constructor
  · intro hc
    refine ⟨Or.inr (Or.inl rfl), h1, fun _ => ⟨trivial, hc⟩, ?_, fun e => absurd e hne, s1,
      fun e => hne e.1⟩
    intro e
    have := (b1 e).2
    omega
  · intro hc
    refine ⟨h0, Or.inr (Or.inl rfl), ?_, fun _ => ⟨trivial, hc⟩, s0, fun e => absurd e hne,
      fun e => hne e.2⟩
    intro e
    have := (b0 e).2
    omega

/-- The marker of a sub-buffer after the unmark pass of the cleanup. -/
theorem unmarked_tracked (f : Nat) (hf : f < 2) (s : VulkanSubBuffer) :
    (s.bound = -1 → (unmarked ((f + 1) % 2) s).bound = -1) ∧
    (s.bound = (f : Int) → (unmarked ((f + 1) % 2) s).bound = (f : Int)) ∧
    (s.bound = ((1 - f : Nat) : Int) → (unmarked ((f + 1) % 2) s).bound = -1) := by
  refine ⟨?_, ?_, unmarked_other f hf s⟩
  · intro e
    unfold unmarked
    rw [e, int8ToUInt32_neg_one, if_neg (by omega), e]
  · intro e
    unfold unmarked
    rw [e, int8ToUInt32_small f hf, if_neg (by omega), e]

/-- The markers after a cleanup: the frame index flips, the buffer is no longer
bound, it is submitted if it was in use, and the markers of a buffer that was
submitted were unmarked. -/
theorem MarkersOk.cleaned {f : Nat} {bound submitted inUse : Prop} {ci : Nat}
    {s0 s1 : VulkanSubBuffer} {m0 m1 : Int}
    (h : MarkersOk f bound submitted ci s0.bound s1.bound) (hf : f < 2)
    (huse : bound → inUse)
    (h0 : (submitted → m0 = (unmarked ((f + 1) % 2) s0).bound) ∧
      (¬ submitted → m0 = s0.bound))
    (h1 : (submitted → m1 = (unmarked ((f + 1) % 2) s1).bound) ∧
      (¬ submitted → m1 = s1.bound)) :
    MarkersOk ((f + 1) % 2) False inUse ci m0 m1 := by
  obtain ⟨k0, k1, b0, b1, t0, t1, hn⟩ := h
  have e1 : (((f + 1) % 2 : Nat) : Int) = ((1 - f : Nat) : Int) := by
    have : (f + 1) % 2 = 1 - f := by omega
    rw [this]
  have e2 : ((1 - (f + 1) % 2 : Nat) : Int) = (f : Int) := by
    have : 1 - (f + 1) % 2 = f := by omega
    rw [this]
  have hne : (f : Int) ≠ ((1 - f : Nat) : Int) := by omega
  have hneg : (-1 : Int) ≠ (f : Int) ∧ (-1 : Int) ≠ ((1 - f : Nat) : Int) := by
    constructor <;> omega
  obtain ⟨u0a, u0b, u0c⟩ := unmarked_tracked f hf s0
  obtain ⟨u1a, u1b, u1c⟩ := unmarked_tracked f hf s1
  -- the value of each new marker
  have v0 : (m0 = -1 ∧ s0.bound ≠ (f : Int)) ∨ (m0 = (f : Int) ∧ s0.bound = (f : Int)) := by
    by_cases hs : submitted
    · rcases k0 with e | e | e
      · exact Or.inl ⟨(h0.1 hs).trans (u0a e), by rw [e]; exact hneg.1⟩
      · exact Or.inr ⟨(h0.1 hs).trans (u0b e), e⟩
      · exact Or.inl ⟨(h0.1 hs).trans (u0c e), by rw [e]; exact hne.symm⟩
    · rcases k0 with e | e | e
      · exact Or.inl ⟨(h0.2 hs).trans e, by rw [e]; exact hneg.1⟩
      · exact Or.inr ⟨(h0.2 hs).trans e, e⟩
      · exact absurd (t0 e) hs
  have v1 : (m1 = -1 ∧ s1.bound ≠ (f : Int)) ∨ (m1 = (f : Int) ∧ s1.bound = (f : Int)) := by
    by_cases hs : submitted
    · rcases k1 with e | e | e
      · exact Or.inl ⟨(h1.1 hs).trans (u1a e), by rw [e]; exact hneg.1⟩
      · exact Or.inr ⟨(h1.1 hs).trans (u1b e), e⟩
      · exact Or.inl ⟨(h1.1 hs).trans (u1c e), by rw [e]; exact hne.symm⟩
    · rcases k1 with e | e | e
      · exact Or.inl ⟨(h1.2 hs).trans e, by rw [e]; exact hneg.1⟩
      · exact Or.inr ⟨(h1.2 hs).trans e, e⟩
      · exact absurd (t1 e) hs
  rw [MarkersOk, e1, e2]
  refine ⟨?_, ?_, ?_, ?_, ?_, ?_, ?_⟩
  · rcases v0 with ⟨e, _⟩ | ⟨e, _⟩
    · exact Or.inl e
    · exact Or.inr (Or.inr e)
  · rcases v1 with ⟨e, _⟩ | ⟨e, _⟩
    · exact Or.inl e
    · exact Or.inr (Or.inr e)
  · intro e
    rcases v0 with ⟨e', _⟩ | ⟨e', _⟩
    · rw [e'] at e; exact absurd e hneg.2
    · rw [e'] at e; exact absurd e hne
  · intro e
    rcases v1 with ⟨e', _⟩ | ⟨e', _⟩
    · rw [e'] at e; exact absurd e hneg.2
    · rw [e'] at e; exact absurd e hne
  · intro e
    rcases v0 with ⟨e', _⟩ | ⟨_, es⟩
    · rw [e'] at e; exact absurd e hneg.1
    · exact huse (b0 es).1
  · intro e
    rcases v1 with ⟨e', _⟩ | ⟨_, es⟩
    · rw [e'] at e; exact absurd e hneg.1
    · exact huse (b1 es).1
  · rintro ⟨e, e'⟩
    rcases v0 with ⟨x, _⟩ | ⟨_, es0⟩
    · rw [x] at e; exact absurd e hneg.1
    · rcases v1 with ⟨x, _⟩ | ⟨_, es1⟩
      · rw [x] at e'; exact absurd e' hneg.1
      · have a := (b0 es0).2
        have b := (b1 es1).2
        omega

/-- The invariant depends on the buffers, the frame index and the lists only. -/
theorem MarkersInv_congr {r r1 : VulkanRenderer} {buf p0 p1 : Nat}
    (e1 : r1.bufferHeap = r.bufferHeap) (e2 : r1.subBufferHeap = r.subBufferHeap)
    (e3 : r1.frameIndex = r.frameIndex) (e4 : r1.buffersInUse = r.buffersInUse)
    (e5 : r1.submittedBuffers = r.submittedBuffers) (e6 : r1.deferred = r.deferred)
    (h : MarkersInv r buf p0 p1) : MarkersInv r1 buf p0 p1 := by
  refine ⟨h.distinct, by rw [e3]; exact h.frameIndex, by rw [e6]; exact h.toDestroy,
    by rw [e6]; exact h.submittedToDestroy, by rw [e1]; exact h.isolated, ?_⟩
  rw [e1, e2, e3, e4, e5]
  exact h.state

theorem RECORD_CMD_markers (r : VulkanRenderer) (driver : DriverResults)
    (cmdCall : Option Nat → VulkanCall) (r1 : VulkanRenderer) (buf p0 p1 : Nat)
    (h : RECORD_CMD r driver cmdCall = some r1) (hinv : MarkersInv r buf p0 p1) :
    MarkersInv r1 buf p0 p1 := by
  obtain ⟨hf, _, _⟩ := RECORD_CMD_frame r driver cmdCall r1 h
  unfold CommandFrame at hf
  refine MarkersInv_congr ?_ ?_ ?_ ?_ ?_ ?_ hinv <;> rw [hf]

/-- The search of `SetBufferData` on a tracked buffer that is not bound stops at an
index below 2 whose sub-buffer has the marker -1. -/
theorem firstUnbound_tracked (heap : List (Option VulkanSubBuffer)) (p0 p1 : Nat)
    (s0 s1 : VulkanSubBuffer) (h0 : heapGet heap p0 = some s0) (h1 : heapGet heap p1 = some s1)
    (hfree : s0.bound = -1 ∨ (s0.bound ≠ -1 ∧ s1.bound = -1)) :
    ∃ i sub sb, firstUnboundSubBuffer heap [p0, p1] 0 = some i ∧ i < 2 ∧
      [p0, p1][i]? = some sub ∧ heapGet heap sub = some sb ∧ sb.bound = -1 := by
  rcases hfree with e | ⟨e, e1⟩
  · refine ⟨0, p0, s0, ?_, by decide, rfl, h0, e⟩
    simp only [firstUnboundSubBuffer, h0, e, if_true]
  · refine ⟨1, p1, s1, ?_, by decide, rfl, h1, e1⟩
    simp only [firstUnboundSubBuffer, h0, h1, e, e1, if_true, if_false]

theorem SetBufferData_markers (r : VulkanRenderer) (driver : DriverResults)
    (q offsetInBytes : Nat) (data : List Nat) (r1 : VulkanRenderer) (buf p0 p1 : Nat)
    (h : VULKAN_INTERNAL_SetBufferData r driver q offsetInBytes data = some r1)
    (hinv : MarkersInv r buf p0 p1) : MarkersInv r1 buf p0 p1 := by
  cases hq : heapGet r.bufferHeap q with
  | none =>
    unfold VULKAN_INTERNAL_SetBufferData at h
    rw [hq] at h
    cases h
  | some bq =>
    by_cases hbound : bq.bound = 0
    · obtain ⟨i, hi, eb, es, hu, _, _⟩ :=
        SetBufferData_spec r driver q offsetInBytes data bq r1 hq hbound h
      obtain ⟨b, s0, s1, hb, hsub, hs0, hs1, hci, huse, hok⟩ := hinv.state
      have hlt : q < r.bufferHeap.length := heapGet_lt hq
      refine ⟨hinv.distinct, by rw [hu.frameIndex]; exact hinv.frameIndex,
        by rw [hu.deferred]; exact hinv.toDestroy,
        by rw [hu.deferred]; exact hinv.submittedToDestroy, ?_, ?_⟩
      · intro q1 bq1 hne hq1
        rw [eb] at hq1
        by_cases e : q1 = q
        · subst e
          rw [heapGet_set_eq _ _ _ hlt] at hq1
          simp only [Option.some.injEq] at hq1
          subst hq1
          exact hinv.isolated q1 bq hne hq
        · rw [heapGet_set_ne _ _ _ _ (Ne.symm e)] at hq1
          exact hinv.isolated q1 bq1 hne hq1
      · rw [eb, es, hu.frameIndex, hu.buffersInUse, hu.submittedBuffers]
        by_cases e : q = buf
        · subst e
          rw [hb] at hq
          simp only [Option.some.injEq] at hq
          subst hq
          have hnb : ¬ b.bound ≠ 0 := fun hc => hc hbound
          obtain ⟨i1, sub, sb, hi1, hlt1, _, _, _⟩ :=
            firstUnbound_tracked r.subBufferHeap p0 p1 s0 s1 hs0 hs1 (hok.unbound_free hnb)
          rw [hsub, hi1] at hi
          simp only [Option.some.injEq] at hi
          subst hi
          refine ⟨{ b with currentSubBufferIndex := i1 }, s0, s1,
            heapGet_set_eq _ _ _ hlt, hsub, hs0, hs1, hlt1, huse, ?_⟩
          exact hok.select hnb i1
        · refine ⟨b, s0, s1, ?_, hsub, hs0, hs1, hci, huse, hok⟩
          rw [heapGet_set_ne _ _ _ _ e]
          exact hb
    · unfold VULKAN_INTERNAL_SetBufferData at h
      rw [hq] at h
      simp only at h
      rw [if_pos hbound] at h
      simp only [Option.some.injEq] at h
      subst h
      exact hinv

theorem MarkAsBound_markers (r : VulkanRenderer) (q : Nat) (r1 : VulkanRenderer)
    (buf p0 p1 : Nat) (h : VULKAN_INTERNAL_MarkAsBound r q = some r1)
    (hinv : MarkersInv r buf p0 p1) : MarkersInv r1 buf p0 p1 := by
  unfold VULKAN_INTERNAL_MarkAsBound at h
  cases hq : heapGet r.bufferHeap q with
  | none => rw [hq] at h; cases h
  | some bq =>
    rw [hq] at h
    simp only at h
    cases hsubq : bq.subBuffers[bq.currentSubBufferIndex]? with
    | none => rw [hsubq] at h; cases h
    | some subbuf =>
      rw [hsubq] at h
      simp only at h
      cases hsb : heapGet r.subBufferHeap subbuf with
      | none => rw [hsb] at h; cases h
      | some sb =>
        rw [hsb] at h
        simp only at h
        obtain ⟨b, s0, s1, hb, hsub, hs0, hs1, hci, huse, hok⟩ := hinv.state
        have hqlt : q < r.bufferHeap.length := heapGet_lt hq
        have hplt : subbuf < r.subBufferHeap.length := heapGet_lt hsb
        have hmem : subbuf ∈ bq.subBuffers := List.getElem?_mem hsubq
        have hf := hinv.frameIndex
        have hmark : uint32ToInt8 r.frameIndex = (r.frameIndex : Int) :=
          uint32ToInt8_small _ hf
        -- the sub-buffer heap after the marking, seen from `p0` and `p1`
        have hsubs : ∃ t0 t1,
            heapGet (r.subBufferHeap.set subbuf
              (some { sb with bound := uint32ToInt8 r.frameIndex })) p0 = some t0 ∧
            heapGet (r.subBufferHeap.set subbuf
              (some { sb with bound := uint32ToInt8 r.frameIndex })) p1 = some t1 ∧
            MarkersOk r.frameIndex (q = buf ∨ b.bound ≠ 0) (buf ∈ r.submittedBuffers)
              b.currentSubBufferIndex t0.bound t1.bound := by
          by_cases e : q = buf
          · subst e
            rw [hb] at hq
            simp only [Option.some.injEq] at hq
            subst hq
            rw [hsub] at hsubq
            obtain ⟨m0, m1⟩ := hok.mark hf
            have hci2 : b.currentSubBufferIndex = 0 ∨ b.currentSubBufferIndex = 1 := by omega
            rcases hci2 with hc | hc
            · rw [hc] at hsubq
              simp only [List.getElem?_cons_zero, Option.some.injEq] at hsubq
              subst hsubq
              rw [hs0] at hsb
              simp only [Option.some.injEq] at hsb
              subst hsb
              refine ⟨_, s1, heapGet_set_eq _ _ _ hplt, ?_, ?_⟩
              · rw [heapGet_set_ne _ _ _ _ hinv.distinct]
                exact hs1
              · show MarkersOk _ _ _ _ (uint32ToInt8 r.frameIndex) s1.bound
                rw [hmark]
                have := m0 hc
                simpa using this
            · rw [hc] at hsubq
              simp only [List.getElem?_cons_succ, List.getElem?_cons_zero,
                Option.some.injEq] at hsubq
              subst hsubq
              rw [hs1] at hsb
              simp only [Option.some.injEq] at hsb
              subst hsb
              refine ⟨s0, _, ?_, heapGet_set_eq _ _ _ hplt, ?_⟩
              · rw [heapGet_set_ne _ _ _ _ (Ne.symm hinv.distinct)]
                exact hs0
              · show MarkersOk _ _ _ _ s0.bound (uint32ToInt8 r.frameIndex)
                rw [hmark]
                have := m1 hc
                simpa using this
          · obtain ⟨n0, n1⟩ := hinv.isolated q bq e hq
            have hne0 : subbuf ≠ p0 := fun hc => n0 (hc ▸ hmem)
            have hne1 : subbuf ≠ p1 := fun hc => n1 (hc ▸ hmem)
            refine ⟨s0, s1, ?_, ?_, ?_⟩
            · rw [heapGet_set_ne _ _ _ _ hne0]
              exact hs0
            · rw [heapGet_set_ne _ _ _ _ hne1]
              exact hs1
            · simpa [e] using hok
        obtain ⟨t0, t1, ht0, ht1, htok⟩ := hsubs
        by_cases hbound : bq.bound ≠ 0
        · rw [if_pos hbound] at h
          simp only [Option.some.injEq] at h
          subst h
          refine ⟨hinv.distinct, hinv.frameIndex, hinv.toDestroy, hinv.submittedToDestroy,
            hinv.isolated, b, t0, t1, hb, hsub, ht0, ht1, hci, huse, ?_⟩
          have hiff : (q = buf ∨ b.bound ≠ 0) ↔ b.bound ≠ 0 := by
            constructor
            · rintro (e | e)
              · subst e
                rw [hb] at hq
                simp only [Option.some.injEq] at hq
                subst hq
                exact hbound
              · exact e
            · intro e
              exact Or.inr e
          unfold MarkersOk at htok ⊢
          rw [hiff] at htok
          exact htok
        · rw [if_neg hbound] at h
          simp only [Option.some.injEq] at h
          subst h
          refine ⟨hinv.distinct, hinv.frameIndex, hinv.toDestroy, hinv.submittedToDestroy,
            ?_, ?_⟩
          · intro q1 bq1 hne hq1
            have hq1' : heapGet (r.bufferHeap.set q (some { bq with bound := 1 })) q1 =
                some bq1 := hq1
            by_cases e : q1 = q
            · subst e
              rw [heapGet_set_eq _ _ _ hqlt] at hq1'
              simp only [Option.some.injEq] at hq1'
              subst hq1'
              exact hinv.isolated q1 bq hne hq
            · rw [heapGet_set_ne _ _ _ _ (Ne.symm e)] at hq1'
              exact hinv.isolated q1 bq1 hne hq1'
          · by_cases e : q = buf
            · subst e
              rw [hb] at hq
              simp only [Option.some.injEq] at hq
              subst hq
              refine ⟨{ b with bound := 1 }, t0, t1, heapGet_set_eq _ _ _ hqlt, hsub, ht0, ht1,
                hci, fun _ => List.mem_append_right _ (List.mem_singleton_self _), ?_⟩
              show MarkersOk r.frameIndex ((1 : Nat) ≠ 0) _ b.currentSubBufferIndex _ _
              unfold MarkersOk at htok ⊢
              simpa using htok
            · refine ⟨b, t0, t1, ?_, hsub, ht0, ht1, hci,
                fun hbd => List.mem_append_left _ (huse hbd), ?_⟩
              · show heapGet (r.bufferHeap.set q (some { bq with bound := 1 })) buf = some b
                rw [heapGet_set_ne _ _ _ _ e]
                exact hb
              · unfold MarkersOk at htok ⊢
                simpa [e] using htok

theorem bindVertexBuffersLoop_markers (buf p0 p1 : Nat) :
    ∀ (l : List Nat) (r : VulkanRenderer) (buffers : List Nat) (r1 : VulkanRenderer)
      (out : List Nat),
      bindVertexBuffersLoop r l buffers = some (r1, out) → MarkersInv r buf p0 p1 →
      MarkersInv r1 buf p0 p1 := by
  intro l
  induction l with
  | nil =>
    intro r buffers r1 out h hinv
    simp only [bindVertexBuffersLoop, Option.some.injEq, Prod.mk.injEq] at h
    rw [← h.1]
    exact hinv
  | cons q rest ih =>
    intro r buffers r1 out h hinv
    unfold bindVertexBuffersLoop at h
    cases hq : heapGet r.bufferHeap q with
    | none => rw [hq] at h; cases h
    | some bq =>
      rw [hq] at h
      simp only at h
      cases hs : (bq.subBuffers[bq.currentSubBufferIndex]?).bind (heapGet r.subBufferHeap) with
      | none => rw [hs] at h; cases h
      | some sb =>
        rw [hs] at h
        simp only at h
        cases hm : VULKAN_INTERNAL_MarkAsBound r q with
        | none => rw [hm] at h; cases h
        | some r0 =>
          rw [hm] at h
          simp only at h
          exact ih r0 _ r1 out h (MarkAsBound_markers r q r0 buf p0 p1 hm hinv)

theorem BindVertexBuffers_markers (r : VulkanRenderer) (driver : DriverResults)
    (firstBinding : Nat) (pBuffers pOffsets : List Nat) (r1 : VulkanRenderer)
    (buf p0 p1 : Nat)
    (h : VULKAN_BindVertexBuffers r driver firstBinding pBuffers pOffsets = some r1)
    (hinv : MarkersInv r buf p0 p1) : MarkersInv r1 buf p0 p1 := by
  unfold VULKAN_BindVertexBuffers at h
  cases hl : bindVertexBuffersLoop r pBuffers [] with
  | none => rw [hl] at h; cases h
  | some x =>
    obtain ⟨r0, out⟩ := x
    rw [hl] at h
    simp only at h
    exact RECORD_CMD_markers r0 driver _ r1 buf p0 p1 h
      (bindVertexBuffersLoop_markers buf p0 p1 pBuffers r [] r0 out hl hinv)

theorem BindIndexBuffer_markers (r : VulkanRenderer) (driver : DriverResults)
    (buffer offset indexType : Nat) (r1 : VulkanRenderer) (buf p0 p1 : Nat)
    (h : VULKAN_BindIndexBuffer r driver buffer offset indexType = some r1)
    (hinv : MarkersInv r buf p0 p1) : MarkersInv r1 buf p0 p1 := by
  unfold VULKAN_BindIndexBuffer at h
  cases hm : VULKAN_INTERNAL_MarkAsBound r buffer with
  | none => rw [hm] at h; cases h
  | some r0 =>
    rw [hm] at h
    simp only at h
    have hinv0 := MarkAsBound_markers r buffer r0 buf p0 p1 hm hinv
    cases hb : heapGet r0.bufferHeap buffer with
    | none => rw [hb] at h; cases h
    | some b =>
      rw [hb] at h
      simp only at h
      cases hs : (b.subBuffers[r0.frameIndex]?).bind (heapGet r0.subBufferHeap) with
      | none => rw [hs] at h; cases h
      | some sb =>
        rw [hs] at h
        simp only at h
        exact RECORD_CMD_markers r0 driver _ r1 buf p0 p1 h hinv0

/-- The cleanup keeps the markers of a tracked buffer tracked. -/
theorem PostWorkCleanup_markers (r r1 : VulkanRenderer) (buf p0 p1 : Nat)
    (h : VULKAN_INTERNAL_PostWorkCleanup r = some r1) (hinv : MarkersInv r buf p0 p1) :
    MarkersInv r1 buf p0 p1 := by
  obtain ⟨b, s0, s1, hb, hsub, hs0, hs1, hci, huse, hok⟩ := hinv.state
  have hf := hinv.frameIndex
  unfold VULKAN_INTERNAL_PostWorkCleanup at h
  cases hd : destroySubmittedResources r with
  | none => rw [hd] at h; cases h
  | some a =>
    rw [hd] at h
    simp only at h
    have hsame := destroySubmittedResources_sameBuffers r a hd hinv.submittedToDestroy
    obtain ⟨d1, f1, u1, t1, _, _⟩ := destroySubmittedResources_spec r a hd
    cases hu : unmarkSubmittedBuffers
        { a with deferred := rotateDestroyLists a.deferred, frameIndex := (a.frameIndex + 1) % 2 }
        a.submittedBuffers with
    | none => rw [hu] at h; cases h
    | some c =>
      rw [hu] at h
      simp only at h
      have hub := unmarkSubmittedBuffers_frame _ _ c hu
      obtain ⟨xb, xs⟩ := unmarkSubmittedBuffers_exact _ _ c hu
      simp only at xb xs
      cases hm : markBuffersSubmitted c c.buffersInUse with
      | none => rw [hm] at h; cases h
      | some d =>
        rw [hm] at h
        simp only [Option.some.injEq] at h
        have xm := markBuffersSubmitted_exact _ _ d hm
        obtain ⟨hmu, hms⟩ := markBuffersSubmitted_frame _ _ d hm
        subst h
        have hcu : c.buffersInUse = r.buffersInUse := by
          rw [hub.buffersInUse]
          exact u1
        have hcf : c.frameIndex = (r.frameIndex + 1) % 2 := by
          rw [hub.frameIndex]
          show (a.frameIndex + 1) % 2 = _
          rw [f1]
        have hcd : c.deferred = rotateDestroyLists r.deferred := by
          rw [hub.deferred]
          show rotateDestroyLists a.deferred = _
          rw [d1]
        -- what the cleanup does to a buffer
        have hview : ∀ q bq, heapGet r.bufferHeap q = some bq →
            ∃ bq', heapGet d.bufferHeap q = some bq' ∧ bq'.subBuffers = bq.subBuffers ∧
              bq'.currentSubBufferIndex = bq.currentSubBufferIndex ∧
              (q ∈ r.buffersInUse → bq'.bound = 0) ∧
              (q ∉ r.buffersInUse → bq'.bound = bq.bound) := by
          intro q bq hq
          have ha : heapGet a.bufferHeap q = some bq := by rw [hsame.bufferHeap]; exact hq
          have hc : ∃ bc, heapGet c.bufferHeap q = some bc ∧ bc.subBuffers = bq.subBuffers ∧
              bc.currentSubBufferIndex = bq.currentSubBufferIndex ∧ bc.bound = bq.bound := by
            by_cases hin : q ∈ a.submittedBuffers
            · refine ⟨{ bq with boundSubmitted := 0 }, ?_, rfl, rfl, rfl⟩
              rw [(xb q).1 hin, ha]
              rfl
            · exact ⟨bq, by rw [(xb q).2 hin, ha], rfl, rfl, rfl⟩
          obtain ⟨bc, hbc, e1, e2, e3⟩ := hc
          by_cases hin : q ∈ c.buffersInUse
          · refine ⟨{ bc with bound := 0, boundSubmitted := 1 }, ?_, e1, e2, fun _ => rfl,
              fun hn => absurd (hcu ▸ hin) hn⟩
            rw [(xm q).1 hin, hbc]
            rfl
          · refine ⟨bc, by rw [(xm q).2 hin, hbc], e1, e2,
              fun hy => absurd (hcu.symm ▸ hy) hin, fun _ => e3⟩
        have hback : ∀ q bq', heapGet d.bufferHeap q = some bq' →
            ∃ bq, heapGet r.bufferHeap q = some bq ∧ bq'.subBuffers = bq.subBuffers := by
          intro q bq' hq'
          cases hq : heapGet r.bufferHeap q with
          | some bq =>
            obtain ⟨bq2, h2, e, _⟩ := hview q bq hq
            rw [hq'] at h2
            simp only [Option.some.injEq] at h2
            subst h2
            exact ⟨bq, rfl, e⟩
          | none =>
            exfalso
            have ha : heapGet a.bufferHeap q = none := by rw [hsame.bufferHeap]; exact hq
            have hc : heapGet c.bufferHeap q = none := by
              by_cases hin : q ∈ a.submittedBuffers
              · rw [(xb q).1 hin, ha]
                rfl
              · rw [(xb q).2 hin, ha]
            by_cases hin : q ∈ c.buffersInUse
            · rw [(xm q).1 hin, hc] at hq'
              cases hq'
            · rw [(xm q).2 hin, hc] at hq'
              cases hq'
        -- the markers of the two sub-buffers
        have hsubm : ∀ p, p ∈ [p0, p1] →
            (p ∈ subBuffersOf a.bufferHeap a.submittedBuffers ↔ buf ∈ r.submittedBuffers) := by
          intro p hp
          rw [mem_subBuffersOf, hsame.bufferHeap, t1]
          constructor
          · rintro ⟨q, bq, hq, hbq, hpq⟩
            by_cases e : q = buf
            · rw [← e]; exact hq
            · exfalso
              obtain ⟨n0, n1⟩ := hinv.isolated q bq e hbq
              rcases List.mem_cons.mp hp with e0 | e0
              · exact n0 (e0 ▸ hpq)
              · rw [List.mem_singleton] at e0
                exact n1 (e0 ▸ hpq)
          · intro hin
            exact ⟨buf, b, hin, hb, by rw [hsub]; exact hp⟩
        have hmark : ∀ p s, p ∈ [p0, p1] → heapGet r.subBufferHeap p = some s →
            ∃ s', heapGet d.subBufferHeap p = some s' ∧
              (buf ∈ r.submittedBuffers → s'.bound = (unmarked ((r.frameIndex + 1) % 2) s).bound) ∧
              (buf ∉ r.submittedBuffers → s'.bound = s.bound) := by
          intro p s hp hs
          have hsa : heapGet a.subBufferHeap p = some s := by rw [hsame.subBufferHeap]; exact hs
          by_cases hin : buf ∈ r.submittedBuffers
          · refine ⟨unmarked ((r.frameIndex + 1) % 2) s, ?_, fun _ => rfl,
              fun hn => absurd hin hn⟩
            rw [hms, (xs p).1 ((hsubm p hp).mpr hin), hsa, f1]
            rfl
          · refine ⟨s, ?_, fun hy => absurd hy hin, fun _ => rfl⟩
            rw [hms, (xs p).2 (fun hc => hin ((hsubm p hp).mp hc)), hsa]
        obtain ⟨b', hb', e1, e2, e3, e4⟩ := hview buf b hb
        obtain ⟨s0', hs0', m0a, m0b⟩ := hmark p0 s0 (List.mem_cons_self _ _) hs0
        obtain ⟨s1', hs1', m1a, m1b⟩ := hmark p1 s1
          (List.mem_cons_of_mem _ (List.mem_singleton_self _)) hs1
        have hb0 : b'.bound = 0 := by
          by_cases hin : buf ∈ r.buffersInUse
          · exact e3 hin
          · rw [e4 hin]
            by_contra hc
            exact hin (huse hc)
        have hclean := hok.cleaned hf huse ⟨m0a, m0b⟩ ⟨m1a, m1b⟩
        refine ⟨hinv.distinct, ?_, ?_, ?_, ?_, ?_⟩
        · show d.frameIndex < 2
          rw [hmu.frameIndex, hcf]
          omega
        · show d.deferred.buffersToDestroy = []
          rw [hmu.deferred, hcd]
          rfl
        · show d.deferred.submittedBuffersToDestroy = []
          rw [hmu.deferred, hcd]
          exact hinv.toDestroy
        · intro q bq' hne hq'
          obtain ⟨bq, hq, e⟩ := hback q bq' hq'
          rw [e]
          exact hinv.isolated q bq hne hq
        · refine ⟨b', s0', s1', hb', e1.trans hsub, hs0', hs1', by rw [e2]; exact hci,
            fun hc => absurd hb0 hc, ?_⟩
          show MarkersOk d.frameIndex (b'.bound ≠ 0) (buf ∈ d.buffersInUse)
            b'.currentSubBufferIndex s0'.bound s1'.bound
          rw [hmu.frameIndex, hcf, hmu.buffersInUse, hcu, e2]
          unfold MarkersOk at hclean ⊢
          simpa [hb0] using hclean

/-- Every step keeps the markers tracked. -/
theorem applyBufferStep_markers (r r1 : VulkanRenderer) (s : BufferStep) (buf p0 p1 : Nat)
    (h : applyBufferStep r s = some r1) (hinv : MarkersInv r buf p0 p1) :
    MarkersInv r1 buf p0 p1 := by
  cases s with
  | setBufferData driver buffer offsetInBytes data =>
    exact SetBufferData_markers r driver buffer offsetInBytes data r1 buf p0 p1 h hinv
  | bindVertexBuffers driver firstBinding pBuffers pOffsets =>
    exact BindVertexBuffers_markers r driver firstBinding pBuffers pOffsets r1 buf p0 p1 h hinv
  | bindIndexBuffer driver buffer offset indexType =>
    exact BindIndexBuffer_markers r driver buffer offset indexType r1 buf p0 p1 h hinv
  | cleanup => exact PostWorkCleanup_markers r r1 buf p0 p1 h hinv

theorem runBufferSteps_markers (buf p0 p1 : Nat) :
    ∀ (steps : List BufferStep) (r r1 : VulkanRenderer),
      runBufferSteps r steps = some r1 → MarkersInv r buf p0 p1 → MarkersInv r1 buf p0 p1 := by
  intro steps
  induction steps with
  | nil =>
    intro r r1 h hinv
    simp only [runBufferSteps, Option.some.injEq] at h
    rw [← h]
    exact hinv
  | cons s rest ih =>
    intro r r1 h hinv
    unfold runBufferSteps at h
    cases hs : applyBufferStep r s with
    | none => rw [hs] at h; cases h
    | some r0 =>
      rw [hs] at h
      simp only at h
      exact ih r0 r1 h (applyBufferStep_markers r r0 s buf p0 p1 hs hinv)


/-! ## C26: the sub-buffer search and the frame index -/

/-- With a frame index of 0 or 1 the search stays in range.  In every state reached
from a state with tracked markers (frame index 0 or 1, as after the creation of the
buffer with both markers -1) through `SetBufferData`, `BindVertexBuffers`,
`BindIndexBuffer` and the cleanup step, for a buffer with two sub-buffers that is
not bound in the current frame, the search of `VULKAN_INTERNAL_SetBufferData` stops
at an index below `subBufferCount` whose sub-buffer has the marker -1, and that
index is the `currentSubBufferIndex` after the call. -/
theorem set_buffer_data_index_in_range (r0 r : VulkanRenderer) (steps : List BufferStep)
    (buf p0 p1 : Nat) (b : VulkanBuffer)
    (h0 : MarkersInv r0 buf p0 p1) (hrun : runBufferSteps r0 steps = some r)
    (hb : heapGet r.bufferHeap buf = some b) (hunbound : b.bound = 0) :
    b.subBuffers = [p0, p1] ∧
    ∃ i sub sb, firstUnboundSubBuffer r.subBufferHeap b.subBuffers 0 = some i ∧
      i < b.subBuffers.length ∧ b.subBuffers[i]? = some sub ∧
      heapGet r.subBufferHeap sub = some sb ∧ sb.bound = -1 ∧
      ∀ (driver : DriverResults) (offsetInBytes : Nat) (data : List Nat) (r1 : VulkanRenderer),
        VULKAN_INTERNAL_SetBufferData r driver buf offsetInBytes data = some r1 →
        ∃ b1, heapGet r1.bufferHeap buf = some b1 ∧ b1.currentSubBufferIndex = i ∧
          b1.subBuffers = b.subBuffers ∧ b1.currentSubBufferIndex < b1.subBuffers.length := by
  have hinv := runBufferSteps_markers buf p0 p1 steps r0 r hrun h0
  obtain ⟨b2, s0, s1, hb2, hsub, hs0, hs1, _, _, hok⟩ := hinv.state
  rw [hb] at hb2
  simp only [Option.some.injEq] at hb2
  subst hb2
  have hnb : ¬ b.bound ≠ 0 := fun hc => hc hunbound
  obtain ⟨i, sub, sb, hi, hlt, hsubi, hsb, hm⟩ :=
    firstUnbound_tracked r.subBufferHeap p0 p1 s0 s1 hs0 hs1 (hok.unbound_free hnb)
  refine ⟨hsub, i, sub, sb, by rw [hsub]; exact hi, by rw [hsub]; exact hlt,
    by rw [hsub]; exact hsubi, hsb, hm, ?_⟩
  intro driver offsetInBytes data r1 hset
  obtain ⟨j, hj, eb, _⟩ := SetBufferData_spec r driver buf offsetInBytes data b r1 hb hunbound hset
  rw [hsub, hi] at hj
  simp only [Option.some.injEq] at hj
  subst hj
  refine ⟨{ b with currentSubBufferIndex := i }, ?_, rfl, rfl, ?_⟩
  · rw [eb]
    exact heapGet_set_eq _ _ _ (heapGet_lt hb)
  · show i < b.subBuffers.length
    rw [hsub]
    exact hlt

theorem sample_markers_inv : MarkersInv sampleRenderer 0 0 1 := by
  refine ⟨by decide, by decide, by decide, by decide, ?_, ?_⟩
  · intro q bq hne hq
    have hlt := heapGet_lt hq
    have hlen : sampleRenderer.bufferHeap.length = 1 := by decide
    omega
  · refine ⟨{ size := 256, subBuffers := [0, 1], currentSubBufferIndex := 0,
              resourceAccessType := .RESOURCE_ACCESS_VERTEX_BUFFER, usage := 128,
              bound := 0, boundSubmitted := 0 },
      { allocation := 0, buffer := 500, offset := 0, size := 256,
        resourceAccessType := .RESOURCE_ACCESS_VERTEX_BUFFER, bound := -1 },
      { allocation := 0, buffer := 501, offset := 256, size := 256,
        resourceAccessType := .RESOURCE_ACCESS_VERTEX_BUFFER, bound := -1 },
      by decide, rfl, by decide, by decide, by decide, by decide, ?_⟩
    unfold MarkersOk
    decide

set_option maxRecDepth 100000 in
/-- On the sample renderer: after a frame that wrote and bound the buffer, the
first sub-buffer is marked 0 and the second -1, the frame index is 1, and the search
stops at index 1. -/
theorem set_buffer_data_index_in_range_witness :
    MarkersInv sampleRenderer 0 0 1 ∧
    runBufferSteps sampleRenderer sampleMarkerSteps = some sampleMarkersAfter ∧
    sampleMarkersAfter.frameIndex = 1 ∧
    (heapGet sampleMarkersAfter.subBufferHeap 0).map (fun s => s.bound) = some 0 ∧
    (heapGet sampleMarkersAfter.subBufferHeap 1).map (fun s => s.bound) = some (-1) ∧
    firstUnboundSubBuffer sampleMarkersAfter.subBufferHeap [0, 1] 0 = some 1 ∧
    ∃ i sub sb, firstUnboundSubBuffer sampleMarkersAfter.subBufferHeap [0, 1] 0 = some i ∧
      i < [0, 1].length ∧ [0, 1][i]? = some sub ∧
      heapGet sampleMarkersAfter.subBufferHeap sub = some sb ∧ sb.bound = -1 ∧
      ∀ (driver : DriverResults) (offsetInBytes : Nat) (data : List Nat) (r1 : VulkanRenderer),
        VULKAN_INTERNAL_SetBufferData sampleMarkersAfter driver 0 offsetInBytes data = some r1 →
        ∃ b1, heapGet r1.bufferHeap 0 = some b1 ∧ b1.currentSubBufferIndex = i ∧
          b1.subBuffers = [0, 1] ∧ b1.currentSubBufferIndex < b1.subBuffers.length := by
  have hrun : runBufferSteps sampleRenderer sampleMarkerSteps = some sampleMarkersAfter := by
    have h1 : (runBufferSteps sampleRenderer sampleMarkerSteps).isSome = true := by decide
    obtain ⟨y, hy⟩ := Option.isSome_iff_exists.mp h1
    unfold sampleMarkersAfter
    rw [hy]
    rfl
  exact ⟨sample_markers_inv, hrun, by decide, by decide, by decide, by decide,
    (set_buffer_data_index_in_range sampleRenderer sampleMarkersAfter sampleMarkerSteps 0 0 1
      { size := 256, subBuffers := [0, 1], currentSubBufferIndex := 0,
        resourceAccessType := .RESOURCE_ACCESS_VERTEX_BUFFER, usage := 128,
        bound := 0, boundSubmitted := 1 }
      sample_markers_inv hrun (by decide) rfl).2⟩

set_option maxRecDepth 100000 in
/-- C26. The search of `VULKAN_INTERNAL_SetBufferData` leaves the range in a state
reached through `SetBufferData`, `BindVertexBuffers` and the cleanup step:
`frameIndex` is assigned nowhere before the first cleanup reads it, and a marker
set from a value other than 0 or 1 is never cleared.  On `sampleUnassigned` (the
field holds 5) the buffer is written, bound and cleaned up in two frames.  The
first write selects index 0 and the bind marks sub-buffer 0 with 5; the second
write selects index 1 and the bind marks sub-buffer 1 with 0.  After the second
cleanup the frame index is 1, the buffer is not bound, the markers are 5 and 0, no
sub-buffer has the marker -1, and the search stops at index 2, the number of
sub-buffers: `subBuffers[2]` does not exist and the call is undefined. -/
theorem garbage_frame_index_exhausts_sub_buffers :
    ((runBufferSteps sampleUnassigned sampleMarkerSteps).bind
      (fun r => heapGet r.bufferHeap 0)).map (fun b => b.currentSubBufferIndex) = some 0 ∧
    runBufferSteps sampleUnassigned (sampleMarkerSteps ++ sampleMarkerSteps) =
      some sampleUnassignedTwoFrames ∧
    sampleUnassignedTwoFrames.frameIndex = 1 ∧
    heapGet sampleUnassignedTwoFrames.bufferHeap 0 = some
      { size := 256, subBuffers := [0, 1], currentSubBufferIndex := 1,
        resourceAccessType := .RESOURCE_ACCESS_VERTEX_BUFFER, usage := 128,
        bound := 0, boundSubmitted := 1 } ∧
    (heapGet sampleUnassignedTwoFrames.subBufferHeap 0).map (fun s => s.bound) = some 5 ∧
    (heapGet sampleUnassignedTwoFrames.subBufferHeap 1).map (fun s => s.bound) = some 0 ∧
    firstUnboundSubBuffer sampleUnassignedTwoFrames.subBufferHeap [0, 1] 0 = some 2 ∧
    [0, 1][2]? = (none : Option Nat) ∧
    VULKAN_INTERNAL_SetBufferData sampleUnassignedTwoFrames okDriver 0 0 [3, 4] = none := by
  decide


/-! ## C27: the sub-buffer bound by BindIndexBuffer -/

set_option maxRecDepth 100000 in
/-- C27. In frame K+1 of the sample scenario the frame index is 1 and the buffer was
just written through its current sub-buffer, index 0 (`VkBuffer` 500).
`VULKAN_BindIndexBuffer` marks sub-buffer 0 as bound and hands `VkBuffer` 501, the
one of `subBuffers[frameIndex]`, to `vkCmdBindIndexBuffer`;
`VULKAN_BindVertexBuffers` in the same state marks sub-buffer 0 and hands 500. -/
theorem bind_index_buffer_hands_other_sub_buffer :
    sampleWrittenK1.frameIndex = 1 ∧
    (heapGet sampleWrittenK1.bufferHeap 0).map (fun b => b.currentSubBufferIndex) = some 0 ∧
    sampleWrittenK1.calls.getLast? = some (.memcpyMapped 0 0 0 [1, 2]) ∧
    (VULKAN_BindIndexBuffer sampleWrittenK1 okDriver 0 0 1).map
        (fun r => (r.calls.getLast?, (r.subBufferHeap.map (Option.map (fun s => (s.buffer, s.bound)))))) =
      some (some (.vkCmdBindIndexBuffer (some 3) 501 0 1),
        [some (500, 1), some (501, -1)]) ∧
    (VULKAN_BindVertexBuffers sampleWrittenK1 okDriver 0 [0] [0]).map
        (fun r => (r.calls.getLast?, (r.subBufferHeap.map (Option.map (fun s => (s.buffer, s.bound)))))) =
      some (some (.vkCmdBindVertexBuffers (some 3) 0 [500] [0]),
        [some (500, 1), some (501, -1)]) := by
  decide

/-! ## A buffer queued for disposal across two cleanups -/

/-- What `DestroyBuffer` does to the slots of the buffer heap. -/
theorem DestroyBuffer_slot (r : VulkanRenderer) (q : Nat) (r1 : VulkanRenderer)
    (h : VULKAN_INTERNAL_DestroyBuffer r q = some r1) :
    ∃ bq, heapGet r.bufferHeap q = some bq ∧
      (∀ buf, buf ≠ q → heapGet r1.bufferHeap buf = heapGet r.bufferHeap buf) ∧
      ((bq.bound ≠ 0 ∨ bq.boundSubmitted ≠ 0) → heapGet r1.bufferHeap q = some bq) ∧
      (¬ (bq.bound ≠ 0 ∨ bq.boundSubmitted ≠ 0) → heapGet r1.bufferHeap q = none) := by
  unfold VULKAN_INTERNAL_DestroyBuffer at h
  cases hb : heapGet r.bufferHeap q with
  | none => rw [hb] at h; cases h
  | some b =>
    rw [hb] at h
    simp only at h
    refine ⟨b, rfl, ?_⟩
    by_cases hm : b.bound ≠ 0 ∨ b.boundSubmitted ≠ 0
    · rw [if_pos hm] at h
      simp only [Option.some.injEq] at h
      subst h
      exact ⟨fun _ _ => rfl, fun _ => hb, fun hn => absurd hm hn⟩
    · rw [if_neg hm] at h
      cases hd : destroySubBuffers r b.subBuffers with
      | none => rw [hd] at h; cases h
      | some r0 =>
        rw [hd] at h
        simp only [Option.some.injEq] at h
        obtain ⟨hsame, _⟩ := destroySubBuffers_others _ r r0 hd
        subst h
        refine ⟨?_, fun hy => absurd hy hm, fun _ => ?_⟩
        · intro buf hne
          show heapGet (r0.bufferHeap.set q none) buf = _
          rw [heapGet_set_ne _ _ _ _ (Ne.symm hne), hsame]
        · show heapGet (r0.bufferHeap.set q none) q = none
          exact heapGet_set_none _ _

/-- A slot of the buffer heap that is free stays free in the loop that destroys the
submitted buffers. -/
theorem destroyBuffers_freed (buf : Nat) :
    ∀ (l : List Nat) (r r1 : VulkanRenderer),
      heapGet r.bufferHeap buf = none →
      destroyEach .buffer VULKAN_INTERNAL_DestroyBuffer r l = some r1 →
      heapGet r1.bufferHeap buf = none := by
  intro l
  induction l with
  | nil =>
    intro r r1 hb h
    simp only [destroyEach, Option.some.injEq] at h
    subst h
    exact hb
  | cons q rest ih =>
    intro r r1 hb h
    unfold destroyEach at h
    cases h0 : VULKAN_INTERNAL_DestroyBuffer
        { r with destroyCalls := r.destroyCalls ++ [(DisposeKind.buffer, q)] } q with
    | none => rw [h0] at h; cases h
    | some r0 =>
      rw [h0] at h
      simp only at h
      obtain ⟨bq, hq, hothers, _, _⟩ := DestroyBuffer_slot _ q r0 h0
      have hne : buf ≠ q := by
        intro e
        subst e
        have hq1 : heapGet r.bufferHeap buf = some bq := hq
        rw [hb] at hq1
        cases hq1
      exact ih r0 r1 (by rw [hothers buf hne]; exact hb) h

/-- The loop that destroys the submitted buffers, seen from one buffer: a buffer
that is marked or not in the list stays; a buffer of the list that is not marked is
freed. -/
theorem destroyBuffers_slot (buf : Nat) (b : VulkanBuffer) :
    ∀ (l : List Nat) (r r1 : VulkanRenderer),
      heapGet r.bufferHeap buf = some b →
      destroyEach .buffer VULKAN_INTERNAL_DestroyBuffer r l = some r1 →
      (((b.bound ≠ 0 ∨ b.boundSubmitted ≠ 0) ∨ buf ∉ l) → heapGet r1.bufferHeap buf = some b) ∧
      (¬ (b.bound ≠ 0 ∨ b.boundSubmitted ≠ 0) → buf ∈ l → heapGet r1.bufferHeap buf = none) := by
  intro l
  induction l with
  | nil =>
    intro r r1 hb h
    simp only [destroyEach, Option.some.injEq] at h
    subst h
    exact ⟨fun _ => hb, fun _ hm => absurd hm (List.not_mem_nil _)⟩
  | cons q rest ih =>
    intro r r1 hb h
    unfold destroyEach at h
    cases h0 : VULKAN_INTERNAL_DestroyBuffer
        { r with destroyCalls := r.destroyCalls ++ [(DisposeKind.buffer, q)] } q with
    | none => rw [h0] at h; cases h
    | some r0 =>
      rw [h0] at h
      simp only at h
      obtain ⟨bq, hq, hothers, hkeep, hfree⟩ := DestroyBuffer_slot _ q r0 h0
      by_cases hne : buf = q
      · subst hne
        have hq1 : heapGet r.bufferHeap buf = some bq := hq
        rw [hb] at hq1
        simp only [Option.some.injEq] at hq1
        subst hq1
        by_cases hm : b.bound ≠ 0 ∨ b.boundSubmitted ≠ 0
        · obtain ⟨i1, _⟩ := ih r0 r1 (hkeep hm) h
          exact ⟨fun _ => i1 (Or.inl hm), fun hn => absurd hm hn⟩
        · refine ⟨?_, fun _ _ => destroyBuffers_freed buf rest r0 r1 (hfree hm) h⟩
          rintro (hy | hy)
          · exact absurd hy hm
          · exact absurd (List.mem_cons_self _ _) hy
      · have hb0 : heapGet r0.bufferHeap buf = some b := by
          rw [hothers buf hne]
          exact hb
        obtain ⟨i1, i2⟩ := ih r0 r1 hb0 h
        refine ⟨?_, ?_⟩
        · rintro (hy | hy)
          · exact i1 (Or.inl hy)
          · exact i1 (Or.inr (fun hr => hy (List.mem_cons_of_mem _ hr)))
        · intro hm hin
          rcases List.mem_cons.mp hin with e | e
          · exact absurd e hne
          · exact i2 hm e

/-- The destroy loops of the cleanup, seen from one buffer. -/
theorem destroySubmittedResources_slot (r r1 : VulkanRenderer) (buf : Nat) (b : VulkanBuffer)
    (hb : heapGet r.bufferHeap buf = some b)
    (h : destroySubmittedResources r = some r1) :
    (((b.bound ≠ 0 ∨ b.boundSubmitted ≠ 0) ∨ buf ∉ r.deferred.submittedBuffersToDestroy) →
      heapGet r1.bufferHeap buf = some b) ∧
    (¬ (b.bound ≠ 0 ∨ b.boundSubmitted ≠ 0) → buf ∈ r.deferred.submittedBuffersToDestroy →
      heapGet r1.bufferHeap buf = none) := by
  unfold destroySubmittedResources at h
  simp only [Option.bind_eq_some] at h
  obtain ⟨a1, h1, a2, h2, a3, h3, a4, h4, a5, h5, a6, h6, a7, h7, a8, h8, h9⟩ := h
  have d1 := (destroyEach_spec _ _
    (fun r p r1 h => (DestroyColorTarget_frame r p r1 h).1) _ _ _ h1).1
  have d2 := (destroyEach_spec _ _
    (fun r p r1 h => (DestroyDepthStencilTarget_frame r p r1 h).1) _ _ _ h2).1
  have d3 := (destroyEach_spec _ _
    (fun r p r1 h => (DestroyTexture_frame r p r1 h).1) _ _ _ h3).1
  have e3 : a3.deferred.submittedBuffersToDestroy = r.deferred.submittedBuffersToDestroy := by
    rw [d3, d2, d1]
  have b1 := destroyEach_sameBuffers _ _
    (fun r p r1 h => (DestroyColorTarget_frame r p r1 h).2) _ _ _ h1
  have b2 := destroyEach_sameBuffers _ _
    (fun r p r1 h => (DestroyDepthStencilTarget_frame r p r1 h).2) _ _ _ h2
  have b3 := destroyEach_sameBuffers _ _
    (fun r p r1 h => (DestroyTexture_frame r p r1 h).2) _ _ _ h3
  have b5 := destroyEach_sameBuffers _ _
    (fun r p r1 h => (DestroyGraphicsPipeline_frame r p r1 h).2) _ _ _ h5
  have b6 := destroyEach_sameBuffers _ _
    (fun r p r1 h => (DestroyShaderModule_frame r p r1 h).2) _ _ _ h6
  have b7 := destroyEach_sameBuffers _ _
    (fun r p r1 h => (DestroySampler_frame r p r1 h).2) _ _ _ h7
  have b8 := destroyEach_sameBuffers _ _
    (fun r p r1 h => (DestroyFramebuffer_frame r p r1 h).2) _ _ _ h8
  have b9 := destroyEach_sameBuffers _ _
    (fun r p r1 h => (DestroyRenderPass_frame r p r1 h).2) _ _ _ h9
  have s3 := (b1.buffers_trans b2).buffers_trans b3
  have s9 := (((b5.buffers_trans b6).buffers_trans b7).buffers_trans b8).buffers_trans b9
  have hb3 : heapGet a3.bufferHeap buf = some b := by rw [s3.bufferHeap]; exact hb
  obtain ⟨k1, k2⟩ := destroyBuffers_slot buf b _ a3 a4 hb3 h4
  rw [e3] at k1 k2
  rw [s9.bufferHeap]
  exact ⟨k1, k2⟩

/-- One cleanup, seen from one buffer: a buffer that is not marked and is in the
submitted destroy list is freed; any other buffer stays, is marked submitted if it
is in use, and loses `boundSubmitted` if it was submitted. -/
theorem PostWorkCleanup_slot (r r1 : VulkanRenderer) (buf : Nat) (b : VulkanBuffer)
    (hb : heapGet r.bufferHeap buf = some b)
    (h : VULKAN_INTERNAL_PostWorkCleanup r = some r1) :
    (((b.bound ≠ 0 ∨ b.boundSubmitted ≠ 0) ∨ buf ∉ r.deferred.submittedBuffersToDestroy) →
      ∃ b1, heapGet r1.bufferHeap buf = some b1 ∧ b1.subBuffers = b.subBuffers ∧
        (buf ∈ r.buffersInUse → b1.bound = 0 ∧ b1.boundSubmitted = 1) ∧
        (buf ∉ r.buffersInUse → b1.bound = b.bound ∧
          (buf ∈ r.submittedBuffers → b1.boundSubmitted = 0) ∧
          (buf ∉ r.submittedBuffers → b1.boundSubmitted = b.boundSubmitted))) ∧
    (¬ (b.bound ≠ 0 ∨ b.boundSubmitted ≠ 0) → buf ∈ r.deferred.submittedBuffersToDestroy →
      heapGet r1.bufferHeap buf = none) := by
  unfold VULKAN_INTERNAL_PostWorkCleanup at h
  cases hd : destroySubmittedResources r with
  | none => rw [hd] at h; cases h
  | some a =>
    rw [hd] at h
    simp only at h
    obtain ⟨_, _, u1, s1, _, _⟩ := destroySubmittedResources_spec r a hd
    obtain ⟨k1, k2⟩ := destroySubmittedResources_slot r a buf b hb hd
    cases hu : unmarkSubmittedBuffers
        { a with deferred := rotateDestroyLists a.deferred, frameIndex := (a.frameIndex + 1) % 2 }
        a.submittedBuffers with
    | none => rw [hu] at h; cases h
    | some c =>
      rw [hu] at h
      simp only at h
      have hub := unmarkSubmittedBuffers_frame _ _ c hu
      obtain ⟨xb, _⟩ := unmarkSubmittedBuffers_exact _ _ c hu
      cases hm : markBuffersSubmitted c c.buffersInUse with
      | none => rw [hm] at h; cases h
      | some d =>
        rw [hm] at h
        simp only [Option.some.injEq] at h
        have xm := markBuffersSubmitted_exact _ _ d hm
        subst h
        have hcu : c.buffersInUse = r.buffersInUse := by
          rw [hub.buffersInUse]
          exact u1
        have hau : (heapGet c.bufferHeap buf = heapGet a.bufferHeap buf ∧
              buf ∉ r.submittedBuffers) ∨
            (heapGet c.bufferHeap buf =
              (heapGet a.bufferHeap buf).map (fun b => { b with boundSubmitted := 0 }) ∧
              buf ∈ r.submittedBuffers) := by
          by_cases hin : buf ∈ a.submittedBuffers
          · exact Or.inr ⟨(xb buf).1 hin, by rw [← s1]; exact hin⟩
          · exact Or.inl ⟨(xb buf).2 hin, by rw [← s1]; exact hin⟩
        constructor
        · intro hcase
          have ha := k1 hcase
          by_cases hinuse : buf ∈ r.buffersInUse
          · have hd1 := (xm buf).1 (by rw [hcu]; exact hinuse)
            rcases hau with ⟨e, _⟩ | ⟨e, _⟩
            · rw [e, ha] at hd1
              exact ⟨_, hd1, rfl, fun _ => ⟨rfl, rfl⟩, fun hn => absurd hinuse hn⟩
            · rw [e, ha] at hd1
              exact ⟨_, hd1, rfl, fun _ => ⟨rfl, rfl⟩, fun hn => absurd hinuse hn⟩
          · have hd1 := (xm buf).2 (by rw [hcu]; exact hinuse)
            rcases hau with ⟨e, hs⟩ | ⟨e, hs⟩
            · rw [e, ha] at hd1
              exact ⟨_, hd1, rfl, fun hy => absurd hy hinuse,
                fun _ => ⟨rfl, fun hy => absurd hy hs, fun _ => rfl⟩⟩
            · rw [e, ha] at hd1
              exact ⟨_, hd1, rfl, fun hy => absurd hy hinuse,
                fun _ => ⟨rfl, fun _ => rfl, fun hn => absurd hs hn⟩⟩
        · intro hm1 hin
          have ha := k2 hm1 hin
          have hc : heapGet c.bufferHeap buf = none := by
            rcases hau with ⟨e, _⟩ | ⟨e, _⟩
            · rw [e, ha]
            · rw [e, ha]
              rfl
          show heapGet d.bufferHeap buf = none
          by_cases hinuse : buf ∈ c.buffersInUse
          · rw [(xm buf).1 hinuse, hc]
            rfl
          · rw [(xm buf).2 hinuse, hc]

/-- The cleanup of a `Submit` that runs it, seen from one buffer and the destroy
lists. -/
theorem Submit_slot (r r1 : VulkanRenderer) (driver : DriverResults) (buf : Nat)
    (b : VulkanBuffer) (hb : heapGet r.bufferHeap buf = some b)
    (hrun : submitRunsCleanup r driver = true) (h : VULKAN_Submit r driver = some r1) :
    r1.deferred = rotateDestroyLists r.deferred ∧
    r1.destroyCalls = r.destroyCalls ++ submittedDestroyCalls r.deferred ∧
    r1.submittedBuffers = r.buffersInUse ∧
    (((b.bound ≠ 0 ∨ b.boundSubmitted ≠ 0) ∨ buf ∉ r.deferred.submittedBuffersToDestroy) →
      ∃ b1, heapGet r1.bufferHeap buf = some b1 ∧ b1.subBuffers = b.subBuffers ∧
        (buf ∈ r.buffersInUse → b1.bound = 0 ∧ b1.boundSubmitted = 1) ∧
        (buf ∉ r.buffersInUse → b1.bound = b.bound ∧
          (buf ∈ r.submittedBuffers → b1.boundSubmitted = 0) ∧
          (buf ∉ r.submittedBuffers → b1.boundSubmitted = b.boundSubmitted))) ∧
    (¬ (b.bound ≠ 0 ∨ b.boundSubmitted ≠ 0) → buf ∈ r.deferred.submittedBuffersToDestroy →
      heapGet r1.bufferHeap buf = none) := by
  obtain ⟨r0, rc, hr0, hc, hu, hs⟩ := Submit_runs_cleanup r driver r1 hrun h
  have hspec := PostWorkCleanup_spec r0 rc hc
  have key := PostWorkCleanup_slot r0 rc buf b
    (by rcases hr0 with e | e <;> rw [e] <;> exact hb) hc
  have e1 : r0.deferred = r.deferred := by
    rcases hr0 with e | e
    · rw [e]
    · rw [e]; rfl
  have e2 : r0.buffersInUse = r.buffersInUse := by
    rcases hr0 with e | e
    · rw [e]
    · rw [e]; rfl
  have e3 : r0.submittedBuffers = r.submittedBuffers := by
    rcases hr0 with e | e
    · rw [e]
    · rw [e]; rfl
  have e4 : r0.destroyCalls = r.destroyCalls := by
    rcases hr0 with e | e
    · rw [e]
    · rw [e]; rfl
  rw [e1, e2, e3] at key
  rw [e1, e2, e4] at hspec
  rw [hs.bufferHeap, hu.deferred, hu.destroyCalls, hu.submittedBuffers]
  exact ⟨hspec.1, hspec.2.1, hspec.2.2.2.2.1, key⟩

/-- C28. A buffer queued for disposal in frame K (it is in `buffersToDestroy` when
frame K is submitted, and was not queued in the frame before) is handed to
`VULKAN_INTERNAL_DestroyBuffer` by the second cleanup after the request, and that
call frees it if and only if the buffer was bound neither in frame K nor in frame
K+1 (it is in `buffersInUse` at neither `Submit`); otherwise the buffer stays
allocated, and in both cases it is in neither destroy list afterwards, so it is not
retried. -/
theorem disposed_buffer_freed_iff_unbound
    (r r1 r1' r2 : VulkanRenderer) (driver1 driver2 : DriverResults) (buf : Nat)
    (b : VulkanBuffer) (hb : heapGet r.bufferHeap buf = some b)
    (hqueued : buf ∈ r.deferred.buffersToDestroy)
    (hfirst : buf ∉ r.deferred.submittedBuffersToDestroy)
    (hsubmitted : b.boundSubmitted ≠ 0 → buf ∈ r.submittedBuffers)
    (hrun1 : submitRunsCleanup r driver1 = true)
    (h1 : VULKAN_Submit r driver1 = some r1)
    (hframe : FrameAfterDispose buf r1 r1')
    (hrun2 : submitRunsCleanup r1' driver2 = true)
    (h2 : VULKAN_Submit r1' driver2 = some r2) :
    r2.destroyCalls = r1'.destroyCalls ++ submittedDestroyCalls r1'.deferred ∧
    (DisposeKind.buffer, buf) ∈ submittedDestroyCalls r1'.deferred ∧
    (heapGet r2.bufferHeap buf = none ↔ (buf ∉ r.buffersInUse ∧ buf ∉ r1'.buffersInUse)) ∧
    ((buf ∈ r.buffersInUse ∨ buf ∈ r1'.buffersInUse) →
      ∃ b2, heapGet r2.bufferHeap buf = some b2 ∧ b2.subBuffers = b.subBuffers) ∧
    buf ∉ r2.deferred.buffersToDestroy ∧ buf ∉ r2.deferred.submittedBuffersToDestroy := by
  obtain ⟨d1, _, s1, k1, _⟩ := Submit_slot r r1 driver1 buf b hb hrun1 h1
  obtain ⟨b1, hb1, hsub1, hin1, hout1⟩ := k1 (Or.inr hfirst)
  -- the flags after the first cleanup
  have hflags1 : b1.boundSubmitted ≠ 0 ↔ buf ∈ r.buffersInUse := by
    by_cases hin : buf ∈ r.buffersInUse
    · have := (hin1 hin).2
      constructor
      · intro _; exact hin
      · intro _; rw [this]; decide
    · obtain ⟨_, hs0, hs1⟩ := hout1 hin
      have : b1.boundSubmitted = 0 := by
        by_cases hsb : buf ∈ r.submittedBuffers
        · exact hs0 hsb
        · rw [hs1 hsb]
          by_contra hc
          exact hsb (hsubmitted hc)
      constructor
      · intro hc; exact absurd this hc
      · intro hc; exact absurd hc hin
  obtain ⟨b1', hb1', hsub1', hbs1', hbd1'⟩ := hframe.buffer b1 hb1
  have hq1 : buf ∈ r1'.deferred.submittedBuffersToDestroy := by
    rw [hframe.submittedToDestroy, d1]
    exact hqueued
  have hmarked : (b1'.bound ≠ 0 ∨ b1'.boundSubmitted ≠ 0) ↔
      (buf ∈ r.buffersInUse ∨ buf ∈ r1'.buffersInUse) := by
    rw [hbs1', hflags1, hbd1']
    exact Or.comm
  obtain ⟨d2, c2, _, k2, f2⟩ := Submit_slot r1' r2 driver2 buf b1' hb1' hrun2 h2
  refine ⟨c2, ?_, ?_, ?_, ?_, ?_⟩
  · simp only [submittedDestroyCalls, List.mem_append, List.mem_map, Prod.mk.injEq,
      reduceCtorEq, false_and, and_false, exists_false, or_false, false_or, true_and,
      exists_eq_right]
    exact hq1
  · constructor
    · intro hnone
      by_contra hc
      have hm : buf ∈ r.buffersInUse ∨ buf ∈ r1'.buffersInUse := by
        by_contra hn
        exact hc ⟨fun h => hn (Or.inl h), fun h => hn (Or.inr h)⟩
      obtain ⟨b2, hb2, _⟩ := k2 (Or.inl (hmarked.mpr hm))
      rw [hnone] at hb2
      cases hb2
    · rintro ⟨hn1, hn2⟩
      refine f2 ?_ hq1
      intro hm
      rcases hmarked.mp hm with h | h
      · exact hn1 h
      · exact hn2 h
  · intro hm
    obtain ⟨b2, hb2, hsub2, _⟩ := k2 (Or.inl (hmarked.mpr hm))
    exact ⟨b2, hb2, hsub2.trans (hsub1'.trans hsub1)⟩
  · rw [d2]
    exact List.not_mem_nil buf
  · rw [d2]
    exact hframe.notRequeued

set_option maxRecDepth 100000 in
/-- C28 on the sample renderer: the buffer is queued in frame K, where it is not
bound, and bound in frame K+1; the second cleanup hands it to the destroy function,
which leaves it allocated, and it is in neither destroy list afterwards.  In the
same scenario with a frame K+1 that does not bind it, the second cleanup frees
it. -/
theorem disposed_buffer_freed_iff_unbound_witness :
    (sampleDisposeK.deferred.buffersToDestroy = [0] ∧ sampleDisposeK.buffersInUse = [] ∧
      sampleDisposeBoundK1.buffersInUse = [0] ∧
      VULKAN_Submit sampleDisposeK okDriver = some sampleDisposeSubmitK ∧
      VULKAN_Submit sampleDisposeBoundK1 okDriver = some sampleDisposeSubmitK1) ∧
    (sampleDisposeSubmitK1.destroyCalls =
        sampleDisposeBoundK1.destroyCalls ++ submittedDestroyCalls sampleDisposeBoundK1.deferred ∧
      (DisposeKind.buffer, 0) ∈ submittedDestroyCalls sampleDisposeBoundK1.deferred ∧
      (heapGet sampleDisposeSubmitK1.bufferHeap 0 = none ↔
        (0 ∉ sampleDisposeK.buffersInUse ∧ 0 ∉ sampleDisposeBoundK1.buffersInUse)) ∧
      ((0 ∈ sampleDisposeK.buffersInUse ∨ 0 ∈ sampleDisposeBoundK1.buffersInUse) →
        ∃ b2, heapGet sampleDisposeSubmitK1.bufferHeap 0 = some b2 ∧
          b2.subBuffers = [0, 1]) ∧
      0 ∉ sampleDisposeSubmitK1.deferred.buffersToDestroy ∧
      0 ∉ sampleDisposeSubmitK1.deferred.submittedBuffersToDestroy) ∧
    ((VULKAN_Submit sampleDisposeIdleK1 okDriver).map (fun r => heapGet r.bufferHeap 0) =
      some none) := by
  have hs1 : VULKAN_Submit sampleDisposeK okDriver = some sampleDisposeSubmitK := by
    have h1 : (VULKAN_Submit sampleDisposeK okDriver).isSome = true := by decide
    obtain ⟨y, hy⟩ := Option.isSome_iff_exists.mp h1
    unfold sampleDisposeSubmitK
    rw [hy]
    rfl
  have hs2 : VULKAN_Submit sampleDisposeBoundK1 okDriver = some sampleDisposeSubmitK1 := by
    have h1 : (VULKAN_Submit sampleDisposeBoundK1 okDriver).isSome = true := by decide
    obtain ⟨y, hy⟩ := Option.isSome_iff_exists.mp h1
    unfold sampleDisposeSubmitK1
    rw [hy]
    rfl
  have hb1 : heapGet sampleDisposeSubmitK.bufferHeap 0 =
      some { size := 256, subBuffers := [0, 1], currentSubBufferIndex := 0,
             resourceAccessType := .RESOURCE_ACCESS_TRANSFER_READ, usage := 128,
             bound := 0, boundSubmitted := 0 } := by decide
  have hframe : FrameAfterDispose 0 sampleDisposeSubmitK sampleDisposeBoundK1 := by
    refine ⟨by decide, by decide, by decide, ?_⟩
    intro b1 h
    rw [hb1] at h
    cases h
    exact ⟨{ size := 256, subBuffers := [0, 1], currentSubBufferIndex := 0,
             resourceAccessType := .RESOURCE_ACCESS_TRANSFER_READ, usage := 128,
             bound := 1, boundSubmitted := 0 }, by decide, rfl, rfl, by decide⟩
  exact ⟨⟨by decide, by decide, by decide, hs1, hs2⟩,
    disposed_buffer_freed_iff_unbound sampleDisposeK sampleDisposeSubmitK sampleDisposeBoundK1
      sampleDisposeSubmitK1 okDriver okDriver 0
      { size := 256, subBuffers := [0, 1], currentSubBufferIndex := 0,
        resourceAccessType := .RESOURCE_ACCESS_TRANSFER_READ, usage := 128,
        bound := 0, boundSubmitted := 0 }
      (by decide) (by decide) (by decide) (by decide) (by decide) hs1 hframe
      (by decide) hs2,
    by decide⟩

/-- C29. In every reachable cache state the number of resident elements plus the
number of inactive sets equals `inactiveDescriptorSetCapacity`, which is the number
of sets allocated from all pools.  Hence the fetch returns whenever the caller hands
`samplerBindingCount` tuples and the driver, if a pool is needed, allocates
`nextPoolSize` sets (the pop of a miss then reads an inactive set that exists), and
the sweep returns (its push writes below the capacity of the inactive array). -/
theorem reachable_cache_counts_balance (c : SamplerDescriptorSetCache) (owned : List Nat)
    (h : CacheReachable c owned) :
    c.elements.length + c.inactiveDescriptorSets.length = c.inactiveDescriptorSetCapacity ∧
    owned.length = c.inactiveDescriptorSetCapacity ∧
    (∀ (data : SamplerDescriptorSetData) (newPool : Nat) (newSets : Option (List Nat)),
      c.samplerBindingCount ≤ data.descriptorImageInfo.length →
      (c.inactiveDescriptorSets = [] → ∃ sets, newSets = some sets ∧
        sets.length = c.nextPoolSize) →
      (∀ hashcode, ∃ r,
        fetchSamplerDescriptorSetMiss c data hashcode newPool newSets = some r) ∧
      ∃ r, VULKAN_INTERNAL_FetchSamplerDescriptorSet c data newPool newSets = some r) ∧
    ∃ c1, VULKAN_INTERNAL_DeactivateUnusedDescriptorSets c = some c1 := by
  have hinv := reachable_cache_inv c owned h
  refine ⟨hinv.total, ?_, ?_, ?_⟩
  · rw [← hinv.sets.length_eq, List.length_append, List.length_map]
    exact hinv.total
  · intro data newPool newSets hdata hsets
    exact ⟨fun hashcode =>
        fetchSamplerDescriptorSetMiss_defined c owned data hashcode newPool newSets hinv hsets,
      FetchSamplerDescriptorSet_defined c owned data newPool newSets hinv hdata hsets⟩
  · obtain ⟨c1, h1, _⟩ := DeactivateUnusedDescriptorSets_spec c owned hinv
    exact ⟨c1, h1⟩

set_option maxRecDepth 100000 in
/-- C29 at the cache of the sample after its first fetch: one element, 127 inactive
sets, capacity 128. -/
theorem reachable_cache_counts_balance_witness :
    CacheReachable sampleFetched.1
      (ownedAfterFetch sampleCache sampleFetched.1 sampleSets none) ∧
    sampleFetched.1.elements.length = 1 ∧
    sampleFetched.1.inactiveDescriptorSets.length = 127 ∧
    sampleFetched.1.elements.length + sampleFetched.1.inactiveDescriptorSets.length =
      sampleFetched.1.inactiveDescriptorSetCapacity ∧
    (∃ r, VULKAN_INTERNAL_FetchSamplerDescriptorSet sampleFetched.1 sampleData 62 none =
      some r) ∧
    ∃ c1, VULKAN_INTERNAL_DeactivateUnusedDescriptorSets sampleFetched.1 = some c1 :=
  ⟨sample_cache_reachable, by decide, by decide,
    (reachable_cache_counts_balance sampleFetched.1 _ sample_cache_reachable).1,
    ((reachable_cache_counts_balance sampleFetched.1 _ sample_cache_reachable).2.2.1
      sampleData 62 none (by decide) (fun h => absurd h (by decide))).2,
    (reachable_cache_counts_balance sampleFetched.1 _ sample_cache_reachable).2.2.2⟩

/-! ## C30: where the shader parameters are written -/

set_option maxRecDepth 1000000 in
/-- C30. Frame 0, cursors at 7999232 with increment 256 (the state after 31248
pushes of one 256-byte block): a push of 3 elements of 256 bytes passes the
overflow check, returns the offset 7999488 and copies 768 bytes to
[7999488, 8000256) of the uniform buffer, beyond the end 8000000 of the half of
frame 0.  The same holds for the fragment cursor. -/
theorem push_params_writes_past_frame_half :
    sampleUBONearEnd.frameIndex = 0 ∧
    (VULKAN_PushVertexShaderParams sampleUBONearEnd okDriver 1 256
        (List.replicate 768 7) 3).map (fun x => (x.2, x.1.calls.getLast?)) =
      some (7999488, some (.memcpyMapped 0 4608 7999488 (List.replicate 768 7))) ∧
    (VULKAN_PushFragmentShaderParams sampleUBONearEnd okDriver 1 256
        (List.replicate 768 7) 3).map (fun x => (x.2, x.1.calls.getLast?)) =
      some (7999488, some (.memcpyMapped 0 4608 7999488 (List.replicate 768 7))) ∧
    UBO_BUFFER_SIZE * (sampleUBONearEnd.frameIndex + 1) < 7999488 + 768 := by
  decide

end Refresh
